import Mathlib

/-!
# gaborfs / libreiserfs : a shallow embedding of the on-disk engine

Definitions are translated from the C sources under `src/libreiserfs`
(`key.c`, `tools.c`, `bitmap.c`, `segment.c`, `journal.c`, `tree.c`, `object.c`, `core.c`,
`file.c`, `hashes.c`).
Unsigned machine words are natural numbers reduced modulo `2 ^ w` where the
source can wrap; C `int` results of comparators are integers.
-/

namespace Reiserfs

/-! ## key.h / key.c -/

/-- The packed 16-byte `struct key`: two little-endian u32 words and the 8-byte
union `u`, kept as the little-endian 64-bit word that overlays
`k_offset_v1 = (k_offset, k_uniqueness)` and `k_offset_v2`. -/
structure key where
  k_dirid : Nat
  k_objid : Nat
  u : Nat
deriving DecidableEq, Repr

/-- The size of the packed `struct key`. -/
def FULL_KEY_SIZE : Nat := 16

def KEY_FORMAT_1 : Nat := 0
def KEY_FORMAT_2 : Nat := 1

def KEY_UNIQ_SD : Nat := 0
def KEY_UNIQ_DR : Nat := 500
def KEY_UNIQ_DT : Nat := 0xffffffff
def KEY_UNIQ_IT : Nat := 0xfffffffe
def KEY_UNIQ_UN : Nat := 555

def KEY_TYPE_SD : Nat := 0
def KEY_TYPE_IT : Nat := 1
def KEY_TYPE_DT : Nat := 2
def KEY_TYPE_DR : Nat := 3
def KEY_TYPE_UN : Nat := 15

def FS_FORMAT_3_5 : Nat := 0
def FS_FORMAT_3_6 : Nat := 2

def KEY_OFFSET_MASK : Nat := 0xfffffffffffffff
def KEY_TYPE_MASK : Nat := 0xf000000000000000

/-- The macro `get_key_dirid(k)`, `get_le32(k, k_dirid)`. -/
def get_key_dirid (k : key) : Nat := k.k_dirid % 2 ^ 32

/-- The macro `set_key_dirid(k, val)`. -/
def set_key_dirid (k : key) (val : Nat) : key := { k with k_dirid := val % 2 ^ 32 }

/-- The macro `get_key_objid(k)`. -/
def get_key_objid (k : key) : Nat := k.k_objid % 2 ^ 32

/-- The macro `set_key_objid(k, val)`. -/
def set_key_objid (k : key) (val : Nat) : key := { k with k_objid := val % 2 ^ 32 }

/-- The macro `get_key_v1_offset(k)`: bytes 8..11, the low half of the union word. -/
def get_key_v1_offset (k : key) : Nat := k.u % 2 ^ 32

/-- The macro `set_key_v1_offset(k, val)`. -/
def set_key_v1_offset (k : key) (val : Nat) : key :=
  { k with u := (k.u / 2 ^ 32 % 2 ^ 32) * 2 ^ 32 + val % 2 ^ 32 }

/-- The macro `get_key_v1_type(k)`: `k_uniqueness`, bytes 12..15. -/
def get_key_v1_type (k : key) : Nat := k.u / 2 ^ 32 % 2 ^ 32

/-- The macro `set_key_v1_type(k, val)`. -/
def set_key_v1_type (k : key) (val : Nat) : key :=
  { k with u := (val % 2 ^ 32) * 2 ^ 32 + k.u % 2 ^ 32 }

def reiserfs_key_uniq2type (uniq : Nat) : Nat :=
  if uniq = KEY_UNIQ_SD then KEY_TYPE_SD
  else if uniq = KEY_UNIQ_IT then KEY_TYPE_IT
  else if uniq = KEY_UNIQ_DT then KEY_TYPE_DT
  else if uniq = KEY_UNIQ_DR then KEY_TYPE_DR
  else KEY_TYPE_UN

def reiserfs_key_type2uniq (type : Nat) : Nat :=
  if type = KEY_TYPE_SD then KEY_UNIQ_SD
  else if type = KEY_TYPE_IT then KEY_UNIQ_IT
  else if type = KEY_TYPE_DT then KEY_UNIQ_DT
  else if type = KEY_TYPE_DR then KEY_UNIQ_DR
  else KEY_UNIQ_UN

def get_key_v2_offset (k : key) : Nat :=
  ((k.u % 2 ^ 64) &&& KEY_OFFSET_MASK) >>> 0

/-- The bitwise complement of a 64-bit word. -/
def not64 (x : Nat) : Nat := (2 ^ 64 - 1) - x % 2 ^ 64

def set_key_v2_offset (k : key) (val : Nat) : key :=
  { k with u := (((k.u % 2 ^ 64) &&& not64 KEY_OFFSET_MASK) ||| ((val % 2 ^ 64) <<< 0)) % 2 ^ 64 }

def get_key_v2_type (k : key) : Nat :=
  (((k.u % 2 ^ 64) &&& KEY_TYPE_MASK) >>> 60) % 2 ^ 16

def set_key_v2_type (k : key) (val : Nat) : key :=
  if val % 2 ^ 64 > 15 then k
  else { k with u := (((k.u % 2 ^ 64) &&& not64 KEY_TYPE_MASK) ||| ((val % 2 ^ 64) <<< 60)) % 2 ^ 64 }

def reiserfs_key_format (k : key) : Nat :=
  let type := get_key_v2_type k
  if type = 0 ∨ type = 15 then KEY_FORMAT_1 else KEY_FORMAT_2

def reiserfs_key_type (k : key) : Nat :=
  if reiserfs_key_format k = KEY_FORMAT_1 then reiserfs_key_uniq2type (get_key_v1_type k)
  else get_key_v2_type k

def reiserfs_key_offset (k : key) : Nat :=
  if reiserfs_key_format k = KEY_FORMAT_1 then get_key_v1_offset k
  else get_key_v2_offset k

/-- The result of `memset(key, 0, sizeof(*key))`. -/
def key_zero : key := { k_dirid := 0, k_objid := 0, u := 0 }

def reiserfs_key_v1_form (dirid objid offset type : Nat) : key :=
  set_key_v1_type (set_key_v1_offset (set_key_objid (set_key_dirid key_zero dirid) objid) offset) type

def reiserfs_key_v2_form (dirid objid offset type : Nat) : key :=
  set_key_v2_type (set_key_v2_offset (set_key_objid (set_key_dirid key_zero dirid) objid) offset) type

def reiserfs_key_form (dirid objid offset type format : Nat) : key :=
  if format = FS_FORMAT_3_5 then
    reiserfs_key_v1_form dirid objid (offset % 2 ^ 32) (reiserfs_key_type2uniq (type % 2 ^ 32))
  else
    reiserfs_key_v2_form dirid objid offset type

def reiserfs_key_comp_dirs (key1 key2 : key) : Int :=
  if get_key_dirid key1 < get_key_dirid key2 then -1
  else if get_key_dirid key1 > get_key_dirid key2 then 1
  else 0

def reiserfs_key_comp_objects (key1 key2 : key) : Int :=
  if get_key_objid key1 < get_key_objid key2 then -1
  else if get_key_objid key1 > get_key_objid key2 then 1
  else 0

/-- The loop over the first `SHORT_KEY_LEN = 2` u32 words of both keys, unrolled:
word 0 is `k_dirid`, word 1 is `k_objid`. -/
def reiserfs_key_comp_two_components (key1 key2 : key) : Int :=
  if get_key_dirid key1 < get_key_dirid key2 then -1
  else if get_key_dirid key1 > get_key_dirid key2 then 1
  else if get_key_objid key1 < get_key_objid key2 then -1
  else if get_key_objid key1 > get_key_objid key2 then 1
  else 0

def reiserfs_key_comp_three_components (key1 key2 : key) : Int :=
  let retval := reiserfs_key_comp_two_components key1 key2
  if retval ≠ 0 then retval
  else if reiserfs_key_offset key1 < reiserfs_key_offset key2 then -1
  else if reiserfs_key_offset key1 > reiserfs_key_offset key2 then 1
  else 0

def reiserfs_key_comp_four_components (key1 key2 : key) : Int :=
  let retval := reiserfs_key_comp_three_components key1 key2
  if retval ≠ 0 then retval
  else if reiserfs_key_type key1 < reiserfs_key_type key2 then -1
  else if reiserfs_key_type key1 > reiserfs_key_type key2 then 1
  else 0

/-- The decoded tuple `(dirid, objid, offset, type)` of a key. -/
def key_decode (k : key) : Nat × Nat × Nat × Nat :=
  (get_key_dirid k, get_key_objid k, reiserfs_key_offset k, reiserfs_key_type k)

/-- Three-way comparison of two naturals. -/
def cmp3 (x y : Nat) : Int := if x < y then -1 else if x > y then 1 else 0

/-- Lexicographic three-way comparison of two 4-tuples: each tier decides before the next. -/
def lex4 (a b : Nat × Nat × Nat × Nat) : Int :=
  if a.1 ≠ b.1 then cmp3 a.1 b.1
  else if a.2.1 ≠ b.2.1 then cmp3 a.2.1 b.2.1
  else if a.2.2.1 ≠ b.2.2.1 then cmp3 a.2.2.1 b.2.2.1
  else cmp3 a.2.2.2 b.2.2.2

/-! ## tools.c : the search tools -/

/-- The value of a C `int` expression: reduction to the 32-bit two's complement range. -/
def int32 (x : Int) : Int := (x + 2 ^ 31) % 2 ^ 32 - 2 ^ 31

/-- The entry at the address `array + (i * width)` of an array of entries of `width` bytes
each. `i` is an `int` and `width` a `uint32_t`, so the product is taken in unsigned 32-bit
arithmetic: `i` is converted to `unsigned` and the product wraps modulo 2^32. A byte offset
that is not the start of an entry of the array has no value. -/
def array_at {α : Type} (array : List α) (width : Nat) (i : Int) : Option α :=
  if (i % 2 ^ 32).toNat * width % 2 ^ 32 % width = 0 then
    array[(i % 2 ^ 32).toNat * width % 2 ^ 32 / width]?
  else none

/-- The `for` loop of `reiserfs_tools_fast_search`, one iteration per unit of fuel.
`none` stands for a run that does not return (or reads outside the array). A comparator
result other than -1, 1, 0 matches no `case` and the loop goes round unchanged. -/
def fast_search_loop {α : Type} (comp_func : α → α → Int) (needle : α) (array : List α)
    (width : Nat) : Nat → Int → Int → Option (Int × Nat)
  | 0, _, _ => none
  | fuel + 1, left, right =>
    if left ≤ right then
      let i := Int.tdiv (int32 (right + left)) 2
      match array_at array width i with
      | none => none
      | some entry =>
        let res := comp_func entry needle
        if res = -1 then fast_search_loop comp_func needle array width fuel (int32 (i + 1)) right
        else if res = 1 then
          if i = 0 then some (0, (left % 2 ^ 32).toNat)
          else fast_search_loop comp_func needle array width fuel left (int32 (i - 1))
        else if res = 0 then some (1, (i % 2 ^ 32).toNat)
        else fast_search_loop comp_func needle array width fuel left right
    else some (0, (left % 2 ^ 32).toNat)

/-- The function `reiserfs_tools_fast_search(needle, array, count, width, comp_func, &pos)`:
the result
is the pair `(return value, *pos)`. -/
def reiserfs_tools_fast_search {α : Type} (needle : α) (array : List α) (count : Int)
    (width : Nat) (comp_func : α → α → Int) : Option (Int × Nat) :=
  if count = 0 then some (0, 0)
  else fast_search_loop comp_func needle array width (count.toNat + 1) 0 (int32 (count - 1))

/-- A three-way comparator of a total preorder: results in {-1, 0, 1}, antisymmetric,
transitive, and entries that compare equal compare alike with everything. -/
structure IsComparator {α : Type} (comp : α → α → Int) : Prop where
  range : ∀ a b, comp a b = -1 ∨ comp a b = 0 ∨ comp a b = 1
  antisymm : ∀ a b, comp a b = - comp b a
  trans_lt : ∀ a b c, comp a b = -1 → comp b c = -1 → comp a c = -1
  eq_congr : ∀ a b c, comp a b = 0 → comp a c = comp b c

/-- Entries strictly increasing under the comparator. -/
def strictly_increasing {α : Type} (comp : α → α → Int) (array : List α) : Prop :=
  List.Pairwise (fun a b => comp a b = -1) array

/-- What `reiserfs_tools_fast_search` promises about `(found, pos)`. -/
def search_post {α : Type} (comp : α → α → Int) (needle : α) (array : List α)
    (found : Int) (pos : Nat) : Prop :=
  (found = 1 ∧ ∃ e, array[pos]? = some e ∧ comp e needle = 0) ∨
  (found = 0 ∧ pos ≤ array.length ∧
    (∀ j e, array[j]? = some e → j < pos → comp e needle = -1) ∧
    (∀ j e, array[j]? = some e → pos ≤ j → comp e needle = 1))

/-! ## tools.c : the bit tools (little-endian build, `WORDS_BIGENDIAN` undefined) -/

/-- Conversion of an integer value to `unsigned long` (`blk_t`, `count_t`), 64 bits wide. -/
def ulong (x : Int) : Nat := (x % 2 ^ 64).toNat

/-- Conversion of an integer value to `unsigned` (32 bits). -/
def uint (x : Int) : Nat := (x % 2 ^ 32).toNat

/-- The byte `p[i]` of a buffer of bytes; the model reads 0 outside the buffer. -/
def byte_at (buf : List Nat) (i : Int) : Nat :=
  if i < 0 then 0 else (buf.getD i.toNat 0) % 256

/-- The store `p[i] = v` into a buffer of bytes. -/
def byte_put (buf : List Nat) (i : Int) (v : Nat) : List Nat :=
  if i < 0 then buf else buf.set i.toNat (v % 256)

/-- The function `reiserfs_tools_le_test_bit(nr, addr)`, `addr` being byte `addr` of `buf`:
`p += nr >> 3; mask = 1 << (nr & 0x7); return (mask & *p) != 0`. -/
def reiserfs_tools_test_bit (nr : Int) (buf : List Nat) (addr : Int) : Int :=
  let p := addr + nr / 8
  let mask := (1 <<< (nr % 8).toNat) % 256
  if (mask &&& byte_at buf p) ≠ 0 then 1 else 0

/-- The function `reiserfs_tools_le_set_bit(nr, addr)`: the old bit and the buffer after `*p |=
mask`. -/
def reiserfs_tools_set_bit (nr : Int) (buf : List Nat) (addr : Int) : Int × List Nat :=
  let p := addr + nr / 8
  let mask := (1 <<< (nr % 8).toNat) % 256
  let retval : Int := if (mask &&& byte_at buf p) ≠ 0 then 1 else 0
  (retval, byte_put buf p (byte_at buf p ||| mask))

/-- The function `reiserfs_tools_le_clear_bit(nr, addr)`: the old bit and the buffer after `*p
&= ~mask`. -/
def reiserfs_tools_clear_bit (nr : Int) (buf : List Nat) (addr : Int) : Int × List Nat :=
  let p := addr + nr / 8
  let mask := (1 <<< (nr % 8).toNat) % 256
  let retval : Int := if (mask &&& byte_at buf p) ≠ 0 then 1 else 0
  (retval, byte_put buf p (byte_at buf p &&& (255 - mask)))

/-- The loop `for (; res < 8; res++) if (!reiserfs_tools_test_bit(res, p)) break;`:
the value of `res` when the loop is left. -/
def byte_scan (buf : List Nat) (p : Int) : Nat → Int → Int
  | 0, res => res
  | fuel + 1, res =>
    if res < 8 then
      if reiserfs_tools_test_bit res buf p = 0 then res
      else byte_scan buf p fuel (res + 1)
    else res

/-- The loop `while (*p++ == 255) { if (--size == 0) return (p - addr) << 3; }` of
`reiserfs_tools_le_find_first_zero_bit`, `p` counted in bytes from `addr`: either the value
returned from inside the loop, or `p` after the loop. `size` is `unsigned`, so `--size`
wraps from 0 to 2^32 - 1; one unit of fuel per byte read. -/
def first_zero_loop (buf : List Nat) (addr : Int) : Nat → Nat → Int → Option (Int ⊕ Int)
  | 0, _, _ => none
  | fuel + 1, size, p =>
    if byte_at buf (addr + p) = 255 then
      let size1 := (size + 2 ^ 32 - 1) % 2 ^ 32
      if size1 = 0 then some (Sum.inl (int32 ((p + 1) * 8)))
      else first_zero_loop buf addr fuel size1 (p + 1)
    else some (Sum.inr (p + 1))

/-- The function `reiserfs_tools_le_find_first_zero_bit(vaddr, size)`, `vaddr` being byte `addr` of
`buf`. -/
def reiserfs_tools_find_first_zero_bit (buf : List Nat) (addr : Int) (size : Nat) : Option Int :=
  if size = 0 then some 0
  else
    let size1 := ((size >>> 3) + (if (size &&& 7) > 0 then 1 else 0)) % 2 ^ 32
    match first_zero_loop buf addr (size1 + 1) size1 0 with
    | none => none
    | some (Sum.inl r) => some r
    | some (Sum.inr p) =>
      let p1 := p - 1
      let res := byte_scan buf (addr + p1) 8 0
      some (int32 (p1 * 8 + res))

/-- The function `reiserfs_tools_le_find_next_zero_bit(vaddr, size, offset)` with `vaddr` the
start of
`buf`. -/
def reiserfs_tools_find_next_zero_bit (buf : List Nat) (size offset : Nat) : Option Int :=
  let p : Int := ((offset >>> 3 : Nat) : Int)
  let bit : Int := ((offset &&& 7 : Nat) : Int)
  if offset ≥ size then some (int32 size)
  else if bit ≠ 0 then
    let res := byte_scan buf p (8 - bit.toNat) bit
    if res < 8 then some (int32 (p * 8 + res))
    else
      let p1 := p + 1
      match reiserfs_tools_find_first_zero_bit buf p1 (uint (size - 8 * p1)) with
      | none => none
      | some r => some (int32 (p1 * 8 + r))
  else
    match reiserfs_tools_find_first_zero_bit buf p (uint (size - 8 * p)) with
    | none => none
    | some r => some (int32 (p * 8 + r))

/-! ## bitmap.c -/

/-- The fields of `struct reiserfs_bitmap` (without the back pointer `fs`); `map` is the
byte buffer. -/
structure reiserfs_bitmap where
  start : Nat
  total_blocks : Nat
  used_blocks : Nat
  map : List Nat
  size : Nat
deriving DecidableEq, Repr

def reiserfs_bitmap_use_block (bitmap : reiserfs_bitmap) (blk : Nat) : reiserfs_bitmap :=
  if blk ≥ bitmap.total_blocks then bitmap
  else if reiserfs_tools_test_bit (int32 blk) bitmap.map 0 ≠ 0 then bitmap
  else
    { bitmap with
      map := (reiserfs_tools_set_bit (int32 blk) bitmap.map 0).2
      used_blocks := (bitmap.used_blocks + 1) % 2 ^ 64 }

def reiserfs_bitmap_unuse_block (bitmap : reiserfs_bitmap) (blk : Nat) : reiserfs_bitmap :=
  if blk ≥ bitmap.total_blocks then bitmap
  else if reiserfs_tools_test_bit (int32 blk) bitmap.map 0 = 0 then bitmap
  else
    { bitmap with
      map := (reiserfs_tools_clear_bit (int32 blk) bitmap.map 0).2
      used_blocks := (bitmap.used_blocks + 2 ^ 64 - 1) % 2 ^ 64 }

def reiserfs_bitmap_test_block (bitmap : reiserfs_bitmap) (blk : Nat) : Int :=
  if blk ≥ bitmap.total_blocks then 0
  else reiserfs_tools_test_bit (int32 blk) bitmap.map 0

/-- The function `reiserfs_bitmap_find_free(bitmap, start)`; `none` when the scan does not
return. -/
def reiserfs_bitmap_find_free (bitmap : reiserfs_bitmap) (start : Nat) : Option Nat :=
  if start ≥ bitmap.total_blocks then some 0
  else
    match reiserfs_tools_find_next_zero_bit bitmap.map (uint bitmap.total_blocks) (uint start) with
    | none => none
    | some r =>
      let blk := ulong r
      if blk ≥ bitmap.total_blocks then some 0 else some blk

/-- Bit `c` of a byte buffer, least significant bit of byte 0 first. -/
def bit_set (buf : List Nat) (c : Nat) : Bool := (byte_at buf (c / 8 : Nat)).testBit (c % 8)

/-- A bitmap as `reiserfs_bitmap_alloc` lays it out: `size = (len + 7) / 8` bytes of map,
and block numbers that fit the `int nr` parameter of the bit tools. -/
def bitmap_wf (bitmap : reiserfs_bitmap) : Prop :=
  bitmap.total_blocks + 8 ≤ 2 ^ 31 ∧ bitmap.size = (bitmap.total_blocks + 7) / 8 ∧
    bitmap.map.length = bitmap.size

/-- The padding bits of the last map byte, those at `total_blocks` and beyond, are zero. -/
def padding_zero (bitmap : reiserfs_bitmap) : Prop :=
  ∀ c, bitmap.total_blocks ≤ c → c < 8 * bitmap.size → bit_set bitmap.map c = false

/-- A 20-block bitmap with blocks 0..10 and 12..19 in use, used as a concrete input. -/
def bitmap_example : reiserfs_bitmap :=
  { start := 0, total_blocks := 20, used_blocks := 19, map := [0xff, 0xf7, 0x0f], size := 3 }

/-- The layout of a bitmap in memory, as `reiserfs_bitmap_alloc` and `reiserfs_bitmap_open`
set it up: `size = (total_blocks + 7) / 8` and a map of `size` bytes. -/
def bitmap_layout (bitmap : reiserfs_bitmap) : Prop :=
  bitmap.size = (bitmap.total_blocks + 7) / 8 ∧ bitmap.map.length = bitmap.size

/-- A bitmap of `8 * n + 8` blocks with the blocks `0 .. 8 * n` in use and the last seven
free, laid out as `reiserfs_bitmap_alloc` does; with `n = 2^28` it has 2^31 + 8 blocks and its
free blocks are `2^31 + 1 .. 2^31 + 7`. -/
def bitmap_above_int (n : Nat) : reiserfs_bitmap :=
  { start := 0, total_blocks := 8 * n + 8, used_blocks := 8 * n + 1,
    map := List.replicate n 255 ++ [1], size := n + 1 }

/-- The word `*block64`: the eight bytes from byte `p` on, read as one little-endian
64-bit word. -/
def block64_at (buf : List Nat) (p : Int) : Nat :=
  byte_at buf p + byte_at buf (p + 1) * 2 ^ 8 + byte_at buf (p + 2) * 2 ^ 16 +
  byte_at buf (p + 3) * 2 ^ 24 + byte_at buf (p + 4) * 2 ^ 32 + byte_at buf (p + 5) * 2 ^ 40 +
  byte_at buf (p + 6) * 2 ^ 48 + byte_at buf (p + 7) * 2 ^ 56

/-- The loop `for (i = start; i < end; )` of `reiserfs_bitmap_calc` (the build with the
64-bit fast path), one iteration per unit of fuel; every iteration advances `i`. -/
def reiserfs_bitmap_calc_loop (bitmap : reiserfs_bitmap) (end_ : Nat) (is_free : Int) :
    Nat → Nat → Nat → Nat
  | 0, _, blocks => blocks
  | fuel + 1, i, blocks =>
    if i < end_ then
      let block64 := block64_at bitmap.map ((i >>> 3 : Nat) : Int)
      let bits := 64
      if (i + bits) % 2 ^ 64 < end_ ∧ i % 8 = 0 ∧
          block64 = (if is_free = 0 then 0xffffffffffffffff else 0) then
        reiserfs_bitmap_calc_loop bitmap end_ is_free fuel ((i + bits) % 2 ^ 64)
          ((blocks + bits) % 2 ^ 64)
      else
        reiserfs_bitmap_calc_loop bitmap end_ is_free fuel ((i + 1) % 2 ^ 64)
          (ulong (blocks + (if reiserfs_bitmap_test_block bitmap i ≠ 0 then is_free
            else (if is_free = 0 then 1 else 0))))
    else blocks

def reiserfs_bitmap_calc (bitmap : reiserfs_bitmap) (start end_ : Nat) (is_free : Int) : Nat :=
  if start ≥ bitmap.total_blocks then 0
  else if (end_ + 2 ^ 64 - 1) % 2 ^ 64 ≥ bitmap.total_blocks then 0
  else reiserfs_bitmap_calc_loop bitmap end_ is_free (end_ - start) start 0

def reiserfs_bitmap_calc_used (bitmap : reiserfs_bitmap) : Nat :=
  reiserfs_bitmap_calc bitmap 0 bitmap.total_blocks 0

def reiserfs_bitmap_calc_unused (bitmap : reiserfs_bitmap) : Nat :=
  reiserfs_bitmap_calc bitmap 0 bitmap.total_blocks 1

def reiserfs_bitmap_calc_used_in_area (bitmap : reiserfs_bitmap) (start end_ : Nat) : Nat :=
  reiserfs_bitmap_calc bitmap start end_ 0

def reiserfs_bitmap_calc_unused_in_area (bitmap : reiserfs_bitmap) (start end_ : Nat) : Nat :=
  reiserfs_bitmap_calc bitmap start end_ 1

def reiserfs_bitmap_check (bitmap : reiserfs_bitmap) : Int :=
  if reiserfs_bitmap_calc_used bitmap ≠ bitmap.used_blocks then 0 else 1

/-- The bitmap `reiserfs_bitmap_alloc(len)` returns: `calloc`ed, so every field not
assigned and every map byte is zero. -/
def reiserfs_bitmap_alloc (len : Nat) : reiserfs_bitmap :=
  { start := 0, total_blocks := len, used_blocks := 0,
    size := ((len + 7) / 8) % 2 ^ 32,
    map := List.replicate (((len + 7) / 8) % 2 ^ 32) 0 }

/-- The number of set bits in `[start, end_)`. -/
def count_set_bits (buf : List Nat) (start end_ : Nat) : Nat :=
  ((List.range (end_ - start)).filter (fun j => bit_set buf (start + j))).length

/-- A 72-block bitmap with every block in use. -/
def bitmap_full72 : reiserfs_bitmap :=
  { start := 0, total_blocks := 72, used_blocks := 72,
    map := [0xff, 0xff, 0xff, 0xff, 0xff, 0xff, 0xff, 0xff, 0xff], size := 9 }


/-! ## dal.h, block.c : devices and block buffers -/

/-- The devices: for every device handle (a number; two handles are `dal_equals` when they
are the same number) its block size, its length in blocks, the contents of its blocks, and
whether `dal_read` / `dal_write` of a block succeeds. -/
structure World (β : Type) where
  blocksize : Nat → Nat
  len : Nat → Nat
  data : Nat → Nat → β
  read_ok : Nat → Nat → Bool
  write_ok : Nat → Nat → Bool

/-- The fields of `struct reiserfs_block`: the device, the data buffer, the byte offset and
the dirty flag. -/
structure reiserfs_block (β : Type) where
  dal : Nat
  data : β
  offset : Nat
  dirty : Int

/-- The function `reiserfs_block_read(dal, blk)`: `none` is the NULL result. The buffer comes from
`reiserfs_block_alloc`, so it is clean and carries the offset of `blk`. -/
def reiserfs_block_read {β : Type} (w : World β) (dal : Nat) (blk : Nat) :
    Option (reiserfs_block β) :=
  if blk ≥ w.len dal then none
  else if w.read_ok dal blk = false then none
  else some { dal := dal, data := w.data dal blk,
              offset := (blk * w.blocksize dal) % 2 ^ 64, dirty := 0 }

def reiserfs_block_get_nr {β : Type} (w : World β) (block : reiserfs_block β) : Nat :=
  block.offset / w.blocksize block.dal

def reiserfs_block_set_nr {β : Type} (w : World β) (block : reiserfs_block β) (blk : Nat) :
    reiserfs_block β :=
  { block with offset := (blk * w.blocksize block.dal) % 2 ^ 64 }

/-- The device contents after block `blk` of device `dal` is overwritten with `v`. -/
def World.put {β : Type} (w : World β) (dal blk : Nat) (v : β) : World β :=
  { w with data := fun d b => if d = dal ∧ b = blk then v else w.data d b }

/-- The function `reiserfs_block_write(dal, block)`: `none` is the result 0, otherwise the
devices after
the write of the buffer at the block number it carries. -/
def reiserfs_block_write {β : Type} (w : World β) (dal : Nat) (block : reiserfs_block β) :
    Option (World β) :=
  if w.write_ok dal (reiserfs_block_get_nr w block) = false then none
  else some (w.put dal (reiserfs_block_get_nr w block) block.data)

/-! ## segment.c -/

structure reiserfs_segment where
  dal : Nat
  start : Nat
  end_ : Nat
deriving DecidableEq, Repr

def reiserfs_segment_len (segment : reiserfs_segment) : Nat :=
  ulong ((segment.end_ : Int) - segment.start)

def reiserfs_segment_test_inside (segment : reiserfs_segment) (blk : Nat) : Bool :=
  decide (blk ≥ segment.start ∧ blk < segment.end_)

/-- The guard `if (segment_func) { if (!segment_func(src_segment, block, progress, data))
goto error_free_block; }`: true when the loop body goes on. -/
def segment_func_passes {β : Type} (segment_func : Option (reiserfs_block β → Nat → Int))
    (block : reiserfs_block β) (progress : Nat) : Bool :=
  match segment_func with
  | none => true
  | some f => f block progress ≠ 0

/-- The `while (1)` loop of `reiserfs_segment_move`, one block per unit of fuel; the result
is the return value and the devices, `none` when the loop has not returned.
`segment_func`, when given, sees the block buffer and the progress count. -/
def reiserfs_segment_move_loop {β : Type} (dst_segment src_segment : reiserfs_segment)
    (segment_func : Option (reiserfs_block β → Nat → Int)) :
    Nat → Nat → World β → Option (Int × World β)
  | 0, _, _ => none
  | fuel + 1, i, w =>
    match reiserfs_block_read w src_segment.dal (ulong (src_segment.start + i)) with
    | none => some (0, w)
    | some block0 =>
      let block := reiserfs_block_set_nr w block0 (ulong (dst_segment.start + i))
      match reiserfs_block_write w dst_segment.dal block with
      | none => some (0, w)
      | some w1 =>
        let progress :=
          if src_segment.start < dst_segment.start then
            ulong ((reiserfs_segment_len src_segment : Int) - i)
          else i
        if segment_func_passes segment_func block progress = false then some (0, w1)
        else if src_segment.start < dst_segment.start then
          -- `i-- == 0`
          if i = 0 then some (1, w1)
          else reiserfs_segment_move_loop dst_segment src_segment segment_func fuel
            (ulong ((i : Int) - 1)) w1
        else
          -- `i++ == reiserfs_segment_len(src_segment) - 1`
          if i = ulong ((reiserfs_segment_len src_segment : Int) - 1) then some (1, w1)
          else reiserfs_segment_move_loop dst_segment src_segment segment_func fuel
            (ulong ((i : Int) + 1)) w1

/-- The function `reiserfs_segment_move(dst_segment, src_segment, segment_func, data)`. -/
def reiserfs_segment_move {β : Type} (w : World β) (dst_segment src_segment : reiserfs_segment)
    (segment_func : Option (reiserfs_block β → Nat → Int)) : Option (Int × World β) :=
  let i := if src_segment.start < dst_segment.start then
      ulong ((reiserfs_segment_len src_segment : Int) - 1) else 0
  reiserfs_segment_move_loop dst_segment src_segment segment_func
    (reiserfs_segment_len src_segment) i w

/-- Devices in a usable state for the blocks of a segment: a positive block size and block
offsets that fit 64 bits, so that a buffer carries its block number faithfully. -/
def segment_addressable {β : Type} (w : World β) (segment : reiserfs_segment) : Prop :=
  segment.start ≤ segment.end_ ∧ segment.end_ ≤ 2 ^ 32 ∧
    ∀ d, 0 < w.blocksize d ∧ w.blocksize d ≤ 2 ^ 16

/-- A device of ten numbered blocks, used as a concrete input. -/
def world_example : World Nat :=
  { blocksize := fun _ => 4096, len := fun _ => 10, data := fun _ b => 100 + b,
    read_ok := fun _ _ => true, write_ok := fun _ _ => true }

/-- Two overlapping four-block segments of the example device. -/
def segment_example_src : reiserfs_segment := { dal := 0, start := 1, end_ := 5 }

def segment_example_dst : reiserfs_segment := { dal := 0, start := 3, end_ := 7 }


/-! ## node.h : tree nodes -/

def LEAF_LEVEL : Nat := 1
def MAX_HEIGHT : Nat := 5

/-- A block read as a tree node: the level of the node head, the `nritems` keys that follow
it (the keys of the item heads in a leaf, the delimiting keys in an internal node), the
block numbers of the `nritems + 1` disk children of an internal node, and for a leaf the
bytes of every item body. -/
structure Node where
  level : Nat
  keys : List key
  children : List Nat
  bodies : List (List Nat)
deriving DecidableEq, Repr

def get_node_level (node : Node) : Nat := node.level % 2 ^ 16

def get_node_nritems (node : Node) : Nat := node.keys.length % 2 ^ 16

def is_leaf_node (node : Node) : Bool := get_node_level node = LEAF_LEVEL

def is_internal_node (node : Node) : Bool :=
  get_node_level node > LEAF_LEVEL ∧ get_node_level node ≤ MAX_HEIGHT

/-- The macro `get_dc_child_blocknr(get_node_disk_child(node, pos))`; a slot beyond the
children read
from the block reads as 0. -/
def get_dc_child_blocknr (node : Node) (pos : Nat) : Nat := (node.children.getD pos 0) % 2 ^ 32

/-- The macro `set_dc_child_blocknr(get_node_disk_child(node, pos), val)`. -/
def set_dc_child_blocknr (node : Node) (pos : Nat) (val : Nat) : Node :=
  { node with children := node.children.set pos (val % 2 ^ 32) }

/-! ## core.c : the filesystem and its bitmap -/

/-- The parts of `struct reiserfs_fs` the relocator uses: the device, `tree->offset`, the
bitmap (absent when the filesystem was opened without it) and the bitmap-dirty flag. -/
structure reiserfs_fs where
  dal : Nat
  tree_offset : Int
  bitmap : Option reiserfs_bitmap
  bitmap_dirty : Bool
deriving DecidableEq, Repr

def reiserfs_fs_bitmap_use_block (fs : reiserfs_fs) (block : Nat) : reiserfs_fs :=
  match fs.bitmap with
  | none => fs
  | some bitmap => { fs with bitmap := some (reiserfs_bitmap_use_block bitmap block),
                             bitmap_dirty := true }

def reiserfs_fs_bitmap_unuse_block (fs : reiserfs_fs) (block : Nat) : reiserfs_fs :=
  match fs.bitmap with
  | none => fs
  | some bitmap => { fs with bitmap := some (reiserfs_bitmap_unuse_block bitmap block),
                             bitmap_dirty := true }

def reiserfs_fs_bitmap_find_free_block (fs : reiserfs_fs) (start : Nat) : Option Nat :=
  match fs.bitmap with
  | none => some 0
  | some bitmap => reiserfs_bitmap_find_free bitmap start

/-! ## segment.c : the relocator -/

/-- The C `struct reiserfs_reloc_desc`; the two filesystems are handles into the table of
filesystems of the state, so that one filesystem can be both source and destination. -/
structure reiserfs_reloc_desc where
  smart : Int
  dst_segment : reiserfs_segment
  src_segment : reiserfs_segment
  dst_fs : Nat
  src_fs : Nat
  gauge : Bool

/-- What a relocation reads and writes: the devices, the filesystems and the progress
counter of the descriptor. -/
structure reloc_state where
  world : World Node
  fs : Nat → reiserfs_fs
  counter : Nat

/-- The filesystem table after filesystem `h` is replaced. -/
def reloc_state.set_fs (st : reloc_state) (h : Nat) (f : reiserfs_fs) : reloc_state :=
  { st with fs := fun x => if x = h then f else st.fs x }

/-- The function `generic_node_write(reloc, node)`: the block number returned, the node buffer
(whose block
number may have been changed) and the state; `none` when the free-block scan does not
return. -/
def generic_node_write (reloc : reiserfs_reloc_desc) (node : reiserfs_block Node)
    (st : reloc_state) : Option (Nat × reiserfs_block Node × reloc_state) :=
  let same_dal : Bool := (st.fs reloc.dst_fs).dal = (st.fs reloc.src_fs).dal
  if reloc.smart = 0 ∧ same_dal = true ∧
      reiserfs_segment_test_inside reloc.dst_segment (reiserfs_block_get_nr st.world node) = true
  then some (reiserfs_block_get_nr st.world node, node, st)
  else
    let st1 : reloc_state := if reloc.gauge then { st with counter := st.counter + 1 } else st
    let st2 : reloc_state :=
      if same_dal then
        st1.set_fs reloc.src_fs (reiserfs_fs_bitmap_unuse_block (st1.fs reloc.src_fs)
          (ulong ((reiserfs_block_get_nr st.world node : Int) -
            Int.natAbs (st1.fs reloc.src_fs).tree_offset)))
      else st1
    let offset : Nat :=
      if reloc.smart ≠ 0 then
        ulong ((reloc.dst_segment.start : Int) - reloc.src_segment.start)
      else 0
    let shift : Nat := if reloc.src_segment.start < reloc.dst_segment.start then offset else 0
    match reiserfs_fs_bitmap_find_free_block (st2.fs reloc.dst_fs)
        (ulong ((reloc.dst_segment.start : Int) - shift)) with
    | none => none
    | some dst_blk =>
      if dst_blk = 0 then some (0, node, st2)
      else
        let node1 := reiserfs_block_set_nr st2.world node (ulong ((dst_blk : Int) + shift))
        let st3 := st2.set_fs reloc.dst_fs
          (reiserfs_fs_bitmap_use_block (st2.fs reloc.dst_fs) dst_blk)
        match reiserfs_block_write st3.world (st3.fs reloc.dst_fs).dal node1 with
        | none => some (0, node1, st3)
        | some w => some (dst_blk, node1, { st3 with world := w })

/-- The function `callback_chld_setup(node, chld, chld_blk, reloc)`: the result and the node
buffer. -/
def callback_chld_setup (node : reiserfs_block Node) (chld : Nat) (chld_blk : Int) :
    Int × reiserfs_block Node :=
  (1, { node with data := set_dc_child_blocknr node.data chld (ulong chld_blk), dirty := 1 })

/-- The function `callback_node_write(node, reloc)`, the after-node hook of the relocation. -/
def callback_node_write (reloc : reiserfs_reloc_desc) (node : reiserfs_block Node)
    (st : reloc_state) : Option (Nat × reiserfs_block Node × reloc_state) :=
  let same_dal : Bool := (st.fs reloc.dst_fs).dal = (st.fs reloc.src_fs).dal
  if reloc.smart = 0 ∧ same_dal = true ∧
      reiserfs_segment_test_inside reloc.dst_segment (reiserfs_block_get_nr st.world node) = true ∧
      node.dirty = 0
  then some (reiserfs_block_get_nr st.world node, node, st)
  else generic_node_write reloc node st

/-- A 32-block device holding at block 10 an internal node with the children 30 and 11. -/
def reloc_example_node : Node :=
  { level := 2, keys := [⟨1, 2, 0⟩], children := [30, 11], bodies := [] }

def reloc_example_world : World Node :=
  { blocksize := fun _ => 4096, len := fun _ => 32,
    data := fun _ b => if b = 10 then reloc_example_node
      else { level := 1, keys := [], children := [], bodies := [] },
    read_ok := fun _ _ => true, write_ok := fun _ _ => true }

def reloc_example_bitmap : reiserfs_bitmap :=
  { start := 0, total_blocks := 32, used_blocks := 8, map := [0x1f, 0x0c, 0x00, 0x40], size := 4 }

def reloc_example_fs : reiserfs_fs :=
  { dal := 0, tree_offset := 0, bitmap := some reloc_example_bitmap, bitmap_dirty := false }

/-- One filesystem on device 0, shrunk into blocks 5..19 in place (`smart = 0`). -/
def reloc_example_state : reloc_state :=
  { world := reloc_example_world, fs := fun _ => reloc_example_fs, counter := 0 }

def reloc_example : reiserfs_reloc_desc :=
  { smart := 0, dst_segment := ⟨0, 5, 20⟩, src_segment := ⟨0, 20, 32⟩, dst_fs := 0, src_fs := 0,
    gauge := false }

/-- The node of block 10 as the traversal holds it once the child in slot 0, moved from
block 30, has been reported at block 5: the child pointer is rewritten, the buffer dirty. -/
def reloc_example_dirty_node : reiserfs_block Node :=
  (callback_chld_setup
    { dal := 0, data := reloc_example_node, offset := 10 * 4096, dirty := 0 } 0 5).2

/-! ## journal.c -/

/-- A journal block as the walk reads it: its 32-bit little-endian words from the start of
the block (`jd_trans_id, jd_len, jd_mount_id, jd_realblock[]` in a descriptor,
`jc_trans_id, jc_len, jc_realblock[]` in a commit block) and the eight bytes at the place
`get_jd_magic` points to. -/
structure journal_block where
  words : List Nat
  magic : List Nat
deriving DecidableEq, Repr

/-- The bytes of `JOURNAL_DESC_SIGN`, "ReIsErLB". -/
def JOURNAL_DESC_SIGN : List Nat := [82, 101, 73, 115, 69, 114, 76, 66]

def JOURNAL_DESC_COMM : Nat := 1
def JOURNAL_DESC_NEXT : Nat := 2

/-- The 32-bit word `i` of a block. -/
def block_word (b : journal_block) (i : Nat) : Nat := (b.words.getD i 0) % 2 ^ 32

def get_jd_desc_trans_id (desc : reiserfs_block journal_block) : Nat := block_word desc.data 0
def get_jd_desc_trans_len (desc : reiserfs_block journal_block) : Nat := block_word desc.data 1
def get_jd_desc_mount_id (desc : reiserfs_block journal_block) : Nat := block_word desc.data 2
def get_jd_realblock (desc : reiserfs_block journal_block) (i : Nat) : Nat :=
  block_word desc.data (3 + i)
def get_jc_commit_trans_id (comm : reiserfs_block journal_block) : Nat := block_word comm.data 0
def get_jc_commit_trans_len (comm : reiserfs_block journal_block) : Nat := block_word comm.data 1
def get_jc_realblock (comm : reiserfs_block journal_block) (i : Nat) : Nat :=
  block_word comm.data (2 + i)

/-- The journal: its device, `jh_first_unflushed_offset` of the journal head, `jp_start` and
`jp_len` of its parameters, and the value of `journal_trans_half(blocksize)`, a macro of
journal.h taken here as given. -/
structure reiserfs_journal where
  dal : Nat
  jh_first_unflushed_offset : Nat
  jp_start : Nat
  jp_len : Nat
  trans_half : Nat
deriving DecidableEq, Repr

def reiserfs_journal_desc_match_comm (desc comm : reiserfs_block journal_block) : Bool :=
  get_jc_commit_trans_id comm = get_jd_desc_trans_id desc ∧
  get_jc_commit_trans_len comm = get_jd_desc_trans_len desc

def reiserfs_journal_desc_prop (w : World journal_block) (journal : reiserfs_journal)
    (desc : reiserfs_block journal_block) (prop : Nat) : Nat :=
  let offset := ulong ((reiserfs_block_get_nr w desc : Int) - journal.jp_start)
  (journal.jp_start + ((offset + get_jd_desc_trans_len desc + prop) % 2 ^ 64) % journal.jp_len)
    % 2 ^ 64

def reiserfs_journal_desc_comm (w : World journal_block) (journal : reiserfs_journal)
    (desc : reiserfs_block journal_block) : Nat :=
  reiserfs_journal_desc_prop w journal desc JOURNAL_DESC_COMM

def reiserfs_journal_desc_next (w : World journal_block) (journal : reiserfs_journal)
    (desc : reiserfs_block journal_block) : Nat :=
  reiserfs_journal_desc_prop w journal desc JOURNAL_DESC_NEXT

def reiserfs_journal_desc_block (desc : reiserfs_block journal_block) : Bool :=
  desc.data.magic = JOURNAL_DESC_SIGN ∧ block_word desc.data 1 > 0

def reiserfs_journal_desc_valid (w : World journal_block) (journal : reiserfs_journal)
    (desc : reiserfs_block journal_block) : Bool :=
  if reiserfs_journal_desc_block desc = false then false
  else
    match reiserfs_block_read w desc.dal (reiserfs_journal_desc_comm w journal desc) with
    | none => false
    | some comm => reiserfs_journal_desc_match_comm desc comm

/-- The `for (curr = from; curr < len; curr++)` loop of `reiserfs_journal_pipe`, one candidate
per unit of fuel; `pipe_func` gets the descriptor, the commit block, `curr` and the user
data, and returns its result with the user data. `none` when the loop has not returned. -/
def reiserfs_journal_pipe_loop {σ : Type} (w : World journal_block) (journal : reiserfs_journal)
    (pipe_func : Option (reiserfs_block journal_block → reiserfs_block journal_block → Nat →
      σ → Int × σ)) : Nat → Nat → σ → Option (Int × σ)
  | 0, _, _ => none
  | fuel + 1, curr, data =>
    if curr < journal.jp_len then
      match reiserfs_block_read w journal.dal ((journal.jp_start + curr) % 2 ^ 64) with
      | none => some (0, data)
      | some desc =>
        match reiserfs_block_read w journal.dal (reiserfs_journal_desc_comm w journal desc) with
        | none => some (0, data)
        | some comm =>
          if reiserfs_journal_desc_valid w journal desc = false then
            reiserfs_journal_pipe_loop w journal pipe_func fuel ((curr + 1) % 2 ^ 64) data
          else
            match pipe_func with
            | none =>
              reiserfs_journal_pipe_loop w journal pipe_func fuel
                (((curr + (get_jd_desc_trans_len desc + 1)) % 2 ^ 64 + 1) % 2 ^ 64) data
            | some f =>
              if (f desc comm curr data).1 = 0 then some (0, (f desc comm curr data).2)
              else
                reiserfs_journal_pipe_loop w journal pipe_func fuel
                  (((curr + (get_jd_desc_trans_len desc + 1)) % 2 ^ 64 + 1) % 2 ^ 64)
                  (f desc comm curr data).2
    else some (1, data)

/-- The function `reiserfs_journal_pipe(journal, from, pipe_func, data)`: the loop looks at
no more than `len - from` candidates and needs one more unit of fuel to leave. -/
def reiserfs_journal_pipe {σ : Type} (w : World journal_block) (journal : reiserfs_journal)
    (from_ : Nat) (pipe_func : Option (reiserfs_block journal_block →
      reiserfs_block journal_block → Nat → σ → Int × σ)) (data : σ) : Option (Int × σ) :=
  if from_ ≥ journal.jp_len then some (0, data)
  else reiserfs_journal_pipe_loop w journal pipe_func (journal.jp_len - from_ + 1) from_ data

/-- The C `struct reiserfs_read_desc`. -/
structure reiserfs_read_desc where
  needle : Nat
  found : Nat
deriving DecidableEq, Repr

/-- The function `callback_journal_read(journal, desc, comm, number, read_desc)`: the first
loop runs over
the entries of the descriptor half, the second over those of the commit half. -/
def callback_journal_read (journal : reiserfs_journal) (desc comm : reiserfs_block journal_block)
    (number : Nat) (read_desc : reiserfs_read_desc) : Int × reiserfs_read_desc :=
  let trans_half := journal.trans_half
  let len := ulong ((journal.jp_len : Int) - 1)
  let start := journal.jp_start
  let n1 := min (get_jd_desc_trans_len desc) trans_half
  let found1 := (List.range n1).foldl
    (fun found i =>
      if read_desc.needle = get_jd_realblock desc i then
        ((start + number % 2 ^ 32 + i + 1) % 2 ^ 64) &&& len
      else found) read_desc.found
  let found2 :=
    if n1 ≥ trans_half then
      (List.range' n1 (get_jd_desc_trans_len desc - n1)).foldl
        (fun found i =>
          if read_desc.needle = get_jc_realblock comm (i - trans_half) then
            ((start + number % 2 ^ 32 + i + 1) % 2 ^ 64) &&& len
          else found) found1
    else found1
  (1, { read_desc with found := found2 })

/-- The function `reiserfs_journal_read(journal, blk)`: the outer `none` when the walk has not
returned,
the inner `none` for the NULL result. -/
def reiserfs_journal_read (w : World journal_block) (journal : reiserfs_journal) (blk : Nat) :
    Option (Option (reiserfs_block journal_block)) :=
  match reiserfs_journal_pipe w journal journal.jh_first_unflushed_offset
      (some (callback_journal_read journal)) { needle := blk, found := 0 } with
  | none => none
  | some (r, desc) =>
    if r = 0 then some none
    else if desc.found ≠ 0 ∧ desc.found > (journal.jp_start + journal.jp_len + 2 ^ 64 - 1) % 2 ^ 64
    then some none
    else if desc.found ≠ 0 then some (reiserfs_block_read w journal.dal desc.found)
    else some none

/-- A descriptor block of a one-block transaction 7 that rewrites home block 100. -/
def journal_example_desc : journal_block :=
  { words := [7, 1, 1, 100], magic := JOURNAL_DESC_SIGN }

/-- The commit block of transaction 7. -/
def journal_example_comm : journal_block := { words := [7, 1], magic := [] }

/-- The journal block with the new contents of home block 100. -/
def journal_example_payload : journal_block := { words := [0xabcd], magic := [] }

/-- A device with the default journal of a 4 KiB-block filesystem (start 18, length 8192)
whose last three ring blocks, offsets 8189 .. 8191, hold transaction 7. -/
def journal_example_world : World journal_block :=
  { blocksize := fun _ => 4096, len := fun _ => 10000,
    data := fun _ b =>
      if b = 18 + 8189 then journal_example_desc
      else if b = 18 + 8190 then journal_example_payload
      else if b = 18 + 8191 then journal_example_comm
      else { words := [], magic := [] },
    read_ok := fun _ _ => true, write_ok := fun _ _ => true }

def journal_example : reiserfs_journal :=
  { dal := 0, jh_first_unflushed_offset := 8189, jp_start := 18, jp_len := 8192,
    trans_half := 1018 }

/-- The default journal of a 1 KiB-block filesystem: start 66, length 8125. -/
def journal_example_1k : reiserfs_journal :=
  { dal := 0, jh_first_unflushed_offset := 0, jp_start := 66, jp_len := 8125, trans_half := 250 }


/-! ## path.c -/

/-- The C `struct reiserfs_path_node`: the node buffer and the position chosen in it (the parent
pointer is the frame below in the path). -/
structure reiserfs_path_node where
  node : reiserfs_block Node
  pos : Nat

/-- The C `struct reiserfs_path`: `nodes` is the array of `max_length` frame pointers, `none` a
NULL pointer. -/
structure reiserfs_path where
  length : Nat
  max_length : Nat
  nodes : List (Option reiserfs_path_node)

/-- The function `reiserfs_path_clear(path)`: every frame from `length - 1` down is freed and
`length`
ends at 0; the freed pointers stay in the array. -/
def reiserfs_path_clear (path : reiserfs_path) : reiserfs_path := { path with length := 0 }

/-- The function `reiserfs_path_at(path, pos)`. -/
def reiserfs_path_at (path : reiserfs_path) (pos : Nat) : Option reiserfs_path_node :=
  if pos ≥ path.length then none else (path.nodes.getD pos none)

/-- The function `reiserfs_path_last(path)`: `path->length - 1` is evaluated in `unsigned int`. -/
def reiserfs_path_last (path : reiserfs_path) : Option reiserfs_path_node :=
  reiserfs_path_at path ((path.length + 2 ^ 32 - 1) % 2 ^ 32)

/-- The function `reiserfs_path_inc(path, node)`, which is `reiserfs_path_insert(path, path->length,
node)`: the asserted conditions `pos <= length` and `length < max_length` fail the call with
0; with `pos = length` the shifting loop is not entered. The result and the path. -/
def reiserfs_path_inc (path : reiserfs_path) (node : reiserfs_path_node) : Int × reiserfs_path :=
  if ¬ (path.length < path.max_length) then (0, path)
  else (1, { path with nodes := path.nodes.set path.length (some node),
                       length := (path.length + 1) % 2 ^ 32 })

/-! ## tree.c : lookup -/

/-- The size of the packed `reiserfs_item_head_t` (object.h). -/
def IH_SIZE : Nat := 24

/-- The parts of `struct reiserfs_tree` and of the superblock behind it that the lookup
reads: the device, `tree->offset`, `sb_tree_height` and `sb_root_block`. -/
structure reiserfs_tree where
  dal : Nat
  offset : Int
  sb_tree_height : Nat
  sb_root_block : Nat
deriving DecidableEq, Repr

def reiserfs_tree_get_height (tree : reiserfs_tree) : Nat := tree.sb_tree_height % 2 ^ 16

/-- The `while (1)` loop of `reiserfs_tree_node_lookup`, one node per unit of fuel: the
result and the path, `none` when the loop has not returned (or the search has not). -/
def reiserfs_tree_node_lookup_loop (w : World Node) (tree : reiserfs_tree)
    (comp_func : key → key → Int) (k : key) (for_leaf : Bool) :
    Nat → Nat → reiserfs_path → Option (Int × reiserfs_path)
  | 0, _, _ => none
  | fuel + 1, blk, path =>
    match reiserfs_block_read w tree.dal blk with
    | none => some (0, path)
    | some node =>
      let level := get_node_level node.data
      if level > (reiserfs_tree_get_height tree + 2 ^ 32 - 1) % 2 ^ 32 then some (0, path)
      else if for_leaf = false ∧ is_leaf_node node.data = true then some (0, path)
      else
        match reiserfs_tools_fast_search k node.data.keys (get_node_nritems node.data)
            (if is_leaf_node node.data = true then IH_SIZE else FULL_KEY_SIZE) comp_func with
        | none => none
        | some (found, pos) =>
          let frame : reiserfs_path_node :=
            { node := node,
              pos := if found ≠ 0 ∧ is_internal_node node.data = true then (pos + 1) % 2 ^ 32
                     else pos }
          let inc := reiserfs_path_inc path frame
          if inc.1 = 0 then some (0, inc.2)
          else if is_leaf_node node.data = true then some (found, inc.2)
          else if level = 2 ∧ for_leaf = false then some (1, inc.2)
          else
            let pos1 := if found ≠ 0 then (pos + 1) % 2 ^ 32 else pos
            reiserfs_tree_node_lookup_loop w tree comp_func k for_leaf fuel
              (ulong ((get_dc_child_blocknr node.data pos1 : Int) + tree.offset)) inc.2

/-- The function `reiserfs_tree_node_lookup(tree, blk, comp_func, key, for_leaf, path)` with a
path given;
`fuel` bounds the number of nodes read. -/
def reiserfs_tree_node_lookup (fuel : Nat) (w : World Node) (tree : reiserfs_tree) (blk : Nat)
    (comp_func : Option (key → key → Int)) (k : key) (for_leaf : Bool) (path : reiserfs_path) :
    Option (Int × reiserfs_path) :=
  match comp_func with
  | none => some (0, path)
  | some comp =>
    reiserfs_tree_node_lookup_loop w tree comp k for_leaf fuel blk (reiserfs_path_clear path)

/-- The function `reiserfs_tree_lookup_leaf(tree, from, comp_func, key, path)`: the frame
returned (`none`
for NULL) and the path. -/
def reiserfs_tree_lookup_leaf (fuel : Nat) (w : World Node) (tree : reiserfs_tree) (from_ : Nat)
    (comp_func : Option (key → key → Int)) (k : key) (path : reiserfs_path) :
    Option (Option reiserfs_path_node × reiserfs_path) :=
  if reiserfs_tree_get_height tree < 2 then some (none, path)
  else
    match reiserfs_tree_node_lookup fuel w tree from_ comp_func k true path with
    | none => none
    | some (r, path1) => if r ≠ 0 then some (reiserfs_path_last path1, path1) else some (none, path1)

/-- The function `reiserfs_tree_lookup_internal(tree, from, comp_func, key, path)`. -/
def reiserfs_tree_lookup_internal (fuel : Nat) (w : World Node) (tree : reiserfs_tree)
    (from_ : Nat) (comp_func : Option (key → key → Int)) (k : key) (path : reiserfs_path) :
    Option (Option reiserfs_path_node × reiserfs_path) :=
  if reiserfs_tree_get_height tree < 2 then some (none, path)
  else
    match reiserfs_tree_node_lookup fuel w tree from_ comp_func k false path with
    | none => none
    | some (r, path1) => if r ≠ 0 then some (reiserfs_path_last path1, path1) else some (none, path1)

/-! ## The tree invariants K1 and K2 -/

/-- The block a child pointer of a node leads to: `dc_blocknr + tree->offset`. -/
def child_block (tree : reiserfs_tree) (node : Node) (i : Nat) : Nat :=
  ulong ((get_dc_child_blocknr node i : Int) + tree.offset)

/-- The keys stored in the leaves below block `blk`, a node of level `lvl`: each with the
block of its leaf and its index there. -/
def subtree_keys (w : World Node) (tree : reiserfs_tree) : Nat → Nat → List (key × Nat × Nat)
  | 0, _ => []
  | lvl + 1, blk =>
    match reiserfs_block_read w tree.dal blk with
    | none => []
    | some node =>
      if lvl = 0 then
        (List.range node.data.keys.length).filterMap
          (fun idx => (node.data.keys[idx]?).map (fun k => (k, blk, idx)))
      else
        (List.range (node.data.keys.length + 1)).flatMap
          (fun i => subtree_keys w tree lvl (child_block tree node.data i))

/-- Child `i` of a node with the keys `keys` covers key `k`. With `right_closed`, as the
specification words K2: `keys[i-1] < k ≤ keys[i]`; without, as the descent goes:
`keys[i-1] ≤ k < keys[i]`. A bound that does not exist (`i = 0`, `i = nritems`) holds. -/
def child_covers (comp : key → key → Int) (right_closed : Bool) (keys : List key) (i : Nat)
    (k : key) : Bool :=
  (match (if i = 0 then none else keys[i - 1]?) with
   | none => true
   | some lo => if right_closed then comp lo k = -1 else comp lo k ≤ 0) &&
  (match keys[i]? with
   | none => true
   | some hi => if right_closed then comp k hi ≤ 0 else comp k hi = -1)

instance strictly_increasing_decidable {α : Type} (comp : α → α → Int) (array : List α) :
    Decidable (strictly_increasing comp array) :=
  inferInstanceAs (Decidable (List.Pairwise (fun a b => comp a b = -1) array))

/-- The tree below block `blk` is well formed at level `lvl`: every node is readable and has
the level one below its parent's, its keys are strictly increasing (K1), an internal node
has `nritems + 1` children and child `i` holds only keys it covers (K2). -/
def tree_ok (comp : key → key → Int) (right_closed : Bool) (w : World Node)
    (tree : reiserfs_tree) : Nat → Nat → Bool
  | 0, _ => false
  | lvl + 1, blk =>
    match reiserfs_block_read w tree.dal blk with
    | none => false
    | some node =>
      decide (get_node_level node.data = lvl + 1) &&
      decide (node.data.keys.length < 2 ^ 16) &&
      decide (strictly_increasing comp node.data.keys) &&
      (decide (lvl = 0) ||
        (decide (node.data.children.length = node.data.keys.length + 1) &&
         (List.range (node.data.keys.length + 1)).all (fun i =>
            tree_ok comp right_closed w tree lvl (child_block tree node.data i) &&
            (subtree_keys w tree lvl (child_block tree node.data i)).all
              (fun e => child_covers comp right_closed node.data.keys i e.1))))

/-- An empty path of the capacity `MAX_HEIGHT`. -/
def path_empty : reiserfs_path :=
  { length := 0, max_length := 5, nodes := [none, none, none, none, none] }

/-- Keys (1, 2, off, SD) in version-1 form, used in the concrete trees. -/
def key_at (off : Nat) : key := { k_dirid := 1, k_objid := 2, u := off }

/-- A device with a two-level tree: the internal node of block 20 has the key 5 and the
children 21 and 22; leaf 21 holds the keys 3 and 5, leaf 22 holds the key 7, so that child 0
covers the keys up to and including the delimiting key, as K2 is worded. -/
def tree_example_world_k2 : World Node :=
  { blocksize := fun _ => 4096, len := fun _ => 32,
    data := fun _ b =>
      if b = 20 then { level := 2, keys := [key_at 5], children := [21, 22], bodies := [] }
      else if b = 21 then { level := 1, keys := [key_at 3, key_at 5], children := [], bodies := [] }
      else if b = 22 then { level := 1, keys := [key_at 7], children := [], bodies := [] }
      else { level := 0, keys := [], children := [], bodies := [] },
    read_ok := fun _ _ => true, write_ok := fun _ _ => true }

/-- The same tree with the key 5 in the right leaf, as the descent expects it. -/
def tree_example_world : World Node :=
  { blocksize := fun _ => 4096, len := fun _ => 32,
    data := fun _ b =>
      if b = 20 then { level := 2, keys := [key_at 5], children := [21, 22], bodies := [] }
      else if b = 21 then { level := 1, keys := [key_at 3], children := [], bodies := [] }
      else if b = 22 then { level := 1, keys := [key_at 5, key_at 7], children := [], bodies := [] }
      else { level := 0, keys := [], children := [], bodies := [] },
    read_ok := fun _ _ => true, write_ok := fun _ _ => true }

def tree_example : reiserfs_tree :=
  { dal := 0, offset := 0, sb_tree_height := 3, sb_root_block := 20 }

/-! ## journal.c : boundary transactions -/

/-- The C `struct reiserfs_journal_trans`. -/
structure reiserfs_journal_trans where
  jt_mount_id : Nat
  jt_trans_id : Nat
  jt_desc_blocknr : Nat
  jt_trans_len : Nat
  jt_commit_blocknr : Nat
  jt_next_trans_offset : Nat
deriving DecidableEq, Repr

/-- The function `reiserfs_journal_desc_desc2trans(head, desc, trans)`: the value stored
into `*trans`. -/
def reiserfs_journal_desc_desc2trans (w : World journal_block) (journal : reiserfs_journal)
    (desc : reiserfs_block journal_block) : reiserfs_journal_trans :=
  { jt_mount_id := get_jd_desc_mount_id desc,
    jt_trans_id := get_jd_desc_trans_id desc,
    jt_desc_blocknr := reiserfs_block_get_nr w desc,
    jt_trans_len := get_jd_desc_trans_len desc,
    jt_commit_blocknr := reiserfs_journal_desc_comm w journal desc,
    jt_next_trans_offset :=
      ulong ((reiserfs_journal_desc_next w journal desc : Int) - journal.jp_len) }

/-- The two transaction objects of the caller of `reiserfs_journal_boundary_transactions`,
the only objects of that type that exist during the call. -/
inductive trans_ref where
  | oldest
  | newest
deriving DecidableEq, Repr

/-- The contents of the caller's two transaction objects. -/
structure trans_mem where
  oldest : reiserfs_journal_trans
  newest : reiserfs_journal_trans
deriving DecidableEq, Repr

/-- A store through a pointer to one of the caller's objects. -/
def trans_mem.store (m : trans_mem) (p : trans_ref) (t : reiserfs_journal_trans) : trans_mem :=
  match p with
  | trans_ref.oldest => { m with oldest := t }
  | trans_ref.newest => { m with newest := t }

/-- The C `struct reiserfs_replay_desc` without its gauge; a pointer field that was never
assigned is `none`. -/
structure reiserfs_replay_desc where
  trans : Nat
  oldest_id : Nat
  newest_id : Nat
  oldest_tr : Option trans_ref
  newest_tr : Option trans_ref
deriving DecidableEq, Repr

/-- The body of `callback_journal_replay(journal, desc, comm, number, replay_desc)` with a
NULL gauge: the descriptor and the caller's memory after the call; `none` when the call
stores through a pointer that was never assigned. -/
def callback_journal_replay_body (w : World journal_block) (journal : reiserfs_journal)
    (desc : reiserfs_block journal_block) (rd : reiserfs_replay_desc) (m : trans_mem) :
    Option (reiserfs_replay_desc × trans_mem) :=
  if reiserfs_journal_desc_valid w journal desc = false then some (rd, m)
  else
    let rd1 : reiserfs_replay_desc := { rd with trans := (rd.trans + 1) % 2 ^ 32 }
    let step1 : Option (reiserfs_replay_desc × trans_mem) :=
      if get_jd_desc_trans_id desc < rd1.oldest_id then
        match rd1.oldest_tr with
        | none => none
        | some p =>
          some ({ rd1 with oldest_id := get_jd_desc_trans_id desc },
            m.store p (reiserfs_journal_desc_desc2trans w journal desc))
      else some (rd1, m)
    match step1 with
    | none => none
    | some (rd2, m2) =>
      if get_jd_desc_trans_id desc > rd2.newest_id then
        match rd2.newest_tr with
        | none => none
        | some p =>
          some ({ rd2 with newest_id := get_jd_desc_trans_id desc },
            m2.store p (reiserfs_journal_desc_desc2trans w journal desc))
      else some (rd2, m2)

/-- The function `callback_journal_replay` as a hook of `reiserfs_journal_pipe`: it always
returns 1; once a store went through an unassigned pointer the state is `none`, nothing
later is defined, and the walk is cut short. -/
def callback_journal_replay (w : World journal_block) (journal : reiserfs_journal)
    (desc _comm : reiserfs_block journal_block) (_number : Nat) :
    Option (reiserfs_replay_desc × trans_mem) → Int × Option (reiserfs_replay_desc × trans_mem)
  | none => (0, none)
  | some (rd, m) =>
    match callback_journal_replay_body w journal desc rd m with
    | none => (0, none)
    | some r => (1, some r)

/-- The walk descriptor as `reiserfs_journal_boundary_transactions` sets it up before the
walk: `oldest_id = 0xffffffff`, `newest_id = 0`, `trans = 0`; the two transaction pointers
are not assigned. -/
def replay_desc_init : reiserfs_replay_desc :=
  { trans := 0, oldest_id := 0xffffffff, newest_id := 0, oldest_tr := none, newest_tr := none }

/-- The function `reiserfs_journal_boundary_transactions(journal, oldest, newest)`: the result
and the caller's `*oldest` and `*newest` after the call. The function discards its two
pointer arguments and never assigns `desc.oldest_tr` and `desc.newest_tr`. `none` when
the behaviour is undefined. -/
def reiserfs_journal_boundary_transactions (w : World journal_block)
    (journal : reiserfs_journal) (oldest newest : reiserfs_journal_trans) :
    Option (Nat × reiserfs_journal_trans × reiserfs_journal_trans) :=
  match reiserfs_journal_pipe w journal 0 (some (callback_journal_replay w journal))
      (some (replay_desc_init, { oldest := oldest, newest := newest })) with
  | none => none
  | some (_, none) => none
  | some (r, some (rd, m)) =>
    if r = 0 then some (0, m.oldest, m.newest) else some (rd.trans, m.oldest, m.newest)

/-- A device whose journal ring (start 18, length 8192) holds the one-block transaction 7 in
its first three blocks. -/
def boundary_example_world : World journal_block :=
  { blocksize := fun _ => 4096, len := fun _ => 10000,
    data := fun _ b =>
      if b = 18 then journal_example_desc
      else if b = 19 then journal_example_payload
      else if b = 20 then journal_example_comm
      else { words := [], magic := [] },
    read_ok := fun _ _ => true, write_ok := fun _ _ => true }

def boundary_example : reiserfs_journal :=
  { dal := 0, jh_first_unflushed_offset := 0, jp_start := 18, jp_len := 8192,
    trans_half := 1018 }

/-- The transaction object after `memset(&trans, 0, sizeof(trans))`. -/
def trans_zero : reiserfs_journal_trans :=
  { jt_mount_id := 0, jt_trans_id := 0, jt_desc_blocknr := 0, jt_trans_len := 0,
    jt_commit_blocknr := 0, jt_next_trans_offset := 0 }

/-! ## filesystem.h : the superblock -/

/-- The C `struct reiserfs_journal_params`. -/
structure reiserfs_journal_params where
  jp_start : Nat
  jp_dev : Nat
  jp_len : Nat
  jp_trans_max : Nat
  jp_magic : Nat
  jp_max_batch : Nat
  jp_max_commit_age : Nat
  jp_max_trans_age : Nat
deriving DecidableEq, Repr

/-- The C `struct reiserfs_super` as `fs->super` holds it: the fields of `reiserfs_super_v1`,
label and uuid, and `objectid_map`, the 32-bit words of the block that follow the
superblock structure (what `get_sb_objectid_map` points to). -/
structure reiserfs_super where
  sb_block_count : Nat
  sb_free_blocks : Nat
  sb_root_block : Nat
  sb_journal : reiserfs_journal_params
  sb_block_size : Nat
  sb_oid_maxsize : Nat
  sb_oid_cursize : Nat
  sb_umount_state : Nat
  sb_magic : List Nat
  sb_fs_state : Nat
  sb_hash_function_code : Nat
  sb_tree_height : Nat
  sb_bmap_nr : Nat
  sb_format : Nat
  sb_reserved_for_journal : Nat
  s_uuid : List Nat
  s_label : List Nat
  objectid_map : List Nat
deriving DecidableEq, Repr

/-! ## object.c : the object-id map -/

/-- The value `LE32_TO_CPU(objectids[i])`. -/
def oid_at (objectids : List Nat) (i : Nat) : Nat := objectids.getD i 0 % 2 ^ 32

/-- The store `objectids[i] = CPU_TO_LE32(val)`; `none` when the word lies outside the
block. -/
def oid_put (objectids : List Nat) (i : Nat) (val : Nat) : Option (List Nat) :=
  if i < objectids.length then some (objectids.set i (val % 2 ^ 32)) else none

/-- The call `memmove(objectids + dst, objectids + src, n * sizeof(uint32_t))`; `none` when
one of the two areas leaves the block. -/
def oid_memmove (objectids : List Nat) (dst src n : Nat) : Option (List Nat) :=
  if dst + n ≤ objectids.length ∧ src + n ≤ objectids.length then
    some ((List.range objectids.length).map (fun k =>
      if dst ≤ k ∧ k < dst + n then objectids.getD (k - dst + src) 0
      else objectids.getD k 0))
  else none

/-- The loop of `reiserfs_object_test`: `n` iterations are left, `i` is the loop index. -/
def reiserfs_object_test_loop (objectids : List Nat) (objectid : Nat) : Nat → Nat → Int
  | 0, _ => 0
  | n + 1, i =>
    if objectid = oid_at objectids i then 1
    else if objectid > oid_at objectids i ∧ objectid < oid_at objectids (i + 1) then 1
    else if objectid < oid_at objectids i then 0
    else reiserfs_object_test_loop objectids objectid n (i + 2)

/-- The function `reiserfs_object_test(fs, objectid)` on `fs->super`; `objectid` is a
`uint32_t`. The loop `for (i = 0; i < cursize; i += 2)` has `(cursize + 1) / 2`
iterations. -/
def reiserfs_object_test (super : reiserfs_super) (objectid : Nat) : Int :=
  reiserfs_object_test_loop super.objectid_map objectid ((super.sb_oid_cursize % 2 ^ 16 + 1) / 2) 0

/-- The statements of `reiserfs_object_use` after its loop, reached with `i` at least
`cursize`. -/
def reiserfs_object_use_tail (super : reiserfs_super) (objectid : Nat) (cursize i : Nat) :
    Option (Int × reiserfs_super) :=
  let objectids := super.objectid_map
  if i < super.sb_oid_maxsize % 2 ^ 16 then
    match oid_put objectids i objectid with
    | none => none
    | some o1 =>
      match oid_put o1 (i + 1) (objectid + 1) with
      | none => none
      | some o2 =>
        some (1, { super with objectid_map := o2, sb_oid_cursize := (cursize + 2) % 2 ^ 16 })
  else if i = super.sb_oid_maxsize % 2 ^ 16 then
    if i = 0 then none
    else
      match oid_put objectids (i - 1) (objectid + 1) with
      | none => none
      | some o1 => some (1, { super with objectid_map := o1 })
  else some (0, super)

/-- The loop of `reiserfs_object_use` followed by the statements after it: `n` iterations
are left, `i` is the loop index, `cursize` the local copy of `oid_cursize`. `none` when a
store leaves the block. -/
def reiserfs_object_use_loop (super : reiserfs_super) (objectid : Nat) (cursize : Nat) :
    Nat → Nat → Option (Int × reiserfs_super)
  | 0, i => reiserfs_object_use_tail super objectid cursize i
  | n + 1, i =>
    let objectids := super.objectid_map
    if objectid ≥ oid_at objectids i ∧ objectid < oid_at objectids (i + 1) then some (1, super)
    else if (objectid + 1) % 2 ^ 32 = oid_at objectids i then
      match oid_put objectids i objectid with
      | none => none
      | some o1 => some (1, { super with objectid_map := o1 })
    else if objectid = oid_at objectids (i + 1) then
      match oid_put objectids (i + 1) (oid_at objectids (i + 1) + 1) with
      | none => none
      | some o1 =>
        if i + 2 < cursize ∧ oid_at o1 (i + 1) = oid_at o1 (i + 2) then
          match oid_memmove o1 (i + 1) (i + 1 + 2) (cursize - (i + 2 + 2 - 1)) with
          | none => none
          | some o2 =>
            some (1, { super with objectid_map := o2,
                                  sb_oid_cursize := (cursize - 2) % 2 ^ 16 })
        else some (1, { super with objectid_map := o1 })
    else if objectid < oid_at objectids i then
      if cursize = super.sb_oid_maxsize % 2 ^ 16 then
        match oid_put objectids i objectid with
        | none => none
        | some o1 => some (1, { super with objectid_map := o1 })
      else
        match oid_memmove objectids (i + 2) i (cursize - i) with
        | none => none
        | some o1 =>
          match oid_put o1 i objectid with
          | none => none
          | some o2 =>
            match oid_put o2 (i + 1) (objectid + 1) with
            | none => none
            | some o3 =>
              some (1, { super with objectid_map := o3,
                                    sb_oid_cursize := (cursize + 2) % 2 ^ 16 })
    else reiserfs_object_use_loop super objectid cursize n (i + 2)

/-- The function `reiserfs_object_use(fs, objectid)` on `fs->super`: the result and the
superblock after the call (the caller's filesystem also gets its super-dirty flag set when
the map changed). `objectid` is a `uint32_t`. -/
def reiserfs_object_use (super : reiserfs_super) (objectid : Nat) :
    Option (Int × reiserfs_super) :=
  if reiserfs_object_test super objectid ≠ 0 then some (1, super)
  else
    reiserfs_object_use_loop super objectid (super.sb_oid_cursize % 2 ^ 16)
      ((super.sb_oid_cursize % 2 ^ 16 + 1) / 2) 0

/-- A superblock value with every field zero and no object-id words. -/
def super_zero : reiserfs_super :=
  { sb_block_count := 0, sb_free_blocks := 0, sb_root_block := 0,
    sb_journal := ⟨0, 0, 0, 0, 0, 0, 0, 0⟩, sb_block_size := 0, sb_oid_maxsize := 0,
    sb_oid_cursize := 0, sb_umount_state := 0, sb_magic := [], sb_fs_state := 0,
    sb_hash_function_code := 0, sb_tree_height := 0, sb_bmap_nr := 0, sb_format := 0,
    sb_reserved_for_journal := 0, s_uuid := [], s_label := [], objectid_map := [] }

/-- The first `oid_cursize` words of the map are a strictly increasing sequence of
`[start, end)` pairs and `oid_cursize` is even. -/
def oid_sorted (super : reiserfs_super) : Prop :=
  super.sb_oid_cursize % 2 = 0 ∧ super.sb_oid_cursize < 2 ^ 16 ∧
  ∀ k < super.sb_oid_cursize, k + 1 < super.sb_oid_cursize →
    oid_at super.objectid_map k < oid_at super.objectid_map (k + 1)

instance oid_sorted_decidable (super : reiserfs_super) : Decidable (oid_sorted super) := by
  unfold oid_sorted; infer_instance

/-- The object-id map of a superblock in a block: sorted pairs, `oid_cursize` at most
`oid_maxsize`, a 16-bit field, and the words of the map within one block of at most
64 KiB. -/
def oid_map_wf (super : reiserfs_super) : Prop :=
  oid_sorted super ∧ super.sb_oid_cursize ≤ super.sb_oid_maxsize ∧
  super.sb_oid_maxsize < 2 ^ 16 ∧ super.objectid_map.length ≤ 2 ^ 14

instance oid_map_wf_decidable (super : reiserfs_super) : Decidable (oid_map_wf super) := by
  unfold oid_map_wf; infer_instance

/-- A superblock whose map holds the extents [1, 3) and [10, 20) with room for 8 words. -/
def oid_example : reiserfs_super :=
  { super_zero with sb_oid_maxsize := 8, sb_oid_cursize := 4,
                    objectid_map := [1, 3, 10, 20, 0, 0, 0, 0] }

/-- A superblock whose map holds the one extent [1, 0xffffffff). -/
def oid_example_full : reiserfs_super :=
  { super_zero with sb_oid_maxsize := 8, sb_oid_cursize := 2,
                    objectid_map := [1, 0xffffffff, 0, 0, 0, 0, 0, 0] }

/-! ## Block buffers and their little-endian fields -/

/-- The store of the bytes `vals` at byte offset `off` of a buffer; a buffer is the
function from byte offsets to bytes. -/
def buf_put (b : Nat → Nat) (off : Nat) (vals : List Nat) : Nat → Nat :=
  fun k => if off ≤ k ∧ k < off + vals.length then vals.getD (k - off) 0 % 256 else b k

/-- The call `memset(b + off, 0, n)`. -/
def buf_zero (b : Nat → Nat) (off n : Nat) : Nat → Nat :=
  fun k => if off ≤ k ∧ k < off + n then 0 else b k

/-- The bytes `[off, off + n)` of a buffer. -/
def buf_get (b : Nat → Nat) (off n : Nat) : List Nat :=
  (List.range n).map (fun i => b (off + i) % 256)

/-- Modelled from the spec: `get_le16` of the header endian.h, which is not among the
sources; the little-endian 16-bit field at byte offset `off`. -/
def get_le16 (b : Nat → Nat) (off : Nat) : Nat := b off % 256 + 256 * (b (off + 1) % 256)

/-- Modelled from the spec: `set_le16` of endian.h; the value is cut to 16 bits. -/
def set_le16 (b : Nat → Nat) (off : Nat) (val : Nat) : Nat → Nat :=
  buf_put b off [val % 256, val / 256 % 256]

/-- Modelled from the spec: `get_le32` of endian.h. -/
def get_le32 (b : Nat → Nat) (off : Nat) : Nat :=
  b off % 256 + 256 * (b (off + 1) % 256) + 65536 * (b (off + 2) % 256) +
    16777216 * (b (off + 3) % 256)

/-- Modelled from the spec: `set_le32` of endian.h; the value is cut to 32 bits. -/
def set_le32 (b : Nat → Nat) (off : Nat) (val : Nat) : Nat → Nat :=
  buf_put b off [val % 256, val / 256 % 256, val / 65536 % 256, val / 16777216 % 256]

/-- Modelled from the spec: `get_le64` of endian.h. -/
def get_le64 (b : Nat → Nat) (off : Nat) : Nat :=
  get_le32 b off + 2 ^ 32 * get_le32 b (off + 4)

/-- Modelled from the spec: `set_le64` of endian.h; the value is cut to 64 bits. -/
def set_le64 (b : Nat → Nat) (off : Nat) (val : Nat) : Nat → Nat :=
  set_le32 (set_le32 b off (val % 2 ^ 32)) (off + 4) (val / 2 ^ 32 % 2 ^ 32)

/-- The packed `struct key` at byte offset `off`. -/
def key_load (b : Nat → Nat) (off : Nat) : key :=
  { k_dirid := get_le32 b off, k_objid := get_le32 b (off + 4), u := get_le64 b (off + 8) }

/-- The store of a `struct key` at byte offset `off`. -/
def key_store (b : Nat → Nat) (off : Nat) (k : key) : Nat → Nat :=
  set_le64 (set_le32 (set_le32 b off k.k_dirid) (off + 4) k.k_objid) (off + 8) k.u

/-! ## node.h, object.h, dir.h : the sizes and fields of the packed structures -/

def NDHD_SIZE : Nat := 24
def DE_SIZE : Nat := 16
def SD_V1_SIZE : Nat := 32
def SD_V2_SIZE : Nat := 44
def ITEM_FORMAT_1 : Nat := 0
def ITEM_FORMAT_2 : Nat := 1
def SD_OFFSET : Nat := 0
def DOT_OFFSET : Nat := 1
def DOT_DOT_OFFSET : Nat := 2
def DE_VISIBLE : Nat := 2
def ROOT_DIR_ID : Nat := 1
def ROOT_OBJ_ID : Nat := 2
def S_IFDIR : Nat := 0o40000

/-- The macro `ROUND_UP(x)`, `((x) + 8 - 1u) & ~(8 - 1u)`. -/
def ROUND_UP (x : Nat) : Nat := (x + 7) - (x + 7) % 8

/-- The macro `EMPTY_DIR_V2_SIZE`, with `strlen(".") = 1` and `strlen("..") = 2`. -/
def EMPTY_DIR_V2_SIZE : Nat := DE_SIZE * 2 + ROUND_UP 1 + ROUND_UP 2

def EMPTY_DIR_V1_SIZE : Nat := DE_SIZE * 2 + 3

/-- The macro `get_st_blocks(size)` of tree.c. -/
def get_st_blocks (size : Nat) : Nat := (size + 511) / 512

/-- The byte offset in the block of item head `pos`: `get_ih_item_head(bh, pos)`. -/
def get_ih_item_head (pos : Nat) : Nat := NDHD_SIZE + IH_SIZE * pos

def node_get_level (b : Nat → Nat) : Nat := get_le16 b 0
def node_get_nritems (b : Nat → Nat) : Nat := get_le16 b 2
def node_get_free_space (b : Nat → Nat) : Nat := get_le16 b 4
def get_ih_entry_count (b : Nat → Nat) (ih : Nat) : Nat := get_le16 b (ih + 16)
def get_ih_item_len (b : Nat → Nat) (ih : Nat) : Nat := get_le16 b (ih + 18)
def get_ih_item_location (b : Nat → Nat) (ih : Nat) : Nat := get_le16 b (ih + 20)
def get_ih_item_format (b : Nat → Nat) (ih : Nat) : Nat := get_le16 b (ih + 22)
def get_de_offset (b : Nat → Nat) (de : Nat) : Nat := get_le32 b de
def get_de_dirid (b : Nat → Nat) (de : Nat) : Nat := get_le32 b (de + 4)
def get_de_objid (b : Nat → Nat) (de : Nat) : Nat := get_le32 b (de + 8)
def get_de_location (b : Nat → Nat) (de : Nat) : Nat := get_le16 b (de + 12)
def get_de_state (b : Nat → Nat) (de : Nat) : Nat := get_le16 b (de + 14)

/-- The macro `mark_de_visible(de)`, `reiserfs_tools_set_bit(DE_VISIBLE, &de->de_state)`,
on the two bytes of the field. -/
def mark_de_visible (b : Nat → Nat) (de : Nat) : Nat → Nat :=
  buf_put b (de + 14) (reiserfs_tools_set_bit DE_VISIBLE (buf_get b (de + 14) 2) 0).2

/-! ## tree.c : the empty root directory -/

/-- The function `make_empty_direntry(deh, format, dirid, objid, par_dirid, par_objid)`; `deh`
is the byte offset of the item body in the buffer. -/
def make_empty_direntry (b : Nat → Nat) (deh : Nat) (format dirid objid par_dirid par_objid : Nat) :
    Nat → Nat :=
  let dir_size := if format = FS_FORMAT_3_6 then EMPTY_DIR_V2_SIZE else EMPTY_DIR_V1_SIZE
  let b := buf_zero b deh dir_size
  let b := set_le32 b deh DOT_OFFSET
  let b := set_le32 b (deh + 4) dirid
  let b := set_le32 b (deh + 8) objid
  let b :=
    if format = FS_FORMAT_3_6 then set_le16 b (deh + 12) (EMPTY_DIR_V2_SIZE - ROUND_UP 1)
    else set_le16 b (deh + 12) (EMPTY_DIR_V1_SIZE - 1)
  let b := set_le16 b (deh + 14) 0
  let b := mark_de_visible b deh
  let deh1 := deh + DE_SIZE
  let b := set_le32 b deh1 DOT_DOT_OFFSET
  let b := set_le32 b (deh1 + 4) par_dirid
  let b := set_le32 b (deh1 + 8) par_objid
  let b :=
    if format = FS_FORMAT_3_6 then set_le16 b (deh1 + 12) (get_de_location b deh - ROUND_UP 2)
    else set_le16 b (deh1 + 12) (get_de_location b deh - 2)
  let b := set_le16 b (deh1 + 14) 0
  let b := mark_de_visible b deh1
  let b := buf_put b (deh + get_de_location b deh) [46]
  buf_put b (deh + get_de_location b deh1) [46, 46]

/-- What `make_empty_dir` takes from its environment: `getuid()`, `getgid()` and
`time(NULL)`. -/
structure dir_env where
  uid : Nat
  gid : Nat
  now : Nat
deriving DecidableEq, Repr

/-- The first part of `make_empty_dir(body, format, blocksize, dirid, objid, ...)`: the head
of the stat-data item. `body` is `root->data + NDHD_SIZE`, so the item heads start at byte
`NDHD_SIZE` of the buffer. The macro `set_ih_free_space(ih, val)` stores 0 whatever `val`
is. -/
def make_empty_dir_sd_head (b : Nat → Nat) (format blocksize dirid objid : Nat) : Nat → Nat :=
  let ih := NDHD_SIZE
  let v2 : Bool := format = FS_FORMAT_3_6
  let b := key_store b ih (set_key_objid (set_key_dirid (key_load b ih) dirid) objid)
  let b := set_le16 b (ih + 22) (if v2 then ITEM_FORMAT_2 else ITEM_FORMAT_1)
  let b := key_store b ih
    (if v2 then set_key_v2_type (set_key_v2_offset (key_load b ih) SD_OFFSET) KEY_TYPE_SD
     else set_key_v1_type (set_key_v1_offset (key_load b ih) SD_OFFSET) KEY_UNIQ_SD)
  let b := set_le16 b (ih + 18) (if v2 then SD_V2_SIZE else SD_V1_SIZE)
  let b := set_le16 b (ih + 20)
    (ulong ((blocksize : Int) - (if v2 then SD_V2_SIZE else SD_V1_SIZE)))
  set_le16 b (ih + 16) 0

/-- The second part of `make_empty_dir`, "Fill new stat data": the body of the stat-data
item at byte `sd` of the buffer (`body + get_ih_item_location(ih) - NDHD_SIZE`). -/
def make_stat_data (b : Nat → Nat) (sd format : Nat) (env : dir_env) : Nat → Nat :=
  if format = FS_FORMAT_3_6 then
    let b := set_le16 b sd (S_IFDIR + 0o755)
    let b := set_le32 b (sd + 4) 3
    let b := set_le32 b (sd + 16) env.uid
    let b := set_le32 b (sd + 20) env.gid
    let b := set_le64 b (sd + 8) EMPTY_DIR_V2_SIZE
    let b := set_le32 b (sd + 24) env.now
    let b := set_le32 b (sd + 32) env.now
    let b := set_le32 b (sd + 28) env.now
    let b := set_le32 b (sd + 36) (get_st_blocks EMPTY_DIR_V2_SIZE)
    set_le32 b (sd + 40) 0
  else
    let b := set_le16 b sd (S_IFDIR + 0o755)
    let b := set_le16 b (sd + 2) 3
    let b := set_le16 b (sd + 4) env.uid
    let b := set_le16 b (sd + 6) env.gid
    let b := set_le32 b (sd + 8) EMPTY_DIR_V1_SIZE
    let b := set_le32 b (sd + 12) env.now
    let b := set_le32 b (sd + 20) env.now
    let b := set_le32 b (sd + 16) env.now
    set_le32 b (sd + 24) (get_st_blocks EMPTY_DIR_V1_SIZE)

/-- The third part of `make_empty_dir`, from `ih++` on: the head of the directory item. -/
def make_empty_dir_dr_head (b : Nat → Nat) (format dirid objid : Nat) : Nat → Nat :=
  let ih := NDHD_SIZE
  let ih1 := NDHD_SIZE + IH_SIZE
  let v2 : Bool := format = FS_FORMAT_3_6
  let b := key_store b ih1 (set_key_objid (set_key_dirid (key_load b ih1) dirid) objid)
  let b := set_le16 b (ih1 + 22) (if v2 then ITEM_FORMAT_2 else ITEM_FORMAT_1)
  let b := key_store b ih1
    (if v2 then set_key_v2_type (set_key_v2_offset (key_load b ih1) DOT_OFFSET) KEY_TYPE_DR
     else set_key_v1_type (set_key_v1_offset (key_load b ih1) DOT_OFFSET) KEY_UNIQ_DR)
  let b := set_le16 b (ih1 + 18) (if v2 then EMPTY_DIR_V2_SIZE else EMPTY_DIR_V1_SIZE)
  let b := set_le16 b (ih1 + 20)
    (int32 ((get_ih_item_location b ih : Int) - get_ih_item_len b ih1) % 2 ^ 16).toNat
  set_le16 b (ih1 + 16) 2

/-- The function `make_empty_dir(body, format, blocksize, dirid, objid, par_dirid,
par_objid)`. The parameters `par_dirid` and `par_objid` are not used: the ".." entry is
made for `(0, dirid)`. -/
def make_empty_dir (b : Nat → Nat) (format blocksize dirid objid _par_dirid _par_objid : Nat)
    (env : dir_env) : Nat → Nat :=
  let b := make_empty_dir_sd_head b format blocksize dirid objid
  let b := make_stat_data b (get_ih_item_location b NDHD_SIZE) format env
  let b := make_empty_dir_dr_head b format dirid objid
  make_empty_direntry b (get_ih_item_location b (NDHD_SIZE + IH_SIZE)) format dirid objid 0
    dirid

/-- The buffer of the root node in `reiserfs_tree_create` before `make_empty_dir`: the
zeroed block of `reiserfs_tree_node_alloc(tree, 2)` with its node head (level 2, no items),
then the node head of a leaf with two items. `blocksize` and `format` are
`get_sb_block_size(fs->super)` and `get_sb_format(fs->super)`. -/
def tree_create_head (format blocksize : Nat) : Nat → Nat :=
  let b : Nat → Nat := fun _ => 0
  let b := set_le16 b 0 2
  let b := set_le16 b 2 0
  let b := set_le16 b 4 (ulong ((blocksize : Int) - NDHD_SIZE))
  let b := set_le16 b 0 LEAF_LEVEL
  let b := set_le16 b 2 2
  set_le16 b 4 (ulong ((blocksize : Int) - NDHD_SIZE - 2 * IH_SIZE -
    (if format = FS_FORMAT_3_6 then SD_V2_SIZE else SD_V1_SIZE) -
    (if format = FS_FORMAT_3_6 then EMPTY_DIR_V2_SIZE else EMPTY_DIR_V1_SIZE)))

/-- The root block `reiserfs_tree_create` writes: the call
`make_empty_dir(root->data + NDHD_SIZE, format, blocksize, ROOT_DIR_ID, ROOT_OBJ_ID, 0,
ROOT_DIR_ID)` on the buffer with the node head. -/
def tree_create_root (format blocksize : Nat) (env : dir_env) : Nat → Nat :=
  make_empty_dir (tree_create_head format blocksize) format blocksize ROOT_DIR_ID ROOT_OBJ_ID 0
    ROOT_DIR_ID env
/-- The name of entry `pos` of the directory item with head `ih`, as `reiserfs_dir_entry_create`
copies it: the bytes from the entry's location up to the location of the entry before it
(up to the item length for entry 0), read as a C string. -/
def dir_entry_name (b : Nat → Nat) (ih pos : Nat) : List Nat :=
  let body := get_ih_item_location b ih
  let loc := get_de_location b (body + DE_SIZE * pos)
  let stop := if pos = 0 then get_ih_item_len b ih
    else get_de_location b (body + DE_SIZE * (pos - 1))
  (buf_get b (body + loc) (stop - loc)).takeWhile (fun c => c ≠ 0)

/-- What a reader sees of a leaf with two items whose second item is a directory item with
two entries: the node head, the two item heads and the two entries. -/
structure root_view where
  level : Nat
  nritems : Nat
  key0 : key
  len0 : Nat
  loc0 : Nat
  key1 : key
  entry_count : Nat
  len1 : Nat
  loc1 : Nat
  de0 : Nat × Nat × Nat
  name0 : List Nat
  de1 : Nat × Nat × Nat
  name1 : List Nat
deriving DecidableEq, Repr

/-- The view of the leaf in buffer `b`; an entry is `(de_offset, de_dirid, de_objid)`. -/
def root_view_of (b : Nat → Nat) : root_view :=
  { level := node_get_level b,
    nritems := node_get_nritems b,
    key0 := key_load b (get_ih_item_head 0),
    len0 := get_ih_item_len b (get_ih_item_head 0),
    loc0 := get_ih_item_location b (get_ih_item_head 0),
    key1 := key_load b (get_ih_item_head 1),
    entry_count := get_ih_entry_count b (get_ih_item_head 1),
    len1 := get_ih_item_len b (get_ih_item_head 1),
    loc1 := get_ih_item_location b (get_ih_item_head 1),
    de0 := (get_de_offset b (get_ih_item_location b (get_ih_item_head 1)),
      get_de_dirid b (get_ih_item_location b (get_ih_item_head 1)),
      get_de_objid b (get_ih_item_location b (get_ih_item_head 1))),
    name0 := dir_entry_name b (get_ih_item_head 1) 0,
    de1 := (get_de_offset b (get_ih_item_location b (get_ih_item_head 1) + DE_SIZE),
      get_de_dirid b (get_ih_item_location b (get_ih_item_head 1) + DE_SIZE),
      get_de_objid b (get_ih_item_location b (get_ih_item_head 1) + DE_SIZE)),
    name1 := dir_entry_name b (get_ih_item_head 1) 1 }

/-- The leaf of an empty root directory in a block of `blocksize` bytes: a leaf with the
stat-data item (1, 2, 0, SD) and the directory item (1, 2, 1, DR) of the two entries "."
(offset 1, for (1, 2)) and ".." (offset 2, for (0, 1)), the keys increasing, the two item
bodies at the end of the block, one after the other, behind the two item heads. -/
def root_view_ok (blocksize : Nat) (v : root_view) : Prop :=
  v.level = LEAF_LEVEL ∧ v.nritems = 2 ∧
  key_decode v.key0 = (1, 2, 0, KEY_TYPE_SD) ∧
  key_decode v.key1 = (1, 2, 1, KEY_TYPE_DR) ∧
  v.entry_count = 2 ∧
  v.de0 = (1, 1, 2) ∧ v.name0 = [46] ∧
  v.de1 = (2, 0, 1) ∧ v.name1 = [46, 46] ∧
  reiserfs_key_comp_four_components v.key0 v.key1 = -1 ∧
  get_ih_item_head 2 ≤ v.loc1 ∧ v.loc1 + v.len1 = v.loc0 ∧ v.loc0 + v.len0 = blocksize

instance root_view_ok_decidable (blocksize : Nat) (v : root_view) :
    Decidable (root_view_ok blocksize v) := by
  unfold root_view_ok; infer_instance

/-- The bytes a reader of the leaf view touches lie below `lo`. -/
def root_view_below (lo : Nat) (b : Nat → Nat) : Prop :=
  get_ih_item_head 2 ≤ lo ∧
  get_ih_item_location b (get_ih_item_head 1) + 2 * DE_SIZE ≤ lo ∧
  get_ih_item_location b (get_ih_item_head 1) + get_ih_item_len b (get_ih_item_head 1) ≤ lo ∧
  get_ih_item_location b (get_ih_item_head 1) +
    get_de_location b (get_ih_item_location b (get_ih_item_head 1)) ≤ lo ∧
  get_ih_item_location b (get_ih_item_head 1) +
    get_de_location b (get_ih_item_location b (get_ih_item_head 1) + DE_SIZE) ≤ lo

instance root_view_below_decidable (lo : Nat) (b : Nat → Nat) :
    Decidable (root_view_below lo b) := by
  unfold root_view_below; infer_instance

/-- The environment with uid 0, gid 0 at time 0. -/
def dir_env_zero : dir_env := ⟨0, 0, 0⟩

/-- The byte offset of the stat-data body in the root block of `tree_create_root`. -/
def root_sd_offset (format blocksize : Nat) : Nat :=
  get_ih_item_location
    (make_empty_dir_sd_head (tree_create_head format blocksize) format blocksize ROOT_DIR_ID
      ROOT_OBJ_ID) NDHD_SIZE

/-- Everything `tree_create_root` writes besides the stat-data body, and everything a
reader of the leaf view touches, lies below the stat-data body. -/
def root_frame_ok (format blocksize : Nat) : Prop :=
  72 ≤ root_sd_offset format blocksize ∧
  get_ih_item_location (make_empty_dir_dr_head
      (make_stat_data
        (make_empty_dir_sd_head (tree_create_head format blocksize) format blocksize
          ROOT_DIR_ID ROOT_OBJ_ID)
        (root_sd_offset format blocksize) format dir_env_zero) format ROOT_DIR_ID ROOT_OBJ_ID)
      (NDHD_SIZE + IH_SIZE) + 32 ≤ root_sd_offset format blocksize ∧
  root_view_below (root_sd_offset format blocksize)
    (tree_create_root format blocksize dir_env_zero)

instance root_frame_ok_decidable (format blocksize : Nat) :
    Decidable (root_frame_ok format blocksize) := by
  unfold root_frame_ok; infer_instance

/-! ## object.c : the stat data as it is read back -/

def LINUX_S_IFMT : Nat := 0o170000
def LINUX_S_IFDIR : Nat := 0o040000

/-- The macro `LINUX_S_ISDIR(m)`. -/
def LINUX_S_ISDIR (m : Nat) : Bool := (m &&& LINUX_S_IFMT) = LINUX_S_IFDIR

/-- The fields of `object->stat` that `object_fill_stat` takes from the stat-data item. -/
structure object_stat where
  st_mode : Nat
  st_nlink : Nat
  st_uid : Nat
  st_gid : Nat
  st_rdev : Nat
  st_size : Nat
  st_blocks : Nat
  st_atime : Nat
  st_mtime : Nat
  st_ctime : Nat
deriving DecidableEq, Repr

/-- The function `object_fill_stat(object, format, sd)`, `sd` being the byte offset of the
item body in the buffer: the fields it reads from a version 1 or a version 2 stat data.
For a version 2 item `st_blocks` is not assigned and keeps the 0 of the `memset`. (`st_ino`
and `st_blksize` come from the object, not from the item.) -/
def object_fill_stat (b : Nat → Nat) (format sd : Nat) : object_stat :=
  if format = ITEM_FORMAT_1 then
    { st_mode := get_le16 b sd,
      st_nlink := get_le16 b (sd + 2),
      st_uid := get_le16 b (sd + 4),
      st_gid := get_le16 b (sd + 6),
      st_rdev := get_le32 b (sd + 24),
      st_size := get_le32 b (sd + 8),
      st_blocks := get_le32 b (sd + 24),
      st_atime := get_le32 b (sd + 12),
      st_mtime := get_le32 b (sd + 16),
      st_ctime := get_le32 b (sd + 20) }
  else
    { st_mode := get_le16 b sd,
      st_nlink := get_le32 b (sd + 4),
      st_uid := get_le32 b (sd + 16),
      st_gid := get_le32 b (sd + 20),
      st_rdev := get_le32 b (sd + 40),
      st_size := get_le64 b (sd + 8),
      st_blocks := 0,
      st_atime := get_le32 b (sd + 24),
      st_mtime := get_le32 b (sd + 28),
      st_ctime := get_le32 b (sd + 32) }

/-- The stat data `reiserfs_object_find_stat` fills in from the item at position `pos` of
a leaf: `object_fill_stat(object, get_ih_item_format(item), get_ih_item_body(node, item))`. -/
def leaf_item_stat (b : Nat → Nat) (pos : Nat) : object_stat :=
  object_fill_stat b (get_ih_item_format b (get_ih_item_head pos))
    (get_ih_item_location b (get_ih_item_head pos))

/-- The directory item of `tree_create_root` ends where the stat-data body starts. -/
def root_body_ok (format blocksize : Nat) : Prop :=
  get_ih_item_location (make_empty_dir_dr_head
      (make_stat_data
        (make_empty_dir_sd_head (tree_create_head format blocksize) format blocksize
          ROOT_DIR_ID ROOT_OBJ_ID)
        (root_sd_offset format blocksize) format dir_env_zero) format ROOT_DIR_ID ROOT_OBJ_ID)
      (NDHD_SIZE + IH_SIZE) +
    (if format = FS_FORMAT_3_6 then EMPTY_DIR_V2_SIZE else EMPTY_DIR_V1_SIZE) ≤
    root_sd_offset format blocksize

instance root_body_ok_decidable (format blocksize : Nat) :
    Decidable (root_body_ok format blocksize) := by
  unfold root_body_ok; infer_instance

/-! ## journal.c : journal parameters -/

/-- The constants of the header journal.h, which is not among the sources; they are taken
as given. -/
structure journal_consts where
  JOURNAL_MIN_SIZE : Nat
  JOURNAL_MAX_TRANS : Nat
  JOURNAL_MIN_TRANS : Nat
  JOURNAL_MAX_BATCH : Nat
  JOURNAL_MIN_RATIO : Nat
  JOURNAL_MAX_COMMIT_AGE : Nat
  JOURNAL_MAX_TRANS_AGE : Nat
deriving DecidableEq, Repr

/-- The values these constants have in reiserfs 3.6. -/
def journal_consts_reference : journal_consts :=
  { JOURNAL_MIN_SIZE := 512, JOURNAL_MAX_TRANS := 1024, JOURNAL_MIN_TRANS := 256,
    JOURNAL_MAX_BATCH := 900, JOURNAL_MIN_RATIO := 2, JOURNAL_MAX_COMMIT_AGE := 30,
    JOURNAL_MAX_TRANS_AGE := 30 }

def DEFAULT_SUPER_OFFSET : Nat := 64 * 1024
def FS_CLEAN : Nat := 1
def FS_DIRTY : Nat := 2
def FS_CONSISTENT : Nat := 0
def FS_CORRUPTED : Nat := 1

/-- The function `reiserfs_journal_max_trans(max_trans, len, blocksize)`; `none` when it
divides by zero. -/
def reiserfs_journal_max_trans (jc : journal_consts) (max_trans len blocksize : Nat) :
    Option Nat :=
  if blocksize < 4096 ∧ blocksize = 0 then none
  else
    let ratio : Nat := if blocksize < 4096 then (4096 / blocksize) % 2 ^ 32 else 1
    if ratio = 0 then none
    else
      let max_trans := if max_trans = 0 then jc.JOURNAL_MAX_TRANS / ratio else max_trans
      if max_trans = 0 then none
      else
        let max_trans :=
          if len / max_trans < jc.JOURNAL_MIN_RATIO then len / jc.JOURNAL_MIN_RATIO
          else max_trans
        let max_trans :=
          if max_trans > jc.JOURNAL_MAX_TRANS / ratio then jc.JOURNAL_MAX_TRANS / ratio
          else max_trans
        let max_trans :=
          if max_trans < jc.JOURNAL_MIN_TRANS / ratio then jc.JOURNAL_MIN_TRANS / ratio
          else max_trans
        some (max_trans % 2 ^ 32)

/-- The function `reiserfs_journal_max_len(dal, start, relocated)`: the product
`dal_get_blocksize(dal) * 8` is evaluated in `unsigned`, the subtractions in `blk_t`. -/
def reiserfs_journal_max_len {β : Type} (w : World β) (dal start : Nat) (relocated : Bool) :
    Nat :=
  if relocated then ulong ((w.len dal : Int) - start - 1)
  else ulong (((w.blocksize dal * 8) % 2 ^ 32 : Nat) - (start : Int) - 1)

/-- The function `reiserfs_journal_params_check(dal, start, len, relocated)`. With a device
block size of 0 the C code divides by zero for a journal on the host device; the quotient
is 0 here and the theorems on this function take the block size as non-zero. -/
def reiserfs_journal_params_check {β : Type} (jc : journal_consts) (w : World β)
    (dal start len : Nat) (relocated : Bool) : Int :=
  if relocated = false ∧ start ≠ 0 ∧ start ≠ DEFAULT_SUPER_OFFSET / w.blocksize dal + 2 then 0
  else if len > reiserfs_journal_max_len w dal start relocated then 0
  else if len ≠ 0 ∧ len < jc.JOURNAL_MIN_SIZE then 0
  else 1

/-- The function `reiserfs_journal_params_update(params, start, len, max_trans, dev,
blocksize)`; `magic` is the value of `reiserfs_tools_random()`. `none` when a division by
zero is met. -/
def reiserfs_journal_params_update (jc : journal_consts) (params : reiserfs_journal_params)
    (start len max_trans dev blocksize magic : Nat) : Option reiserfs_journal_params :=
  match reiserfs_journal_max_trans jc max_trans len blocksize with
  | none => none
  | some mt =>
    if jc.JOURNAL_MAX_TRANS = 0 then none
    else
      some { params with
        jp_start := start % 2 ^ 32, jp_len := len % 2 ^ 32, jp_trans_max := mt,
        jp_magic := magic % 2 ^ 32,
        jp_max_batch := (max_trans * jc.JOURNAL_MAX_BATCH % 2 ^ 64 / jc.JOURNAL_MAX_TRANS) % 2 ^ 32,
        jp_max_commit_age := jc.JOURNAL_MAX_COMMIT_AGE % 2 ^ 32,
        jp_max_trans_age := jc.JOURNAL_MAX_TRANS_AGE % 2 ^ 32,
        jp_dev := dev % 2 ^ 32 }

/-- The C `struct reiserfs_journal_head`. -/
structure reiserfs_journal_head where
  jh_last_flush_trans_id : Nat
  jh_first_unflushed_offset : Nat
  jh_mount_id : Nat
  jh_params : reiserfs_journal_params
deriving DecidableEq, Repr

/-- The C `struct reiserfs_journal` as a filesystem holds it: the device and the head. -/
structure reiserfs_journal_t where
  dal : Nat
  head : reiserfs_journal_head
deriving DecidableEq, Repr

/-! ## core.c : the filesystem -/

/-- What a block of a device holds, as far as the library writes it: a block filled with one
byte, a tree node, a superblock, a journal head, or a block of the bitmap. -/
inductive block_image where
  | fill (c : Nat)
  | node (bytes : Nat → Nat)
  | super (sb : reiserfs_super)
  | journal_head (head : reiserfs_journal_head)
  | bitmap (bytes : List Nat)

/-- The C `struct reiserfs_fs`: the device, the tree (its `offset`, when opened), the
superblock, the bitmap and the journal (absent when NULL), `super_off`, and the three dirty
bits of `flags`. -/
structure reiserfs_fs_t where
  dal : Nat
  tree : Option Int
  super : Option reiserfs_super
  bitmap : Option reiserfs_bitmap
  journal : Option reiserfs_journal_t
  super_off : Nat
  super_dirty : Bool
  bitmap_dirty : Bool
  journal_dirty : Bool
deriving DecidableEq, Repr

/-- The filesystem structure after `libreiserfs_calloc(sizeof(*fs), 0)` and
`fs->dal = host_dal`. -/
def fs_calloc (host_dal : Nat) : reiserfs_fs_t :=
  { dal := host_dal, tree := none, super := none, bitmap := none, journal := none,
    super_off := 0, super_dirty := false, bitmap_dirty := false, journal_dirty := false }

/-- The function `reiserfs_fs_bitmap_use_block(fs, block)` on the whole filesystem
structure. -/
def fs_bitmap_use_block (fs : reiserfs_fs_t) (block : Nat) : reiserfs_fs_t :=
  match fs.bitmap with
  | none => fs
  | some bitmap => { fs with bitmap := some (reiserfs_bitmap_use_block bitmap block),
                             bitmap_dirty := true }

/-- The function `reiserfs_fs_bitmap_find_free_block(fs, start)` on the whole filesystem
structure. -/
def fs_bitmap_find_free_block (fs : reiserfs_fs_t) (start : Nat) : Option Nat :=
  match fs.bitmap with
  | none => some 0
  | some bitmap => reiserfs_bitmap_find_free bitmap start

/-- The function `reiserfs_tools_power_of_two(value)`, `(value & -value) == value` on an
`unsigned long`. -/
def reiserfs_tools_power_of_two (value : Nat) : Bool :=
  (value % 2 ^ 64) &&& ((2 ^ 64 - value % 2 ^ 64) % 2 ^ 64) = value % 2 ^ 64

/-- The function `reiserfs_fs_create_check(host_dal, ..., blocksize, ..., fs_len, relocated)`. -/
def reiserfs_fs_create_check {β : Type} (w : World β) (host_dal len blocksize fs_len : Nat)
    (relocated : Bool) : Int :=
  if reiserfs_tools_power_of_two blocksize = false then 0
  else if blocksize < 1024 then 0
  else if blocksize > DEFAULT_SUPER_OFFSET then 0
  else if fs_len = 0 then 0
  else if fs_len > w.len host_dal then 0
  else
    let tree_start := (DEFAULT_SUPER_OFFSET / w.blocksize host_dal + 2 +
      (if relocated then 0 else len + 1)) % 2 ^ 64
    if fs_len ≤ (tree_start + 100) % 2 ^ 64 then 0 else 1

/-- The function `reiserfs_bitmap_create(fs, start, len)`; `blocksize` is
`dal_get_blocksize(fs->dal)`. -/
def reiserfs_bitmap_create (blocksize start len : Nat) : reiserfs_bitmap :=
  let bitmap := { reiserfs_bitmap_alloc len with start := start }
  let bitmap := reiserfs_bitmap_use_block bitmap start
  let bmap_blknr := ((len + 2 ^ 64 - 1) % 2 ^ 64 / (blocksize * 8 % 2 ^ 32) + 1) % 2 ^ 64
  (List.range' 1 (bmap_blknr - 1)).foldl
    (fun bm i => reiserfs_bitmap_use_block bm (i * blocksize * 8 % 2 ^ 64)) bitmap

/-- The function `reiserfs_fs_bitmap_create(fs, blocksize, fs_len)`: the result and the
filesystem. -/
def reiserfs_fs_bitmap_create {β : Type} (w : World β) (fs : reiserfs_fs_t)
    (blocksize fs_len : Nat) : Int × reiserfs_fs_t :=
  match fs.bitmap with
  | some _ => (0, fs)
  | none =>
    (1, { fs with
      bitmap := some (reiserfs_bitmap_create (w.blocksize fs.dal)
        ((DEFAULT_SUPER_OFFSET / blocksize + 1) % 2 ^ 64) fs_len),
      bitmap_dirty := false })
/-- What the creation of a filesystem takes from its environment: uid, gid and time for the
root directory, the two values of `reiserfs_tools_random()` (one for the journal
parameters of the superblock, one for the journal head) and `dal_stat` of a device. -/
structure fs_env where
  dir : dir_env
  random_super : Nat
  random_journal : Nat
  dal_stat : Nat → Nat

/-- The function `reiserfs_segment_fill(segment, c, reiserfs_callback_segment_gauge, gauge)`
for the segment of `n` blocks from `start`: `none` is the result 0, otherwise the devices
after the writes. -/
def reiserfs_segment_fill (w : World block_image) (dal start : Nat) (c : Nat) :
    Nat → Option (World block_image)
  | 0 => some w
  | n + 1 =>
    match reiserfs_segment_fill w dal start c n with
    | none => none
    | some w1 =>
      if w1.write_ok dal ((start + n) % 2 ^ 64) = false then none
      else some (w1.put dal ((start + n) % 2 ^ 64) (block_image.fill c))

/-- The function `reiserfs_fs_clobber_skipped(dal)`: the 64 blocks of 1024 bytes it fills
with zeros are the blocks below `DEFAULT_SUPER_OFFSET / blocksize` of the device at its own
block size. -/
def reiserfs_fs_clobber_skipped (w : World block_image) (dal : Nat) :
    Option (World block_image) :=
  reiserfs_segment_fill w dal 0 0 (DEFAULT_SUPER_OFFSET / w.blocksize dal)

def SUPER_V1_SIZE : Nat := 76
def SUPER_V2_SIZE : Nat := 204

def REISERFS_3_5_SUPER_SIGNATURE : List Nat := [82, 101, 73, 115, 69, 114, 70, 115, 0]
def REISERFS_3_6_SUPER_SIGNATURE : List Nat := [82, 101, 73, 115, 69, 114, 50, 70, 115, 0]
def REISERFS_JR_SUPER_SIGNATURE : List Nat := [82, 101, 73, 115, 69, 114, 51, 70, 115, 0]

/-- The copy `memcpy(dst, src, n)` into the start of a byte array. -/
def bytes_copy (dst src : List Nat) : List Nat := src ++ dst.drop src.length

/-- The function `reiserfs_fs_super_magic_update(super, format, relocated)`. -/
def reiserfs_fs_super_magic_update (super : reiserfs_super) (format : Nat)
    (relocated : Bool) : reiserfs_super :=
  if relocated = false then
    if format = FS_FORMAT_3_5 then
      { super with sb_magic := bytes_copy super.sb_magic REISERFS_3_5_SUPER_SIGNATURE }
    else if format = FS_FORMAT_3_6 then
      { super with sb_magic := bytes_copy super.sb_magic REISERFS_3_6_SUPER_SIGNATURE }
    else super
  else { super with sb_magic := bytes_copy super.sb_magic REISERFS_JR_SUPER_SIGNATURE }

/-- The copy of a C string into a 16-byte field, as `reiserfs_fs_super_create` does it for
label and uuid: nothing for NULL or the empty string, otherwise at most 15 bytes. -/
def super_copy_name (field : List Nat) (name : Option (List Nat)) : List Nat :=
  match name with
  | none => field
  | some s =>
    if s.length = 0 then field
    else bytes_copy field (s.take (if s.length < 16 then s.length else 15))

/-- The superblock in a zeroed buffer of `blocksize` bytes; the object-id map takes the
words that follow the structure of the format. -/
def super_calloc (blocksize format : Nat) : reiserfs_super :=
  { super_zero with
    sb_magic := List.replicate 10 0, s_uuid := List.replicate 16 0,
    s_label := List.replicate 16 0,
    objectid_map := List.replicate
      ((blocksize - (if format = FS_FORMAT_3_6 then SUPER_V2_SIZE else SUPER_V1_SIZE)) / 4) 0 }

/-- The fields `reiserfs_fs_super_create` stores into the zeroed block of the superblock
before it sets the journal parameters. -/
def super_create_fields (format hash : Nat) (label uuid : Option (List Nat))
    (blocksize len fs_len : Nat) (relocated : Bool) : reiserfs_super :=
  let sb_blk := DEFAULT_SUPER_OFFSET / blocksize
  let sb := super_calloc blocksize format
  let sb := { sb with sb_umount_state := FS_CLEAN }
  let sb := { sb with sb_block_count := fs_len % 2 ^ 32 }
  let sb := { sb with
    sb_bmap_nr := (((fs_len + 2 ^ 64 - 1) % 2 ^ 64) / (8 * blocksize % 2 ^ 64) + 1) % 2 ^ 16 }
  let sb := { sb with
    sb_free_blocks := (ulong ((fs_len : Int) - sb_blk - 1 -
      (if relocated then 0 else ((len + 1) % 2 ^ 64 : Nat)) - sb.sb_bmap_nr - 1)) % 2 ^ 32 }
  let sb := { sb with sb_format := format % 2 ^ 16 }
  let sb := { sb with sb_block_size := blocksize % 2 ^ 16 }
  let sb := { sb with sb_fs_state := FS_CONSISTENT }
  let sb := { sb with sb_hash_function_code := hash % 2 ^ 32 }
  let sb := reiserfs_fs_super_magic_update sb format relocated
  let sb := { sb with
    sb_oid_maxsize :=
      (ulong ((blocksize : Int) -
        (if format = FS_FORMAT_3_6 then SUPER_V2_SIZE else SUPER_V1_SIZE)) / 4 / 2 * 2) %
        2 ^ 16 }
  let sb := { sb with s_label := super_copy_name sb.s_label label }
  { sb with s_uuid := super_copy_name sb.s_uuid uuid }

/-- The superblock after its journal parameters, the structure `get_sb_jp(sb)` points to,
are replaced. -/
def super_with_journal (sb : reiserfs_super) (jp : reiserfs_journal_params) : reiserfs_super :=
  { sb with sb_journal := jp }

/-- The function `reiserfs_fs_super_create(fs, format, hash, label, uuid, blocksize, start,
len, fs_len, relocated)`: the outer `none` when a division by zero is met, otherwise the
result, the filesystem and the devices. -/
def reiserfs_fs_super_create (jc : journal_consts) (env : fs_env) (w : World block_image)
    (fs : reiserfs_fs_t) (format hash : Nat) (label uuid : Option (List Nat))
    (blocksize start len fs_len : Nat) (relocated : Bool) :
    Option (Int × reiserfs_fs_t × World block_image) :=
  if fs.bitmap.isNone then some (0, fs, w)
  else
    match reiserfs_fs_clobber_skipped w fs.dal with
    | none => some (0, fs, w)
    | some w1 =>
      if blocksize = 0 then none
      else
        let sb_blk := DEFAULT_SUPER_OFFSET / blocksize
        let sb := super_create_fields format hash label uuid blocksize len fs_len relocated
        match reiserfs_journal_params_update jc sb.sb_journal start len 0
            (if relocated then 1 else 0) sb.sb_block_size env.random_super with
        | none => none
        | some jp =>
          let fs1 := { fs with super := some (super_with_journal sb jp), super_off := sb_blk }
          let fs2 := (List.range (sb_blk + 1)).foldl fs_bitmap_use_block fs1
          some (1, { fs2 with super_dirty := true, bitmap_dirty := true }, w1)

/-- The function `reiserfs_journal_create(dal, start, len, max_trans, relocated)`: the outer
`none` when a division by zero is met, the inner `none` for the NULL result. -/
def reiserfs_journal_create (jc : journal_consts) (env : fs_env) (w : World block_image)
    (dal start len max_trans : Nat) (relocated : Bool) :
    Option (Option reiserfs_journal_t × World block_image) :=
  if reiserfs_journal_params_check jc w dal start len relocated = 0 then some (none, w)
  else
    match reiserfs_segment_fill w dal start 0
        (reiserfs_segment_len ⟨dal, start, (start + len) % 2 ^ 64⟩) with
    | none => some (none, w)
    | some w1 =>
      if relocated = true ∧ env.dal_stat dal % 2 ^ 32 = 0 then some (none, w1)
      else
        let dev := if relocated then env.dal_stat dal % 2 ^ 32 else 0
        match reiserfs_journal_params_update jc ⟨0, 0, 0, 0, 0, 0, 0, 0⟩ start len max_trans dev
            (w1.blocksize dal) env.random_journal with
        | none => none
        | some jp =>
          let head : reiserfs_journal_head := ⟨0, 0, 0, jp⟩
          if w1.write_ok dal ((start + len) % 2 ^ 64) = false then some (none, w1)
          else
            some (some { dal := dal, head := head },
              w1.put dal ((start + len) % 2 ^ 64) (block_image.journal_head head))

/-- The function `reiserfs_fs_journal_create(fs, dal, start, len, max_trans)`; `dal` is
`none` for a NULL device. -/
def reiserfs_fs_journal_create (jc : journal_consts) (env : fs_env) (w : World block_image)
    (fs : reiserfs_fs_t) (dal : Option Nat) (start len max_trans : Nat) :
    Option (Int × reiserfs_fs_t × World block_image) :=
  if fs.journal.isSome then some (0, fs, w)
  else if fs.bitmap.isNone then some (0, fs, w)
  else
    let relocated : Bool :=
      match dal with
      | none => false
      | some d => d ≠ fs.dal
    let start := if relocated then start else (fs.super_off + 2) % 2 ^ 64
    match reiserfs_journal_create jc env w (dal.getD fs.dal) start len max_trans relocated with
    | none => none
    | some (none, w1) => some (0, fs, w1)
    | some (some journal, w1) =>
      match fs.super with
      | none => none
      | some sb =>
        let fs1 := { fs with journal := some journal,
                             super := some (super_with_journal sb journal.head.jh_params) }
        let fs2 :=
          if relocated = false then
            (List.range' start ((len + 1) % 2 ^ 64)).foldl fs_bitmap_use_block fs1
          else fs1
        some (1, { fs2 with journal_dirty := false }, w1)
/-- The function `reiserfs_object_use(fs, objectid)` on the whole filesystem structure: the
superblock becomes dirty when the map is changed. -/
def fs_object_use (fs : reiserfs_fs_t) (objectid : Nat) : Option (Int × reiserfs_fs_t) :=
  match fs.super with
  | none => none
  | some sb =>
    match reiserfs_object_use sb objectid with
    | none => none
    | some (r, sb1) =>
      some (r, { fs with super := some sb1,
                         super_dirty := fs.super_dirty || decide (sb1 ≠ sb) })

/-- The function `reiserfs_tree_create(fs)`: the outer `none` when the behaviour is undefined,
otherwise the tree (its `offset`; `none` for NULL), the filesystem and the devices. -/
def reiserfs_tree_create (env : fs_env) (w : World block_image) (fs : reiserfs_fs_t) :
    Option (Option Int × reiserfs_fs_t × World block_image) :=
  match fs_bitmap_find_free_block fs 1 with
  | none => none
  | some blk =>
    if blk = 0 then some (none, fs, w)
    else
      match fs.super with
      | none => none
      | some sb =>
        let root : reiserfs_block block_image :=
          { dal := fs.dal,
            data := block_image.node
              (tree_create_root (sb.sb_format % 2 ^ 16) (sb.sb_block_size % 2 ^ 16) env.dir),
            offset := (blk * w.blocksize fs.dal) % 2 ^ 64, dirty := 0 }
        match reiserfs_block_write w fs.dal root with
        | none => some (none, fs, w)
        | some w1 =>
          let root_blk := reiserfs_block_get_nr w root
          let fs1 := fs_bitmap_use_block fs root_blk
          match fs_object_use fs1 ROOT_DIR_ID with
          | none => none
          | some (_, fs2) =>
            match fs_object_use fs2 ROOT_OBJ_ID with
            | none => none
            | some (_, fs3) =>
              match fs3.super with
              | none => none
              | some sb3 =>
                let sb4 := { sb3 with sb_tree_height := 2 % 2 ^ 16 }
                let sb5 := { sb4 with sb_root_block := root_blk % 2 ^ 32 }
                some (some 0, { fs3 with super := some sb5, super_dirty := true }, w1)

/-- The function `reiserfs_fs_tree_create(fs)`. -/
def reiserfs_fs_tree_create (env : fs_env) (w : World block_image) (fs : reiserfs_fs_t) :
    Option (Int × reiserfs_fs_t × World block_image) :=
  if fs.bitmap.isNone then some (0, fs, w)
  else
    match reiserfs_tree_create env w fs with
    | none => none
    | some (none, fs1, w1) => some (0, { fs1 with tree := none }, w1)
    | some (some tree, fs1, w1) => some (1, { fs1 with tree := some tree }, w1)

/-- The function `reiserfs_fs_super_sync(fs)`; `none` when `fs->super` is NULL. -/
def reiserfs_fs_super_sync (w : World block_image) (fs : reiserfs_fs_t) :
    Option (Int × reiserfs_fs_t × World block_image) :=
  match fs.super with
  | none => none
  | some sb =>
    if w.write_ok fs.dal fs.super_off = false then some (0, fs, w)
    else
      some (1, { fs with super_dirty := false },
        w.put fs.dal fs.super_off (block_image.super sb))

/-- The block `callback_bitmap_flush(dal, blk, map, chunk, bitmap)` writes: `chunk` bytes of
the map from byte `pos` on in a block filled with 0xff, and for the last chunk the padding
bits of the last map byte set. -/
def bitmap_flush_block (bitmap : reiserfs_bitmap) (blocksize pos chunk : Nat) : List Nat :=
  let data := bytes_copy (List.replicate blocksize 0xff) ((bitmap.map.drop pos).take chunk)
  if pos + chunk ≥ bitmap.size then
    let unused_bits := (bitmap.size * 8 + 2 ^ 64 - bitmap.total_blocks % 2 ^ 64) % 2 ^ 32
    (List.range unused_bits).foldl
      (fun d i =>
        (reiserfs_tools_set_bit
          (int32 ((bitmap.total_blocks % (blocksize * 8 % 2 ^ 32) + i) % 2 ^ 64)) d 0).2) data
  else data

/-- The loop of `reiserfs_bitmap_pipe(bitmap, callback_bitmap_flush, bitmap)`, one chunk per
unit of fuel: `pos` is `map - bitmap->map`. The outer `none` when the loop has not
returned, the inner `none` for the result 0. -/
def reiserfs_bitmap_flush_loop (bitmap : reiserfs_bitmap) (dal : Nat) :
    Nat → World block_image → Nat → Nat → Nat → Option (Option (World block_image))
  | 0, _, _, _, _ => none
  | fuel + 1, w, blk, pos, left =>
    if left > 0 then
      let chunk := if left < w.blocksize dal then left else w.blocksize dal % 2 ^ 32
      if w.write_ok dal blk = false then some none
      else
        let w1 := w.put dal blk
          (block_image.bitmap (bitmap_flush_block bitmap (w.blocksize dal) pos chunk))
        reiserfs_bitmap_flush_loop bitmap dal fuel w1
          ((blk / (w.blocksize dal * 8 % 2 ^ 32) + 1) * (w.blocksize dal * 8 % 2 ^ 32) % 2 ^ 64)
          (pos + chunk) ((left + 2 ^ 32 - chunk) % 2 ^ 32)
    else some (some w)

/-- The function `reiserfs_bitmap_sync(bitmap)` on the device `dal` of the filesystem. -/
def reiserfs_bitmap_sync (w : World block_image) (bitmap : reiserfs_bitmap) (dal : Nat) :
    Option (Option (World block_image)) :=
  if w.blocksize dal * 8 % 2 ^ 32 = 0 then none
  else reiserfs_bitmap_flush_loop bitmap dal (bitmap.size + 1) w bitmap.start 0 bitmap.size

/-- The function `reiserfs_fs_bitmap_sync(fs)`. -/
def reiserfs_fs_bitmap_sync (w : World block_image) (fs : reiserfs_fs_t) :
    Option (Int × reiserfs_fs_t × World block_image) :=
  match fs.bitmap with
  | none => some (0, fs, w)
  | some bitmap =>
    match reiserfs_bitmap_sync w bitmap fs.dal with
    | none => none
    | some none => some (0, fs, w)
    | some (some w1) => some (1, { fs with bitmap_dirty := false }, w1)

/-- The function `reiserfs_fs_journal_sync(fs)`. -/
def reiserfs_fs_journal_sync (w : World block_image) (fs : reiserfs_fs_t) :
    Option (Int × reiserfs_fs_t × World block_image) :=
  if fs.bitmap.isNone then some (0, fs, w)
  else
    match fs.journal with
    | none => some (0, fs, w)
    | some journal =>
      let blk := (journal.head.jh_params.jp_start + journal.head.jh_params.jp_len) % 2 ^ 64
      if w.write_ok journal.dal blk = false then some (0, fs, w)
      else
        some (1, { fs with journal_dirty := false },
          w.put journal.dal blk (block_image.journal_head journal.head))

/-- The function `reiserfs_fs_sync(fs)`. -/
def reiserfs_fs_sync (w : World block_image) (fs : reiserfs_fs_t) :
    Option (Int × reiserfs_fs_t × World block_image) :=
  let r1 : Option (Int × reiserfs_fs_t × World block_image) :=
    if fs.super_dirty then reiserfs_fs_super_sync w fs else some (1, fs, w)
  match r1 with
  | none => none
  | some (s1, fs1, w1) =>
    if s1 = 0 then some (0, fs1, w1)
    else
      let r2 : Option (Int × reiserfs_fs_t × World block_image) :=
        if fs1.bitmap.isSome ∧ fs1.bitmap_dirty = true then reiserfs_fs_bitmap_sync w1 fs1
        else some (1, fs1, w1)
      match r2 with
      | none => none
      | some (s2, fs2, w2) =>
        if s2 = 0 then some (0, fs2, w2)
        else
          let r3 : Option (Int × reiserfs_fs_t × World block_image) :=
            if fs2.journal.isSome ∧ fs2.journal_dirty = true then reiserfs_fs_journal_sync w2 fs2
            else some (1, fs2, w2)
          match r3 with
          | none => none
          | some (s3, fs3, w3) => if s3 = 0 then some (0, fs3, w3) else some (1, fs3, w3)

/-- The function `reiserfs_fs_create(host_dal, journal_dal, start, max_trans, len, blocksize,
format, hash, label, uuid, fs_len)`: the outer `none` when the behaviour is undefined (a
division by zero), the inner `none` for the NULL result; with them the devices after the
call. -/
def reiserfs_fs_create (jc : journal_consts) (env : fs_env) (w : World block_image)
    (host_dal : Nat) (journal_dal : Option Nat) (start max_trans len blocksize format hash : Nat)
    (label uuid : Option (List Nat)) (fs_len : Nat) :
    Option (Option reiserfs_fs_t × World block_image) :=
  let relocated : Bool :=
    match journal_dal with
    | none => false
    | some d => d ≠ host_dal
  if w.blocksize host_dal * 8 % 2 ^ 32 = 0 then none
  else if reiserfs_fs_create_check w host_dal len blocksize fs_len relocated = 0 then
    some (none, w)
  else
    let fs := fs_calloc host_dal
    let (r1, fs1) := reiserfs_fs_bitmap_create w fs blocksize fs_len
    if r1 = 0 then some (none, w)
    else
      match reiserfs_fs_super_create jc env w fs1 format hash label uuid blocksize start len
          fs_len relocated with
      | none => none
      | some (r2, fs2, w2) =>
        if r2 = 0 then some (none, w2)
        else
          let r3 : Option (Int × reiserfs_fs_t × World block_image) :=
            match journal_dal with
            | none => some (1, fs2, w2)
            | some d => reiserfs_fs_journal_create jc env w2 fs2 (some d) start len max_trans
          match r3 with
          | none => none
          | some (s3, fs3, w3) =>
            if s3 = 0 then some (none, w3)
            else
              match reiserfs_fs_tree_create env w3 fs3 with
              | none => none
              | some (s4, fs4, w4) =>
                if s4 = 0 then some (none, w4)
                else
                  match reiserfs_fs_sync w4 fs4 with
                  | none => none
                  | some (s5, fs5, w5) => if s5 = 0 then some (none, w5) else some (some fs5, w5)

/-- A device of `len` blocks of `blocksize` bytes on which every read and write succeeds. -/
def create_world (blocksize len : Nat) : World block_image :=
  { blocksize := fun _ => blocksize, len := fun _ => len, data := fun _ _ => block_image.fill 0,
    read_ok := fun _ _ => true, write_ok := fun _ _ => true }

/-- The environment of the examples. -/
def create_example_env : fs_env :=
  { dir := ⟨0, 0, 0⟩, random_super := 7, random_journal := 9, dal_stat := fun _ => 1 }

/-! ## Predicates used by the theorems about reiserfs_fs_create -/

/-- Two states of the devices differ in the contents of blocks only. -/
def world_same {β : Type} (w w1 : World β) : Prop :=
  w1.blocksize = w.blocksize ∧ w1.len = w.len ∧ w1.write_ok = w.write_ok ∧
    w1.read_ok = w.read_ok

/-- The counters of a superblock that the creation of the tree leaves alone. -/
def super_counts (sb : reiserfs_super) : Nat × Nat × Nat × Nat × Nat :=
  (sb.sb_block_count, sb.sb_free_blocks, sb.sb_bmap_nr, sb.sb_block_size, sb.sb_format)

/-- The parts of the filesystem structure that a synchronisation leaves alone. -/
def fs_core (fs : reiserfs_fs_t) :
    Nat × Option reiserfs_super × Option reiserfs_bitmap × Option reiserfs_journal_t × Nat :=
  (fs.dal, fs.super, fs.bitmap, fs.journal, fs.super_off)

/-- Every value of `[lo, lo + n)` that passes `reiserfs_tools_power_of_two` is one of the
seven powers of two from 1024 to 65536; the range is halved `fuel` times. -/
def pow2_scan : Nat → Nat → Nat → Bool
  | 0, lo, n =>
    (List.range n).all (fun j =>
      !reiserfs_tools_power_of_two (lo + j) ||
        decide (lo + j ∈ [1024, 2048, 4096, 8192, 16384, 32768, 65536]))
  | fuel + 1, lo, n => pow2_scan fuel lo (n / 2) && pow2_scan fuel (lo + n / 2) (n - n / 2)

/-- The block sizes with which a filesystem can be created. -/
def create_blocksize (blocksize : Nat) : Prop :=
  blocksize = 1024 ∨ blocksize = 2048 ∨ blocksize = 4096 ∨ blocksize = 8192 ∨
    blocksize = 16384 ∨ blocksize = 32768

/-- The blocks `reiserfs_fs_create` marks before it allocates the root: the skipped area,
the superblock and the first bitmap block `[0, super_off + 1]`, the further bitmap blocks
`i * 8 * blocksize`, and the journal with its head `[super_off + 2, super_off + 2 + len]`. -/
def create_fixed (blocksize len fs_len c : Nat) : Prop :=
  c ≤ 65536 / blocksize + 1 ∨
  (∃ i, 1 ≤ i ∧ i ≤ (fs_len - 1) / (8 * blocksize) ∧ c = i * (8 * blocksize)) ∨
  (65536 / blocksize + 2 ≤ c ∧ c ≤ 65536 / blocksize + 2 + len)

/-- What `reiserfs_fs_create` leaves in the superblock and the bitmap of the filesystem it
returns. -/
def create_layout (blocksize len fs_len : Nat) (fs : reiserfs_fs_t) : Prop :=
  ∃ sb bm root, fs.super = some sb ∧ fs.bitmap = some bm ∧
    fs.super_off = 65536 / blocksize ∧ create_blocksize blocksize ∧
    65536 / blocksize + len + 103 < fs_len ∧ len + 65536 / blocksize + 3 ≤ 8 * blocksize ∧
    sb.sb_block_count = fs_len ∧
    sb.sb_bmap_nr = ((fs_len - 1) / (8 * blocksize) + 1) % 2 ^ 16 ∧
    sb.sb_free_blocks + (65536 / blocksize + 1 + (len + 1) + sb.sb_bmap_nr + 1) = fs_len ∧
    sb.sb_root_block = root ∧ sb.sb_block_size = blocksize ∧
    bitmap_wf bm ∧ padding_zero bm ∧ bm.total_blocks = fs_len ∧
    bm.used_blocks =
      65536 / blocksize + 1 + ((fs_len - 1) / (8 * blocksize) + 1) + (len + 1) + 1 ∧
    1 ≤ root ∧ root < fs_len ∧ ¬ create_fixed blocksize len fs_len root ∧
    (∀ c, 1 ≤ c → c < root → create_fixed blocksize len fs_len c) ∧
    ∀ c, bit_set bm.map c = true ↔ (create_fixed blocksize len fs_len c ∨ c = root)

/-- The filesystem structure after `reiserfs_fs_bitmap_create` in `reiserfs_fs_create`. -/
def create_fs_bitmap (w : World block_image) (host_dal blocksize fs_len : Nat) : reiserfs_fs_t :=
  { fs_calloc host_dal with
    bitmap := some (reiserfs_bitmap_create (w.blocksize host_dal)
      ((DEFAULT_SUPER_OFFSET / blocksize + 1) % 2 ^ 64) fs_len)
    bitmap_dirty := false }

/-- The filesystem structure of `reiserfs_fs_create` when the tree is about to be created:
the blocks before the root are marked and the counters of the superblock are set. -/
def create_before_tree (blocksize len fs_len : Nat) (fs : reiserfs_fs_t) : Prop :=
  ∃ sb bm, fs.super = some sb ∧ fs.bitmap = some bm ∧
    fs.super_off = 65536 / blocksize ∧
    sb.sb_block_count = fs_len ∧
    sb.sb_bmap_nr = ((fs_len - 1) / (8 * blocksize) + 1) % 2 ^ 16 ∧
    sb.sb_free_blocks + (65536 / blocksize + 1 + (len + 1) + sb.sb_bmap_nr + 1) = fs_len ∧
    sb.sb_block_size = blocksize ∧
    sb.sb_oid_cursize = 0 ∧ 2 ≤ sb.sb_oid_maxsize ∧ sb.sb_oid_maxsize < 2 ^ 16 ∧
    2 ≤ sb.objectid_map.length ∧
    bitmap_wf bm ∧ padding_zero bm ∧ bm.total_blocks = fs_len ∧
    bm.used_blocks = 65536 / blocksize + 1 + ((fs_len - 1) / (8 * blocksize) + 1) + (len + 1) ∧
    ∀ c, bit_set bm.map c = true ↔ create_fixed blocksize len fs_len c

/-! ## object.c, file.c : reading a file -/

deriving instance DecidableEq for reiserfs_block
deriving instance DecidableEq for reiserfs_path_node
deriving instance DecidableEq for reiserfs_path

/-- The function `reiserfs_tree_get_root(tree)`, `get_sb_root_block` of the superblock. -/
def reiserfs_tree_get_root (tree : reiserfs_tree) : Nat := tree.sb_root_block % 2 ^ 32

/-- The key of item head `pos` of a leaf, `get_ih_item_head(node, pos)->ih_key`; `none`
outside the item heads of the node. -/
def leaf_ih_key (node : Node) (pos : Nat) : Option key := node.keys[pos]?

/-- The macro `get_ih_item_len` of item head `pos` of a leaf: the number of body bytes of the
item, a 16-bit field. -/
def leaf_ih_item_len (node : Node) (pos : Nat) : Nat := (node.bodies.getD pos []).length % 2 ^ 16

/-- The macro `get_ih_unfm_nr(ih)`, `get_ih_item_len(ih) / sizeof(uint32_t)`. -/
def leaf_ih_unfm_nr (node : Node) (pos : Nat) : Nat := leaf_ih_item_len node pos / 4

/-- The parts of `struct reiserfs_object` the file code uses: the tree of `object->fs` with
the format and the block size of its superblock, the key and the path. -/
structure reiserfs_object where
  tree : reiserfs_tree
  format : Nat
  blocksize : Nat
  key : key
  path : reiserfs_path
deriving DecidableEq

/-- The C `struct reiserfs_file`. -/
structure reiserfs_file where
  entity : reiserfs_object
  offset_it : Nat
  offset_dt : Nat
  size : Nat
  offset : Nat
deriving DecidableEq

/-- The function `reiserfs_object_seek_by_offset(object, offset, type, comp_func)`: the frame
returned (`none` for NULL) and the object with its key and path updated; `fuel` bounds the
nodes the lookup reads. -/
def reiserfs_object_seek_by_offset (fuel : Nat) (w : World Node) (object : reiserfs_object)
    (offset type : Nat) (comp_func : key → key → Int) :
    Option (Option reiserfs_path_node × reiserfs_object) :=
  let k :=
    if object.format = FS_FORMAT_3_6 then
      set_key_v2_type (set_key_v2_offset object.key offset) type
    else
      set_key_v1_type (set_key_v1_offset object.key (offset % 2 ^ 32))
        (reiserfs_key_type2uniq (type % 2 ^ 32))
  match reiserfs_tree_lookup_leaf fuel w object.tree (reiserfs_tree_get_root object.tree)
      (some comp_func) k object.path with
  | none => none
  | some (leaf, path) => some (leaf, { object with key := k, path := path })

/-- The statements `leaf = reiserfs_path_last(path); leaf->pos--;` of `reiserfs_file_seek`;
`none` when the path has no last frame. -/
def path_last_pos_dec (path : reiserfs_path) : Option reiserfs_path :=
  match reiserfs_path_last path with
  | none => none
  | some leaf =>
    some { path with
      nodes := path.nodes.set ((path.length + 2 ^ 32 - 1) % 2 ^ 32)
        (some { leaf with pos := (leaf.pos + 2 ^ 32 - 1) % 2 ^ 32 }) }

/-- The function `reiserfs_file_seek(file, offset)`: the result and the file; `none` when a
NULL frame or an item head outside the node is read, the block size is 0, or the lookup has
not returned. -/
def reiserfs_file_seek (fuel : Nat) (w : World Node) (file : reiserfs_file) (offset : Nat) :
    Option (Int × reiserfs_file) :=
  if offset ≥ file.size then some (0, file)
  else
    match reiserfs_path_last file.entity.path with
    | none => none
    | some leaf0 =>
      if file.offset_it ≥ leaf_ih_unfm_nr leaf0.node.data leaf0.pos then some (0, file)
      else
        match reiserfs_object_seek_by_offset fuel w file.entity ((offset + 1) % 2 ^ 64) 0
            reiserfs_key_comp_three_components with
        | none => none
        | some (leaf, entity1) =>
          let path2 : Option reiserfs_path :=
            match leaf with
            | some _ => some entity1.path
            | none => path_last_pos_dec entity1.path
          match path2 with
          | none => none
          | some path2 =>
            let entity2 := { entity1 with path := path2 }
            match reiserfs_path_last path2 with
            | none => none
            | some leaf2 =>
              match leaf_ih_key leaf2.node.data leaf2.pos with
              | none => none
              | some ih_key =>
                if reiserfs_key_comp_two_components ih_key entity2.key ≠ 0 then
                  some (0, { file with entity := entity2 })
                else if entity2.blocksize = 0 then none
                else
                  let delta :=
                    if offset > reiserfs_key_offset ih_key then
                      (offset + 2 ^ 64 - reiserfs_key_offset ih_key) % 2 ^ 64
                    else 0
                  some (1, { file with entity := entity2, offset := offset,
                                       offset_it := (delta / entity2.blocksize) % 2 ^ 32,
                                       offset_dt := delta })

/-- The function `reiserfs_file_read_direct(file, buffer, size)`: the result, the file and
the bytes copied to `buffer`; `none` when the path has no last frame or the copy leaves the
body of the item. -/
def reiserfs_file_read_direct (file : reiserfs_file) (size : Nat) :
    Option (Int × reiserfs_file × List Nat) :=
  match reiserfs_path_last file.entity.path with
  | none => none
  | some leaf =>
    let chunk := ((leaf_ih_item_len leaf.node.data leaf.pos + 2 ^ 64 - file.offset_dt % 2 ^ 64) %
      2 ^ 64) % 2 ^ 32
    if chunk = 0 then some (1, file, [])
    else
      let chunk := if chunk > size then size % 2 ^ 32 else chunk
      let body := leaf.node.data.bodies.getD leaf.pos []
      if file.offset_dt + chunk > body.length then none
      else
        some (1, { file with offset := (file.offset + chunk) % 2 ^ 64,
                             offset_dt := (file.offset_dt + chunk) % 2 ^ 64 },
          (body.drop file.offset_dt).take chunk)

/-- The function `reiserfs_file_read_item(file, buffer, size)` for a direct item. The branch
for indirect items reads unformatted blocks, which the device model does not hold; it is
`none` here. -/
def reiserfs_file_read_item (file : reiserfs_file) (size : Nat) :
    Option (Int × reiserfs_file × List Nat) :=
  match reiserfs_path_last file.entity.path with
  | none => none
  | some leaf =>
    match leaf_ih_key leaf.node.data leaf.pos with
    | none => none
    | some ih_key =>
      if reiserfs_key_type ih_key = KEY_TYPE_DT then reiserfs_file_read_direct file size
      else none

/-- The bytes of `buffer` after `memcpy(buffer + at, bytes, bytes.length)`. -/
def buffer_put (buffer : List Nat) (at_ : Nat) (bytes : List Nat) : List Nat :=
  buffer.take at_ ++ bytes ++ buffer.drop (at_ + bytes.length)

/-- The loop `while (reiserfs_file_seek(file, file->offset))` of `reiserfs_file_read`, one
iteration per unit of fuel: the value returned, the file and the buffer. `none` when the
loop has not returned within the fuel (or a step is `none`). -/
def reiserfs_file_read_loop (lfuel : Nat) (w : World Node) (size : Nat) :
    Nat → reiserfs_file → Nat → Nat → List Nat → Option (Nat × reiserfs_file × List Nat)
  | 0, _, _, _, _ => none
  | fuel + 1, file, offset, readed, buffer =>
    match reiserfs_file_seek lfuel w file file.offset with
    | none => none
    | some (r, file1) =>
      if r = 0 then some (readed, file1, buffer)
      else
        match reiserfs_file_read_item file1 ((size + 2 ^ 64 - readed) % 2 ^ 64) with
        | none => none
        | some (r2, file2, bytes) =>
          if r2 = 0 then some (readed, file2, buffer)
          else
            reiserfs_file_read_loop lfuel w size fuel file2 file2.offset
              ((readed + (file2.offset + 2 ^ 64 - offset) % 2 ^ 64) % 2 ^ 64)
              (buffer_put buffer readed bytes)

/-- The function `reiserfs_file_read(file, buffer, size)`: the value returned, the file and
the buffer; `fuel` bounds the iterations of the loop, `lfuel` the nodes a lookup reads. -/
def reiserfs_file_read (fuel lfuel : Nat) (w : World Node) (file : reiserfs_file)
    (buffer : List Nat) (size : Nat) : Option (Nat × reiserfs_file × List Nat) :=
  if file.offset ≥ file.size then some (0, file, buffer)
  else reiserfs_file_read_loop lfuel w size fuel file file.offset 0 buffer

/-- The macro `MAX_DIRECT_ITEM_LEN(blocksize)`, in `size_t`. -/
def MAX_DIRECT_ITEM_LEN (blocksize : Nat) : Nat :=
  ulong ((blocksize : Int) - NDHD_SIZE - 2 * IH_SIZE - SD_V1_SIZE - 4)

/-- The function `reiserfs_file_rewind(file)`: the result and the file. -/
def reiserfs_file_rewind (fuel : Nat) (w : World Node) (file : reiserfs_file) :
    Option (Int × reiserfs_file) :=
  let key_type :=
    if file.size > MAX_DIRECT_ITEM_LEN file.entity.blocksize then KEY_TYPE_IT else KEY_TYPE_DT
  match reiserfs_object_seek_by_offset fuel w file.entity 1 key_type
      reiserfs_key_comp_four_components with
  | none => none
  | some (none, entity) => some (0, { file with entity := entity })
  | some (some _, entity) =>
    some (1, { file with entity := entity, offset := 0, offset_dt := 0, offset_it := 0 })

/-- A device whose block 20 is the root leaf of a one-leaf tree: the stat data and the
direct item of the object (1, 2), the direct item holding the bytes `body`. -/
def file_example_world (body : List Nat) : World Node :=
  { blocksize := fun _ => 4096, len := fun _ => 32,
    data := fun _ b =>
      if b = 20 then
        { level := 1,
          keys := [reiserfs_key_form 1 2 0 KEY_TYPE_SD FS_FORMAT_3_6,
                   reiserfs_key_form 1 2 1 KEY_TYPE_DT FS_FORMAT_3_6],
          children := [],
          bodies := [List.replicate 44 0, body] }
      else { level := 0, keys := [], children := [], bodies := [] },
    read_ok := fun _ _ => true, write_ok := fun _ _ => true }

/-- The root leaf of the example as a block buffer. -/
def file_example_leaf (body : List Nat) : reiserfs_block Node :=
  { dal := 0, data := (file_example_world body).data 0 20, offset := 81920, dirty := 0 }

/-- The object (1, 2) of the example with the key word `u` (offset and type of the last
lookup) and the path at the direct item. -/
def file_example_object (body : List Nat) (u : Nat) : reiserfs_object :=
  { tree := { dal := 0, offset := 0, sb_tree_height := 2, sb_root_block := 20 },
    format := FS_FORMAT_3_6, blocksize := 4096,
    key := { k_dirid := 1, k_objid := 2, u := u },
    path := { length := 1, max_length := 5,
              nodes := [some { node := file_example_leaf body, pos := 1 },
                        none, none, none, none] } }

/-- The file of the example before it is rewound: no path yet. -/
def file_example_closed (body : List Nat) : reiserfs_file :=
  { entity := { file_example_object body 0 with path := path_empty },
    offset_it := 0, offset_dt := 0, size := body.length, offset := 0 }

/-- The file of the example when `file->offset` is `offset` and `file->offset_dt` is
`offset_dt`, after a lookup of the key with the word `u`. -/
def file_example (body : List Nat) (u offset offset_dt : Nat) : reiserfs_file :=
  { entity := file_example_object body u, offset_it := 0, offset_dt := offset_dt,
    size := body.length, offset := offset }

/-- The ten bytes "0123456789". -/
def file_example_digits : List Nat := [48, 49, 50, 51, 52, 53, 54, 55, 56, 57]

/-! ## path.c : insert and pop -/

/-- The shifting loop of `reiserfs_path_insert`,
`for (i = path->length - 1; i >= pos; i--) path->nodes[i + 1] = path->nodes[i]` with
`unsigned int i`, one iteration per unit of fuel: `none` when the fuel runs out or an entry
outside the array is read or written. -/
def reiserfs_path_insert_loop (pos : Nat) :
    Nat → Nat → List (Option reiserfs_path_node) → Option (List (Option reiserfs_path_node))
  | 0, _, _ => none
  | fuel + 1, i, nodes =>
    if i ≥ pos then
      if i < nodes.length ∧ (i + 1) % 2 ^ 32 < nodes.length then
        reiserfs_path_insert_loop pos fuel ((i + 2 ^ 32 - 1) % 2 ^ 32)
          (nodes.set ((i + 1) % 2 ^ 32) (nodes.getD i none))
      else none
    else some nodes

/-- The function `reiserfs_path_insert(path, pos, node)` for a position `pos` of
`unsigned int`: the asserted conditions `pos <= length` and `length < max_length` fail the
call with 0; `none` when the call does not return within `fuel` iterations of the shifting
loop or touches an entry outside the array. The result and the path. -/
def reiserfs_path_insert (fuel : Nat) (path : reiserfs_path) (pos : Nat)
    (node : reiserfs_path_node) : Option (Int × reiserfs_path) :=
  if ¬ (pos ≤ path.length) then some (0, path)
  else if ¬ (path.length < path.max_length) then some (0, path)
  else
    match (if pos < path.length then
        reiserfs_path_insert_loop pos fuel ((path.length + 2 ^ 32 - 1) % 2 ^ 32) path.nodes
      else some path.nodes) with
    | none => none
    | some nodes =>
      if pos < nodes.length then
        some (1, { path with nodes := nodes.set pos (some node),
                             length := (path.length + 1) % 2 ^ 32 })
      else none

/-- The function `reiserfs_path_pop(path)`: the entry at `path->length - 1` (in
`unsigned int`) is returned and overwritten with NULL; `none` when that entry lies outside
the array. The frame returned and the path. -/
def reiserfs_path_pop (path : reiserfs_path) :
    Option (Option reiserfs_path_node × reiserfs_path) :=
  let i := (path.length + 2 ^ 32 - 1) % 2 ^ 32
  if i < path.nodes.length then
    some (path.nodes.getD i none, { path with nodes := path.nodes.set i none })
  else none

/-- A frame on the block `blk` of the example tree with the position `pos`. -/
def path_example_frame (blk pos : Nat) : reiserfs_path_node :=
  { node := { dal := 0, data := tree_example_world.data 0 blk, offset := blk * 4096, dirty := 0 },
    pos := pos }

/-- A path of capacity 5 with the single frame of block 20. -/
def path_example_one : reiserfs_path :=
  { length := 1, max_length := 5,
    nodes := [some (path_example_frame 20 1), none, none, none, none] }

/-- A path of capacity 5 with the two frames of the blocks 20 and 22. -/
def path_example_two : reiserfs_path :=
  { length := 2, max_length := 5,
    nodes := [some (path_example_frame 20 1), some (path_example_frame 22 0), none, none, none] }
/-! ## dal.c -/

/-- The function `pow_of_two(value)` of dal.c for an `unsigned long` argument:
`(value & -value) == value`. -/
def pow_of_two (value : Nat) : Bool :=
  (value % 2 ^ 64) &&& ((2 ^ 64 - value % 2 ^ 64) % 2 ^ 64) = value % 2 ^ 64

/-- The function `dal_set_blocksize(dal, blocksize)` for an `unsigned` block size; `none` is
the NULL device. The result and the devices. -/
def dal_set_blocksize {β : Type} (w : World β) (dal : Option Nat) (blocksize : Nat) :
    Int × World β :=
  match dal with
  | none => (0, w)
  | some d =>
    if pow_of_two (blocksize % 2 ^ 32) = false then (0, w)
    else (1, { w with blocksize := fun x => if x = d then blocksize % 2 ^ 32 else w.blocksize x })
/-- The example tree under a superblock whose `sb_tree_height` is 2, the level of the root
node of block 20. -/
def tree_example_height2 : reiserfs_tree :=
  { dal := 0, offset := 0, sb_tree_height := 2, sb_root_block := 20 }

/-- A filesystem structure with a superblock only (as after a close of the bitmap and of the
journal) whose bitmap flag is still dirty. -/
def sync_example_fs : reiserfs_fs_t :=
  { dal := 0, tree := none, super := some (super_calloc 4096 FS_FORMAT_3_6), bitmap := none,
    journal := none, super_off := 16, super_dirty := false, bitmap_dirty := true,
    journal_dirty := false }

/-- The same structure with the example bitmap opened and all three flags clear but that of
the superblock. -/
def sync_example_fs_super : reiserfs_fs_t :=
  { dal := 0, tree := none, super := some (super_calloc 4096 FS_FORMAT_3_6),
    bitmap := some bitmap_example, journal := none, super_off := 16, super_dirty := true,
    bitmap_dirty := false, journal_dirty := false }

/-! ## bitmap.c : resize -/

/-- The function `reiserfs_bitmap_resize_map(bitmap, start, end, blocksize)`; `journal_len`
and `super_off` are `get_jp_len(get_sb_jp(bitmap->fs->super))` and `bitmap->fs->super_off`,
the `long` values are integers, the map is the allocation of `bitmap->size` bytes and the
allocations succeed. `none` when a size does not fit its C type or a copy runs outside a
buffer. The `uint32_t` result and the bitmap. -/
def reiserfs_bitmap_resize_map (bitmap : reiserfs_bitmap) (start end_ : Int)
    (journal_len super_off : Nat) : Option (Nat × reiserfs_bitmap) :=
  let size : Int := Int.tdiv ((end_ - start) + 7) 8
  if start = 0 then
    if size = (bitmap.size : Int) then some (bitmap.size % 2 ^ 32, bitmap)
    else if size < 0 ∨ 2 ^ 31 ≤ size then none
    else
      some (size.toNat % 2 ^ 32,
        { bitmap with
          map := bitmap.map.take size.toNat ++ List.replicate (size.toNat - bitmap.size) 0 })
  else if size < 0 ∨ 2 ^ 31 ≤ size then none
  else
    let offset : Nat := super_off + 1 + journal_len
    if offset / 8 + 1 > size.toNat ∨ offset / 8 + 1 > bitmap.map.length then none
    else
      let map := bytes_copy (List.replicate size.toNat 0) (bitmap.map.take (offset / 8 + 1))
      let right : Int :=
        if end_ > (bitmap.total_blocks : Int) then (bitmap.total_blocks : Int) else end_
      let map :=
        if start < 0 then
          ((List.range' (offset + 1) (right - (offset + 1)).toNat).reverse).foldl
            (fun m i =>
              if reiserfs_tools_test_bit (int32 i) bitmap.map 0 ≠ 0 ∧
                  (i : Int) + start > (offset : Int) + 1 then
                (reiserfs_tools_set_bit (int32 ((i : Int) + start)) m 0).2
              else m) map
        else
          (List.range' (start.toNat + offset + 1) (right - (start + offset + 1)).toNat).foldl
            (fun m i =>
              if reiserfs_tools_test_bit (int32 i) bitmap.map 0 ≠ 0 then
                (reiserfs_tools_set_bit (int32 ((i : Int) - start)) m 0).2
              else m) map
      some (size.toNat % 2 ^ 32, { bitmap with map := map })

/-- The function `reiserfs_bitmap_resize(bitmap, start, end)`; `blocksize` is
`dal_get_blocksize(bitmap->fs->dal)`, `journal_len` and `super_off` as in
`reiserfs_bitmap_resize_map`. `none` when the behaviour is undefined (a division by zero,
or `none` from the map). The result and the bitmap. -/
def reiserfs_bitmap_resize (bitmap : reiserfs_bitmap) (blocksize journal_len super_off : Nat)
    (start end_ : Int) : Option (Int × reiserfs_bitmap) :=
  if ¬ (end_ - start > 0) then some (0, bitmap)
  else
    match reiserfs_bitmap_resize_map bitmap start end_ journal_len super_off with
    | none => none
    | some (size, bitmap1) =>
      if (size + 2 ^ 32 - bitmap1.size % 2 ^ 32) % 2 ^ 32 = 0 then some (1, bitmap1)
      else if blocksize % 2 ^ 32 = 0 ∨ blocksize * 8 % 2 ^ 32 = 0 then none
      else
        let bmap_old_blknr := bitmap1.size % 2 ^ 32 / (blocksize % 2 ^ 32)
        let bmap_new_blknr :=
          ulong (Int.tdiv (end_ - start - 1) ((blocksize * 8 % 2 ^ 32 : Nat) : Int) + 1)
        let bitmap2 := { bitmap1 with size := size, total_blocks := ulong (end_ - start) }
        if (bmap_new_blknr + 2 ^ 64 - bmap_old_blknr) % 2 ^ 64 > 0 then
          some (1, (List.range' bmap_old_blknr (bmap_new_blknr - bmap_old_blknr)).foldl
            (fun bm i => reiserfs_bitmap_use_block bm (i * blocksize * 8 % 2 ^ 64)) bitmap2)
        else some (1, bitmap2)

/-- A 10-block bitmap with the blocks 0..3 in use. -/
def bitmap_example_ten : reiserfs_bitmap :=
  { start := 0, total_blocks := 10, used_blocks := 4, map := [0x0f, 0x00], size := 2 }
/-! ## bitmap.c : open -/

/-- The bytes of a block image that `callback_bitmap_fetch` copies from: those of a block
filled with one byte and of a block written by the bitmap flush; the byte encoding of the
other images is not modelled (`none`). -/
def block_image_bytes (blocksize : Nat) : block_image → Option (List Nat)
  | block_image.fill c => some (List.replicate blocksize (c % 256))
  | block_image.bitmap bytes => some bytes
  | _ => none

/-- The loop of `reiserfs_bitmap_pipe(bitmap, callback_bitmap_fetch, bitmap)`, one chunk per
unit of fuel: `pos` is `map - bitmap->map`, `map` the bytes of the map so far. The outer
`none` when the loop has not returned (or a block image has no bytes), the inner `none` for
the result 0. -/
def reiserfs_bitmap_fetch_loop (w : World block_image) (dal : Nat) :
    Nat → Nat → Nat → Nat → List Nat → Option (Option (List Nat))
  | 0, _, _, _, _ => none
  | fuel + 1, blk, pos, left, map =>
    if left > 0 then
      let chunk := if left < w.blocksize dal then left else w.blocksize dal % 2 ^ 32
      match reiserfs_block_read w dal blk with
      | none => some none
      | some block =>
        match block_image_bytes (w.blocksize dal) block.data with
        | none => none
        | some bytes =>
          reiserfs_bitmap_fetch_loop w dal fuel
            ((blk / (w.blocksize dal * 8 % 2 ^ 32) + 1) * (w.blocksize dal * 8 % 2 ^ 32) % 2 ^ 64)
            (pos + chunk) ((left + 2 ^ 32 - chunk) % 2 ^ 32)
            (buffer_put map pos (bytes.take chunk))
    else some (some map)

/-- The function `reiserfs_bitmap_open(fs, start, len)` on the device `dal` of the
filesystem: the outer `none` when the behaviour is undefined or not modelled, the inner
`none` for the NULL result. -/
def reiserfs_bitmap_open (w : World block_image) (dal start len : Nat) :
    Option (Option reiserfs_bitmap) :=
  if len = 0 then some none
  else if w.blocksize dal * 8 % 2 ^ 32 = 0 then none
  else
    let bitmap := { reiserfs_bitmap_alloc len with start := start }
    match reiserfs_bitmap_fetch_loop w dal (bitmap.size + 1) start 0 bitmap.size bitmap.map with
    | none => none
    | some none => some none
    | some (some map) =>
      let unused_bits := (bitmap.size * 8 + 2 ^ 64 - bitmap.total_blocks % 2 ^ 64) % 2 ^ 32
      let map1 := (List.range unused_bits).foldl
        (fun m i =>
          (reiserfs_tools_clear_bit (int32 ((bitmap.total_blocks + i) % 2 ^ 64)) m 0).2) map
      let bitmap1 := { bitmap with map := map1 }
      let used := reiserfs_bitmap_calc_used bitmap1
      if used = 0 then some none else some (some { bitmap1 with used_blocks := used })

/-- A 20-block bitmap with every block in use, kept in block 17 of its device. -/
def bitmap_full20 : reiserfs_bitmap :=
  { start := 17, total_blocks := 20, used_blocks := 20, map := [0xff, 0xff, 0x0f], size := 3 }

/-- The example bitmap of 20 blocks, kept in block 17 of its device. -/
def bitmap_example17 : reiserfs_bitmap :=
  { start := 17, total_blocks := 20, used_blocks := 19, map := [0xff, 0xf7, 0x0f], size := 3 }

/-! ## tree.c : traverse -/

/-- The `for (i = 0; i <= nritems; i++)` loop of `reiserfs_tree_node_traverse` over the
slots still to visit; `traverse` is the recursive call on a child block. The flag tells
whether the loop ran to its end (`false`: `goto error_free_node`), with it `call_result` and
the user data. -/
def reiserfs_tree_node_traverse_children {σ : Type} (traverse : Nat → σ → Option (Int × σ))
    (tree : reiserfs_tree) (node : reiserfs_block Node)
    (chld_func : Option (reiserfs_block Node → Nat → Int → σ → Int × σ)) :
    List Nat → Int → σ → Option (Bool × Int × σ)
  | [], call_result, data => some (true, call_result, data)
  | i :: rest, _, data =>
    match traverse (child_block tree node.data i) data with
    | none => none
    | some (r, data1) =>
      if r = 0 then some (false, 0, data1)
      else
        match chld_func with
        | none => reiserfs_tree_node_traverse_children traverse tree node chld_func rest r data1
        | some cf =>
          if (cf node i r data1).1 = 0 then some (false, r, (cf node i r data1).2)
          else
            reiserfs_tree_node_traverse_children traverse tree node chld_func rest r
              (cf node i r data1).2

/-- The function `reiserfs_tree_node_traverse(tree, blk, data, before_node_func, node_func,
chld_func, after_node_func)`: a callback is a function from the node and the user data to
its result and the user data after it (`none` for a NULL callback; the callbacks leave the
node buffer alone). `fuel` bounds the depth of the recursion, `none` when it runs out. The
result and the user data. -/
def reiserfs_tree_node_traverse {σ : Type} (w : World Node) (tree : reiserfs_tree)
    (before_node_func node_func : Option (reiserfs_block Node → σ → Int × σ))
    (chld_func : Option (reiserfs_block Node → Nat → Int → σ → Int × σ))
    (after_node_func : Option (reiserfs_block Node → σ → Int × σ)) :
    Nat → Nat → σ → Option (Int × σ)
  | 0, _, _ => none
  | fuel + 1, blk, data =>
    match node_func with
    | none => some (0, data)
    | some nf =>
      match reiserfs_block_read w tree.dal blk with
      | none => some (0, data)
      | some node =>
        if is_leaf_node node.data = false ∧ is_internal_node node.data = false then
          some (0, data)
        else
          let rb : Int × σ :=
            match before_node_func with
            | none => (1, data)
            | some bf => bf node data
          if rb.1 = 0 then some (0, rb.2)
          else
            let rn := nf node rb.2
            if rn.1 = 0 then some (0, rn.2)
            else
              let rc : Option (Bool × Int × σ) :=
                if is_internal_node node.data = true then
                  reiserfs_tree_node_traverse_children
                    (reiserfs_tree_node_traverse w tree before_node_func node_func chld_func
                      after_node_func fuel)
                    tree node chld_func (List.range (get_node_nritems node.data + 1)) rn.1 rn.2
                else some (true, rn.1, rn.2)
              match rc with
              | none => none
              | some (false, r, data1) => some (r, data1)
              | some (true, r, data1) =>
                match after_node_func with
                | none => some (r, data1)
                | some af => some ((af node data1).1, (af node data1).2)

/-- The function `reiserfs_tree_simple_traverse(tree, data, node_func)`. -/
def reiserfs_tree_simple_traverse {σ : Type} (fuel : Nat) (w : World Node)
    (tree : reiserfs_tree) (data : σ)
    (node_func : Option (reiserfs_block Node → σ → Int × σ)) : Option (Int × σ) :=
  if reiserfs_tree_get_root tree < 2 then some (1, data)
  else
    reiserfs_tree_node_traverse w tree none node_func none none fuel
      (ulong ((reiserfs_tree_get_root tree : Int) + tree.offset)) data

/-- The callback `node_func` of demos/traverse.c; the user data stands for the two counters
`leaf_count` and `internal_count` of type `unsigned long` (the gauge is left out). -/
def node_func (node : reiserfs_block Node) (counts : Nat × Nat) : Int × (Nat × Nat) :=
  if is_internal_node node.data = true then (1, (counts.1, (counts.2 + 1) % 2 ^ 64))
  else if is_leaf_node node.data = true then (1, ((counts.1 + 1) % 2 ^ 64, counts.2))
  else (0, counts)

/-- The nodes below block `blk` in the order the specification words, for a tree of height
at most `height`: a node before its children, the children of an internal node in slot
order `0 .. nritems`. -/
def traverse_order (w : World Node) (tree : reiserfs_tree) :
    Nat → Nat → List (reiserfs_block Node)
  | 0, _ => []
  | height + 1, blk =>
    match reiserfs_block_read w tree.dal blk with
    | none => []
    | some node =>
      node ::
        (if is_internal_node node.data = true then
          (List.range (get_node_nritems node.data + 1)).flatMap
            (fun i => traverse_order w tree height (child_block tree node.data i))
        else [])

/-- The tree below block `blk` is well formed, with a height of at most `height`: every node
is readable and is a leaf or an internal node, and so are the `nritems + 1` children of an
internal node (the bound on the height excludes a cycle of child pointers). -/
def traverse_wf (w : World Node) (tree : reiserfs_tree) : Nat → Nat → Bool
  | 0, _ => false
  | height + 1, blk =>
    match reiserfs_block_read w tree.dal blk with
    | none => false
    | some node =>
      (is_leaf_node node.data || is_internal_node node.data) &&
      (!is_internal_node node.data ||
        (List.range (get_node_nritems node.data + 1)).all
          (fun i => traverse_wf w tree height (child_block tree node.data i)))

/-! ## hashes.c, core.c : the hash of a name -/

def TEA_HASH : Nat := 1
def YURA_HASH : Nat := 2
def R5_HASH : Nat := 3

/-- The macro `GET_HASH_VALUE(offset)`. -/
def GET_HASH_VALUE (offset : Nat) : Nat := offset &&& 0x7fffff80

/-- The character `name[i]` of a C string given by its characters (values of `signed char`):
beyond them the terminating NUL. -/
def name_at (name : List Int) (i : Nat) : Int := name.getD i 0

/-- The macro `__tea_core(rounds)` on `h0`, `h1` with the words `a`, `b`, `c`, `d`: the
`do ... while (--n)` loop, all in `uint32_t`. -/
def tea_core_loop (a b c d : Nat) : Nat → Nat → Nat → Nat → Nat × Nat
  | 0, _, b0, b1 => (b0, b1)
  | n + 1, sum, b0, b1 =>
    let sum := (sum + 0x9E3779B9) % 2 ^ 32
    let b0 := (b0 + ((((b1 <<< 4) % 2 ^ 32 + a) % 2 ^ 32) ^^^ ((b1 + sum) % 2 ^ 32) ^^^
      (((b1 >>> 5) + b) % 2 ^ 32))) % 2 ^ 32
    let b1 := (b1 + ((((b0 <<< 4) % 2 ^ 32 + c) % 2 ^ 32) ^^^ ((b0 + sum) % 2 ^ 32) ^^^
      (((b0 >>> 5) + d) % 2 ^ 32))) % 2 ^ 32
    tea_core_loop a b c d n sum b0 b1

/-- The macro `__tea_core(rounds)`: the new `h0` and `h1`. -/
def tea_core (rounds : Nat) (h0 h1 a b c d : Nat) : Nat × Nat :=
  let r := tea_core_loop a b c d rounds 0 h0 h1
  ((h0 + r.1) % 2 ^ 32, (h1 + r.2) % 2 ^ 32)

/-- The word `(uint32_t)name[i] | (uint32_t)name[i+1] << 8 | (uint32_t)name[i+2] << 16 |
(uint32_t)name[i+3] << 24`. -/
def tea_word (name : List Int) (i : Nat) : Nat :=
  uint (name_at name i) ||| ((uint (name_at name (i + 1)) <<< 8) % 2 ^ 32) |||
    ((uint (name_at name (i + 2)) <<< 16) % 2 ^ 32) |||
    ((uint (name_at name (i + 3)) <<< 24) % 2 ^ 32)

/-- The loops `for (i = from; i < len; i++) { x <<= 8; x |= name[i]; }` of the tail. -/
def tea_tail (name : List Int) (off from_ : Nat) (len : Int) (x : Nat) : Nat :=
  (List.range' from_ (len - from_).toNat).foldl
    (fun x i => ((x <<< 8) % 2 ^ 32) ||| uint (name_at name (off + i))) x

/-- The loop `while (len >= 16)` of `__tea_hash_func`, one block of 16 characters per unit
of fuel: `off` is the advance of `name`. The values of `h0`, `h1`, `off` and `len` after
the loop. -/
def tea_blocks (name : List Int) : Nat → Nat → Nat → Nat → Int → Nat × Nat × Nat × Int
  | 0, h0, h1, off, len => (h0, h1, off, len)
  | fuel + 1, h0, h1, off, len =>
    if len ≥ 16 then
      let h := tea_core 6 h0 h1 (tea_word name off) (tea_word name (off + 4))
        (tea_word name (off + 8)) (tea_word name (off + 12))
      tea_blocks name fuel h.1 h.2 (off + 16) (len - 16)
    else (h0, h1, off, len)

/-- The function `__tea_hash_func(name, len)`. -/
def __tea_hash_func (name : List Int) (len : Int) : Nat :=
  let pad := uint len ||| ((uint len <<< 8) % 2 ^ 32)
  let pad := pad ||| ((pad <<< 16) % 2 ^ 32)
  let s := tea_blocks name (len.toNat / 16 + 1) 0x9464a485 0x542e1a94 0 len
  let h0 := s.1
  let h1 := s.2.1
  let off := s.2.2.1
  let len := s.2.2.2
  let abcd : Nat × Nat × Nat × Nat :=
    if len ≥ 12 then
      (tea_word name off, tea_word name (off + 4), tea_word name (off + 8),
        tea_tail name off 12 len pad)
    else if len ≥ 8 then
      (tea_word name off, tea_word name (off + 4), tea_tail name off 8 len pad, pad)
    else if len ≥ 4 then
      (tea_word name off, tea_tail name off 4 len pad, pad, pad)
    else
      (tea_tail name off 0 len pad, pad, pad, pad)
  let h := tea_core 10 h0 h1 abcd.1 abcd.2.1 abcd.2.2.1 abcd.2.2.2
  h.1 ^^^ h.2

/-- The loop `for (pow = 1, j = i; j < len - 1; j++) pow = pow * 10` of `__yura_hash_func`:
the value of the `int pow` (a product that leaves the range of `int` wraps). -/
def yura_pow (i : Nat) (len : Int) : Int :=
  (List.range' i (len - 1 - i).toNat).foldl (fun pow _ => int32 (pow * 10)) 1

/-- The function `__yura_hash_func(name, len)`. -/
def __yura_hash_func (name : List Int) (len : Int) : Nat :=
  let pow : Int := (List.range' 1 (len - 1).toNat).foldl (fun pow _ => int32 (pow * 10)) 1
  let a : Nat :=
    if len = 1 then uint (name_at name 0 - 48) else uint (int32 ((name_at name 0 - 48) * pow))
  let a := (List.range' 1 (len - 1).toNat).foldl
    (fun a i => (a + uint (name_at name i - 48) * uint (yura_pow i len)) % 2 ^ 32) a
  let i := if len > 1 then len.toNat else 1
  let a := (List.range' i (40 - i)).foldl
    (fun a i => (a + 0 * uint (yura_pow i len)) % 2 ^ 32) a
  let i := if i < 40 then 40 else i
  let a := (List.range' i (256 - i)).foldl
    (fun a i => (a + i * uint (yura_pow i len)) % 2 ^ 32) a
  (a <<< 7) % 2 ^ 32

/-- The function `__r5_hash_func(name, len)`; the shifts of the promoted `int` are
arithmetic. -/
def __r5_hash_func (name : List Int) (len : Int) : Nat :=
  (List.range len.toNat).foldl
    (fun a i =>
      let a := uint ((a : Int) + name_at name i * 16)
      let a := uint ((a : Int) + name_at name i / 16)
      (a * 11) % 2 ^ 32) 0

/-- The function `reiserfs_fs_hash_func(hash_code)`; `none` for NULL. -/
def reiserfs_fs_hash_func (hash_code : Nat) : Option (List Int → Int → Nat) :=
  if hash_code = TEA_HASH then some __tea_hash_func
  else if hash_code = YURA_HASH then some __yura_hash_func
  else if hash_code = R5_HASH then some __r5_hash_func
  else none

/-- The function `reiserfs_fs_hash_value(fs, name)` on the superblock of the filesystem,
for a C string given by its characters; `none` when the hash function is NULL and the call
goes through it. -/
def reiserfs_fs_hash_value (super : reiserfs_super) (name : List Int) : Option Nat :=
  if name = [46] then some DOT_OFFSET
  else if name = [46, 46] then some DOT_DOT_OFFSET
  else
    match reiserfs_fs_hash_func (super.sb_hash_function_code % 2 ^ 32) with
    | none => none
    | some hash_func =>
      let hash_value := GET_HASH_VALUE (hash_func name (int32 name.length))
      if hash_value = 0 then some 128 else some hash_value

/-- The name "hello". -/
def name_hello : List Int := [104, 101, 108, 108, 111]

/-! ## core.c : resize -/

/-- The conversion of a `blk_t` value to `long`. -/
def to_long (x : Nat) : Int :=
  if x % 2 ^ 64 < 2 ^ 63 then ((x % 2 ^ 64 : Nat) : Int) else ((x % 2 ^ 64 : Nat) : Int) - 2 ^ 64

/-- The difference `a - b` of two `blk_t` values. -/
def sub64 (a b : Nat) : Nat := (a % 2 ^ 64 + 2 ^ 64 - b % 2 ^ 64) % 2 ^ 64

/-- The sum `a + b` of two `blk_t` values. -/
def add64 (a b : Nat) : Nat := (a + b) % 2 ^ 64

/-- Modelled from the spec: `reiserfs_fs_journal_relocated(fs)`, which comes from a header
that is not among the sources: the journal is relocated when the superblock carries the
magic of a relocated journal. -/
def reiserfs_fs_journal_relocated (super : reiserfs_super) : Bool :=
  super.sb_magic.take 9 = REISERFS_JR_SUPER_SIGNATURE.take 9

/-- The function `reiserfs_fs_journal_area(fs)`. -/
def reiserfs_fs_journal_area (super : reiserfs_super) : Nat :=
  if reiserfs_fs_journal_relocated super = true then super.sb_reserved_for_journal % 2 ^ 16
  else (super.sb_journal.jp_len % 2 ^ 32 + 1) % 2 ^ 32

/-- The function `reiserfs_fs_is_resizeable(fs)`. -/
def reiserfs_fs_is_resizeable (fs : reiserfs_fs_t) : Bool := fs.super_off ≠ 2

/-- The function `reiserfs_fs_resize_check(fs)`; `none` when `fs->super` is NULL. -/
def reiserfs_fs_resize_check (fs : reiserfs_fs_t) : Option Int :=
  if reiserfs_fs_is_resizeable fs = false then some 0
  else if fs.bitmap.isNone then some 0
  else
    match fs.super with
    | none => none
    | some sb => if sb.sb_umount_state % 2 ^ 16 ≠ FS_CLEAN then some 0 else some 1

/-- The function `reiserfs_fs_state_update(fs, state)`; `none` when `fs->super` is NULL. -/
def reiserfs_fs_state_update (w : World block_image) (fs : reiserfs_fs_t) (state : Nat) :
    Option (Int × reiserfs_fs_t × World block_image) :=
  match fs.super with
  | none => none
  | some sb =>
    reiserfs_fs_super_sync w { fs with super := some { sb with sb_fs_state := state % 2 ^ 16 } }

/-- The function `reiserfs_fs_bitmap_resize(fs, start, end)`: the outer `none` when the
resize of the bitmap is undefined. -/
def reiserfs_fs_bitmap_resize (w : World block_image) (fs : reiserfs_fs_t) (start end_ : Int) :
    Option (Int × reiserfs_fs_t) :=
  match fs.bitmap with
  | none => some (0, fs)
  | some bitmap =>
    match reiserfs_bitmap_resize bitmap (w.blocksize fs.dal)
        (match fs.super with
         | none => 0
         | some sb => sb.sb_journal.jp_len % 2 ^ 32)
        fs.super_off start end_ with
    | none => none
    | some (r, bitmap1) =>
      if r = 0 then some (0, { fs with bitmap := some bitmap1 })
      else some (1, { fs with bitmap := some bitmap1, bitmap_dirty := true })

/-- The function `reiserfs_fs_expand(fs, fs_len)`: the outer `none` when the behaviour is
undefined (`fs->super` NULL, a division by zero), otherwise the result, the filesystem and
the devices. -/
def reiserfs_fs_expand (w : World block_image) (fs : reiserfs_fs_t) (fs_len : Nat) :
    Option (Int × reiserfs_fs_t × World block_image) :=
  if fs_len > w.len fs.dal then some (0, fs, w)
  else
    match fs.super with
    | none => none
    | some sb =>
      let bmap_old_blknr := sb.sb_bmap_nr % 2 ^ 16
      if sb.sb_block_size % 2 ^ 16 * 8 = 0 then none
      else
        let bmap_new_blknr :=
          ((fs_len + 2 ^ 64 - 1) % 2 ^ 64 / (sb.sb_block_size % 2 ^ 16 * 8) + 1) % 2 ^ 64
        match reiserfs_fs_state_update w fs FS_CORRUPTED with
        | none => none
        | some (r1, fs1, w1) =>
          if r1 = 0 then some (0, fs1, w1)
          else
            match reiserfs_fs_bitmap_resize w1 fs1 0 (to_long fs_len) with
            | none => none
            | some (r2, fs2) =>
              if r2 = 0 then some (0, fs2, w1)
              else
                match fs2.super with
                | none => none
                | some sb2 =>
                  let sb3 := { sb2 with
                    sb_free_blocks :=
                      sub64 (add64 (sb2.sb_free_blocks % 2 ^ 32)
                          (sub64 fs_len (sb2.sb_block_count % 2 ^ 32)))
                        (sub64 bmap_new_blknr bmap_old_blknr) % 2 ^ 32 }
                  let sb4 := { sb3 with sb_block_count := fs_len % 2 ^ 32 }
                  let sb5 := { sb4 with sb_bmap_nr := bmap_new_blknr % 2 ^ 16 }
                  reiserfs_fs_state_update w1
                    { fs2 with super := some sb5, bitmap_dirty := true } FS_CONSISTENT

/-- The function `reiserfs_fs_shrink(fs, fs_len)`. The relocation of the tree,
`reiserfs_segment_relocate(fs, &dst_segment, fs, &src_segment, 0)`, walks tree nodes, which
the block images of this part of the model do not decode: it is the parameter `relocate`,
from the filesystem, the devices and the two segments to the block number returned, the
filesystem and the devices (`none` when it does not return). -/
def reiserfs_fs_shrink
    (relocate : reiserfs_fs_t → World block_image → reiserfs_segment → reiserfs_segment →
      Option (Nat × reiserfs_fs_t × World block_image))
    (w : World block_image) (fs : reiserfs_fs_t) (fs_len : Nat) :
    Option (Int × reiserfs_fs_t × World block_image) :=
  match fs.super with
  | none => none
  | some sb =>
    if 8 * (sb.sb_block_size % 2 ^ 16) = 0 then none
    else
      let bitmap_new_size :=
        ((fs_len + 2 ^ 64 - 1) % 2 ^ 64 / (8 * (sb.sb_block_size % 2 ^ 16)) + 1) % 2 ^ 64
      if sub64 (sb.sb_block_count % 2 ^ 32) fs_len >
          sub64 ((sb.sb_free_blocks % 2 ^ 32 + sb.sb_bmap_nr % 2 ^ 16) % 2 ^ 32)
            bitmap_new_size then some (0, fs, w)
      else
        let src_segment : reiserfs_segment :=
          { dal := fs.dal, start := fs_len, end_ := sb.sb_block_count % 2 ^ 32 }
        let dst_segment : reiserfs_segment :=
          { dal := fs.dal, start := (fs.super_off + 2 + reiserfs_fs_journal_area sb) % 2 ^ 64,
            end_ := fs_len }
        match reiserfs_fs_state_update w fs FS_CORRUPTED with
        | none => none
        | some (r1, fs1, w1) =>
          if r1 = 0 then some (0, fs1, w1)
          else
            match relocate fs1 w1 dst_segment src_segment with
            | none => none
            | some (root_blk, fs2, w2) =>
              if root_blk = 0 then some (0, fs2, w2)
              else
                match reiserfs_fs_bitmap_resize w2 fs2 0 (to_long fs_len) with
                | none => none
                | some (r3, fs3) =>
                  if r3 = 0 then some (0, fs3, w2)
                  else
                    match fs3.super with
                    | none => none
                    | some sb3 =>
                      let sb4 := { sb3 with
                        sb_free_blocks :=
                          add64 (sub64 (sb3.sb_free_blocks % 2 ^ 32)
                              (sub64 (sb3.sb_block_count % 2 ^ 32) fs_len))
                            (sub64 (sb3.sb_bmap_nr % 2 ^ 16) bitmap_new_size) % 2 ^ 32 }
                      let sb5 := { sb4 with sb_block_count := fs_len % 2 ^ 32 }
                      let sb6 := { sb5 with sb_bmap_nr := bitmap_new_size % 2 ^ 16 }
                      reiserfs_fs_state_update w2
                        { fs3 with super := some sb6, bitmap_dirty := true } FS_CONSISTENT

/-- The function `reiserfs_fs_resize_dumb(fs, fs_len)`; `relocate` as in
`reiserfs_fs_shrink`. -/
def reiserfs_fs_resize_dumb
    (relocate : reiserfs_fs_t → World block_image → reiserfs_segment → reiserfs_segment →
      Option (Nat × reiserfs_fs_t × World block_image))
    (w : World block_image) (fs : reiserfs_fs_t) (fs_len : Nat) :
    Option (Int × reiserfs_fs_t × World block_image) :=
  match reiserfs_fs_resize_check fs with
  | none => none
  | some r =>
    if r = 0 then some (0, fs, w)
    else
      match fs.super with
      | none => none
      | some sb =>
        if fs_len = sb.sb_block_count % 2 ^ 32 then some (0, fs, w)
        else if fs_len > sb.sb_block_count % 2 ^ 32 then reiserfs_fs_expand w fs fs_len
        else reiserfs_fs_shrink relocate w fs fs_len

/-- A relocation that meets every node inside the destination segment: it moves nothing and
returns the block number of the root. -/
def relocate_in_place (fs : reiserfs_fs_t) (w : World block_image)
    (_dst_segment _src_segment : reiserfs_segment) :
    Option (Nat × reiserfs_fs_t × World block_image) :=
  some ((match fs.super with
         | none => 0
         | some sb => sb.sb_root_block % 2 ^ 32), fs, w)

/-- The superblock of a filesystem of `block_count` blocks of `blocksize` bytes with an
8192-block journal behind the superblock, cleanly unmounted. -/
def resize_example_super (blocksize block_count free_blocks bmap_nr : Nat) : reiserfs_super :=
  { super_calloc blocksize FS_FORMAT_3_6 with
    sb_block_count := block_count, sb_free_blocks := free_blocks, sb_root_block := 8211,
    sb_block_size := blocksize % 2 ^ 16, sb_umount_state := FS_CLEAN,
    sb_fs_state := FS_CONSISTENT, sb_bmap_nr := bmap_nr, sb_tree_height := 2 }

/-- A filesystem of 10000 blocks of 4096 bytes, opened with its bitmap. -/
def resize_example_fs : reiserfs_fs_t :=
  { dal := 0, tree := some 0, super := some (resize_example_super 4096 10000 1788 1),
    bitmap := some (reiserfs_bitmap_alloc 10000), journal := none, super_off := 16,
    super_dirty := false, bitmap_dirty := false, journal_dirty := false }

/-- A filesystem of 10000 blocks of 1024 bytes, opened with its bitmap. -/
def resize_example_fs_1k : reiserfs_fs_t :=
  { dal := 0, tree := some 0, super := some (resize_example_super 1024 10000 1739 2),
    bitmap := some (reiserfs_bitmap_alloc 10000), journal := none, super_off := 64,
    super_dirty := false, bitmap_dirty := false, journal_dirty := false }
/-- A filesystem of 100000 blocks of 1024 bytes with 80000 free blocks, opened with its
bitmap. -/
def resize_example_fs_100k : reiserfs_fs_t :=
  { dal := 0, tree := some 0, super := some (resize_example_super 1024 100000 80000 13),
    bitmap := some (reiserfs_bitmap_alloc 100000), journal := none, super_off := 64,
    super_dirty := false, bitmap_dirty := false, journal_dirty := false }

/-! ## core.c, mkfs.c : the names of the formats -/

/-- The C function `strcmp` on two strings (the bytes before the terminator): 0 exactly
when they are equal; the callers here test the result against 0 only, and 1 stands for
every non-zero result. -/
def strcmp (s1 s2 : String) : Int := if s1 = s2 then 0 else 1

/-- The table `reiserfs_short_formats`. -/
def reiserfs_short_formats : List String := ["3.5", "unknown", "3.6"]

/-- The loop `for (i = 0; i < 3; i++)` of `reiserfs_fs_format_from_str`: `n` iterations are
left, `i` is the loop index; -1 after the loop. -/
def reiserfs_fs_format_from_str_loop (format : String) : Nat → Nat → Int
  | 0, _ => -1
  | n + 1, i =>
    if strcmp (reiserfs_short_formats.getD i "") format = 0 then (i : Int)
    else reiserfs_fs_format_from_str_loop format n (i + 1)

/-- The function `reiserfs_fs_format_from_str(format)`; `none` is the NULL pointer. -/
def reiserfs_fs_format_from_str (format : Option String) : Int :=
  match format with
  | none => -1
  | some f => reiserfs_fs_format_from_str_loop f 3 0

/-- The function `reiserfs_fs_short_format_str(format)`; `none` is the NULL pointer. -/
def reiserfs_fs_short_format_str (format : Int) : Option String :=
  if format < 0 ∨ format > 2 then none else reiserfs_short_formats[format.toNat]?

/-- The function `mkfs_format(format_str)` of mkfs.c in the Linux build; `recomended_format`
is the result of `mkfs_recomended_format()` and `kernel` that of `mkfs_kernel_version()`
(`none` for NULL), which both come from the running kernel. The warning thrown for a format
other than the recommended one is ignored. -/
def mkfs_format (recomended_format : Int) (kernel : Option String)
    (format_str : Option String) : Int :=
  match format_str with
  | none => recomended_format
  | some s =>
    if s.utf8ByteSize = 0 then recomended_format
    else
      let format := reiserfs_fs_format_from_str (some s)
      if format = -1 then -1
      else if format ≠ recomended_format then
        match kernel with
        | none => -1
        | some _ => format
      else format

/-! ## object.c : the body of a symbolic link -/

/-- The function `reiserfs_object_link(leaf, link)`: the result and the bytes copied to
`link`. `leaf->pos + 1` is evaluated in `unsigned int`; `none` when the item head read,
`get_ih_item_head(leaf->node, leaf->pos + 1)`, lies outside the `nritems` item heads of the
node. -/
def reiserfs_object_link (leaf : reiserfs_path_node) : Option (Int × List Nat) :=
  if leaf.pos ≥ get_node_nritems leaf.node.data then some (0, [])
  else
    match leaf_ih_key leaf.node.data ((leaf.pos + 1) % 2 ^ 32) with
    | none => none
    | some k =>
      if reiserfs_key_type k ≠ KEY_TYPE_DT then some (0, [])
      else
        some (1, (leaf.node.data.bodies.getD ((leaf.pos + 1) % 2 ^ 32) []).take
          (leaf_ih_item_len leaf.node.data ((leaf.pos + 1) % 2 ^ 32)))

/-- A frame on a leaf whose only item is the stat data of the object (1, 2). -/
def link_example_leaf : reiserfs_path_node :=
  { node := { dal := 0,
              data := { level := 1, keys := [reiserfs_key_form 1 2 0 KEY_TYPE_SD FS_FORMAT_3_6],
                        children := [], bodies := [List.replicate 44 0] },
              offset := 81920, dirty := 0 },
    pos := 0 }

/-! ## tree.c : traverse with hooks -/

/-- The function `reiserfs_tree_traverse(tree, data, before_node_func, node_func, chld_func,
after_node_func)`; `fuel` bounds the depth of the recursion. -/
def reiserfs_tree_traverse {σ : Type} (fuel : Nat) (w : World Node) (tree : reiserfs_tree)
    (data : σ) (before_node_func node_func : Option (reiserfs_block Node → σ → Int × σ))
    (chld_func : Option (reiserfs_block Node → Nat → Int → σ → Int × σ))
    (after_node_func : Option (reiserfs_block Node → σ → Int × σ)) : Option (Int × σ) :=
  if reiserfs_tree_get_height tree < 2 then some (1, data)
  else
    reiserfs_tree_node_traverse w tree before_node_func node_func chld_func after_node_func
      fuel (ulong ((reiserfs_tree_get_root tree : Int) + tree.offset)) data

/-- A node hook that counts the nodes it is called on and returns 1. -/
def hook_count (_node : reiserfs_block Node) (count : Nat) : Int × Nat := (1, count + 1)

/-- A child hook that returns 0. -/
def hook_chld_fail (_node : reiserfs_block Node) (_chld : Nat) (_chld_blk : Int) (count : Nat) :
    Int × Nat := (0, count)

/-! ## segment.c : a relocation into a full destination segment -/

/-- A 32-block bitmap with the blocks 0..19 and 30 in use: no block of the segment 5..19 is
free. -/
def reloc_full_bitmap : reiserfs_bitmap :=
  { start := 0, total_blocks := 32, used_blocks := 21, map := [0xff, 0xff, 0x0f, 0x40],
    size := 4 }

/-- The state of the example relocation with the full bitmap. -/
def reloc_full_state : reloc_state :=
  { world := reloc_example_world,
    fs := fun _ => { reloc_example_fs with bitmap := some reloc_full_bitmap },
    counter := 0 }

/-- The node of block 30 as read from the device. -/
def reloc_full_node : reiserfs_block Node :=
  { dal := 0, data := reloc_example_world.data 0 30, offset := 30 * 4096, dirty := 0 }

/-! ## tree.c : a lookup in a tree with a cycle -/

/-- A device whose block 20 is an internal node of level 2 with both child pointers leading
back to block 20. -/
def cycle_example_world : World Node :=
  { blocksize := fun _ => 4096, len := fun _ => 32,
    data := fun _ b =>
      if b = 20 then { level := 2, keys := [key_at 5], children := [20, 20], bodies := [] }
      else { level := 0, keys := [], children := [], bodies := [] },
    read_ok := fun _ _ => true, write_ok := fun _ _ => true }

/-! ## journal.c : the walk of the journal -/

/-- The walk over the journal as the specification words it: from the candidate `curr` on,
the offsets of the valid transactions met; after an invalid candidate the next candidate
is `curr + 1`, after a valid transaction it is `curr + trans_len + skip`, and no candidate
at or beyond `jp_len` is looked at. The specification has `skip = 1`; `n` bounds the number
of candidates. -/
def journal_walk_spec (skip : Nat) (w : World journal_block) (journal : reiserfs_journal) :
    Nat → Nat → List Nat
  | 0, _ => []
  | n + 1, curr =>
    if curr < journal.jp_len then
      match reiserfs_block_read w journal.dal ((journal.jp_start + curr) % 2 ^ 64) with
      | none => []
      | some desc =>
        if reiserfs_journal_desc_valid w journal desc = true then
          curr :: journal_walk_spec skip w journal n (curr + get_jd_desc_trans_len desc + skip)
        else journal_walk_spec skip w journal n (curr + 1)
    else []

/-- The user data after one call of the callback for the transaction at offset `curr`, with
the descriptor and the commit block as `reiserfs_journal_pipe` reads them. -/
def journal_call {σ : Type} (w : World journal_block) (journal : reiserfs_journal)
    (f : reiserfs_block journal_block → reiserfs_block journal_block → Nat → σ → Int × σ)
    (data : σ) (curr : Nat) : σ :=
  match reiserfs_block_read w journal.dal ((journal.jp_start + curr) % 2 ^ 64) with
  | none => data
  | some desc =>
    match reiserfs_block_read w journal.dal (reiserfs_journal_desc_comm w journal desc) with
    | none => data
    | some comm => (f desc comm curr data).2

/-- A callback that records the offsets it is called with and returns 1. -/
def pipe_record (_desc _comm : reiserfs_block journal_block) (curr : Nat) (seen : List Nat) :
    Int × List Nat := (1, seen ++ [curr])

/-- A block that is the commit block of transaction 7 and carries the descriptor magic. -/
def journal_overlap_block : journal_block :=
  { words := [7, 1, 1, 100], magic := JOURNAL_DESC_SIGN }

/-- A device with an 8-block journal at block 10: ring offsets 0, 1, 2 hold transaction 7
(descriptor, one block, commit block), and the commit block at offset 2 reads as the
descriptor of a transaction with the commit block at offset 4. -/
def journal_overlap_world : World journal_block :=
  { blocksize := fun _ => 4096, len := fun _ => 32,
    data := fun _ b =>
      if b = 10 then journal_example_desc
      else if b = 12 then journal_overlap_block
      else if b = 14 then journal_example_comm
      else { words := [], magic := [] },
    read_ok := fun _ _ => true, write_ok := fun _ _ => true }

def journal_overlap : reiserfs_journal :=
  { dal := 0, jh_first_unflushed_offset := 0, jp_start := 10, jp_len := 8, trans_half := 1018 }

/-! ## object.c : the words of the map a call may write -/

/-- What `reiserfs_object_use` leaves alone: `oid_maxsize` is unchanged, `oid_cursize` stays
within it and the words at index `oid_maxsize` and beyond keep their values. -/
def use_frame (super : reiserfs_super) (r : Int × reiserfs_super) : Prop :=
  r.2.sb_oid_maxsize = super.sb_oid_maxsize ∧
  r.2.sb_oid_cursize ≤ super.sb_oid_maxsize ∧
  ∀ k, super.sb_oid_maxsize ≤ k → oid_at r.2.objectid_map k = oid_at super.objectid_map k

/-- A superblock whose map holds the extents [1, 3) and [10, 20) in a block with room for
eight words, with the odd `oid_maxsize` 5. -/
def oid_example_odd : reiserfs_super :=
  { super_zero with sb_oid_maxsize := 5, sb_oid_cursize := 4,
                    objectid_map := [1, 3, 10, 20, 0, 0, 0, 0] }

/-! # Theorems -/

/-! ## Bit-mask arithmetic used by the key accessors -/

theorem and_type_mask_shift (x : Nat) :
    ((x % 2 ^ 64) &&& KEY_TYPE_MASK) >>> 60 = x / 2 ^ 60 % 16 := by
  apply Nat.eq_of_testBit_eq
  intro i
  have h16 : (16 : Nat) = 2 ^ 4 := by norm_num
  have hm : KEY_TYPE_MASK = (2 ^ 4 - 1) <<< 60 := by decide
  rw [h16, hm, ← Nat.shiftRight_eq_div_pow]
  simp only [Nat.testBit_shiftRight, Nat.testBit_and, Nat.testBit_mod_two_pow,
    Nat.testBit_shiftLeft, Nat.testBit_two_pow_sub_one]
  by_cases h : i < 4
  · have : 60 + i < 64 := by omega
    simp [h, this]
  · simp [h]

theorem and_not_type_mask (x : Nat) : (x % 2 ^ 64) &&& not64 KEY_TYPE_MASK = x % 2 ^ 60 := by
  have h : not64 KEY_TYPE_MASK = 2 ^ 60 - 1 := by
    simp only [not64, KEY_TYPE_MASK]; norm_num
  rw [h, Nat.and_pow_two_sub_one_eq_mod]
  have h2 : (2 : Nat) ^ 64 = 2 ^ 60 * 16 := by norm_num
  rw [h2, Nat.mod_mul_right_mod]

theorem and_offset_mask (x : Nat) : (x % 2 ^ 64) &&& KEY_OFFSET_MASK = x % 2 ^ 60 := by
  have h : KEY_OFFSET_MASK = 2 ^ 60 - 1 := by
    simp only [KEY_OFFSET_MASK]; norm_num
  rw [h, Nat.and_pow_two_sub_one_eq_mod]
  have h2 : (2 : Nat) ^ 64 = 2 ^ 60 * 16 := by norm_num
  rw [h2, Nat.mod_mul_right_mod]

theorem or_shift60 (a t : Nat) (h : a < 2 ^ 60) : a ||| (t <<< 60) = a + t * 2 ^ 60 := by
  rw [Nat.shiftLeft_eq, Nat.or_comm, Nat.mul_comm, ← Nat.mul_add_lt_is_or h, Nat.add_comm]

theorem get_key_v2_type_eq (k : key) : get_key_v2_type k = k.u / 2 ^ 60 % 16 := by
  unfold get_key_v2_type
  rw [and_type_mask_shift]
  omega

theorem get_key_v2_offset_eq (k : key) : get_key_v2_offset k = k.u % 2 ^ 60 := by
  unfold get_key_v2_offset
  rw [and_offset_mask]
  rfl

/-! ## The four-component comparator -/

theorem lex4_mk (a1 a2 a3 a4 b1 b2 b3 b4 : Nat) :
    lex4 (a1, a2, a3, a4) (b1, b2, b3, b4) =
      if a1 < b1 then -1 else if b1 < a1 then 1
      else if a2 < b2 then -1 else if b2 < a2 then 1
      else if a3 < b3 then -1 else if b3 < a3 then 1
      else if a4 < b4 then -1 else if b4 < a4 then 1 else 0 := by
  unfold lex4 cmp3
  dsimp only
  rcases lt_trichotomy a1 b1 with h | h | h
  · simp [h, Nat.ne_of_lt h]
  · subst h
    simp only [ne_eq, not_true_eq_false, if_false, lt_irrefl, gt_iff_lt]
    rcases lt_trichotomy a2 b2 with h | h | h
    · simp [h, Nat.ne_of_lt h]
    · subst h
      simp only [ne_eq, not_true_eq_false, if_false, lt_irrefl, gt_iff_lt]
      rcases lt_trichotomy a3 b3 with h | h | h
      · simp [h, Nat.ne_of_lt h]
      · subst h
        simp only [ne_eq, not_true_eq_false, if_false, lt_irrefl, gt_iff_lt]
      · simp [h, Nat.ne_of_gt h, Nat.lt_asymm h]
    · simp [h, Nat.ne_of_gt h, Nat.lt_asymm h]
  · simp [h, Nat.ne_of_gt h, Nat.lt_asymm h]

theorem comp_three_eq (a b : key) :
    reiserfs_key_comp_three_components a b =
      if get_key_dirid a < get_key_dirid b then -1 else if get_key_dirid b < get_key_dirid a then 1
      else if get_key_objid a < get_key_objid b then -1
      else if get_key_objid b < get_key_objid a then 1
      else if reiserfs_key_offset a < reiserfs_key_offset b then -1
      else if reiserfs_key_offset b < reiserfs_key_offset a then 1 else 0 := by
  simp only [reiserfs_key_comp_three_components, reiserfs_key_comp_two_components, gt_iff_lt]
  split_ifs <;> omega

theorem comp_four_eq_lex4 (a b : key) :
    reiserfs_key_comp_four_components a b = lex4 (key_decode a) (key_decode b) := by
  simp only [reiserfs_key_comp_four_components, comp_three_eq, key_decode, lex4_mk, gt_iff_lt]
  split_ifs <;> omega

theorem lex4_range (a b : Nat × Nat × Nat × Nat) : lex4 a b = -1 ∨ lex4 a b = 0 ∨ lex4 a b = 1 := by
  obtain ⟨a1, a2, a3, a4⟩ := a
  obtain ⟨b1, b2, b3, b4⟩ := b
  rw [lex4_mk]
  split_ifs <;> simp

theorem lex4_antisymm (a b : Nat × Nat × Nat × Nat) : lex4 a b = - lex4 b a := by
  obtain ⟨a1, a2, a3, a4⟩ := a
  obtain ⟨b1, b2, b3, b4⟩ := b
  rw [lex4_mk, lex4_mk]
  split_ifs <;> omega

theorem lex4_lt_iff (a1 a2 a3 a4 b1 b2 b3 b4 : Nat) :
    lex4 (a1, a2, a3, a4) (b1, b2, b3, b4) = -1 ↔
      (a1 < b1 ∨ (a1 = b1 ∧ (a2 < b2 ∨ (a2 = b2 ∧ (a3 < b3 ∨ (a3 = b3 ∧ a4 < b4)))))) := by
  rw [lex4_mk]
  split_ifs <;> simp <;> omega

theorem lex4_eq_iff (a1 a2 a3 a4 b1 b2 b3 b4 : Nat) :
    lex4 (a1, a2, a3, a4) (b1, b2, b3, b4) = 0 ↔ (a1 = b1 ∧ a2 = b2 ∧ a3 = b3 ∧ a4 = b4) := by
  rw [lex4_mk]
  split_ifs <;> simp <;> omega

theorem lex4_trans_lt (a b c : Nat × Nat × Nat × Nat) (h1 : lex4 a b = -1) (h2 : lex4 b c = -1) :
    lex4 a c = -1 := by
  obtain ⟨a1, a2, a3, a4⟩ := a
  obtain ⟨b1, b2, b3, b4⟩ := b
  obtain ⟨c1, c2, c3, c4⟩ := c
  rw [lex4_lt_iff] at *
  omega

theorem lex4_eq_congr (a b c : Nat × Nat × Nat × Nat) (h1 : lex4 a b = 0) :
    lex4 a c = lex4 b c := by
  obtain ⟨a1, a2, a3, a4⟩ := a
  obtain ⟨b1, b2, b3, b4⟩ := b
  obtain ⟨c1, c2, c3, c4⟩ := c
  rw [lex4_eq_iff] at h1
  obtain ⟨rfl, rfl, rfl, rfl⟩ := h1
  rfl

theorem lex4_le_iff (a b : Nat × Nat × Nat × Nat) : lex4 a b ≤ 0 ↔ (lex4 a b = -1 ∨ lex4 a b = 0) := by
  rcases lex4_range a b with h | h | h <;> rw [h] <;> simp

theorem lex4_trans_le (a b c : Nat × Nat × Nat × Nat) (h1 : lex4 a b ≤ 0) (h2 : lex4 b c ≤ 0) :
    lex4 a c ≤ 0 := by
  rw [lex4_le_iff] at *
  rcases h1 with h1 | h1
  · rcases h2 with h2 | h2
    · exact Or.inl (lex4_trans_lt a b c h1 h2)
    · left
      have h3 : lex4 c b = 0 := by rw [lex4_antisymm, h2]; rfl
      have h4 := lex4_eq_congr c b a h3
      rw [lex4_antisymm a c, h4, ← lex4_antisymm a b, h1]
  · rw [lex4_eq_congr a b c h1]
    exact h2

theorem comp_four_range (a b : key) :
    reiserfs_key_comp_four_components a b = -1 ∨ reiserfs_key_comp_four_components a b = 0 ∨
      reiserfs_key_comp_four_components a b = 1 := by
  rw [comp_four_eq_lex4]; exact lex4_range _ _

theorem comp_four_antisymm (a b : key) :
    reiserfs_key_comp_four_components a b = - reiserfs_key_comp_four_components b a := by
  rw [comp_four_eq_lex4, comp_four_eq_lex4]; exact lex4_antisymm _ _

theorem comp_four_trans_lt (a b c : key) (h1 : reiserfs_key_comp_four_components a b = -1)
    (h2 : reiserfs_key_comp_four_components b c = -1) :
    reiserfs_key_comp_four_components a c = -1 := by
  rw [comp_four_eq_lex4] at *; exact lex4_trans_lt _ _ _ h1 h2

theorem comp_four_eq_congr (a b c : key) (h1 : reiserfs_key_comp_four_components a b = 0) :
    reiserfs_key_comp_four_components a c = reiserfs_key_comp_four_components b c := by
  rw [comp_four_eq_lex4] at *; rw [comp_four_eq_lex4]; exact lex4_eq_congr _ _ _ h1

/-- C3: `reiserfs_key_comp_four_components a b` is -1, 0 or +1, equals the lexicographic
comparison of the decoded tuples `(dirid, objid, reiserfs_key_offset, reiserfs_key_type)`,
each tier deciding before the next, is antisymmetric and is transitive (strictly, weakly and
on ties). -/
theorem C3_comp_four_lexicographic (a b c : key) :
    (reiserfs_key_comp_four_components a b = -1 ∨ reiserfs_key_comp_four_components a b = 0 ∨
      reiserfs_key_comp_four_components a b = 1) ∧
    reiserfs_key_comp_four_components a b = lex4 (key_decode a) (key_decode b) ∧
    reiserfs_key_comp_four_components a b = - reiserfs_key_comp_four_components b a ∧
    (reiserfs_key_comp_four_components a b = -1 → reiserfs_key_comp_four_components b c = -1 →
      reiserfs_key_comp_four_components a c = -1) ∧
    (reiserfs_key_comp_four_components a b ≤ 0 → reiserfs_key_comp_four_components b c ≤ 0 →
      reiserfs_key_comp_four_components a c ≤ 0) ∧
    (reiserfs_key_comp_four_components a b = 0 → reiserfs_key_comp_four_components b c = 0 →
      reiserfs_key_comp_four_components a c = 0) := by
  refine ⟨?_, comp_four_eq_lex4 a b, ?_, ?_, ?_, ?_⟩
  · rw [comp_four_eq_lex4]; exact lex4_range _ _
  · rw [comp_four_eq_lex4, comp_four_eq_lex4]; exact lex4_antisymm _ _
  · intro h1 h2
    rw [comp_four_eq_lex4] at *
    exact lex4_trans_lt _ _ _ h1 h2
  · intro h1 h2
    rw [comp_four_eq_lex4] at *
    exact lex4_trans_le _ _ _ h1 h2
  · intro h1 h2
    rw [comp_four_eq_lex4] at *
    rw [lex4_eq_congr _ _ _ h1]; exact h2

/-! ## Key encode / decode round trip -/

theorem key_form_v1_u (dirid objid offset uniq : Nat) :
    (reiserfs_key_v1_form dirid objid offset uniq).u = (uniq % 2 ^ 32) * 2 ^ 32 + offset % 2 ^ 32 := by
  simp only [reiserfs_key_v1_form, set_key_v1_type, set_key_v1_offset, set_key_objid,
    set_key_dirid, key_zero]
  omega

theorem key_form_v2_u (dirid objid offset type : Nat) (ho : offset < 2 ^ 60) (ht : type ≤ 15) :
    (reiserfs_key_v2_form dirid objid offset type).u = offset + type * 2 ^ 60 := by
  have h1 : type % 2 ^ 64 = type := Nat.mod_eq_of_lt (by omega)
  have h2 : ¬ (type % 2 ^ 64 > 15) := by omega
  have h3 : (set_key_v2_offset (set_key_objid (set_key_dirid key_zero dirid) objid) offset).u
      = offset := by
    simp only [set_key_v2_offset, set_key_objid, set_key_dirid, key_zero, Nat.zero_mod,
      Nat.zero_and, Nat.zero_or, Nat.shiftLeft_zero, Nat.mod_mod]
    omega
  unfold reiserfs_key_v2_form set_key_v2_type
  rw [if_neg h2]
  show ((((set_key_v2_offset (set_key_objid (set_key_dirid key_zero dirid) objid) offset).u
    % 2 ^ 64) &&& not64 KEY_TYPE_MASK) ||| ((type % 2 ^ 64) <<< 60)) % 2 ^ 64 = _
  rw [h3, and_not_type_mask, or_shift60 _ _ (Nat.mod_lt _ (by norm_num))]
  omega

theorem key_form_v2_ids (dirid objid offset type : Nat) :
    (reiserfs_key_v2_form dirid objid offset type).k_dirid = dirid % 2 ^ 32 ∧
    (reiserfs_key_v2_form dirid objid offset type).k_objid = objid % 2 ^ 32 := by
  unfold reiserfs_key_v2_form set_key_v2_type
  split_ifs <;> exact ⟨rfl, rfl⟩

theorem key_offset_of_u (k : key) :
    reiserfs_key_offset k =
      if k.u / 2 ^ 60 % 16 = 0 ∨ k.u / 2 ^ 60 % 16 = 15 then k.u % 2 ^ 32 else k.u % 2 ^ 60 := by
  by_cases hc : k.u / 2 ^ 60 % 16 = 0 ∨ k.u / 2 ^ 60 % 16 = 15
  · simp only [reiserfs_key_offset, reiserfs_key_format, get_key_v2_type_eq, get_key_v1_offset,
      KEY_FORMAT_1, hc, if_true]
  · simp only [reiserfs_key_offset, reiserfs_key_format, get_key_v2_type_eq,
      get_key_v2_offset_eq, KEY_FORMAT_1, KEY_FORMAT_2, hc, if_false]
    simp

theorem key_type_of_u (k : key) :
    reiserfs_key_type k =
      if k.u / 2 ^ 60 % 16 = 0 ∨ k.u / 2 ^ 60 % 16 = 15 then
        reiserfs_key_uniq2type (k.u / 2 ^ 32 % 2 ^ 32)
      else k.u / 2 ^ 60 % 16 := by
  by_cases hc : k.u / 2 ^ 60 % 16 = 0 ∨ k.u / 2 ^ 60 % 16 = 15
  · simp only [reiserfs_key_type, reiserfs_key_format, get_key_v2_type_eq, get_key_v1_type,
      KEY_FORMAT_1, hc, if_true]
  · simp only [reiserfs_key_type, reiserfs_key_format, get_key_v2_type_eq,
      KEY_FORMAT_1, KEY_FORMAT_2, hc, if_false]
    simp

/-- Decoding a key whose union word is a version-1 pair `(offset, uniq)` with the top four
bits of `uniq` all clear or all set. -/
theorem decode_v1_word (k : key) (offset uniq : Nat) (ho : offset < 2 ^ 32) (hq : uniq < 2 ^ 32)
    (hu : k.u = uniq * 2 ^ 32 + offset) (htop : uniq / 2 ^ 28 = 0 ∨ uniq / 2 ^ 28 = 15) :
    reiserfs_key_offset k = offset ∧ reiserfs_key_type k = reiserfs_key_uniq2type uniq := by
  have hc : k.u / 2 ^ 60 % 16 = 0 ∨ k.u / 2 ^ 60 % 16 = 15 := by omega
  have hl : k.u % 2 ^ 32 = offset := by omega
  have hh : k.u / 2 ^ 32 % 2 ^ 32 = uniq := by omega
  rw [key_offset_of_u, key_type_of_u, if_pos hc, if_pos hc, hl, hh]
  exact ⟨rfl, rfl⟩

/-- Decoding a key whose union word is a version-2 pair `(offset, type)` with a type
in 1..14. -/
theorem decode_v2_word (k : key) (offset type : Nat) (ho : offset < 2 ^ 60)
    (ht : 1 ≤ type ∧ type ≤ 14) (hu : k.u = offset + type * 2 ^ 60) :
    reiserfs_key_offset k = offset ∧ reiserfs_key_type k = type := by
  have hc : ¬ (k.u / 2 ^ 60 % 16 = 0 ∨ k.u / 2 ^ 60 % 16 = 15) := by omega
  have hl : k.u % 2 ^ 60 = offset := by omega
  have hh : k.u / 2 ^ 60 % 16 = type := by omega
  rw [key_offset_of_u, key_type_of_u, if_neg hc, if_neg hc, hl, hh]
  exact ⟨rfl, rfl⟩

/-- C4: for every u32 dirid and objid, every type in {SD, IT, DT, DR}, every format in
{3.5, 3.6} and every offset below 2^32 (below 2^60 when the format is 3.6 and the type is
not SD), the key built by `reiserfs_key_form` decodes back to the same dirid, objid,
offset and type. -/
theorem C4_key_form_roundtrip (dirid objid offset type format : Nat)
    (hd : dirid < 2 ^ 32) (hobj : objid < 2 ^ 32)
    (ht : type = KEY_TYPE_SD ∨ type = KEY_TYPE_IT ∨ type = KEY_TYPE_DT ∨ type = KEY_TYPE_DR)
    (hf : format = FS_FORMAT_3_5 ∨ format = FS_FORMAT_3_6)
    (hoff : offset < 2 ^ 32 ∨ (format = FS_FORMAT_3_6 ∧ type ≠ KEY_TYPE_SD ∧ offset < 2 ^ 60)) :
    get_key_dirid (reiserfs_key_form dirid objid offset type format) = dirid ∧
    get_key_objid (reiserfs_key_form dirid objid offset type format) = objid ∧
    reiserfs_key_offset (reiserfs_key_form dirid objid offset type format) = offset ∧
    reiserfs_key_type (reiserfs_key_form dirid objid offset type format) = type := by
  have hdir : ∀ k : key, k.k_dirid = dirid % 2 ^ 32 → get_key_dirid k = dirid := by
    intro k hk; unfold get_key_dirid; rw [hk]; omega
  have hob : ∀ k : key, k.k_objid = objid % 2 ^ 32 → get_key_objid k = objid := by
    intro k hk; unfold get_key_objid; rw [hk]; omega
  simp only [KEY_TYPE_SD, KEY_TYPE_IT, KEY_TYPE_DT, KEY_TYPE_DR, FS_FORMAT_3_5,
    FS_FORMAT_3_6] at ht hf hoff ⊢
  rcases hf with hf | hf
  · -- format 3.5: a version-1 key
    subst hf
    have hoff' : offset < 2 ^ 32 := by
      rcases hoff with h | ⟨h, _, _⟩
      · exact h
      · omega
    have hform : reiserfs_key_form dirid objid offset type 0 =
        reiserfs_key_v1_form dirid objid (offset % 2 ^ 32)
          (reiserfs_key_type2uniq (type % 2 ^ 32)) := by
      simp [reiserfs_key_form, FS_FORMAT_3_5]
    rw [hform]
    have hu := key_form_v1_u dirid objid (offset % 2 ^ 32) (reiserfs_key_type2uniq (type % 2 ^ 32))
    have hom : offset % 2 ^ 32 % 2 ^ 32 = offset := by omega
    rw [hom] at hu
    refine ⟨hdir _ rfl, hob _ rfl, ?_⟩
    rcases ht with rfl | rfl | rfl | rfl
    · have hq : reiserfs_key_type2uniq (0 % 2 ^ 32) = 0 := by decide
      rw [hq] at hu ⊢
      have := decode_v1_word _ offset 0 hoff' (by norm_num) hu (Or.inl (by norm_num))
      exact ⟨this.1, this.2.trans (by decide)⟩
    · have hq : reiserfs_key_type2uniq (1 % 2 ^ 32) = 0xfffffffe := by decide
      rw [hq] at hu ⊢
      have := decode_v1_word _ offset 0xfffffffe hoff' (by norm_num) hu (Or.inr (by norm_num))
      exact ⟨this.1, this.2.trans (by decide)⟩
    · have hq : reiserfs_key_type2uniq (2 % 2 ^ 32) = 0xffffffff := by decide
      rw [hq] at hu ⊢
      have := decode_v1_word _ offset 0xffffffff hoff' (by norm_num) hu (Or.inr (by norm_num))
      exact ⟨this.1, this.2.trans (by decide)⟩
    · have hq : reiserfs_key_type2uniq (3 % 2 ^ 32) = 500 := by decide
      rw [hq] at hu ⊢
      have := decode_v1_word _ offset 500 hoff' (by norm_num) hu (Or.inl (by norm_num))
      exact ⟨this.1, this.2.trans (by decide)⟩
  · -- format 3.6: a version-2 key
    subst hf
    have hoff' : offset < 2 ^ 60 := by
      rcases hoff with h | ⟨_, _, h⟩
      · omega
      · exact h
    have ht15 : type ≤ 15 := by omega
    have hform : reiserfs_key_form dirid objid offset type 2 =
        reiserfs_key_v2_form dirid objid offset type := by
      simp [reiserfs_key_form, FS_FORMAT_3_5]
    rw [hform]
    have hu := key_form_v2_u dirid objid offset type hoff' ht15
    have hids := key_form_v2_ids dirid objid offset type
    refine ⟨hdir _ hids.1, hob _ hids.2, ?_⟩
    by_cases h0 : type = 0
    · subst h0
      have h32 : offset < 2 ^ 32 := by
        rcases hoff with h | ⟨_, h, _⟩
        · exact h
        · exact absurd rfl h
      have hu' : (reiserfs_key_v2_form dirid objid offset 0).u = 0 * 2 ^ 32 + offset := by
        rw [hu]; omega
      have := decode_v1_word _ offset 0 h32 (by norm_num) hu' (Or.inl (by norm_num))
      exact ⟨this.1, this.2.trans (by decide)⟩
    · exact decode_v2_word _ offset type hoff' (by omega) hu

/-- Witness for C4: the version-2 directory-entry key of the root directory. -/
theorem C4_key_form_roundtrip_witness :
    get_key_dirid (reiserfs_key_form 1 2 1 KEY_TYPE_DR FS_FORMAT_3_6) = 1 ∧
    get_key_objid (reiserfs_key_form 1 2 1 KEY_TYPE_DR FS_FORMAT_3_6) = 2 ∧
    reiserfs_key_offset (reiserfs_key_form 1 2 1 KEY_TYPE_DR FS_FORMAT_3_6) = 1 ∧
    reiserfs_key_type (reiserfs_key_form 1 2 1 KEY_TYPE_DR FS_FORMAT_3_6) = KEY_TYPE_DR :=
  C4_key_form_roundtrip 1 2 1 KEY_TYPE_DR FS_FORMAT_3_6 (by norm_num) (by norm_num)
    (Or.inr (Or.inr (Or.inr rfl))) (Or.inr rfl) (Or.inl (by norm_num))

/-! ## Binary search -/

theorem int32_of_range (x : Int) (h1 : -(2 ^ 31) ≤ x) (h2 : x < 2 ^ 31) : int32 x = x := by
  unfold int32; omega

theorem strictly_increasing_index {α : Type} {comp : α → α → Int} {array : List α}
    (hs : strictly_increasing comp array) (i j : Nat) (ei ej : α) (hij : i < j)
    (hi : array[i]? = some ei) (hj : array[j]? = some ej) : comp ei ej = -1 := by
  obtain ⟨hi1, hi2⟩ := List.getElem?_eq_some.mp hi
  obtain ⟨hj1, hj2⟩ := List.getElem?_eq_some.mp hj
  have := List.pairwise_iff_getElem.mp hs i j hi1 hj1 hij
  rw [hi2, hj2] at this
  exact this

/-- Entries left of an entry below the needle are below the needle. -/
theorem below_of_below {α : Type} {comp : α → α → Int} (hc : IsComparator comp) {array : List α}
    (hs : strictly_increasing comp array) (needle : α) (i : Nat) (ei : α)
    (hi : array[i]? = some ei) (hlt : comp ei needle = -1) :
    ∀ j e, array[j]? = some e → j ≤ i → comp e needle = -1 := by
  intro j e hj hji
  rcases Nat.lt_or_ge j i with h | h
  · exact hc.trans_lt _ _ _ (strictly_increasing_index hs j i e ei h hj hi) hlt
  · have : j = i := by omega
    subst this
    rw [hi] at hj
    cases hj
    exact hlt

/-- Entries right of an entry above the needle are above the needle. -/
theorem above_of_above {α : Type} {comp : α → α → Int} (hc : IsComparator comp) {array : List α}
    (hs : strictly_increasing comp array) (needle : α) (i : Nat) (ei : α)
    (hi : array[i]? = some ei) (hgt : comp ei needle = 1) :
    ∀ j e, array[j]? = some e → i ≤ j → comp e needle = 1 := by
  intro j e hj hij
  rcases Nat.lt_or_ge i j with h | h
  · have h1 := strictly_increasing_index hs i j ei e h hi hj
    have h2 : comp needle ei = -1 := by rw [hc.antisymm, hgt]
    have h3 := hc.trans_lt _ _ _ h2 h1
    rw [hc.antisymm, h3]; rfl
  · have : j = i := by omega
    subst this
    rw [hi] at hj
    cases hj
    exact hgt

/-- With a positive width whose products with the indices of the array stay below 2^32, the
address `array + i * width` is the entry `i`. -/
theorem array_at_eq {α : Type} (array : List α) (width : Nat) (hw : 0 < width)
    (i : Int) (hi0 : 0 ≤ i) (hiw : i.toNat * width < 2 ^ 32)
    (hi : i.toNat < array.length) : array_at array width i = some array[i.toNat] := by
  have h2 : i.toNat ≤ i.toNat * width := Nat.le_mul_of_pos_right _ hw
  have h3 : (i % 2 ^ 32).toNat = i.toNat := by omega
  have h4 : i.toNat * width % 2 ^ 32 = i.toNat * width := Nat.mod_eq_of_lt hiw
  unfold array_at
  rw [h3, h4, Nat.mul_mod_left, if_pos rfl, Nat.mul_div_cancel _ hw,
    List.getElem?_eq_getElem hi]

/-- The width that `reiserfs_tree_node_lookup` passes to the search is positive, and its
products with the indices of a node (a 16-bit count) stay below 2^32. -/
theorem lookup_width (node : Node) (n : Nat) (hn : n ≤ 2 ^ 16) :
    0 < (if is_leaf_node node = true then IH_SIZE else FULL_KEY_SIZE) ∧
    (n - 1) * (if is_leaf_node node = true then IH_SIZE else FULL_KEY_SIZE) < 2 ^ 32 := by
  unfold IH_SIZE FULL_KEY_SIZE
  split_ifs <;> omega

theorem fast_search_loop_spec {α : Type} {comp : α → α → Int} (hc : IsComparator comp)
    (needle : α) (array : List α) (hlen : array.length ≤ 2 ^ 30)
    (width : Nat) (hw : 0 < width) (hlw : (array.length - 1) * width < 2 ^ 32)
    (hs : strictly_increasing comp array) :
    ∀ (fuel : Nat) (left right : Int), 0 ≤ left → right < array.length → left ≤ right + 1 →
      right - left + 2 ≤ fuel →
      (∀ (j : Nat) (e : α), array[j]? = some e → (j : Int) < left → comp e needle = -1) →
      (∀ (j : Nat) (e : α), array[j]? = some e → right < (j : Int) → comp e needle = 1) →
      ∃ found pos, fast_search_loop comp needle array width fuel left right =
          some (found, pos) ∧
        search_post comp needle array found pos := by
  intro fuel
  induction fuel with
  | zero => intro left right h0 h1 h2 h3; omega
  | succ fuel ih =>
    intro left right h0 h1 h2 h3 hL hR
    unfold fast_search_loop
    by_cases hlr : left ≤ right
    · rw [if_pos hlr]
      have hsum : int32 (right + left) = right + left := int32_of_range _ (by omega) (by omega)
      have hi : Int.tdiv (int32 (right + left)) 2 = (right + left) / 2 := by
        rw [hsum, Int.tdiv_eq_ediv (by omega) (by norm_num)]
      simp only [hi]
      have hi0 : 0 ≤ (right + left) / 2 := by omega
      have hilt : ((right + left) / 2).toNat < array.length := by omega
      have hat : array_at array width ((right + left) / 2) =
          some array[((right + left) / 2).toNat] :=
        array_at_eq array width hw _ hi0
          (lt_of_le_of_lt (Nat.mul_le_mul_right _ (by omega)) hlw) hilt
      rw [hat]
      have hget : array[((right + left) / 2).toNat]? = some array[((right + left) / 2).toNat] :=
        List.getElem?_eq_getElem hilt
      simp only
      rcases hc.range array[((right + left) / 2).toNat] needle with hres | hres | hres
      · -- the middle entry is below the needle
        rw [if_pos hres]
        have h32 : int32 ((right + left) / 2 + 1) = (right + left) / 2 + 1 :=
          int32_of_range _ (by omega) (by omega)
        rw [h32]
        apply ih _ _ (by omega) h1 (by omega) (by omega) _ hR
        intro j e hj hjl
        exact below_of_below hc hs needle _ _ hget hres j e hj (by omega)
      · -- the middle entry equals the needle
        rw [if_neg (by omega), if_neg (by omega), if_pos hres]
        refine ⟨1, _, rfl, Or.inl ⟨rfl, _, ?_, hres⟩⟩
        have : ((right + left) / 2 % 2 ^ 32).toNat = ((right + left) / 2).toNat := by omega
        rw [this]
        exact hget
      · -- the middle entry is above the needle
        rw [if_neg (by omega), if_pos hres]
        by_cases hz : (right + left) / 2 = 0
        · rw [if_pos hz]
          have hl0 : left = 0 := by omega
          refine ⟨0, _, rfl, Or.inr ⟨rfl, ?_, ?_, ?_⟩⟩
          · subst hl0; simp
          · intro j e hj hjl
            subst hl0
            simp at hjl
          · intro j e hj _
            exact above_of_above hc hs needle _ _ hget hres j e hj (by omega)
        · rw [if_neg hz]
          have h32 : int32 ((right + left) / 2 - 1) = (right + left) / 2 - 1 :=
            int32_of_range _ (by omega) (by omega)
          rw [h32]
          apply ih _ _ h0 (by omega) (by omega) (by omega) hL
          intro j e hj hjr
          exact above_of_above hc hs needle _ _ hget hres j e hj (by omega)
    · rw [if_neg hlr]
      have hl : left = right + 1 := by omega
      refine ⟨0, _, rfl, Or.inr ⟨rfl, ?_, ?_, ?_⟩⟩
      · omega
      · intro j e hj hjl
        exact hL j e hj (by omega)
      · intro j e hj hjl
        exact hR j e hj (by omega)

theorem fast_search_spec {α : Type} {comp : α → α → Int} (hc : IsComparator comp)
    (needle : α) (array : List α) (hlen : array.length ≤ 2 ^ 30)
    (width : Nat) (hw : 0 < width) (hlw : (array.length - 1) * width < 2 ^ 32)
    (hs : strictly_increasing comp array) :
    ∃ found pos, reiserfs_tools_fast_search needle array array.length width comp =
        some (found, pos) ∧
      search_post comp needle array found pos := by
  unfold reiserfs_tools_fast_search
  by_cases h0 : (array.length : Int) = 0
  · rw [if_pos h0]
    have hnil : array.length = 0 := by omega
    refine ⟨0, 0, rfl, Or.inr ⟨rfl, Nat.zero_le _, ?_, ?_⟩⟩
    · intro j e _ hj; omega
    · intro j e hj _
      rw [List.getElem?_eq_none (by omega)] at hj
      cases hj
  · rw [if_neg h0]
    have h32 : int32 ((array.length : Int) - 1) = (array.length : Int) - 1 :=
      int32_of_range _ (by omega) (by omega)
    rw [h32]
    apply fast_search_loop_spec hc needle array hlen width hw hlw hs _ _ _ (le_refl _)
      (by omega) (by omega) (by omega)
    · intro j e _ hj; omega
    · intro j e hj hjr
      rw [List.getElem?_eq_none (by omega)] at hj
      cases hj

/-- Under a comparator, an entry equal to the needle is found, and at its own index. -/
theorem search_post_found {α : Type} {comp : α → α → Int} (hc : IsComparator comp)
    (needle : α) (array : List α) (hs : strictly_increasing comp array) (found : Int) (pos : Nat)
    (hp : search_post comp needle array found pos) (i : Nat) (e : α)
    (hi : array[i]? = some e) (he : comp e needle = 0) : found = 1 ∧ pos = i := by
  rcases hp with ⟨hf, e', hpos, he'⟩ | ⟨_, _, hlo, hhi⟩
  · refine ⟨hf, ?_⟩
    have hcong := hc.eq_congr e' needle e he'
    have hne : comp needle e = 0 := by rw [hc.antisymm, he]; rfl
    rcases Nat.lt_trichotomy pos i with h | h | h
    · have := strictly_increasing_index hs pos i e' e h hpos hi
      omega
    · exact h
    · have h1 := strictly_increasing_index hs i pos e e' h hi hpos
      have h2 : comp e' e = 1 := by rw [hc.antisymm, h1]; rfl
      omega
  · rcases Nat.lt_or_ge i pos with h | h
    · have := hlo i e hi h
      omega
    · have := hhi i e hi h
      omega

theorem cmp3_lt_iff (a b : Nat) : cmp3 a b = -1 ↔ a < b := by
  unfold cmp3; split_ifs <;> simp <;> omega

theorem cmp3_eq_iff (a b : Nat) : cmp3 a b = 0 ↔ a = b := by
  unfold cmp3; split_ifs <;> simp <;> omega

theorem cmp3_comparator : IsComparator cmp3 := by
  constructor
  · intro a b; unfold cmp3; split_ifs <;> simp
  · intro a b; unfold cmp3; split_ifs <;> omega
  · intro a b c h1 h2
    rw [cmp3_lt_iff] at *
    omega
  · intro a b c h
    rw [cmp3_eq_iff] at h
    rw [h]

/-- Within the ranges of the `int` and `unsigned` arithmetic of the search (at most 2^30
entries, so that the `int` sum `right + left` cannot overflow; a positive width whose product
with the last index is below 2^32, so that the `unsigned` product `i * width` cannot wrap), on
an array that is strictly increasing under a comparator `reiserfs_tools_fast_search` returns;
an entry equal to the needle makes it return 1 with `*pos` the index of that entry; with no
such entry it returns 0 with `*pos` the insertion point. -/
theorem fast_search_correct {α : Type} (comp : α → α → Int) (hc : IsComparator comp)
    (needle : α) (array : List α) (hlen : array.length ≤ 2 ^ 30)
    (width : Nat) (hw : 0 < width) (hlw : (array.length - 1) * width < 2 ^ 32)
    (hs : strictly_increasing comp array) :
    ∃ found pos, reiserfs_tools_fast_search needle array array.length width comp =
        some (found, pos) ∧
      (∀ (i : Nat) (e : α), array[i]? = some e → comp e needle = 0 → found = 1 ∧ pos = i) ∧
      ((∀ (i : Nat) (e : α), array[i]? = some e → comp e needle ≠ 0) →
        found = 0 ∧ pos ≤ array.length ∧
        (∀ (j : Nat) (e : α), array[j]? = some e → j < pos → comp e needle = -1) ∧
        (∀ (j : Nat) (e : α), array[j]? = some e → pos ≤ j → comp e needle = 1)) := by
  obtain ⟨found, pos, hres, hp⟩ := fast_search_spec hc needle array hlen width hw hlw hs
  refine ⟨found, pos, hres, ?_, ?_⟩
  · intro i e hi he
    exact search_post_found hc needle array hs found pos hp i e hi he
  · intro hnone
    rcases hp with ⟨_, e', hpos, he'⟩ | h
    · exact absurd he' (hnone pos e' hpos)
    · exact h

/-- Searching 3 in the array 1, 3, 5 of naturals stored as 4-byte entries: found at index
1. -/
theorem fast_search_correct_example :
    reiserfs_tools_fast_search 3 [1, 3, 5] 3 4 cmp3 = some (1, 1) := by
  decide

/-- On the array 0, 1, ..., 2^30 of one-byte entries the search for the last entry has no
result: every probe below 2^30 finds an entry below the needle and moves `left` up, and at
`left = right = 2^30` the `int` sum `right + left` is 2^31, which wraps to -2^31; the probe
index is -2^30 and the address lies outside the array. -/
theorem fast_search_loop_overflow (n : Nat) (hn : n = 2 ^ 30) :
    ∀ (fuel : Nat) (left : Int), 0 ≤ left → left ≤ n →
      fast_search_loop cmp3 n (List.range (n + 1)) 1 fuel left n = none := by
  intro fuel
  induction fuel with
  | zero => intro left _ _; rfl
  | succ fuel ih =>
    intro left h0 h1
    unfold fast_search_loop
    rw [if_pos h1]
    by_cases hl : left < n
    · have hsum : int32 ((n : Int) + left) = n + left :=
        int32_of_range _ (by omega) (by omega)
      have hi : Int.tdiv (int32 ((n : Int) + left)) 2 = ((n : Int) + left) / 2 := by
        rw [hsum, Int.tdiv_eq_ediv (by omega) (by norm_num)]
      simp only [hi]
      have hi0 : 0 ≤ ((n : Int) + left) / 2 := by omega
      have hilt : (((n : Int) + left) / 2).toNat < (List.range (n + 1)).length := by
        rw [List.length_range]; omega
      rw [array_at_eq _ 1 one_pos _ hi0 (by omega) hilt]
      simp only
      rw [List.getElem_range]
      have hres : cmp3 (((n : Int) + left) / 2).toNat n = -1 :=
        (cmp3_lt_iff _ _).mpr (by omega)
      rw [if_pos hres]
      have h32 : int32 (((n : Int) + left) / 2 + 1) = ((n : Int) + left) / 2 + 1 :=
        int32_of_range _ (by omega) (by omega)
      rw [h32]
      exact ih _ (by omega) (by omega)
    · have hl' : left = n := by omega
      subst hl'
      have hi : Int.tdiv (int32 ((n : Int) + n)) 2 = -(2 ^ 30) := by
        subst hn; decide
      simp only [hi]
      have hat : array_at (List.range (n + 1)) 1 (-(2 ^ 30)) = none := by
        unfold array_at
        have e : (-(2 ^ 30 : Int) % 2 ^ 32).toNat * 1 % 2 ^ 32 = 3 * 2 ^ 30 := by decide
        rw [e, if_pos (Nat.mod_one _), Nat.div_one,
          List.getElem?_eq_none (by rw [List.length_range]; omega)]
      rw [hat]

theorem fast_search_overflow (n : Nat) (hn : n = 2 ^ 30) :
    strictly_increasing cmp3 (List.range (n + 1)) ∧
    (List.range (n + 1))[n]? = some n ∧
    reiserfs_tools_fast_search n (List.range (n + 1)) ((n : Int) + 1) 1 cmp3 = none := by
  refine ⟨?_, ?_, ?_⟩
  · unfold strictly_increasing
    exact (List.pairwise_lt_range (n + 1)).imp (fun h => (cmp3_lt_iff _ _).mpr h)
  · rw [List.getElem?_range (by omega)]
  · unfold reiserfs_tools_fast_search
    have h32 : int32 ((n : Int) + 1 - 1) = n := by
      rw [int32_of_range _ (by omega) (by omega)]; omega
    rw [if_neg (by omega), h32]
    exact fast_search_loop_overflow n hn _ 0 (le_refl _) (by omega)

/-- C2: the code departs from the claim where its 32-bit arithmetic wraps. (1) The array
1, 3, 5 of three entries of 2^31 bytes each is strictly increasing under `cmp3` and its entry
2 equals the needle 5, so the claim asks for the result 1 with `*pos = 2`. The search looks at
entry 1 (below the needle), then at `array + 2 * width`, where `2 * 2^31` wraps to 0 in
`unsigned` arithmetic: it reads entry 0 again, finds it below the needle and returns 0 with
`*pos = 3`. With 4-byte entries the same search returns 1 with `*pos = 2`. (2) The array
0, 1, ..., 2^30 of one-byte entries is strictly increasing and its entry 2^30 equals the
needle 2^30, so the claim asks for the result 1 with `*pos = 2^30`. With
`left = right = 2^30` the `int` sum `right + left` is 2^31 and wraps to -2^31, the probe
index is -2^30, and the search reads outside the array: it has no result. -/
theorem C2_fast_search_arithmetic_wraps :
    (strictly_increasing cmp3 [1, 3, 5] ∧
     ([1, 3, 5] : List Nat)[2]? = some 5 ∧ cmp3 5 5 = 0 ∧
     array_at ([1, 3, 5] : List Nat) (2 ^ 31) 2 = some 1 ∧
     reiserfs_tools_fast_search 5 [1, 3, 5] 3 (2 ^ 31) cmp3 = some (0, 3) ∧
     reiserfs_tools_fast_search 5 [1, 3, 5] 3 4 cmp3 = some (1, 2)) ∧
    (strictly_increasing cmp3 (List.range (2 ^ 30 + 1)) ∧
     (List.range (2 ^ 30 + 1))[2 ^ 30]? = some (2 ^ 30) ∧ cmp3 (2 ^ 30) (2 ^ 30) = 0 ∧
     int32 (2 ^ 30 + 2 ^ 30) = -(2 ^ 31) ∧
     reiserfs_tools_fast_search (2 ^ 30) (List.range (2 ^ 30 + 1)) (((2 ^ 30 : Nat) : Int) + 1)
       1 cmp3 = none) := by
  refine ⟨⟨by unfold strictly_increasing; decide, by decide, by decide, by decide, by decide,
    by decide⟩, (fast_search_overflow (2 ^ 30) rfl).1, (fast_search_overflow (2 ^ 30) rfl).2.1,
    (cmp3_eq_iff _ _).mpr rfl, by decide, (fast_search_overflow (2 ^ 30) rfl).2.2⟩

/-! ## Bits of a byte buffer -/

theorem mask_eq (k : Nat) (hk : k < 8) : (1 <<< k) % 256 = 2 ^ k := by
  rw [Nat.shiftLeft_eq, Nat.one_mul]
  apply Nat.mod_eq_of_lt
  calc 2 ^ k < 2 ^ 8 := Nat.pow_lt_pow_right (by norm_num) hk
    _ = 256 := by norm_num

theorem two_pow_and_ne_zero (k x : Nat) : (2 ^ k &&& x ≠ 0) ↔ x.testBit k = true := by
  constructor
  · intro h
    by_contra hx
    apply h
    apply Nat.eq_of_testBit_eq
    intro i
    simp only [Nat.testBit_and, Nat.testBit_two_pow, Nat.zero_testBit]
    by_cases hki : k = i
    · subst hki; simp [hx]
    · simp [hki]
  · intro hx h
    have : (2 ^ k &&& x).testBit k = true := by
      simp [Nat.testBit_and, Nat.testBit_two_pow, hx]
    rw [h] at this
    simp at this

theorem testBit_or_two_pow_mod (x k j : Nat) (hj : j < 8) :
    ((x ||| 2 ^ k) % 256).testBit j = (x.testBit j || decide (k = j)) := by
  have h : (256 : Nat) = 2 ^ 8 := by norm_num
  rw [h, Nat.testBit_mod_two_pow, Nat.testBit_or, Nat.testBit_two_pow]
  simp [hj]

theorem testBit_255_sub (k j : Nat) (hk : k < 8) (hj : j < 8) :
    (255 - 2 ^ k).testBit j = decide (k ≠ j) := by
  interval_cases k <;> interval_cases j <;> decide

theorem testBit_and_not_two_pow_mod (x k j : Nat) (hk : k < 8) (hj : j < 8) :
    ((x &&& (255 - 2 ^ k)) % 256).testBit j = (x.testBit j && decide (k ≠ j)) := by
  have h : (256 : Nat) = 2 ^ 8 := by norm_num
  rw [h, Nat.testBit_mod_two_pow, Nat.testBit_and, testBit_255_sub k j hk hj]
  simp [hj]

theorem byte_at_lt (buf : List Nat) (i : Int) : byte_at buf i < 256 := by
  unfold byte_at
  split_ifs
  · norm_num
  · exact Nat.mod_lt _ (by norm_num)

theorem byte_at_put_same (buf : List Nat) (i : Nat) (v : Nat) (hi : i < buf.length) :
    byte_at (byte_put buf i v) i = v % 256 := by
  unfold byte_at byte_put
  have h : ¬ ((i : Int) < 0) := by omega
  simp only [h, if_false, Int.toNat_ofNat]
  rw [List.getD_eq_getElem?_getD, List.getElem?_set_self (by simpa using hi)]
  simp

theorem byte_at_put_ne (buf : List Nat) (i j : Nat) (v : Nat) (hij : i ≠ j) :
    byte_at (byte_put buf i v) j = byte_at buf j := by
  unfold byte_at byte_put
  have h : ¬ ((i : Int) < 0) := by omega
  have h' : ¬ ((j : Int) < 0) := by omega
  simp only [h, h', if_false, Int.toNat_ofNat]
  rw [List.getD_eq_getElem?_getD, List.getD_eq_getElem?_getD, List.getElem?_set_ne hij]

theorem byte_put_length (buf : List Nat) (i : Int) (v : Nat) :
    (byte_put buf i v).length = buf.length := by
  unfold byte_put
  split_ifs <;> simp

/-- The bit tester of tools.c reads the bits of the buffer. -/
theorem test_bit_eq (buf : List Nat) (c : Nat) :
    reiserfs_tools_test_bit (c : Int) buf 0 = if bit_set buf c then 1 else 0 := by
  unfold reiserfs_tools_test_bit bit_set
  have h1 : (0 : Int) + (c : Int) / 8 = ((c / 8 : Nat) : Int) := by omega
  have h2 : ((c : Int) % 8).toNat = c % 8 := by omega
  simp only [h1, h2]
  rw [mask_eq _ (Nat.mod_lt _ (by norm_num))]
  by_cases hb : (byte_at buf ((c / 8 : Nat) : Int)).testBit (c % 8) = true
  · rw [if_pos ((two_pow_and_ne_zero _ _).mpr hb), if_pos hb]
  · rw [if_neg (fun h => hb ((two_pow_and_ne_zero _ _).mp h)), if_neg hb]

theorem set_bit_map (buf : List Nat) (c : Nat) (hc : c / 8 < buf.length) (d : Nat) :
    bit_set (reiserfs_tools_set_bit (c : Int) buf 0).2 d = (bit_set buf d || decide (c = d)) := by
  unfold reiserfs_tools_set_bit bit_set
  have h1 : (0 : Int) + (c : Int) / 8 = ((c / 8 : Nat) : Int) := by omega
  have h2 : ((c : Int) % 8).toNat = c % 8 := by omega
  simp only [h1, h2]
  rw [mask_eq _ (Nat.mod_lt _ (by norm_num))]
  by_cases hd : c / 8 = d / 8
  · rw [← hd, byte_at_put_same _ _ _ hc, testBit_or_two_pow_mod _ _ _ (Nat.mod_lt _ (by norm_num))]
    congr 1
    apply decide_eq_decide.mpr
    omega
  · rw [byte_at_put_ne _ _ _ _ hd]
    have : c ≠ d := fun h => hd (by rw [h])
    simp [this]

theorem clear_bit_map (buf : List Nat) (c : Nat) (hc : c / 8 < buf.length) (d : Nat) :
    bit_set (reiserfs_tools_clear_bit (c : Int) buf 0).2 d = (bit_set buf d && decide (c ≠ d)) := by
  unfold reiserfs_tools_clear_bit bit_set
  have h1 : (0 : Int) + (c : Int) / 8 = ((c / 8 : Nat) : Int) := by omega
  have h2 : ((c : Int) % 8).toNat = c % 8 := by omega
  simp only [h1, h2]
  rw [mask_eq _ (Nat.mod_lt _ (by norm_num))]
  by_cases hd : c / 8 = d / 8
  · rw [← hd, byte_at_put_same _ _ _ hc,
      testBit_and_not_two_pow_mod _ _ _ (Nat.mod_lt _ (by norm_num)) (Nat.mod_lt _ (by norm_num))]
    congr 1
    apply decide_eq_decide.mpr
    omega
  · rw [byte_at_put_ne _ _ _ _ hd]
    have : c ≠ d := fun h => hd (by rw [h])
    simp [this]

theorem set_bit_length (buf : List Nat) (nr : Int) :
    (reiserfs_tools_set_bit nr buf 0).2.length = buf.length := by
  unfold reiserfs_tools_set_bit; exact byte_put_length _ _ _

theorem clear_bit_length (buf : List Nat) (nr : Int) :
    (reiserfs_tools_clear_bit nr buf 0).2.length = buf.length := by
  unfold reiserfs_tools_clear_bit; exact byte_put_length _ _ _

theorem bitmap_wf_byte (bitmap : reiserfs_bitmap) (hwf : bitmap_wf bitmap) (b : Nat)
    (hb : b < bitmap.total_blocks) : b / 8 < bitmap.map.length ∧ int32 b = b := by
  obtain ⟨h1, h2, h3⟩ := hwf
  constructor
  · rw [h3, h2]; omega
  · exact int32_of_range _ (by omega) (by omega)

/-! ## use / unuse / test of a block -/

theorem use_block_spec (bitmap : reiserfs_bitmap) (hwf : bitmap_wf bitmap) (b : Nat)
    (hb : b < bitmap.total_blocks) :
    (bit_set bitmap.map b = true → reiserfs_bitmap_use_block bitmap b = bitmap) ∧
    (bit_set bitmap.map b = false →
      reiserfs_bitmap_use_block bitmap b =
        { bitmap with
          map := (reiserfs_tools_set_bit (b : Int) bitmap.map 0).2
          used_blocks := (bitmap.used_blocks + 1) % 2 ^ 64 }) := by
  obtain ⟨_, h32⟩ := bitmap_wf_byte bitmap hwf b hb
  unfold reiserfs_bitmap_use_block
  rw [if_neg (by omega), h32, test_bit_eq]
  constructor
  · intro h; simp [h]
  · intro h; simp [h]

theorem unuse_block_spec (bitmap : reiserfs_bitmap) (hwf : bitmap_wf bitmap) (b : Nat)
    (hb : b < bitmap.total_blocks) :
    (bit_set bitmap.map b = false → reiserfs_bitmap_unuse_block bitmap b = bitmap) ∧
    (bit_set bitmap.map b = true →
      reiserfs_bitmap_unuse_block bitmap b =
        { bitmap with
          map := (reiserfs_tools_clear_bit (b : Int) bitmap.map 0).2
          used_blocks := (bitmap.used_blocks + 2 ^ 64 - 1) % 2 ^ 64 }) := by
  obtain ⟨_, h32⟩ := bitmap_wf_byte bitmap hwf b hb
  unfold reiserfs_bitmap_unuse_block
  rw [if_neg (by omega), h32, test_bit_eq]
  constructor
  · intro h; simp [h]
  · intro h; simp [h]

theorem use_block_bits (bitmap : reiserfs_bitmap) (hwf : bitmap_wf bitmap) (b : Nat)
    (hb : b < bitmap.total_blocks) (c : Nat) :
    bit_set (reiserfs_bitmap_use_block bitmap b).map c = (bit_set bitmap.map c || decide (b = c)) := by
  obtain ⟨hlen, _⟩ := bitmap_wf_byte bitmap hwf b hb
  by_cases h : bit_set bitmap.map b = true
  · rw [(use_block_spec bitmap hwf b hb).1 h]
    by_cases hbc : b = c
    · subst hbc; simp [h]
    · simp [hbc]
  · have h' : bit_set bitmap.map b = false := by simpa using h
    rw [(use_block_spec bitmap hwf b hb).2 h']
    exact set_bit_map _ _ hlen c

theorem unuse_block_bits (bitmap : reiserfs_bitmap) (hwf : bitmap_wf bitmap) (b : Nat)
    (hb : b < bitmap.total_blocks) (c : Nat) :
    bit_set (reiserfs_bitmap_unuse_block bitmap b).map c =
      (bit_set bitmap.map c && decide (b ≠ c)) := by
  obtain ⟨hlen, _⟩ := bitmap_wf_byte bitmap hwf b hb
  by_cases h : bit_set bitmap.map b = true
  · rw [(unuse_block_spec bitmap hwf b hb).2 h]
    exact clear_bit_map _ _ hlen c
  · have h' : bit_set bitmap.map b = false := by simpa using h
    rw [(unuse_block_spec bitmap hwf b hb).1 h']
    by_cases hbc : b = c
    · subst hbc; simp [h']
    · simp [hbc]

theorem use_block_fields (bitmap : reiserfs_bitmap) (b : Nat) :
    (reiserfs_bitmap_use_block bitmap b).total_blocks = bitmap.total_blocks ∧
    (reiserfs_bitmap_use_block bitmap b).size = bitmap.size ∧
    (reiserfs_bitmap_use_block bitmap b).map.length = bitmap.map.length := by
  unfold reiserfs_bitmap_use_block
  split_ifs
  · exact ⟨rfl, rfl, rfl⟩
  · exact ⟨rfl, rfl, rfl⟩
  · refine ⟨rfl, rfl, ?_⟩
    dsimp only
    rw [set_bit_length]

theorem unuse_block_fields (bitmap : reiserfs_bitmap) (b : Nat) :
    (reiserfs_bitmap_unuse_block bitmap b).total_blocks = bitmap.total_blocks ∧
    (reiserfs_bitmap_unuse_block bitmap b).size = bitmap.size ∧
    (reiserfs_bitmap_unuse_block bitmap b).map.length = bitmap.map.length := by
  unfold reiserfs_bitmap_unuse_block
  split_ifs
  · exact ⟨rfl, rfl, rfl⟩
  · exact ⟨rfl, rfl, rfl⟩
  · refine ⟨rfl, rfl, ?_⟩
    dsimp only
    rw [clear_bit_length]

theorem use_block_wf (bitmap : reiserfs_bitmap) (hwf : bitmap_wf bitmap) (b : Nat) :
    bitmap_wf (reiserfs_bitmap_use_block bitmap b) ∧
    (reiserfs_bitmap_use_block bitmap b).total_blocks = bitmap.total_blocks := by
  obtain ⟨h1, h2, h3⟩ := use_block_fields bitmap b
  refine ⟨?_, h1⟩
  unfold bitmap_wf at *
  rw [h1, h2, h3]
  exact hwf

theorem unuse_block_wf (bitmap : reiserfs_bitmap) (hwf : bitmap_wf bitmap) (b : Nat) :
    bitmap_wf (reiserfs_bitmap_unuse_block bitmap b) ∧
    (reiserfs_bitmap_unuse_block bitmap b).total_blocks = bitmap.total_blocks := by
  obtain ⟨h1, h2, h3⟩ := unuse_block_fields bitmap b
  refine ⟨?_, h1⟩
  unfold bitmap_wf at *
  rw [h1, h2, h3]
  exact hwf

theorem bitmap_layout_of_wf (bitmap : reiserfs_bitmap) (hwf : bitmap_wf bitmap) :
    bitmap_layout bitmap := ⟨hwf.2.1, hwf.2.2⟩

theorem bitmap_layout_byte (bitmap : reiserfs_bitmap) (hl : bitmap_layout bitmap) (b : Nat)
    (hb : b < bitmap.total_blocks) : b / 8 < bitmap.map.length := by
  obtain ⟨h2, h3⟩ := hl
  rw [h3, h2]; omega

theorem use_block_spec_int (bitmap : reiserfs_bitmap) (b : Nat)
    (hb : b < bitmap.total_blocks) (hb31 : b < 2 ^ 31) :
    (bit_set bitmap.map b = true → reiserfs_bitmap_use_block bitmap b = bitmap) ∧
    (bit_set bitmap.map b = false →
      reiserfs_bitmap_use_block bitmap b =
        { bitmap with
          map := (reiserfs_tools_set_bit (b : Int) bitmap.map 0).2
          used_blocks := (bitmap.used_blocks + 1) % 2 ^ 64 }) := by
  have h32 : int32 (b : Int) = b := int32_of_range _ (by omega) (by omega)
  unfold reiserfs_bitmap_use_block
  rw [if_neg (by omega), h32, test_bit_eq]
  constructor
  · intro h; simp [h]
  · intro h; simp [h]

theorem unuse_block_spec_int (bitmap : reiserfs_bitmap) (b : Nat)
    (hb : b < bitmap.total_blocks) (hb31 : b < 2 ^ 31) :
    (bit_set bitmap.map b = false → reiserfs_bitmap_unuse_block bitmap b = bitmap) ∧
    (bit_set bitmap.map b = true →
      reiserfs_bitmap_unuse_block bitmap b =
        { bitmap with
          map := (reiserfs_tools_clear_bit (b : Int) bitmap.map 0).2
          used_blocks := (bitmap.used_blocks + 2 ^ 64 - 1) % 2 ^ 64 }) := by
  have h32 : int32 (b : Int) = b := int32_of_range _ (by omega) (by omega)
  unfold reiserfs_bitmap_unuse_block
  rw [if_neg (by omega), h32, test_bit_eq]
  constructor
  · intro h; simp [h]
  · intro h; simp [h]

theorem use_block_bits_int (bitmap : reiserfs_bitmap) (hl : bitmap_layout bitmap) (b : Nat)
    (hb : b < bitmap.total_blocks) (hb31 : b < 2 ^ 31) (c : Nat) :
    bit_set (reiserfs_bitmap_use_block bitmap b).map c =
      (bit_set bitmap.map c || decide (b = c)) := by
  have hlen := bitmap_layout_byte bitmap hl b hb
  by_cases h : bit_set bitmap.map b = true
  · rw [(use_block_spec_int bitmap b hb hb31).1 h]
    by_cases hbc : b = c
    · subst hbc; simp [h]
    · simp [hbc]
  · have h' : bit_set bitmap.map b = false := by simpa using h
    rw [(use_block_spec_int bitmap b hb hb31).2 h']
    exact set_bit_map _ _ hlen c

theorem unuse_block_bits_int (bitmap : reiserfs_bitmap) (hl : bitmap_layout bitmap) (b : Nat)
    (hb : b < bitmap.total_blocks) (hb31 : b < 2 ^ 31) (c : Nat) :
    bit_set (reiserfs_bitmap_unuse_block bitmap b).map c =
      (bit_set bitmap.map c && decide (b ≠ c)) := by
  have hlen := bitmap_layout_byte bitmap hl b hb
  by_cases h : bit_set bitmap.map b = true
  · rw [(unuse_block_spec_int bitmap b hb hb31).2 h]
    exact clear_bit_map _ _ hlen c
  · have h' : bit_set bitmap.map b = false := by simpa using h
    rw [(unuse_block_spec_int bitmap b hb hb31).1 h']
    by_cases hbc : b = c
    · subst hbc; simp [h']
    · simp [hbc]

theorem use_block_layout (bitmap : reiserfs_bitmap) (hl : bitmap_layout bitmap) (b : Nat) :
    bitmap_layout (reiserfs_bitmap_use_block bitmap b) := by
  obtain ⟨h1, h2, h3⟩ := use_block_fields bitmap b
  unfold bitmap_layout at *
  rw [h1, h2, h3]
  exact hl

/-- A block number of 2^31 or more, below 2^32, reaches the bit tools as a negative `int`:
the byte they address lies before the map, which the model reads as 0 and does not
store to. -/
theorem test_bit_beyond_int (buf : List Nat) (b : Nat) (h1 : 2 ^ 31 ≤ b) (h2 : b < 2 ^ 32) :
    int32 (b : Int) = (b : Int) - 2 ^ 32 ∧
    (0 : Int) + int32 (b : Int) / 8 < 0 ∧
    reiserfs_tools_test_bit (int32 (b : Int)) buf 0 = 0 ∧
    (reiserfs_tools_set_bit (int32 (b : Int)) buf 0).2 = buf ∧
    (reiserfs_tools_clear_bit (int32 (b : Int)) buf 0).2 = buf := by
  have e : int32 (b : Int) = (b : Int) - 2 ^ 32 := by unfold int32; omega
  have hneg : (0 : Int) + ((b : Int) - 2 ^ 32) / 8 < 0 := by omega
  refine ⟨e, by rw [e]; exact hneg, ?_, ?_, ?_⟩
  · unfold reiserfs_tools_test_bit byte_at
    rw [e]
    simp only [if_pos hneg]
    simp
  · unfold reiserfs_tools_set_bit byte_put
    rw [e]
    simp only [if_pos hneg]
  · unfold reiserfs_tools_clear_bit byte_put
    rw [e]
    simp only [if_pos hneg]

/-- Within the range of the `int` parameter of the bit tools (`b < 2^31`), on a bitmap laid
out as `reiserfs_bitmap_alloc` does, for a block `b` in range `reiserfs_bitmap_use_block`
sets bit `b`, leaves every other bit unchanged, adds one to `used_blocks` (in `count_t`
arithmetic) exactly when the bit was clear, and is idempotent;
`reiserfs_bitmap_unuse_block` symmetrically clears the bit and takes one off exactly when the
bit was set; out of range both leave the bitmap unchanged and
`reiserfs_bitmap_test_block` returns 0. -/
theorem use_unuse_block_int (bitmap : reiserfs_bitmap) (hl : bitmap_layout bitmap) (b : Nat) :
    (b < bitmap.total_blocks → b < 2 ^ 31 →
      (bit_set (reiserfs_bitmap_use_block bitmap b).map b = true ∧
       (∀ c, c ≠ b → bit_set (reiserfs_bitmap_use_block bitmap b).map c = bit_set bitmap.map c) ∧
       (bit_set bitmap.map b = false →
         (reiserfs_bitmap_use_block bitmap b).used_blocks = (bitmap.used_blocks + 1) % 2 ^ 64 ∧
         (bitmap.used_blocks + 1 < 2 ^ 64 →
           (reiserfs_bitmap_use_block bitmap b).used_blocks = bitmap.used_blocks + 1)) ∧
       (bit_set bitmap.map b = true → reiserfs_bitmap_use_block bitmap b = bitmap) ∧
       reiserfs_bitmap_use_block (reiserfs_bitmap_use_block bitmap b) b =
         reiserfs_bitmap_use_block bitmap b) ∧
      (bit_set (reiserfs_bitmap_unuse_block bitmap b).map b = false ∧
       (∀ c, c ≠ b → bit_set (reiserfs_bitmap_unuse_block bitmap b).map c = bit_set bitmap.map c) ∧
       (bit_set bitmap.map b = true →
         (reiserfs_bitmap_unuse_block bitmap b).used_blocks =
           (bitmap.used_blocks + 2 ^ 64 - 1) % 2 ^ 64 ∧
         (0 < bitmap.used_blocks → bitmap.used_blocks < 2 ^ 64 →
           (reiserfs_bitmap_unuse_block bitmap b).used_blocks = bitmap.used_blocks - 1)) ∧
       (bit_set bitmap.map b = false → reiserfs_bitmap_unuse_block bitmap b = bitmap) ∧
       reiserfs_bitmap_unuse_block (reiserfs_bitmap_unuse_block bitmap b) b =
         reiserfs_bitmap_unuse_block bitmap b)) ∧
    (bitmap.total_blocks ≤ b →
      reiserfs_bitmap_use_block bitmap b = bitmap ∧ reiserfs_bitmap_unuse_block bitmap b = bitmap ∧
      reiserfs_bitmap_test_block bitmap b = 0) := by
  constructor
  · intro hb hb31
    have hu := use_block_spec_int bitmap b hb hb31
    have hn := unuse_block_spec_int bitmap b hb hb31
    refine ⟨⟨?_, ?_, ?_, hu.1, ?_⟩, ⟨?_, ?_, ?_, hn.1, ?_⟩⟩
    · rw [use_block_bits_int bitmap hl b hb hb31]; simp
    · intro c hc
      rw [use_block_bits_int bitmap hl b hb hb31]
      have : ¬ b = c := fun h => hc h.symm
      simp [this]
    · intro h
      rw [hu.2 h]
      refine ⟨rfl, ?_⟩
      intro hlt
      exact Nat.mod_eq_of_lt hlt
    · have hb' : b < (reiserfs_bitmap_use_block bitmap b).total_blocks := by
        rw [(use_block_fields bitmap b).1]; exact hb
      apply (use_block_spec_int _ b hb' hb31).1
      rw [use_block_bits_int bitmap hl b hb hb31]; simp
    · rw [unuse_block_bits_int bitmap hl b hb hb31]; simp
    · intro c hc
      rw [unuse_block_bits_int bitmap hl b hb hb31]
      have : ¬ b = c := fun h => hc h.symm
      simp [this]
    · intro h
      rw [hn.2 h]
      refine ⟨rfl, ?_⟩
      intro h0 hlt
      show (bitmap.used_blocks + 2 ^ 64 - 1) % 2 ^ 64 = bitmap.used_blocks - 1
      omega
    · have hb' : b < (reiserfs_bitmap_unuse_block bitmap b).total_blocks := by
        rw [(unuse_block_fields bitmap b).1]; exact hb
      apply (unuse_block_spec_int _ b hb' hb31).1
      rw [unuse_block_bits_int bitmap hl b hb hb31]; simp
  · intro hb
    refine ⟨?_, ?_, ?_⟩
    · unfold reiserfs_bitmap_use_block; rw [if_pos hb]
    · unfold reiserfs_bitmap_unuse_block; rw [if_pos hb]
    · unfold reiserfs_bitmap_test_block; rw [if_pos hb]

theorem bitmap_example_wf : bitmap_wf bitmap_example := by
  unfold bitmap_wf bitmap_example; decide

theorem bitmap_example_layout : bitmap_layout bitmap_example := by
  unfold bitmap_layout bitmap_example; decide

/-- Block 11 of the example bitmap: the use sets the bit and counts it. -/
theorem use_unuse_block_int_example :
    bit_set (reiserfs_bitmap_use_block bitmap_example 11).map 11 = true ∧
    (reiserfs_bitmap_use_block bitmap_example 11).used_blocks = 20 :=
  ⟨((use_unuse_block_int bitmap_example bitmap_example_layout 11).1 (by decide)
      (by norm_num)).1.1,
   (((use_unuse_block_int bitmap_example bitmap_example_layout 11).1 (by decide)
      (by norm_num)).1.2.2.1 (by decide)).2 (by decide)⟩


/-! ## The zero-bit scans -/

theorem test_bit_at (buf : List Nat) (p res : Nat) :
    reiserfs_tools_test_bit (res : Int) buf (p : Int) =
      if bit_set buf (8 * p + res) then 1 else 0 := by
  unfold reiserfs_tools_test_bit bit_set
  have h1 : (p : Int) + (res : Int) / 8 = (((8 * p + res) / 8 : Nat) : Int) := by omega
  have h2 : ((res : Int) % 8).toNat = (8 * p + res) % 8 := by omega
  simp only [h1, h2]
  rw [mask_eq _ (Nat.mod_lt _ (by norm_num))]
  by_cases hb : (byte_at buf (((8 * p + res) / 8 : Nat) : Int)).testBit ((8 * p + res) % 8) = true
  · rw [if_pos ((two_pow_and_ne_zero _ _).mpr hb), if_pos hb]
  · rw [if_neg (fun h => hb ((two_pow_and_ne_zero _ _).mp h)), if_neg hb]

theorem byte_scan_spec (buf : List Nat) (p : Nat) :
    ∀ (fuel res : Nat), res ≤ 8 → 8 - res ≤ fuel →
      ∃ r : Nat, byte_scan buf (p : Int) fuel (res : Int) = (r : Int) ∧ res ≤ r ∧ r ≤ 8 ∧
        (∀ j, res ≤ j → j < r → bit_set buf (8 * p + j) = true) ∧
        (r < 8 → bit_set buf (8 * p + r) = false) := by
  intro fuel
  induction fuel with
  | zero =>
    intro res h1 h2
    refine ⟨res, rfl, le_refl _, h1, ?_, ?_⟩
    · intro j h3 h4; omega
    · intro h; omega
  | succ fuel ih =>
    intro res h1 h2
    unfold byte_scan
    by_cases h8 : res < 8
    · rw [if_pos (by omega), test_bit_at buf p res]
      by_cases hb : bit_set buf (8 * p + res) = true
      · rw [if_pos hb, if_neg (by norm_num)]
        obtain ⟨r, hr, hr1, hr2, hr3, hr4⟩ := ih (res + 1) (by omega) (by omega)
        refine ⟨r, ?_, by omega, hr2, ?_, hr4⟩
        · rw [← hr]; push_cast; rfl
        · intro j hj1 hj2
          rcases Nat.eq_or_lt_of_le hj1 with h | h
          · rw [← h]; exact hb
          · exact hr3 j (by omega) hj2
      · rw [if_neg hb, if_pos rfl]
        refine ⟨res, rfl, le_refl _, h1, ?_, ?_⟩
        · intro j h3 h4; omega
        · intro _; simpa using hb
    · rw [if_neg (by omega)]
      refine ⟨res, rfl, le_refl _, h1, ?_, ?_⟩
      · intro j h3 h4; omega
      · intro h; omega

theorem byte_eq_255_iff (x : Nat) (hx : x < 256) : x = 255 ↔ ∀ j, j < 8 → x.testBit j = true := by
  constructor
  · intro h j hj
    subst h
    interval_cases j <;> decide
  · intro h
    apply Nat.eq_of_testBit_eq
    intro i
    by_cases hi : i < 8
    · rw [h i hi]
      interval_cases i <;> decide
    · have h8 : (2 : Nat) ^ 8 ≤ 2 ^ i := Nat.pow_le_pow_right (by norm_num) (by omega)
      rw [Nat.testBit_lt_two_pow (by omega), Nat.testBit_lt_two_pow (by omega)]

theorem bit_set_byte (buf : List Nat) (p j : Nat) (hj : j < 8) :
    bit_set buf (8 * p + j) = (byte_at buf (p : Int)).testBit j := by
  unfold bit_set
  have h1 : (8 * p + j) / 8 = p := by omega
  have h2 : (8 * p + j) % 8 = j := by omega
  rw [h1, h2]

theorem byte_at_255_iff (buf : List Nat) (p : Nat) :
    byte_at buf (p : Int) = 255 ↔ ∀ j, j < 8 → bit_set buf (8 * p + j) = true := by
  rw [byte_eq_255_iff _ (byte_at_lt _ _)]
  constructor
  · intro h j hj; rw [bit_set_byte _ _ _ hj]; exact h j hj
  · intro h j hj; rw [← bit_set_byte _ _ _ hj]; exact h j hj

theorem int32_add_int32 (a b : Int) : int32 (a + int32 b) = int32 (a + b) := by
  unfold int32
  have e1 : a + ((b + 2 ^ 31) % 2 ^ 32 - 2 ^ 31) + 2 ^ 31 = a + (b + 2 ^ 31) % 2 ^ 32 := by ring
  have e2 : a + b + 2 ^ 31 = a + (b + 2 ^ 31) := by ring
  rw [e1, e2, Int.add_emod_emod]

theorem ulong_int32_low (r : Nat) (hlow : r < 2 ^ 31) : ulong (int32 (r : Int)) = r := by
  rw [int32_of_range _ (by omega) (by omega)]
  unfold ulong; omega

theorem ulong_int32_high (r : Nat) (h1 : 2 ^ 31 ≤ r) (h2 : r < 2 ^ 32) :
    ulong (int32 (r : Int)) = r + 2 ^ 64 - 2 ^ 32 := by
  have e : int32 (r : Int) = (r : Int) - 2 ^ 32 := by unfold int32; omega
  rw [e]
  unfold ulong; omega

theorem ulong_int32_wrap (r : Nat) (h1 : 2 ^ 32 ≤ r) (h2 : r < 2 ^ 32 + 2 ^ 31) :
    ulong (int32 (r : Int)) = r - 2 ^ 32 := by
  have e : int32 (r : Int) = (r : Int) - 2 ^ 32 := by unfold int32; omega
  rw [e]
  unfold ulong; omega

theorem first_zero_loop_scan (buf : List Nat) (addr : Nat) :
    ∀ (fuel size p : Nat), 1 ≤ size → size ≤ fuel → size ≤ 2 ^ 32 →
      (first_zero_loop buf (addr : Int) fuel size (p : Int)
          = some (Sum.inl (int32 ((((p + size) * 8 : Nat)) : Int))) ∧
        ∀ q, p ≤ q → q < p + size → byte_at buf ((addr + q : Nat) : Int) = 255) ∨
      (∃ q, p ≤ q ∧ q < p + size ∧
        first_zero_loop buf (addr : Int) fuel size (p : Int) = some (Sum.inr ((q + 1 : Nat) : Int)) ∧
        (∀ q', p ≤ q' → q' < q → byte_at buf ((addr + q' : Nat) : Int) = 255) ∧
        byte_at buf ((addr + q : Nat) : Int) ≠ 255) := by
  intro fuel
  induction fuel with
  | zero => intro size p h1 h2; omega
  | succ fuel ih =>
    intro size p h1 h2 h3
    unfold first_zero_loop
    have hcast : (addr : Int) + (p : Int) = ((addr + p : Nat) : Int) := by push_cast; rfl
    rw [hcast]
    by_cases hb : byte_at buf ((addr + p : Nat) : Int) = 255
    · rw [if_pos hb]
      have hs1 : (size + 2 ^ 32 - 1) % 2 ^ 32 = size - 1 := by omega
      simp only [hs1]
      by_cases hz : size - 1 = 0
      · rw [if_pos hz]
        left
        have hsz : size = 1 := by omega
        subst hsz
        constructor
        · have : ((p : Int) + 1) * 8 = (((p + 1) * 8 : Nat) : Int) := by push_cast; rfl
          rw [this]
        · intro q hq1 hq2
          have : q = p := by omega
          subst this; exact hb
      · rw [if_neg hz]
        have hp1 : (p : Int) + 1 = ((p + 1 : Nat) : Int) := by push_cast; rfl
        rw [hp1]
        rcases ih (size - 1) (p + 1) (by omega) (by omega) (by omega) with ⟨h, hall⟩ | ⟨q, hq1, hq2, h, hall, hq⟩
        · left
          have e : p + 1 + (size - 1) = p + size := by omega
          rw [e] at h
          refine ⟨h, ?_⟩
          intro q hq1 hq2
          rcases Nat.eq_or_lt_of_le hq1 with h' | h'
          · rw [← h']; exact hb
          · exact hall q (by omega) (by omega)
        · right
          refine ⟨q, by omega, by omega, h, ?_, hq⟩
          intro q' hq'1 hq'2
          rcases Nat.eq_or_lt_of_le hq'1 with h' | h'
          · rw [← h']; exact hb
          · exact hall q' (by omega) hq'2
    · rw [if_neg hb]
      right
      refine ⟨p, le_refl _, by omega, ?_, ?_, hb⟩
      · push_cast; rfl
      · intro q' h1' h2'; omega

theorem find_first_zero_bit_scan (buf : List Nat) (addr size : Nat) (hsz : size < 2 ^ 32) :
    ∃ r : Nat, reiserfs_tools_find_first_zero_bit buf (addr : Int) size = some (int32 (r : Int)) ∧
      r ≤ (size + 7) / 8 * 8 ∧
      (∀ j, j < r → bit_set buf (8 * addr + j) = true) ∧
      (r < (size + 7) / 8 * 8 → bit_set buf (8 * addr + r) = false) := by
  unfold reiserfs_tools_find_first_zero_bit
  by_cases h0 : size = 0
  · rw [if_pos h0]
    subst h0
    refine ⟨0, rfl, by norm_num, ?_, ?_⟩
    · intro j hj; omega
    · intro h; simp at h
  · rw [if_neg h0]
    have h7 : size &&& 7 = size % 8 := by
      have : (7 : Nat) = 2 ^ 3 - 1 := by norm_num
      rw [this, Nat.and_pow_two_sub_one_eq_mod]
    have hs1 : ((size >>> 3) + (if (size &&& 7) > 0 then 1 else 0)) % 2 ^ 32 = (size + 7) / 8 := by
      rw [h7, Nat.shiftRight_eq_div_pow]
      split_ifs <;> omega
    simp only [hs1]
    have hn1 : 1 ≤ (size + 7) / 8 := by omega
    rcases first_zero_loop_scan buf addr ((size + 7) / 8 + 1) ((size + 7) / 8) 0 hn1 (by omega)
      (by omega) with ⟨h, hall⟩ | ⟨q, _, hq2, h, hall, hq⟩
    · have hc : ((0 : Nat) : Int) = 0 := rfl
      rw [hc] at h
      rw [h]
      refine ⟨(0 + (size + 7) / 8) * 8, rfl, by omega, ?_, ?_⟩
      · intro j hj
        have hb := hall (j / 8) (by omega) (by omega)
        have := (byte_at_255_iff buf (addr + j / 8)).mp hb (j % 8) (Nat.mod_lt _ (by norm_num))
        have e : 8 * (addr + j / 8) + j % 8 = 8 * addr + j := by omega
        rw [e] at this
        exact this
      · intro hlt; omega
    · have hc : ((0 : Nat) : Int) = 0 := rfl
      rw [hc] at h
      rw [h]
      simp only
      have hp1 : (((q + 1 : Nat)) : Int) - 1 = (q : Int) := by push_cast; omega
      rw [hp1]
      have hcast : (addr : Int) + (q : Int) = ((addr + q : Nat) : Int) := by push_cast; rfl
      rw [hcast]
      obtain ⟨r, hr, _, hr2, hr3, hr4⟩ := byte_scan_spec buf (addr + q) 8 0 (by norm_num)
        (by norm_num)
      have hc0 : ((0 : Nat) : Int) = 0 := rfl
      rw [hc0] at hr
      rw [hr]
      have hr8 : r < 8 := by
        by_contra hge
        have hr8 : r = 8 := by omega
        subst hr8
        apply hq
        apply (byte_at_255_iff buf (addr + q)).mpr
        intro j hj
        exact hr3 j (Nat.zero_le _) hj
      refine ⟨q * 8 + r, ?_, by omega, ?_, ?_⟩
      · have : (q : Int) * 8 + (r : Int) = ((q * 8 + r : Nat) : Int) := by push_cast; rfl
        rw [this]
      · intro j hj
        rcases Nat.lt_or_ge j (q * 8) with hlt | hge
        · have hb := hall (j / 8) (Nat.zero_le _) (by omega)
          have := (byte_at_255_iff buf (addr + j / 8)).mp hb (j % 8) (Nat.mod_lt _ (by norm_num))
          have e : 8 * (addr + j / 8) + j % 8 = 8 * addr + j := by omega
          rw [e] at this
          exact this
        · have := hr3 (j - q * 8) (Nat.zero_le _) (by omega)
          have e : 8 * (addr + q) + (j - q * 8) = 8 * addr + j := by omega
          rw [e] at this
          exact this
      · intro _
        have := hr4 hr8
        have e : 8 * (addr + q) + r = 8 * addr + (q * 8 + r) := by omega
        rw [e] at this
        exact this

/-- The scan from `offset` for every `unsigned` size: the value returned is the `int`
conversion of the first clear bit at or after `offset`, or of a position at or beyond
`size` when the bits of `[offset, size)` are all set. -/
theorem find_next_zero_bit_scan (buf : List Nat) (size offset : Nat) (hsz : size < 2 ^ 32)
    (hoff : offset < size)
    (hpad : ∀ c, size ≤ c → c < (size + 7) / 8 * 8 → bit_set buf c = false) :
    ∃ r : Nat, reiserfs_tools_find_next_zero_bit buf size offset = some (int32 (r : Int)) ∧
      offset ≤ r ∧ r ≤ (size + 7) / 8 * 8 ∧
      (∀ j, offset ≤ j → j < r → bit_set buf j = true) ∧
      (r < size → bit_set buf r = false) := by
  unfold reiserfs_tools_find_next_zero_bit
  have h7 : offset &&& 7 = offset % 8 := by
    have : (7 : Nat) = 2 ^ 3 - 1 := by norm_num
    rw [this, Nat.and_pow_two_sub_one_eq_mod]
  have h3 : offset >>> 3 = offset / 8 := by rw [Nat.shiftRight_eq_div_pow]
  simp only [h7, h3]
  rw [if_neg (by omega)]
  by_cases hbit : offset % 8 = 0
  · rw [if_neg (by omega)]
    have hu : uint ((size : Int) - 8 * ((offset / 8 : Nat) : Int)) = size - 8 * (offset / 8) := by
      unfold uint; omega
    rw [hu]
    obtain ⟨r, hr, hr1, hr2, hr3⟩ := find_first_zero_bit_scan buf (offset / 8)
      (size - 8 * (offset / 8)) (by omega)
    rw [hr]
    simp only
    refine ⟨offset / 8 * 8 + r, ?_, by omega, by omega, ?_, ?_⟩
    · rw [int32_add_int32]; push_cast; rfl
    · intro j hj1 hj2
      have := hr2 (j - 8 * (offset / 8)) (by omega)
      have e : 8 * (offset / 8) + (j - 8 * (offset / 8)) = j := by omega
      rw [e] at this
      exact this
    · intro hlt
      have := hr3 (by omega)
      have e : 8 * (offset / 8) + r = offset / 8 * 8 + r := by omega
      rw [e] at this
      exact this
  · rw [if_pos (by omega)]
    have htn : (((offset % 8 : Nat) : Int)).toNat = offset % 8 := by omega
    rw [htn]
    obtain ⟨r, hr, hr1, hr2, hr3, hr4⟩ := byte_scan_spec buf (offset / 8) (8 - offset % 8)
      (offset % 8) (by omega) (le_refl _)
    rw [hr]
    by_cases hr8 : r < 8
    · rw [if_pos (by omega)]
      refine ⟨offset / 8 * 8 + r, ?_, by omega, by omega, ?_, ?_⟩
      · push_cast; rfl
      · intro j hj1 hj2
        have := hr3 (j - 8 * (offset / 8)) (by omega) (by omega)
        have e : 8 * (offset / 8) + (j - 8 * (offset / 8)) = j := by omega
        rw [e] at this
        exact this
      · intro _
        have := hr4 hr8
        have e : 8 * (offset / 8) + r = offset / 8 * 8 + r := by omega
        rw [e] at this
        exact this
    · rw [if_neg (by omega)]
      have hr8' : r = 8 := by omega
      subst hr8'
      -- the byte of `offset` holds no padding bit: every bit from `offset` on is set
      have hfull : 8 * (offset / 8 + 1) ≤ size := by
        by_contra hlt
        have hset := hr3 (size - 8 * (offset / 8)) (by omega) (by omega)
        have e : 8 * (offset / 8) + (size - 8 * (offset / 8)) = size := by omega
        rw [e] at hset
        have hclear := hpad size (le_refl _) (by omega)
        rw [hset] at hclear
        cases hclear
      have hp1 : ((offset / 8 : Nat) : Int) + 1 = ((offset / 8 + 1 : Nat) : Int) := by
        push_cast; rfl
      rw [hp1]
      have hu : uint ((size : Int) - 8 * ((offset / 8 + 1 : Nat) : Int))
          = size - 8 * (offset / 8 + 1) := by
        unfold uint; omega
      rw [hu]
      obtain ⟨r, hr', hr1', hr2', hr3'⟩ := find_first_zero_bit_scan buf (offset / 8 + 1)
        (size - 8 * (offset / 8 + 1)) (by omega)
      rw [hr']
      simp only
      refine ⟨(offset / 8 + 1) * 8 + r, ?_, by omega, by omega, ?_, ?_⟩
      · rw [int32_add_int32]; push_cast; rfl
      · intro j hj1 hj2
        rcases Nat.lt_or_ge j (8 * (offset / 8 + 1)) with hlt | hge
        · have := hr3 (j - 8 * (offset / 8)) (by omega) (by omega)
          have e : 8 * (offset / 8) + (j - 8 * (offset / 8)) = j := by omega
          rw [e] at this
          exact this
        · have := hr2' (j - 8 * (offset / 8 + 1)) (by omega)
          have e : 8 * (offset / 8 + 1) + (j - 8 * (offset / 8 + 1)) = j := by omega
          rw [e] at this
          exact this
      · intro hlt
        have := hr3' (by omega)
        have e : 8 * (offset / 8 + 1) + r = (offset / 8 + 1) * 8 + r := by omega
        rw [e] at this
        exact this

/-- The free-block search on every bitmap of the 32-bit data model with zero padding:
`r` is the first clear bit at or after `k` (or a position at or beyond `total_blocks` when
there is none); the search returns `r` when `r` is a block of the bitmap below 2^31, and 0
otherwise: a first clear bit at 2^31 or beyond comes back from the scan as a negative
`int`. -/
theorem find_free_scan (bitmap : reiserfs_bitmap) (hl : bitmap_layout bitmap)
    (h32 : bitmap.total_blocks < 2 ^ 32)
    (hpad : padding_zero bitmap) (k : Nat) (hk : k < bitmap.total_blocks) :
    ∃ r : Nat, k ≤ r ∧ (∀ c, k ≤ c → c < r → bit_set bitmap.map c = true) ∧
      (r < bitmap.total_blocks → bit_set bitmap.map r = false) ∧
      reiserfs_bitmap_find_free bitmap k =
        some (if r < bitmap.total_blocks ∧ r < 2 ^ 31 then r else 0) := by
  obtain ⟨h2, h3⟩ := hl
  have hut : uint (bitmap.total_blocks : Int) = bitmap.total_blocks := by unfold uint; omega
  have huk : uint (k : Int) = k := by unfold uint; omega
  have hpad' : ∀ c, bitmap.total_blocks ≤ c → c < (bitmap.total_blocks + 7) / 8 * 8 →
      bit_set bitmap.map c = false := by
    intro c hc1 hc2
    apply hpad c hc1
    rw [h2]; omega
  obtain ⟨r, hr, hr1, hr2, hr3, hr4⟩ :=
    find_next_zero_bit_scan bitmap.map bitmap.total_blocks k h32 hk hpad'
  refine ⟨r, hr1, hr3, hr4, ?_⟩
  unfold reiserfs_bitmap_find_free
  rw [if_neg (by omega), hut, huk, hr]
  simp only
  by_cases hlow : r < 2 ^ 31
  · rw [ulong_int32_low r hlow]
    by_cases hge : r ≥ bitmap.total_blocks
    · have hR : ¬ (r < bitmap.total_blocks ∧ r < 2 ^ 31) := by omega
      rw [if_pos hge, if_neg hR]
    · rw [if_neg hge, if_pos ⟨by omega, hlow⟩]
  · have hR : ¬ (r < bitmap.total_blocks ∧ r < 2 ^ 31) := by omega
    rw [if_neg hR]
    by_cases h4 : r < 2 ^ 32
    · have hge : r + 2 ^ 64 - 2 ^ 32 ≥ bitmap.total_blocks := by omega
      rw [ulong_int32_high r (by omega) h4, if_pos hge]
    · have hz : r - 2 ^ 32 = 0 := by omega
      rw [ulong_int32_wrap r (by omega) (by omega), hz, ite_self]

/-- On a bitmap of at most 2^31 blocks whose padding bits are zero, for a start `k` in range
`reiserfs_bitmap_find_free` returns, and returns either 0 or the first clear bit `b` at or
after `k` (`k ≤ b < total_blocks`, bit `b` clear, no clear bit in `[k, b)`); it returns 0 only
when no bit of `[k, total_blocks)` is clear or when the first clear bit is bit 0. -/
theorem find_free_spec (bitmap : reiserfs_bitmap) (hl : bitmap_layout bitmap)
    (h31 : bitmap.total_blocks ≤ 2 ^ 31)
    (hpad : padding_zero bitmap) (k : Nat) (hk : k < bitmap.total_blocks) :
    ∃ r, reiserfs_bitmap_find_free bitmap k = some r ∧
      (r = 0 ∨ (k ≤ r ∧ r < bitmap.total_blocks ∧ bit_set bitmap.map r = false ∧
        ∀ c, k ≤ c → c < r → bit_set bitmap.map c = true)) ∧
      (r = 0 → (∀ c, k ≤ c → c < bitmap.total_blocks → bit_set bitmap.map c = true) ∨
        (k = 0 ∧ bit_set bitmap.map 0 = false)) ∧
      ((∀ c, k ≤ c → c < bitmap.total_blocks → bit_set bitmap.map c = true) → r = 0) := by
  obtain ⟨r, hr1, hr3, hr4, hres⟩ := find_free_scan bitmap hl (by omega) hpad k hk
  rw [hres]
  by_cases hge : r ≥ bitmap.total_blocks
  · have hnot : ¬ (r < bitmap.total_blocks ∧ r < 2 ^ 31) := by omega
    rw [if_neg hnot]
    refine ⟨0, rfl, Or.inl rfl, ?_, fun _ => rfl⟩
    intro _
    left
    intro c hc1 hc2
    exact hr3 c hc1 (by omega)
  · have hlt : r < bitmap.total_blocks := by omega
    rw [if_pos ⟨hlt, by omega⟩]
    refine ⟨r, rfl, Or.inr ⟨hr1, hlt, hr4 hlt, hr3⟩, ?_, ?_⟩
    · intro h0
      right
      subst h0
      exact ⟨by omega, hr4 hlt⟩
    · intro hall
      have h := hall r hr1 hlt
      rw [hr4 hlt] at h
      cases h

theorem bitmap_example_padding : padding_zero bitmap_example := by
  intro c hc1 hc2
  have h1 : c < 24 := hc2
  have h2 : 20 ≤ c := hc1
  interval_cases c <;> decide

/-- Searching the example bitmap from block 3 finds block 11. -/
theorem find_free_spec_example :
    ∃ r, reiserfs_bitmap_find_free bitmap_example 3 = some r ∧
      (r = 0 ∨ (3 ≤ r ∧ r < bitmap_example.total_blocks ∧ bit_set bitmap_example.map r = false ∧
        ∀ c, 3 ≤ c → c < r → bit_set bitmap_example.map c = true)) ∧
      (r = 0 → (∀ c, 3 ≤ c → c < bitmap_example.total_blocks →
          bit_set bitmap_example.map c = true) ∨
        (3 = 0 ∧ bit_set bitmap_example.map 0 = false)) ∧
      ((∀ c, 3 ≤ c → c < bitmap_example.total_blocks → bit_set bitmap_example.map c = true) →
        r = 0) :=
  find_free_spec bitmap_example bitmap_example_layout (by decide) bitmap_example_padding 3
    (by decide)

/-- C7 (the code departs from the claim): the bit-by-bit path of `reiserfs_bitmap_calc` adds
`is_free` for a set bit and `!is_free` for a clear one, so `calc_used` counts the clear bits
there, while the 64-bit fast path counts set bits. A one-byte bitmap with only bit 0 set has
one set bit in `[0, 8)` but `reiserfs_bitmap_calc_used_in_area` returns 7; a fresh
`reiserfs_bitmap_alloc(8)` has `used_blocks = 0` but `reiserfs_bitmap_calc_used` returns 8
and `reiserfs_bitmap_check` returns 0; on a fully used 72-block bitmap the first word goes
through the fast path and the result is 64, the eight set bits after it adding nothing. -/
theorem C7_calc_used_counts_clear_bits :
    count_set_bits [0x01] 0 8 = 1 ∧
    reiserfs_bitmap_calc_used_in_area
      { start := 0, total_blocks := 8, used_blocks := 1, map := [0x01], size := 1 } 0 8 = 7 ∧
    reiserfs_bitmap_calc_unused_in_area
      { start := 0, total_blocks := 8, used_blocks := 1, map := [0x01], size := 1 } 0 8 = 1 ∧
    (reiserfs_bitmap_alloc 8).used_blocks = 0 ∧
    reiserfs_bitmap_calc_used (reiserfs_bitmap_alloc 8) = 8 ∧
    reiserfs_bitmap_check (reiserfs_bitmap_alloc 8) = 0 ∧
    reiserfs_bitmap_check (reiserfs_bitmap_use_block (reiserfs_bitmap_alloc 8) 3) = 0 ∧
    count_set_bits bitmap_full72.map 0 72 = 72 ∧
    reiserfs_bitmap_calc_used_in_area bitmap_full72 0 72 = 64 := by
  refine ⟨by decide, by decide, by decide, by decide, by decide, by decide, by decide, ?_, ?_⟩
  · rfl
  · decide


/-! ## Moving a segment -/

theorem ulong_add (a b : Nat) (h : a + b < 2 ^ 64) : ulong ((a : Int) + (b : Int)) = a + b := by
  unfold ulong; omega

theorem block_nr_roundtrip {β : Type} (w : World β) (block : reiserfs_block β) (n : Nat)
    (hn : n ≤ 2 ^ 33) (hbs : 0 < w.blocksize block.dal ∧ w.blocksize block.dal ≤ 2 ^ 16) :
    reiserfs_block_get_nr w (reiserfs_block_set_nr w block n) = n := by
  unfold reiserfs_block_get_nr reiserfs_block_set_nr
  simp only
  have h1 : n * w.blocksize block.dal ≤ 2 ^ 33 * 2 ^ 16 := Nat.mul_le_mul hn hbs.2
  have h2 : n * w.blocksize block.dal < 2 ^ 64 := by
    calc n * w.blocksize block.dal ≤ 2 ^ 33 * 2 ^ 16 := h1
      _ < 2 ^ 64 := by norm_num
  rw [Nat.mod_eq_of_lt h2, Nat.mul_div_cancel _ hbs.1]

/-- One block of `reiserfs_segment_move`: read at `s`, renumber to `d`, write. -/
theorem move_one_block {β : Type} (w : World β) (sdal ddal s d : Nat) (hd : d ≤ 2 ^ 33)
    (hbs : ∀ x, 0 < w.blocksize x ∧ w.blocksize x ≤ 2 ^ 16) :
    (reiserfs_block_read w sdal s = none ∧ ¬ (s < w.len sdal ∧ w.read_ok sdal s = true)) ∨
    (∃ block0, reiserfs_block_read w sdal s = some block0 ∧ block0.data = w.data sdal s ∧
      ((reiserfs_block_write w ddal (reiserfs_block_set_nr w block0 d) = none ∧
          w.write_ok ddal d = false) ∨
        reiserfs_block_write w ddal (reiserfs_block_set_nr w block0 d)
          = some (w.put ddal d (w.data sdal s)))) := by
  unfold reiserfs_block_read
  by_cases h1 : s ≥ w.len sdal
  · left
    rw [if_pos h1]
    exact ⟨rfl, fun h => by omega⟩
  · rw [if_neg h1]
    by_cases h2 : w.read_ok sdal s = false
    · left
      rw [if_pos h2]
      exact ⟨rfl, fun h => by rw [h2] at h; exact Bool.noConfusion h.2⟩
    · right
      rw [if_neg h2]
      refine ⟨_, rfl, rfl, ?_⟩
      unfold reiserfs_block_write
      rw [block_nr_roundtrip w _ d hd (hbs _)]
      by_cases h3 : w.write_ok ddal d = false
      · left
        rw [if_pos h3]
        exact ⟨rfl, h3⟩
      · right
        rw [if_neg h3]
        rfl

theorem put_data_same {β : Type} (w : World β) (dal blk : Nat) (v : β) :
    (w.put dal blk v).data dal blk = v := by
  simp [World.put]

theorem put_data_other {β : Type} (w : World β) (dal blk : Nat) (v : β) (d b : Nat)
    (h : ¬ (d = dal ∧ b = blk)) : (w.put dal blk v).data d b = w.data d b := by
  simp [World.put, h]

theorem segment_func_passes_of_nonzero {β : Type}
    (segment_func : Option (reiserfs_block β → Nat → Int))
    (hcb : ∀ f, segment_func = some f → ∀ b p, f b p ≠ 0) (block : reiserfs_block β)
    (progress : Nat) : segment_func_passes segment_func block progress = true := by
  unfold segment_func_passes
  cases hsf : segment_func with
  | none => rfl
  | some f => simpa using hcb f hsf block progress

/-- The descending loop (`src.start < dst.start`), entered at index `i` with the blocks above
`i` already moved and the source blocks up to `i` untouched. -/
theorem move_loop_down {β : Type} (w0 : World β) (dst src : reiserfs_segment)
    (segment_func : Option (reiserfs_block β → Nat → Int)) (n : Nat)
    (hlt : src.start < dst.start) (hd : dst.start + n ≤ 2 ^ 32) :
    ∀ (fuel i : Nat) (w : World β), i < n → i + 1 ≤ fuel →
      (∀ x, 0 < w.blocksize x ∧ w.blocksize x ≤ 2 ^ 16) →
      (w.len = w0.len ∧ w.read_ok = w0.read_ok ∧ w.write_ok = w0.write_ok) →
      (∀ j, i < j → j < n → w.data dst.dal (dst.start + j) = w0.data src.dal (src.start + j)) →
      (∀ j, j ≤ i → w.data src.dal (src.start + j) = w0.data src.dal (src.start + j)) →
      ∃ r w', reiserfs_segment_move_loop dst src segment_func fuel i w = some (r, w') ∧
        (r = 1 → ∀ j, j < n → w'.data dst.dal (dst.start + j) = w0.data src.dal (src.start + j)) ∧
        ((∀ j, j < n → src.start + j < w0.len src.dal ∧ w0.read_ok src.dal (src.start + j) = true ∧
            w0.write_ok dst.dal (dst.start + j) = true) →
          (∀ f, segment_func = some f → ∀ b p, f b p ≠ 0) → r = 1) := by
  intro fuel
  induction fuel with
  | zero => intro i w h1 h2; omega
  | succ fuel ih =>
    intro i w hi hf hbs hsame hdone hsrc
    unfold reiserfs_segment_move_loop
    rw [ulong_add src.start i (by omega), ulong_add dst.start i (by omega)]
    rcases move_one_block w src.dal dst.dal (src.start + i) (dst.start + i) (by omega) hbs with
      ⟨hr, hno⟩ | ⟨block0, hr, _, hw⟩
    · rw [hr]
      refine ⟨0, w, rfl, fun h => by omega, ?_⟩
      intro hok _
      exfalso
      apply hno
      have := hok i hi
      rw [hsame.1, hsame.2.1]
      exact ⟨this.1, this.2.1⟩
    · rw [hr]
      simp only
      rcases hw with ⟨hw, hno⟩ | hw
      · rw [hw]
        refine ⟨0, w, rfl, fun h => by omega, ?_⟩
        intro hok _
        exfalso
        have := (hok i hi).2.2
        rw [hsame.2.2] at hno
        rw [hno] at this
        exact Bool.noConfusion this
      · rw [hw]
        simp only [hlt, if_true]
        by_cases hgo : segment_func_passes segment_func
            (reiserfs_block_set_nr w block0 (dst.start + i))
            (ulong ((reiserfs_segment_len src : Int) - i)) = false
        · rw [if_pos hgo]
          refine ⟨0, _, rfl, fun h => by omega, ?_⟩
          intro _ hcb
          rw [segment_func_passes_of_nonzero segment_func hcb] at hgo
          exact Bool.noConfusion hgo
        · rw [if_neg hgo]
          have hnew : ∀ j, i ≤ j → j < n →
              (w.put dst.dal (dst.start + i) (w.data src.dal (src.start + i))).data dst.dal
                (dst.start + j) = w0.data src.dal (src.start + j) := by
            intro j hj1 hj2
            rcases Nat.eq_or_lt_of_le hj1 with h | h
            · rw [← h, put_data_same]; exact hsrc i (le_refl _)
            · rw [put_data_other _ _ _ _ _ _ (by omega)]; exact hdone j h hj2
          by_cases hz : i = 0
          · rw [if_pos hz]
            refine ⟨1, _, rfl, ?_, fun _ _ => rfl⟩
            intro _ j hj
            exact hnew j (by omega) hj
          · rw [if_neg hz]
            have hi1 : ulong ((i : Int) - 1) = i - 1 := by unfold ulong; omega
            rw [hi1]
            refine ih (i - 1) (w.put dst.dal (dst.start + i) (w.data src.dal (src.start + i)))
              (by omega) (by omega) hbs hsame ?_ ?_
            · intro j hj1 hj2
              exact hnew j (by omega) hj2
            · intro j hj
              rw [put_data_other _ _ _ _ _ _ (by omega)]
              exact hsrc j (by omega)

/-- The ascending loop (`src.start ≥ dst.start`), entered at index `i` with the blocks below
`i` already moved and the source blocks from `i` on untouched. -/
theorem move_loop_up {β : Type} (w0 : World β) (dst src : reiserfs_segment)
    (segment_func : Option (reiserfs_block β → Nat → Int)) (n : Nat)
    (hn : reiserfs_segment_len src = n) (hge : ¬ src.start < dst.start)
    (hs : src.start + n ≤ 2 ^ 32) :
    ∀ (fuel i : Nat) (w : World β), i < n → n - i ≤ fuel →
      (∀ x, 0 < w.blocksize x ∧ w.blocksize x ≤ 2 ^ 16) →
      (w.len = w0.len ∧ w.read_ok = w0.read_ok ∧ w.write_ok = w0.write_ok) →
      (∀ j, j < i → w.data dst.dal (dst.start + j) = w0.data src.dal (src.start + j)) →
      (∀ j, i ≤ j → j < n → w.data src.dal (src.start + j) = w0.data src.dal (src.start + j)) →
      ∃ r w', reiserfs_segment_move_loop dst src segment_func fuel i w = some (r, w') ∧
        (r = 1 → ∀ j, j < n → w'.data dst.dal (dst.start + j) = w0.data src.dal (src.start + j)) ∧
        ((∀ j, j < n → src.start + j < w0.len src.dal ∧ w0.read_ok src.dal (src.start + j) = true ∧
            w0.write_ok dst.dal (dst.start + j) = true) →
          (∀ f, segment_func = some f → ∀ b p, f b p ≠ 0) → r = 1) := by
  intro fuel
  induction fuel with
  | zero => intro i w h1 h2; omega
  | succ fuel ih =>
    intro i w hi hf hbs hsame hdone hsrc
    unfold reiserfs_segment_move_loop
    rw [ulong_add src.start i (by omega), ulong_add dst.start i (by omega)]
    rcases move_one_block w src.dal dst.dal (src.start + i) (dst.start + i) (by omega) hbs with
      ⟨hr, hno⟩ | ⟨block0, hr, _, hw⟩
    · rw [hr]
      refine ⟨0, w, rfl, fun h => by omega, ?_⟩
      intro hok _
      exfalso
      apply hno
      have := hok i hi
      rw [hsame.1, hsame.2.1]
      exact ⟨this.1, this.2.1⟩
    · rw [hr]
      simp only
      rcases hw with ⟨hw, hno⟩ | hw
      · rw [hw]
        refine ⟨0, w, rfl, fun h => by omega, ?_⟩
        intro hok _
        exfalso
        have := (hok i hi).2.2
        rw [hsame.2.2] at hno
        rw [hno] at this
        exact Bool.noConfusion this
      · rw [hw]
        simp only [hge, if_false]
        by_cases hgo : segment_func_passes segment_func
            (reiserfs_block_set_nr w block0 (dst.start + i)) i = false
        · rw [if_pos hgo]
          refine ⟨0, _, rfl, fun h => by omega, ?_⟩
          intro _ hcb
          rw [segment_func_passes_of_nonzero segment_func hcb] at hgo
          exact Bool.noConfusion hgo
        · rw [if_neg hgo]
          have hnew : ∀ j, j ≤ i →
              (w.put dst.dal (dst.start + i) (w.data src.dal (src.start + i))).data dst.dal
                (dst.start + j) = w0.data src.dal (src.start + j) := by
            intro j hj1
            rcases Nat.eq_or_lt_of_le hj1 with h | h
            · rw [h, put_data_same]; exact hsrc i (le_refl _) hi
            · rw [put_data_other _ _ _ _ _ _ (by omega)]; exact hdone j h
          have hlast : ulong ((reiserfs_segment_len src : Int) - 1) = n - 1 := by
            rw [hn]; unfold ulong; omega
          rw [hlast]
          by_cases hz : i = n - 1
          · rw [if_pos hz]
            refine ⟨1, _, rfl, ?_, fun _ _ => rfl⟩
            intro _ j hj
            exact hnew j (by omega)
          · rw [if_neg hz]
            have hi1 : ulong ((i : Int) + 1) = i + 1 := by unfold ulong; omega
            rw [hi1]
            refine ih (i + 1) (w.put dst.dal (dst.start + i) (w.data src.dal (src.start + i)))
              (by omega) (by omega) hbs hsame ?_ ?_
            · intro j hj1
              exact hnew j (by omega)
            · intro j hj1 hj2
              rw [put_data_other _ _ _ _ _ _ (by omega)]
              exact hsrc j (by omega) hj2

/-- C8: for segments of the same length `len ≥ 1` (block numbers within 32 bits, a usable
block size) `reiserfs_segment_move` returns; whenever it returns 1 every block
`dst.start + i` holds what block `src.start + i` held before the call, also when the
segments overlap on one device; and it does return 1 when the reads, the writes and the
callback succeed. -/
theorem C8_segment_move {β : Type} (w : World β) (dst src : reiserfs_segment)
    (segment_func : Option (reiserfs_block β → Nat → Int))
    (hsrc : segment_addressable w src) (hdst : segment_addressable w dst)
    (hlen : reiserfs_segment_len src = reiserfs_segment_len dst)
    (hpos : 1 ≤ reiserfs_segment_len src) :
    (∃ r, reiserfs_segment_move w dst src segment_func = some r) ∧
    (∀ w', reiserfs_segment_move w dst src segment_func = some (1, w') →
      ∀ i, i < reiserfs_segment_len src →
        w'.data dst.dal (dst.start + i) = w.data src.dal (src.start + i)) ∧
    ((∀ i, i < reiserfs_segment_len src →
        src.start + i < w.len src.dal ∧ w.read_ok src.dal (src.start + i) = true ∧
        w.write_ok dst.dal (dst.start + i) = true) →
      (∀ f, segment_func = some f → ∀ b p, f b p ≠ 0) →
      ∃ w', reiserfs_segment_move w dst src segment_func = some (1, w')) := by
  obtain ⟨hs1, hs2, hbs⟩ := hsrc
  obtain ⟨hd1, hd2, _⟩ := hdst
  have hls : reiserfs_segment_len src = src.end_ - src.start := by
    unfold reiserfs_segment_len ulong; omega
  have hld : reiserfs_segment_len dst = dst.end_ - dst.start := by
    unfold reiserfs_segment_len ulong; omega
  have key : ∃ r w', reiserfs_segment_move w dst src segment_func = some (r, w') ∧
      (r = 1 → ∀ j, j < reiserfs_segment_len src →
        w'.data dst.dal (dst.start + j) = w.data src.dal (src.start + j)) ∧
      ((∀ j, j < reiserfs_segment_len src → src.start + j < w.len src.dal ∧
          w.read_ok src.dal (src.start + j) = true ∧ w.write_ok dst.dal (dst.start + j) = true) →
        (∀ f, segment_func = some f → ∀ b p, f b p ≠ 0) → r = 1) := by
    unfold reiserfs_segment_move
    by_cases hlt : src.start < dst.start
    · simp only [hlt, if_true]
      have hi : ulong ((reiserfs_segment_len src : Int) - 1) = reiserfs_segment_len src - 1 := by
        unfold ulong; omega
      rw [hi]
      apply move_loop_down w dst src segment_func (reiserfs_segment_len src) hlt (by omega)
        (reiserfs_segment_len src) (reiserfs_segment_len src - 1) w (by omega) (by omega) hbs
        ⟨rfl, rfl, rfl⟩
      · intro j h1 h2; omega
      · intro j _; rfl
    · simp only [hlt, if_false]
      apply move_loop_up w dst src segment_func (reiserfs_segment_len src) rfl hlt (by omega)
        (reiserfs_segment_len src) 0 w (by omega) (by omega) hbs ⟨rfl, rfl, rfl⟩
      · intro j h; omega
      · intro j _ _; rfl
  obtain ⟨r, w', hres, hprop, hok⟩ := key
  refine ⟨⟨(r, w'), hres⟩, ?_, ?_⟩
  · intro w'' h
    rw [hres] at h
    have h1 : r = 1 := by injection h with h; exact (Prod.mk.inj h).1
    have h2 : w' = w'' := by injection h with h; exact (Prod.mk.inj h).2
    rw [← h2]
    exact hprop h1
  · intro hio hcb
    have h1 := hok hio hcb
    subst h1
    exact ⟨w', hres⟩

/-- Witness for C8: moving blocks 1..4 of the example device onto blocks 3..6. -/
theorem C8_segment_move_witness :
    ∃ w', reiserfs_segment_move world_example segment_example_dst segment_example_src none
        = some (1, w') :=
  (C8_segment_move world_example segment_example_dst segment_example_src none
    ⟨by decide, by decide, fun _ => ⟨by norm_num [world_example], by norm_num [world_example]⟩⟩
    ⟨by decide, by decide, fun _ => ⟨by norm_num [world_example], by norm_num [world_example]⟩⟩
    (by decide) (by decide)).2.2
    (by
      intro i hi
      have h4 : i < 4 := hi
      refine ⟨?_, rfl, rfl⟩
      show 1 + i < 10
      omega)
    (by intro f hf; cases hf)


/-! ## The after-node hook of the relocator -/

/-- C9 (the code departs from the claim): in an in-place relocation (`smart = 0`, one device,
destination segment 5 .. 19) the internal node of block 10 has had its child pointer in slot
0 rewritten from 30 to 5 by `callback_chld_setup`, which marks the buffer dirty.
`callback_node_write` passes the dirty node on to `generic_node_write`, whose first branch
returns block 10 without writing: the device still holds the node with the old child
pointer 30, and no bitmap bit changes. -/
theorem C9_dirty_node_inside_destination_not_written :
    reloc_example_dirty_node.dirty = 1 ∧
    reloc_example_dirty_node.data.children = [5, 11] ∧
    reiserfs_block_get_nr reloc_example_world reloc_example_dirty_node = 10 ∧
    reiserfs_segment_test_inside reloc_example.dst_segment 10 = true ∧
    (callback_node_write reloc_example reloc_example_dirty_node reloc_example_state).map
      (fun r => (r.1, (r.2.2.world.data 0 10).children, (r.2.2.fs 0).bitmap)) =
      some (10, [30, 11], some reloc_example_bitmap) ∧
    (generic_node_write reloc_example reloc_example_dirty_node reloc_example_state).map
      (fun r => (r.1, (r.2.2.world.data 0 10).children)) = some (10, [30, 11]) := by
  refine ⟨by decide, by decide, by decide, by decide, by decide, by decide⟩

/-! ## Reading a block through the journal -/

/-- C10 (the code departs from the claim): `callback_journal_read` computes the journal block
as `(start + number + i + 1) & (len - 1)`, a bit mask over the absolute block number, not
`start + ((number + 1 + i) mod len)`. In the default journal of a 4 KiB-block filesystem
(start 18, length 8192) the valid transaction at ring offset 8189 lists home block 100 as
entry 0; its payload is journal block 18 + 8190 = 8208, but `reiserfs_journal_read` reads
block 8208 & 8191 = 16. In the default journal of a 1 KiB-block filesystem (start 66, length
8125) a transaction at ring offset 0 gives 67 & 8124 = 0, which `reiserfs_journal_read`
takes for "not found". -/
theorem C10_journal_read_masks_block_number :
    reiserfs_journal_desc_valid journal_example_world journal_example
      ⟨0, journal_example_desc, (18 + 8189) * 4096, 0⟩ = true ∧
    get_jd_realblock ⟨0, journal_example_desc, (18 + 8189) * 4096, 0⟩ 0 = 100 ∧
    journal_example.jp_start + ((8189 + 1 + 0) % journal_example.jp_len) = 8208 ∧
    journal_example_world.data 0 8208 = journal_example_payload ∧
    (reiserfs_journal_read journal_example_world journal_example 100).map
      (fun r => r.map (fun b => (reiserfs_block_get_nr journal_example_world b, b.data))) =
      some (some (16, { words := [], magic := [] })) ∧
    (callback_journal_read journal_example_1k ⟨0, journal_example_desc, 66 * 1024, 0⟩
      ⟨0, journal_example_comm, 68 * 1024, 0⟩ 0 ⟨100, 0⟩).2.found = 0 := by
  refine ⟨by decide, by decide, by decide, by decide, by decide, by decide⟩


/-! ## Descent through a well-formed tree -/

theorem comparator_refl {α : Type} {comp : α → α → Int} (hc : IsComparator comp) (a : α) :
    comp a a = 0 := by
  have := hc.antisymm a a
  omega

theorem comp_four_comparator : IsComparator reiserfs_key_comp_four_components :=
  ⟨comp_four_range, comp_four_antisymm, comp_four_trans_lt, comp_four_eq_congr⟩

theorem tree_ok_unfold (comp : key → key → Int) (rc : Bool) (w : World Node)
    (tree : reiserfs_tree) (lvl blk : Nat) (h : tree_ok comp rc w tree (lvl + 1) blk = true) :
    ∃ node, reiserfs_block_read w tree.dal blk = some node ∧
      get_node_level node.data = lvl + 1 ∧ node.data.keys.length < 2 ^ 16 ∧
      strictly_increasing comp node.data.keys ∧
      (lvl = 0 ∨ (node.data.children.length = node.data.keys.length + 1 ∧
        ∀ i, i < node.data.keys.length + 1 →
          tree_ok comp rc w tree lvl (child_block tree node.data i) = true ∧
          ∀ e, e ∈ subtree_keys w tree lvl (child_block tree node.data i) →
            child_covers comp rc node.data.keys i e.1 = true)) := by
  unfold tree_ok at h
  cases hr : reiserfs_block_read w tree.dal blk with
  | none => rw [hr] at h; simp at h
  | some node =>
    rw [hr] at h
    simp only [Bool.and_eq_true, Bool.or_eq_true, decide_eq_true_eq, List.all_eq_true,
      List.mem_range] at h
    obtain ⟨⟨⟨h1, h2⟩, h3⟩, h4⟩ := h
    refine ⟨node, rfl, h1, h2, h3, ?_⟩
    rcases h4 with h4 | ⟨h4, h5⟩
    · exact Or.inl h4
    · right
      refine ⟨h4, ?_⟩
      intro i hi
      exact h5 i hi

theorem subtree_keys_leaf (w : World Node) (tree : reiserfs_tree) (blk : Nat)
    (node : reiserfs_block Node) (hr : reiserfs_block_read w tree.dal blk = some node)
    (k : key) (leaf idx : Nat) (h : (k, leaf, idx) ∈ subtree_keys w tree 1 blk) :
    leaf = blk ∧ node.data.keys[idx]? = some k := by
  unfold subtree_keys at h
  rw [hr] at h
  simp only [if_true, List.mem_filterMap, List.mem_range, Option.map_eq_some'] at h
  obtain ⟨i, _, k', hk, he⟩ := h
  have h1 : k' = k := (Prod.mk.inj he).1
  have h2 : blk = leaf := (Prod.mk.inj (Prod.mk.inj he).2).1
  have h3 : i = idx := (Prod.mk.inj (Prod.mk.inj he).2).2
  subst h1 h2 h3
  exact ⟨rfl, hk⟩

theorem subtree_keys_internal (w : World Node) (tree : reiserfs_tree) (lvl blk : Nat)
    (node : reiserfs_block Node) (hr : reiserfs_block_read w tree.dal blk = some node)
    (hl : lvl ≠ 0) (e : key × Nat × Nat) (h : e ∈ subtree_keys w tree (lvl + 1) blk) :
    ∃ i, i < node.data.keys.length + 1 ∧
      e ∈ subtree_keys w tree lvl (child_block tree node.data i) := by
  unfold subtree_keys at h
  rw [hr] at h
  simp only [hl, if_false, List.mem_flatMap, List.mem_range] at h
  exact h

/-- In an internal node whose child `i` covers the needle (`keys[i-1] ≤ k < keys[i]`), the
position the search yields, advanced by one on a match, is `i`. -/
theorem descent_slot {comp : key → key → Int} (hc : IsComparator comp) (keys : List key)
    (hs : strictly_increasing comp keys) (k : key) (i : Nat) (hi : i < keys.length + 1)
    (hcov : child_covers comp false keys i k = true) (found : Int) (pos : Nat)
    (hp : search_post comp k keys found pos) :
    (if found ≠ 0 then pos + 1 else pos) = i ∧ pos ≤ keys.length := by
  unfold child_covers at hcov
  simp only [Bool.and_eq_true, Bool.false_eq_true, if_false] at hcov
  obtain ⟨hlo, hhi⟩ := hcov
  have hlo' : ∀ lo, 0 < i → keys[i - 1]? = some lo → comp lo k ≤ 0 := by
    intro lo h0 hl
    rw [if_neg (by omega), hl] at hlo
    simpa using hlo
  have hhi' : ∀ hi', keys[i]? = some hi' → comp k hi' = -1 := by
    intro hi' hl
    rw [hl] at hhi
    simpa using hhi
  rcases hp with ⟨hf, e, hpos, he⟩ | ⟨hf, hle, hbelow, habove⟩
  · -- found: `keys[pos]` equals the needle
    have hposlt : pos < keys.length := (List.getElem?_eq_some.mp hpos).1
    have hke : comp k e = 0 := by rw [hc.antisymm, he]; rfl
    refine ⟨?_, by omega⟩
    rw [hf, if_pos (by norm_num)]
    rcases Nat.lt_trichotomy (pos + 1) i with h | h | h
    · -- `keys[i-1]` lies right of `keys[pos]`, hence above the needle
      exfalso
      have hex : i - 1 < keys.length := by omega
      have h1 := strictly_increasing_index hs pos (i - 1) e keys[i - 1] (by omega) hpos
        (List.getElem?_eq_getElem hex)
      have h2 := hlo' keys[i - 1] (by omega) (List.getElem?_eq_getElem hex)
      have h3 := hc.eq_congr e k keys[i - 1] he
      have h4 := hc.antisymm keys[i - 1] k
      omega
    · exact h
    · -- `keys[i]` lies at or left of `keys[pos]`, hence not above the needle
      exfalso
      have hex : i < keys.length := by omega
      have h2 := hhi' keys[i] (List.getElem?_eq_getElem hex)
      rcases Nat.lt_or_ge i pos with h' | h'
      · have h1 := strictly_increasing_index hs i pos keys[i] e h'
          (List.getElem?_eq_getElem hex) hpos
        have h3 := hc.trans_lt k keys[i] e h2 h1
        omega
      · have hip : i = pos := by omega
        subst hip
        rw [List.getElem?_eq_getElem hex] at hpos
        cases hpos
        omega
  · refine ⟨?_, hle⟩
    rw [hf, if_neg (by norm_num)]
    rcases Nat.lt_trichotomy pos i with h | h | h
    · exfalso
      have hex : i - 1 < keys.length := by omega
      have h1 := habove (i - 1) keys[i - 1] (List.getElem?_eq_getElem hex) (by omega)
      have h2 := hlo' keys[i - 1] (by omega) (List.getElem?_eq_getElem hex)
      omega
    · exact h
    · exfalso
      have hex : i < keys.length := by omega
      have h1 := hbelow i keys[i] (List.getElem?_eq_getElem hex) h
      have h2 := hhi' keys[i] (List.getElem?_eq_getElem hex)
      have h3 := hc.antisymm keys[i] k
      omega

theorem path_inc_ok (path : reiserfs_path) (frame : reiserfs_path_node)
    (h1 : path.length < path.max_length) (h2 : path.max_length ≤ path.nodes.length)
    (h3 : path.max_length < 2 ^ 32) :
    (reiserfs_path_inc path frame).1 = 1 ∧
    (reiserfs_path_inc path frame).2.length = path.length + 1 ∧
    (reiserfs_path_inc path frame).2.max_length = path.max_length ∧
    (reiserfs_path_inc path frame).2.nodes.length = path.nodes.length ∧
    reiserfs_path_last (reiserfs_path_inc path frame).2 = some frame := by
  unfold reiserfs_path_inc
  rw [if_neg (by omega)]
  have hl : (path.length + 1) % 2 ^ 32 = path.length + 1 := by omega
  refine ⟨rfl, hl, rfl, by simp, ?_⟩
  unfold reiserfs_path_last reiserfs_path_at
  simp only [hl]
  have hi : (path.length + 1 + 2 ^ 32 - 1) % 2 ^ 32 = path.length := by omega
  rw [hi, if_neg (by omega), List.getD_eq_getElem?_getD, List.getElem?_set_self (by omega)]
  rfl

/-- The descent loop on a tree that is well formed for the descent (`keys[i-1] ≤ k <
keys[i]` below child `i`): from a node of level `lvl` it reaches the leaf that stores the
key and ends on the frame of that leaf at the index of the key. -/
theorem lookup_loop_finds {comp : key → key → Int} (hc : IsComparator comp) (w : World Node)
    (tree : reiserfs_tree) (k : key) (leaf idx : Nat) :
    ∀ (lvl fuel blk : Nat) (path : reiserfs_path), lvl ≤ fuel →
      tree_ok comp false w tree lvl blk = true →
      lvl < reiserfs_tree_get_height tree →
      (k, leaf, idx) ∈ subtree_keys w tree lvl blk →
      path.length + lvl ≤ path.max_length → path.max_length ≤ path.nodes.length →
      path.max_length < 2 ^ 32 →
      ∃ path' frame, reiserfs_tree_node_lookup_loop w tree comp k true fuel blk path
          = some (1, path') ∧
        reiserfs_path_last path' = some frame ∧
        reiserfs_block_read w tree.dal leaf = some frame.node ∧ frame.pos = idx ∧
        frame.node.data.keys[idx]? = some k := by
  intro lvl
  induction lvl with
  | zero =>
    intro fuel blk path _ hok
    simp [tree_ok] at hok
  | succ lvl ih =>
    intro fuel blk path hfuel hok hheight hstored hcap hnodes hmax
    obtain ⟨node, hr, hlevel, hn16, hinc, hkids⟩ := tree_ok_unfold comp false w tree lvl blk hok
    cases fuel with
    | zero => omega
    | succ fuel =>
      unfold reiserfs_tree_node_lookup_loop
      rw [hr]
      simp only [hlevel]
      have hh : reiserfs_tree_get_height tree < 2 ^ 16 := by
        unfold reiserfs_tree_get_height; omega
      rw [if_neg (by omega), if_neg (by simp)]
      have hnr : get_node_nritems node.data = node.data.keys.length := by
        unfold get_node_nritems; omega
      have hnr' : ((get_node_nritems node.data : Nat) : Int) = (node.data.keys.length : Int) := by
        rw [hnr]
      obtain ⟨found, pos, hfs, hpost⟩ := fast_search_spec hc k node.data.keys (by omega) _
        (lookup_width node.data node.data.keys.length (by omega)).1
        (lookup_width node.data node.data.keys.length (by omega)).2 hinc
      rw [hnr', hfs]
      simp only
      by_cases hl0 : lvl = 0
      · -- a leaf: the key is one of its items
        subst hl0
        obtain ⟨hleaf, hkey⟩ := subtree_keys_leaf w tree blk node hr k leaf idx hstored
        obtain ⟨hfound, hpos⟩ := search_post_found hc k node.data.keys hinc found pos hpost idx k
          hkey (comparator_refl hc k)
        have hisleaf : is_leaf_node node.data = true := by
          unfold is_leaf_node; rw [hlevel]; rfl
        have hnotint : is_internal_node node.data = false := by
          unfold is_internal_node; rw [hlevel]; simp [LEAF_LEVEL]
        subst hfound hpos hleaf
        simp only [hnotint, hisleaf, Bool.false_eq_true, and_false, if_false, if_true]
        obtain ⟨h1, _, _, _, h5⟩ := path_inc_ok path { node := node, pos := pos } (by omega)
          hnodes hmax
        rw [if_neg (by rw [h1]; norm_num)]
        exact ⟨_, _, rfl, h5, hr, rfl, hkey⟩
      · -- an internal node: the search picks the child that covers the key
        rcases hkids with h | ⟨_, hchild⟩
        · exact absurd h hl0
        obtain ⟨i, hi, hmem⟩ := subtree_keys_internal w tree lvl blk node hr hl0 _ hstored
        obtain ⟨hokc, hcov⟩ := hchild i hi
        have hslot := descent_slot hc node.data.keys hinc k i hi (hcov _ hmem) found pos hpost
        have hnotleaf : is_leaf_node node.data = false := by
          unfold is_leaf_node; rw [hlevel]; simp [LEAF_LEVEL]; omega
        simp only [hnotleaf, Bool.false_eq_true, and_false, if_false]
        obtain ⟨h1, h2, h3, h4, _⟩ := path_inc_ok path
          { node := node,
            pos := if found ≠ 0 ∧ is_internal_node node.data = true then (pos + 1) % 2 ^ 32
                   else pos } (by omega) hnodes hmax
        rw [if_neg (by rw [h1]; norm_num), if_neg (by simp)]
        have hpos1 : (if found ≠ 0 then (pos + 1) % 2 ^ 32 else pos) = i := by
          have hm : (pos + 1) % 2 ^ 32 = pos + 1 := by omega
          rw [hm]; exact hslot.1
        rw [hpos1]
        exact ih fuel (child_block tree node.data i) _ (by omega) hokc (by omega) hmem
          (by rw [h2, h3]; omega) (by rw [h3, h4]; exact hnodes) (by rw [h3]; exact hmax)

/-- C1, as stated, fails: the two-level tree of `tree_example_world_k2` satisfies K1 and K2
as the specification words them (child 0 of the root covers the keys up to and including
the delimiting key 5), its levels decrease by one and lie below the tree height 3, and the
key 5 is stored in leaf 21 at index 1; but on the match with the delimiting key the descent
goes to the child right of it, leaf 22, and `reiserfs_tree_lookup_leaf` returns NULL. -/
theorem C1_counterexample_key_equal_to_delimiting_key :
    tree_ok reiserfs_key_comp_four_components true tree_example_world_k2 tree_example 2 20 = true ∧
    2 < reiserfs_tree_get_height tree_example ∧
    (key_at 5, 21, 1) ∈ subtree_keys tree_example_world_k2 tree_example 2 20 ∧
    (reiserfs_tree_lookup_leaf 5 tree_example_world_k2 tree_example 20
      (some reiserfs_key_comp_four_components) (key_at 5) path_empty).map
      (fun r => r.1.map (fun f => f.pos)) = some none := by
  refine ⟨by decide, by decide, by decide, by decide⟩

/-- C1, amended: on a tree that satisfies K1 and K2 with child `i` of an internal node
covering the keys `keys[i-1] ≤ k < keys[i]`, whose levels decrease by one per descent and
lie below the superblock tree height, for a key `k` stored at index `idx` of leaf `leaf`,
`reiserfs_tree_lookup_leaf` from the root with `reiserfs_key_comp_four_components` (a path
with room for the levels, fuel for them) returns a frame whose node is that leaf and whose
`pos` is `idx`, the index of the item whose key is `k`. -/
theorem C1_lookup_leaf_finds_stored_key (w : World Node) (tree : reiserfs_tree)
    (root lvl fuel : Nat) (k : key) (leaf idx : Nat) (path : reiserfs_path)
    (hok : tree_ok reiserfs_key_comp_four_components false w tree lvl root = true)
    (hheight : lvl < reiserfs_tree_get_height tree)
    (hstored : (k, leaf, idx) ∈ subtree_keys w tree lvl root)
    (hpath : lvl ≤ path.max_length ∧ path.max_length ≤ path.nodes.length ∧
      path.max_length < 2 ^ 32)
    (hfuel : lvl ≤ fuel) :
    ∃ frame path', reiserfs_tree_lookup_leaf fuel w tree root
        (some reiserfs_key_comp_four_components) k path = some (some frame, path') ∧
      reiserfs_block_read w tree.dal leaf = some frame.node ∧ frame.pos = idx ∧
      frame.node.data.keys[idx]? = some k := by
  have hl1 : 1 ≤ lvl := by
    cases lvl with
    | zero => simp [tree_ok] at hok
    | succ n => omega
  obtain ⟨path', frame, hloop, hlast, hread, hpos, hkey⟩ :=
    lookup_loop_finds comp_four_comparator w tree k leaf idx lvl fuel root
      (reiserfs_path_clear path) hfuel hok hheight hstored
      (by unfold reiserfs_path_clear; simp only; omega) hpath.2.1 hpath.2.2
  refine ⟨frame, path', ?_, hread, hpos, hkey⟩
  unfold reiserfs_tree_lookup_leaf reiserfs_tree_node_lookup
  rw [if_neg (by omega)]
  simp only [hloop]
  rw [if_pos (by norm_num), hlast]

/-- Witness for C1 (amended): the key 5 of `tree_example_world`, stored first in leaf 22. -/
theorem C1_lookup_leaf_finds_stored_key_witness :
    ∃ frame path', reiserfs_tree_lookup_leaf 5 tree_example_world tree_example 20
        (some reiserfs_key_comp_four_components) (key_at 5) path_empty = some (some frame, path') ∧
      reiserfs_block_read tree_example_world tree_example.dal 22 = some frame.node ∧
      frame.pos = 0 ∧ frame.node.data.keys[0]? = some (key_at 5) :=
  C1_lookup_leaf_finds_stored_key tree_example_world tree_example 20 2 5 (key_at 5) 22 0
    path_empty (by decide) (by decide) (by decide) (by decide) (by decide)

/-! ## Boundary transactions -/

theorem replay_body_of_valid (w : World journal_block) (journal : reiserfs_journal)
    (desc : reiserfs_block journal_block) (m : trans_mem)
    (hv : reiserfs_journal_desc_valid w journal desc = true) :
    callback_journal_replay_body w journal desc
      replay_desc_init m = none := by
  have hlt : get_jd_desc_trans_id desc < 2 ^ 32 := by
    unfold get_jd_desc_trans_id block_word
    exact Nat.mod_lt _ (by norm_num)
  unfold callback_journal_replay_body replay_desc_init
  rw [if_neg (by simp [hv])]
  by_cases h : get_jd_desc_trans_id desc < 0xffffffff
  · simp [h]
  · have h0 : get_jd_desc_trans_id desc > 0 := by omega
    simp [h, h0]

theorem boundary_pipe_loop (w : World journal_block) (journal : reiserfs_journal)
    (m : trans_mem) (fuel : Nat) :
    ∀ curr : Nat,
      reiserfs_journal_pipe_loop w journal (some (callback_journal_replay w journal)) fuel curr
        (some (replay_desc_init, m)) = none ∨
      reiserfs_journal_pipe_loop w journal (some (callback_journal_replay w journal)) fuel curr
        (some (replay_desc_init, m)) = some (0, none) ∨
      ∃ r : Int,
        reiserfs_journal_pipe_loop w journal (some (callback_journal_replay w journal)) fuel curr
          (some (replay_desc_init, m)) =
          some (r, some (replay_desc_init, m)) := by
  induction fuel with
  | zero => intro curr; left; rfl
  | succ n ih =>
    intro curr
    unfold reiserfs_journal_pipe_loop
    by_cases hc : curr < journal.jp_len
    · rw [if_pos hc]
      cases hd : reiserfs_block_read w journal.dal ((journal.jp_start + curr) % 2 ^ 64) with
      | none => right; right; exact ⟨0, rfl⟩
      | some desc =>
        dsimp only
        cases hm : reiserfs_block_read w journal.dal
            (reiserfs_journal_desc_comm w journal desc) with
        | none => right; right; exact ⟨0, rfl⟩
        | some comm =>
          dsimp only
          by_cases hv : reiserfs_journal_desc_valid w journal desc = false
          · rw [if_pos hv]; exact ih _
          · rw [if_neg hv]
            have hv1 : reiserfs_journal_desc_valid w journal desc = true := by
              simpa using hv
            have hcb : callback_journal_replay w journal desc comm curr
                (some (replay_desc_init, m)) = (0, none) := by
              simp only [callback_journal_replay, replay_body_of_valid w journal desc m hv1]
            rw [hcb]
            right; left; rfl
    · rw [if_neg hc]; right; right; exact ⟨1, rfl⟩

/-- C11 (code defect): `reiserfs_journal_boundary_transactions` discards its `oldest` and
`newest` arguments and leaves the pointers `oldest_tr` and `newest_tr` of its walk
descriptor unassigned. On every journal the call is therefore either undefined (a valid
transaction was seen and stored through an unassigned pointer) or returns 0 with `*oldest`
and `*newest` untouched; on a ring holding the single valid transaction 7 it is undefined
instead of returning 1 with both objects filled. -/
theorem C11_boundary_transactions_never_fills_oldest_newest :
    (∀ (w : World journal_block) (journal : reiserfs_journal)
        (oldest newest : reiserfs_journal_trans),
      reiserfs_journal_boundary_transactions w journal oldest newest = none ∨
      reiserfs_journal_boundary_transactions w journal oldest newest =
        some (0, oldest, newest)) ∧
    (reiserfs_block_read boundary_example_world 0 18).map
      (reiserfs_journal_desc_valid boundary_example_world boundary_example) = some true ∧
    reiserfs_journal_boundary_transactions boundary_example_world boundary_example
      trans_zero trans_zero = none := by
  refine ⟨?_, by rfl, by rfl⟩
  intro w journal oldest newest
  unfold reiserfs_journal_boundary_transactions reiserfs_journal_pipe
  by_cases hf : (0 : Nat) ≥ journal.jp_len
  · rw [if_pos hf]; right; simp
  · rw [if_neg hf]
    rcases boundary_pipe_loop w journal { oldest := oldest, newest := newest }
      (journal.jp_len - 0 + 1) 0 with h | h | ⟨r, h⟩
    · rw [h]; left; rfl
    · rw [h]; left; rfl
    · rw [h]; right
      by_cases hr : r = 0
      · simp [hr]
      · simp [hr, replay_desc_init]

/-! ## The object-id map -/

theorem oid_at_lt (o : List Nat) (i : Nat) : oid_at o i < 2 ^ 32 :=
  Nat.mod_lt _ (by norm_num)

theorem oid_at_put (o o1 : List Nat) (i v : Nat) (h : oid_put o i v = some o1) (j : Nat) :
    oid_at o1 j = if j = i then v % 2 ^ 32 else oid_at o j := by
  unfold oid_put at h
  split_ifs at h with hi
  · injection h with h
    subst h
    unfold oid_at
    by_cases hj : j = i
    · subst hj
      simp [List.getD_eq_getElem?_getD, List.getElem?_set_self hi]
    · have hne : i ≠ j := fun e => hj e.symm
      simp [List.getD_eq_getElem?_getD, List.getElem?_set_ne hne, hj]

theorem oid_put_isSome (o : List Nat) (i v : Nat) (h : i < o.length) :
    ∃ o1, oid_put o i v = some o1 ∧ o1.length = o.length := by
  refine ⟨o.set i (v % 2 ^ 32), ?_, by simp⟩
  unfold oid_put
  rw [if_pos h]

theorem oid_put_length (o o1 : List Nat) (i v : Nat) (h : oid_put o i v = some o1) :
    o1.length = o.length := by
  unfold oid_put at h
  split_ifs at h
  injection h with h
  subst h
  simp

theorem oid_at_of_length_le (o : List Nat) (k : Nat) (h : o.length ≤ k) : oid_at o k = 0 := by
  unfold oid_at
  simp [List.getD_eq_getElem?_getD, List.getElem?_eq_none h]

theorem oid_at_memmove (o o1 : List Nat) (d s n : Nat) (h : oid_memmove o d s n = some o1)
    (k : Nat) :
    oid_at o1 k = if d ≤ k ∧ k < d + n then oid_at o (k - d + s) else oid_at o k := by
  unfold oid_memmove at h
  split_ifs at h with hb
  injection h with h
  subst h
  by_cases hk : k < o.length
  · unfold oid_at
    rw [List.getD_eq_getElem?_getD, List.getElem?_map, List.getElem?_range hk]
    simp only [Option.map_some', Option.getD_some]
    split_ifs <;> rfl
  · have hk1 : o.length ≤ k := by omega
    have hnot : ¬(d ≤ k ∧ k < d + n) := by omega
    rw [if_neg hnot, oid_at_of_length_le o k hk1]
    apply oid_at_of_length_le
    simpa using hk1

theorem oid_memmove_isSome (o : List Nat) (d s n : Nat) (h1 : d + n ≤ o.length)
    (h2 : s + n ≤ o.length) : ∃ o1, oid_memmove o d s n = some o1 ∧ o1.length = o.length := by
  unfold oid_memmove
  rw [if_pos ⟨h1, h2⟩]
  exact ⟨_, rfl, by simp⟩

theorem oid_memmove_length (o o1 : List Nat) (d s n : Nat)
    (h : oid_memmove o d s n = some o1) : o1.length = o.length := by
  unfold oid_memmove at h
  split_ifs at h
  injection h with h
  subst h
  simp

/-- Adjacent strict increase of the first `c` values of `f`. -/
def seq_sorted (f : Nat → Nat) (c : Nat) : Prop := ∀ k, k + 1 < c → f k < f (k + 1)

/-- The value `x` lies in one of the `[start, end)` pairs among the first `c` values. -/
def seq_mem (f : Nat → Nat) (c : Nat) (x : Nat) : Prop :=
  ∃ j, 2 * j + 1 < c ∧ f (2 * j) ≤ x ∧ x < f (2 * j + 1)

theorem seq_sorted_lt (f : Nat → Nat) (c : Nat) (hs : seq_sorted f c) (a : Nat) :
    ∀ b, a < b → b < c → f a < f b := by
  intro b
  induction b with
  | zero => intro h; omega
  | succ n ih =>
    intro hab hbc
    have h1 := hs n hbc
    by_cases han : a = n
    · subst han; exact h1
    · have := ih (by omega) (by omega)
      omega

theorem test_loop_range (o : List Nat) (x : Nat) (n : Nat) :
    ∀ i, reiserfs_object_test_loop o x n i = 0 ∨ reiserfs_object_test_loop o x n i = 1 := by
  induction n with
  | zero => intro i; left; rfl
  | succ n ih =>
    intro i
    unfold reiserfs_object_test_loop
    split_ifs
    · right; rfl
    · right; rfl
    · left; rfl
    · exact ih _

theorem test_loop_spec (o : List Nat) (c x : Nat) (hs : seq_sorted (oid_at o) c) (n : Nat) :
    ∀ m, 2 * m + 2 * n = c → (∀ j, j < m → oid_at o (2 * j + 1) ≤ x) →
      (reiserfs_object_test_loop o x n (2 * m) = 1 ↔ seq_mem (oid_at o) c x) := by
  induction n with
  | zero =>
    intro m hm hinv
    unfold reiserfs_object_test_loop
    constructor
    · intro h; exact absurd h (by decide)
    · rintro ⟨j, hj, h1, h2⟩
      have := hinv j (by omega)
      omega
  | succ n ih =>
    intro m hm hinv
    unfold reiserfs_object_test_loop
    have hadj : oid_at o (2 * m) < oid_at o (2 * m + 1) := hs (2 * m) (by omega)
    by_cases h1 : x = oid_at o (2 * m)
    · rw [if_pos h1]
      simp only [true_iff]
      exact ⟨m, by omega, by omega, by omega⟩
    · rw [if_neg h1]
      by_cases h2 : x > oid_at o (2 * m) ∧ x < oid_at o (2 * m + 1)
      · rw [if_pos h2]
        simp only [true_iff]
        exact ⟨m, by omega, by omega, by omega⟩
      · rw [if_neg h2]
        by_cases h3 : x < oid_at o (2 * m)
        · rw [if_pos h3]
          constructor
          · intro h; exact absurd h (by decide)
          · rintro ⟨j, hj, hj1, hj2⟩
            exfalso
            rcases Nat.lt_trichotomy j m with hlt | heq | hgt
            · have := hinv j hlt
              omega
            · subst heq; omega
            · have := seq_sorted_lt (oid_at o) c hs (2 * m) (2 * j) (by omega) (by omega)
              omega
        · rw [if_neg h3]
          have hinv2 : ∀ j, j < m + 1 → oid_at o (2 * j + 1) ≤ x := by
            intro j hj
            by_cases hjm : j = m
            · subst hjm; omega
            · exact hinv j (by omega)
          have := ih (m + 1) (by omega) hinv2
          rw [show 2 * (m + 1) = 2 * m + 2 by ring] at this
          exact this

theorem object_test_iff (super : reiserfs_super) (x : Nat) (hs : oid_sorted super) :
    reiserfs_object_test super x = 1 ↔
      seq_mem (oid_at super.objectid_map) super.sb_oid_cursize x := by
  obtain ⟨he, hlt, hadj⟩ := hs
  unfold reiserfs_object_test
  rw [Nat.mod_eq_of_lt hlt]
  have hsorted : seq_sorted (oid_at super.objectid_map) super.sb_oid_cursize := by
    intro k hk
    exact hadj k (by omega) hk
  have := test_loop_spec super.objectid_map super.sb_oid_cursize x hsorted
    ((super.sb_oid_cursize + 1) / 2) 0 (by omega) (by intro j hj; omega)
  simpa using this
/-- What one successful `reiserfs_object_use` has to establish about the map: it is sorted,
holds `x`, and holds every value it held before. -/
def seq_ext (f : Nat → Nat) (c : Nat) (g : Nat → Nat) (d : Nat) (x : Nat) : Prop :=
  seq_sorted g d ∧ seq_mem g d x ∧ ∀ y, seq_mem f c y → seq_mem g d y

theorem seq_ext_set_start (f g : Nat → Nat) (c m x : Nat) (hs : seq_sorted f c)
    (hi : 2 * m + 1 < c) (hx : x < f (2 * m)) (hinv : ∀ j, j < m → f (2 * j + 1) < x)
    (hg : ∀ k, g k = if k = 2 * m then x else f k) : seq_ext f c g c x := by
  have hadj := hs (2 * m) hi
  refine ⟨?_, ⟨m, hi, ?_, ?_⟩, ?_⟩
  · intro k hk
    rw [hg k, hg (k + 1)]
    by_cases h1 : k = 2 * m
    · rw [if_pos h1, if_neg (by omega)]; subst h1; omega
    · rw [if_neg h1]
      by_cases h2 : k + 1 = 2 * m
      · rw [if_pos h2]
        have := hinv (m - 1) (by omega)
        rw [show 2 * (m - 1) + 1 = k by omega] at this
        exact this
      · rw [if_neg h2]; exact hs k hk
  · rw [hg]; simp
  · rw [hg, if_neg (by omega)]; omega
  · rintro y ⟨j, hj, h1, h2⟩
    refine ⟨j, hj, ?_, ?_⟩
    · rw [hg]
      by_cases hjm : 2 * j = 2 * m
      · rw [if_pos hjm]; rw [hjm] at h1; omega
      · rw [if_neg hjm]; exact h1
    · rw [hg, if_neg (by omega)]; exact h2

theorem seq_ext_bump_end (f g : Nat → Nat) (c m x : Nat) (hs : seq_sorted f c)
    (hi : 2 * m + 1 < c) (hx : f (2 * m + 1) ≤ x) (hnext : 2 * m + 2 < c → x + 1 < f (2 * m + 2))
    (hg : ∀ k, g k = if k = 2 * m + 1 then x + 1 else f k) : seq_ext f c g c x := by
  have hadj := hs (2 * m) hi
  refine ⟨?_, ⟨m, hi, ?_, ?_⟩, ?_⟩
  · intro k hk
    rw [hg k, hg (k + 1)]
    by_cases h1 : k = 2 * m + 1
    · rw [if_pos h1, if_neg (by omega)]
      have := hnext (by omega)
      rw [show k + 1 = 2 * m + 2 by omega]
      exact this
    · rw [if_neg h1]
      by_cases h2 : k + 1 = 2 * m + 1
      · rw [if_pos h2]
        have : k = 2 * m := by omega
        subst this; omega
      · rw [if_neg h2]; exact hs k hk
  · rw [hg, if_neg (by omega)]; omega
  · rw [hg]; simp
  · rintro y ⟨j, hj, h1, h2⟩
    refine ⟨j, hj, ?_, ?_⟩
    · rw [hg, if_neg (by omega)]; exact h1
    · rw [hg]
      by_cases hjm : 2 * j + 1 = 2 * m + 1
      · rw [if_pos hjm]; rw [hjm] at h2; omega
      · rw [if_neg hjm]; exact h2

theorem seq_ext_merge (f g : Nat → Nat) (c m x : Nat) (hs : seq_sorted f c)
    (hi : 2 * m + 3 < c) (hx : x = f (2 * m + 1))
    (hg : ∀ k, k < c - 2 → g k = if k ≤ 2 * m then f k else f (k + 2)) :
    seq_ext f c g (c - 2) x := by
  have h01 := hs (2 * m) (by omega)
  have h12 : f (2 * m + 1) < f (2 * m + 2) := hs (2 * m + 1) (by omega)
  have h23 : f (2 * m + 2) < f (2 * m + 3) := hs (2 * m + 2) (by omega)
  refine ⟨?_, ⟨m, by omega, ?_, ?_⟩, ?_⟩
  · intro k hk
    rw [hg k (by omega), hg (k + 1) hk]
    by_cases h1 : k + 1 ≤ 2 * m
    · rw [if_pos (by omega), if_pos h1]; exact hs k (by omega)
    · rw [if_neg h1]
      by_cases h2 : k ≤ 2 * m
      · rw [if_pos h2]
        have : k = 2 * m := by omega
        subst this
        show f (2 * m) < f (2 * m + 1 + 2)
        rw [show 2 * m + 1 + 2 = 2 * m + 3 by ring]
        omega
      · rw [if_neg h2]
        have := hs (k + 2) (by omega)
        rw [show k + 1 + 2 = k + 2 + 1 by ring]
        exact this
  · rw [hg _ (by omega), if_pos (by omega)]; omega
  · rw [hg _ (by omega), if_neg (by omega)]
    rw [show 2 * m + 1 + 2 = 2 * m + 3 by ring]
    omega
  · rintro y ⟨j, hj, h1, h2⟩
    rcases Nat.lt_trichotomy j m with hlt | heq | hgt
    · refine ⟨j, by omega, ?_, ?_⟩
      · rw [hg _ (by omega), if_pos (by omega)]; exact h1
      · rw [hg _ (by omega), if_pos (by omega)]; exact h2
    · subst heq
      refine ⟨j, by omega, ?_, ?_⟩
      · rw [hg _ (by omega), if_pos (by omega)]; exact h1
      · rw [hg _ (by omega), if_neg (by omega)]
        rw [show 2 * j + 1 + 2 = 2 * j + 3 by ring]
        omega
    · by_cases hj1 : j = m + 1
      · subst hj1
        refine ⟨m, by omega, ?_, ?_⟩
        · rw [hg _ (by omega), if_pos (by omega)]
          rw [show 2 * (m + 1) = 2 * m + 2 by ring] at h1
          omega
        · rw [hg _ (by omega), if_neg (by omega)]
          rw [show 2 * (m + 1) + 1 = 2 * m + 3 by ring] at h2
          rw [show 2 * m + 1 + 2 = 2 * m + 3 by ring]
          exact h2
      · refine ⟨j - 1, by omega, ?_, ?_⟩
        · rw [hg _ (by omega), if_neg (by omega)]
          rw [show 2 * (j - 1) + 2 = 2 * j by omega]
          exact h1
        · rw [hg _ (by omega), if_neg (by omega)]
          rw [show 2 * (j - 1) + 1 + 2 = 2 * j + 1 by omega]
          exact h2

theorem seq_ext_insert (f g : Nat → Nat) (c m x : Nat) (hs : seq_sorted f c)
    (hi : 2 * m ≤ c) (hx : 2 * m < c → x + 1 < f (2 * m))
    (hinv : ∀ j, j < m → f (2 * j + 1) < x)
    (hg : ∀ k, k < c + 2 → g k =
      if k < 2 * m then f k else if k = 2 * m then x else if k = 2 * m + 1 then x + 1
      else f (k - 2)) :
    seq_ext f c g (c + 2) x := by
  refine ⟨?_, ⟨m, by omega, ?_, ?_⟩, ?_⟩
  · intro k hk
    rw [hg k (by omega), hg (k + 1) hk]
    by_cases h1 : k + 1 < 2 * m
    · rw [if_pos (by omega), if_pos h1]; exact hs k (by omega)
    · rw [if_neg h1]
      by_cases h2 : k + 1 = 2 * m
      · rw [if_pos (by omega), if_pos h2]
        have := hinv (m - 1) (by omega)
        rw [show 2 * (m - 1) + 1 = k by omega] at this
        exact this
      · rw [if_neg h2]
        by_cases h3 : k = 2 * m
        · rw [if_neg (by omega), if_pos h3, if_pos (by omega)]; omega
        · by_cases h4 : k = 2 * m + 1
          · rw [if_neg (by omega), if_neg h3, if_pos h4, if_neg (by omega)]
            have := hx (by omega)
            rw [show k + 1 - 2 = 2 * m by omega]
            exact this
          · rw [if_neg (by omega), if_neg h3, if_neg h4, if_neg (by omega)]
            have := hs (k - 2) (by omega)
            rw [show k - 2 + 1 = k + 1 - 2 by omega] at this
            exact this
  · rw [hg _ (by omega), if_neg (by omega), if_pos rfl]
  · rw [hg _ (by omega), if_neg (by omega), if_neg (by omega), if_pos rfl]; omega
  · rintro y ⟨j, hj, h1, h2⟩
    by_cases hjm : j < m
    · refine ⟨j, by omega, ?_, ?_⟩
      · rw [hg _ (by omega), if_pos (by omega)]; exact h1
      · rw [hg _ (by omega), if_pos (by omega)]; exact h2
    · refine ⟨j + 1, by omega, ?_, ?_⟩
      · rw [hg _ (by omega), if_neg (by omega), if_neg (by omega), if_neg (by omega)]
        rw [show 2 * (j + 1) - 2 = 2 * j by omega]
        exact h1
      · rw [hg _ (by omega), if_neg (by omega), if_neg (by omega), if_neg (by omega)]
        rw [show 2 * (j + 1) + 1 - 2 = 2 * j + 1 by omega]
        exact h2
theorem seq_ext_refl (f : Nat → Nat) (c m x : Nat) (hi : 2 * m + 1 < c)
    (hs : seq_sorted f c) (h1 : f (2 * m) ≤ x) (h2 : x < f (2 * m + 1)) :
    seq_ext f c f c x :=
  ⟨hs, ⟨m, hi, h1, h2⟩, fun _ h => h⟩

/-- What the theorems about `reiserfs_object_use` need of its result. -/
def use_post (super : reiserfs_super) (x : Nat) (r : Int × reiserfs_super) : Prop :=
  r.1 = 1 ∧ r.2.sb_oid_cursize % 2 = 0 ∧ r.2.sb_oid_cursize < 2 ^ 16 ∧
  r.2.sb_oid_maxsize = super.sb_oid_maxsize ∧
  r.2.objectid_map.length = super.objectid_map.length ∧
  seq_ext (oid_at super.objectid_map) super.sb_oid_cursize
    (oid_at r.2.objectid_map) r.2.sb_oid_cursize x

theorem use_tail_spec (super : reiserfs_super) (x m : Nat) (r : Int × reiserfs_super)
    (hx : x < 2 ^ 32 - 1) (hc : super.sb_oid_cursize < 2 ^ 16)
    (hM : super.sb_oid_maxsize < 2 ^ 16) (hcM : super.sb_oid_cursize ≤ super.sb_oid_maxsize)
    (hlen : super.objectid_map.length ≤ 2 ^ 14)
    (hs : seq_sorted (oid_at super.objectid_map) super.sb_oid_cursize)
    (hm : 2 * m = super.sb_oid_cursize)
    (hinv : ∀ j, j < m → oid_at super.objectid_map (2 * j + 1) < x)
    (h : reiserfs_object_use_tail super x super.sb_oid_cursize (2 * m) = some r) :
    use_post super x r := by
  unfold reiserfs_object_use_tail at h
  rw [Nat.mod_eq_of_lt hM] at h
  dsimp only at h
  by_cases h1 : 2 * m < super.sb_oid_maxsize
  · rw [if_pos h1] at h
    cases hp1 : oid_put super.objectid_map (2 * m) x with
    | none => rw [hp1] at h; exact absurd h (by simp)
    | some o1 =>
      rw [hp1] at h
      dsimp only at h
      cases hp2 : oid_put o1 (2 * m + 1) (x + 1) with
      | none => rw [hp2] at h; exact absurd h (by simp)
      | some o2 =>
        rw [hp2] at h
        dsimp only at h
        injection h with h
        subst h
        have hl1 := oid_put_length _ _ _ _ hp1
        have hl2 := oid_put_length _ _ _ _ hp2
        have hb : 2 * m + 1 < o1.length := by
          unfold oid_put at hp2
          split_ifs at hp2 with hh
          exact hh
        have hc2 : super.sb_oid_cursize + 2 < 2 ^ 16 := by
          have : (2:Nat) ^ 14 = 16384 := by norm_num
          have : (2:Nat) ^ 16 = 65536 := by norm_num
          omega
        refine ⟨rfl, ?_, ?_, rfl, ?_, ?_⟩
        · show (super.sb_oid_cursize + 2) % 2 ^ 16 % 2 = 0
          rw [Nat.mod_eq_of_lt hc2]; omega
        · show (super.sb_oid_cursize + 2) % 2 ^ 16 < 2 ^ 16
          exact Nat.mod_lt _ (by norm_num)
        · show o2.length = _
          omega
        · show seq_ext _ _ (oid_at o2) ((super.sb_oid_cursize + 2) % 2 ^ 16) x
          rw [Nat.mod_eq_of_lt hc2]
          apply seq_ext_insert _ _ _ m x hs (by omega) (by intro hh; omega) hinv
          intro k hk
          rw [oid_at_put _ _ _ _ hp2 k, oid_at_put _ _ _ _ hp1 k]
          have e1 : (x + 1) % 2 ^ 32 = x + 1 := Nat.mod_eq_of_lt (by omega)
          have e2 : x % 2 ^ 32 = x := Nat.mod_eq_of_lt (by omega)
          rw [e1, e2]
          by_cases c1 : k < 2 * m
          · rw [if_neg (by omega), if_neg (by omega), if_pos c1]
          · by_cases c2 : k = 2 * m
            · rw [if_neg (by omega), if_pos c2, if_neg c1, if_pos c2]
            · rw [if_pos (by omega), if_neg c1, if_neg c2, if_pos (by omega)]
  · rw [if_neg h1] at h
    by_cases h2 : 2 * m = super.sb_oid_maxsize
    · rw [if_pos h2] at h
      by_cases h3 : 2 * m = 0
      · rw [if_pos h3] at h; exact absurd h (by simp)
      · rw [if_neg h3] at h
        cases hp1 : oid_put super.objectid_map (2 * m - 1) (x + 1) with
        | none => rw [hp1] at h; exact absurd h (by simp)
        | some o1 =>
          rw [hp1] at h
          dsimp only at h
          injection h with h
          subst h
          have hl1 := oid_put_length _ _ _ _ hp1
          refine ⟨rfl, by show super.sb_oid_cursize % 2 = 0; omega, hc, rfl, hl1, ?_⟩
          show seq_ext _ _ (oid_at o1) super.sb_oid_cursize x
          have hlast := hinv (m - 1) (by omega)
          rw [show 2 * (m - 1) + 1 = 2 * m - 1 by omega] at hlast
          apply seq_ext_bump_end _ _ _ (m - 1) x hs (by omega)
          · rw [show 2 * (m - 1) + 1 = 2 * m - 1 by omega]; omega
          · intro hh; omega
          · intro k
            rw [oid_at_put _ _ _ _ hp1 k]
            have e1 : (x + 1) % 2 ^ 32 = x + 1 := Nat.mod_eq_of_lt (by omega)
            rw [e1, show 2 * (m - 1) + 1 = 2 * m - 1 by omega]
    · exfalso; omega
theorem use_loop_spec (super : reiserfs_super) (x : Nat)
    (hx : x < 2 ^ 32 - 1) (hc : super.sb_oid_cursize < 2 ^ 16)
    (hM : super.sb_oid_maxsize < 2 ^ 16) (hcM : super.sb_oid_cursize ≤ super.sb_oid_maxsize)
    (hlen : super.objectid_map.length ≤ 2 ^ 14)
    (hs : seq_sorted (oid_at super.objectid_map) super.sb_oid_cursize) (n : Nat) :
    ∀ (m : Nat) (r : Int × reiserfs_super), 2 * m + 2 * n = super.sb_oid_cursize →
      (∀ j, j < m → oid_at super.objectid_map (2 * j + 1) < x) →
      reiserfs_object_use_loop super x super.sb_oid_cursize n (2 * m) = some r →
      use_post super x r := by
  have e1 : (x + 1) % 2 ^ 32 = x + 1 := Nat.mod_eq_of_lt (by omega)
  have e2 : x % 2 ^ 32 = x := Nat.mod_eq_of_lt (by omega)
  induction n with
  | zero =>
    intro m r hm hinv h
    unfold reiserfs_object_use_loop at h
    exact use_tail_spec super x m r hx hc hM hcM hlen hs (by omega) hinv h
  | succ n ih =>
    intro m r hm hinv h
    have hce : super.sb_oid_cursize % 2 = 0 := by omega
    have hadj : oid_at super.objectid_map (2 * m) < oid_at super.objectid_map (2 * m + 1) :=
      hs (2 * m) (by omega)
    unfold reiserfs_object_use_loop at h
    dsimp only at h
    by_cases b1 : x ≥ oid_at super.objectid_map (2 * m) ∧
        x < oid_at super.objectid_map (2 * m + 1)
    · rw [if_pos b1] at h
      injection h with h
      subst h
      exact ⟨rfl, hce, hc, rfl, rfl, seq_ext_refl _ _ m x (by omega) hs b1.1 b1.2⟩
    · rw [if_neg b1] at h
      by_cases b2 : (x + 1) % 2 ^ 32 = oid_at super.objectid_map (2 * m)
      · rw [if_pos b2] at h
        cases hp1 : oid_put super.objectid_map (2 * m) x with
        | none => rw [hp1] at h; exact absurd h (by simp)
        | some o1 =>
          rw [hp1] at h
          dsimp only at h
          injection h with h
          subst h
          refine ⟨rfl, hce, hc, rfl, oid_put_length _ _ _ _ hp1, ?_⟩
          apply seq_ext_set_start _ _ _ m x hs (by omega) (by omega) hinv
          intro k
          rw [oid_at_put _ _ _ _ hp1 k, e2]
      · rw [if_neg b2] at h
        by_cases b3 : x = oid_at super.objectid_map (2 * m + 1)
        · rw [if_pos b3] at h
          cases hp1 : oid_put super.objectid_map (2 * m + 1)
              (oid_at super.objectid_map (2 * m + 1) + 1) with
          | none => rw [hp1] at h; exact absurd h (by simp)
          | some o1 =>
            rw [hp1] at h
            dsimp only at h
            have hl1 := oid_put_length _ _ _ _ hp1
            have ho1 : ∀ k, oid_at o1 k =
                if k = 2 * m + 1 then x + 1 else oid_at super.objectid_map k := by
              intro k
              rw [oid_at_put _ _ _ _ hp1 k, ← b3, e1]
            by_cases b4 : 2 * m + 2 < super.sb_oid_cursize ∧
                oid_at o1 (2 * m + 1) = oid_at o1 (2 * m + 2)
            · rw [if_pos b4] at h
              cases hp2 : oid_memmove o1 (2 * m + 1) (2 * m + 1 + 2)
                  (super.sb_oid_cursize - (2 * m + 2 + 2 - 1)) with
              | none => rw [hp2] at h; exact absurd h (by simp)
              | some o2 =>
                rw [hp2] at h
                dsimp only at h
                injection h with h
                subst h
                have hl2 := oid_memmove_length _ _ _ _ _ hp2
                have hc2 : (super.sb_oid_cursize - 2) % 2 ^ 16 = super.sb_oid_cursize - 2 :=
                  Nat.mod_eq_of_lt (by omega)
                refine ⟨rfl, ?_, ?_, rfl, ?_, ?_⟩
                · show (super.sb_oid_cursize - 2) % 2 ^ 16 % 2 = 0
                  rw [hc2]; omega
                · show (super.sb_oid_cursize - 2) % 2 ^ 16 < 2 ^ 16
                  exact Nat.mod_lt _ (by norm_num)
                · show o2.length = _
                  omega
                · show seq_ext _ _ (oid_at o2) ((super.sb_oid_cursize - 2) % 2 ^ 16) x
                  rw [hc2]
                  apply seq_ext_merge _ _ _ m x hs (by omega) b3
                  intro k hk
                  rw [oid_at_memmove _ _ _ _ _ hp2 k]
                  by_cases c1 : k ≤ 2 * m
                  · rw [if_neg (by omega), if_pos c1, ho1 k, if_neg (by omega)]
                  · rw [if_pos (by omega), if_neg c1, ho1, if_neg (by omega)]
                    congr 1
                    omega
            · rw [if_neg b4] at h
              injection h with h
              subst h
              refine ⟨rfl, hce, hc, rfl, hl1, ?_⟩
              apply seq_ext_bump_end _ _ _ m x hs (by omega) (by omega) ?_ ho1
              intro hh
              have h12 : oid_at super.objectid_map (2 * m + 1) <
                  oid_at super.objectid_map (2 * m + 2) := hs (2 * m + 1) (by omega)
              have hne : ¬ oid_at o1 (2 * m + 1) = oid_at o1 (2 * m + 2) := fun e => b4 ⟨hh, e⟩
              rw [ho1, ho1, if_pos rfl, if_neg (by omega)] at hne
              omega
        · rw [if_neg b3] at h
          by_cases b5 : x < oid_at super.objectid_map (2 * m)
          · rw [if_pos b5] at h
            rw [Nat.mod_eq_of_lt hM] at h
            by_cases b6 : super.sb_oid_cursize = super.sb_oid_maxsize
            · rw [if_pos b6] at h
              cases hp1 : oid_put super.objectid_map (2 * m) x with
              | none => rw [hp1] at h; exact absurd h (by simp)
              | some o1 =>
                rw [hp1] at h
                dsimp only at h
                injection h with h
                subst h
                refine ⟨rfl, hce, hc, rfl, oid_put_length _ _ _ _ hp1, ?_⟩
                apply seq_ext_set_start _ _ _ m x hs (by omega) b5 hinv
                intro k
                rw [oid_at_put _ _ _ _ hp1 k, e2]
            · rw [if_neg b6] at h
              cases hp1 : oid_memmove super.objectid_map (2 * m + 2) (2 * m)
                  (super.sb_oid_cursize - 2 * m) with
              | none => rw [hp1] at h; exact absurd h (by simp)
              | some o1 =>
                rw [hp1] at h
                dsimp only at h
                cases hp2 : oid_put o1 (2 * m) x with
                | none => rw [hp2] at h; exact absurd h (by simp)
                | some o2 =>
                  rw [hp2] at h
                  dsimp only at h
                  cases hp3 : oid_put o2 (2 * m + 1) (x + 1) with
                  | none => rw [hp3] at h; exact absurd h (by simp)
                  | some o3 =>
                    rw [hp3] at h
                    dsimp only at h
                    injection h with h
                    subst h
                    have hl1 := oid_memmove_length _ _ _ _ _ hp1
                    have hl2 := oid_put_length _ _ _ _ hp2
                    have hl3 := oid_put_length _ _ _ _ hp3
                    have hb : 2 * m + 2 + (super.sb_oid_cursize - 2 * m) ≤
                        super.objectid_map.length := by
                      unfold oid_memmove at hp1
                      split_ifs at hp1 with hh
                      exact hh.1
                    have hc2 : (super.sb_oid_cursize + 2) % 2 ^ 16 =
                        super.sb_oid_cursize + 2 := by
                      apply Nat.mod_eq_of_lt
                      have : (2:Nat) ^ 14 = 16384 := by norm_num
                      have : (2:Nat) ^ 16 = 65536 := by norm_num
                      omega
                    refine ⟨rfl, ?_, ?_, rfl, ?_, ?_⟩
                    · show (super.sb_oid_cursize + 2) % 2 ^ 16 % 2 = 0
                      rw [hc2]; omega
                    · show (super.sb_oid_cursize + 2) % 2 ^ 16 < 2 ^ 16
                      exact Nat.mod_lt _ (by norm_num)
                    · show o3.length = _
                      omega
                    · show seq_ext _ _ (oid_at o3) ((super.sb_oid_cursize + 2) % 2 ^ 16) x
                      rw [hc2]
                      apply seq_ext_insert _ _ _ m x hs (by omega) ?_ hinv
                      · intro k hk
                        rw [oid_at_put _ _ _ _ hp3 k, oid_at_put _ _ _ _ hp2 k,
                          oid_at_memmove _ _ _ _ _ hp1 k, e1, e2]
                        by_cases c1 : k < 2 * m
                        · rw [if_neg (by omega), if_neg (by omega), if_neg (by omega),
                            if_pos c1]
                        · by_cases c2 : k = 2 * m
                          · rw [if_neg (by omega), if_pos c2, if_neg c1, if_pos c2]
                          · by_cases c3 : k = 2 * m + 1
                            · rw [if_pos c3, if_neg c1, if_neg c2, if_pos c3]
                            · rw [if_neg c3, if_neg c2, if_pos (by omega), if_neg c1,
                                if_neg c2, if_neg c3]
                              congr 1
                              omega
                      · intro _
                        rw [e1] at b2
                        omega
          · rw [if_neg b5] at h
            have hinv2 : ∀ j, j < m + 1 → oid_at super.objectid_map (2 * j + 1) < x := by
              intro j hj
              by_cases hjm : j = m
              · subst hjm; omega
              · exact hinv j (by omega)
            have := ih (m + 1) r (by omega) hinv2
            rw [show 2 * (m + 1) = 2 * m + 2 by ring] at this
            exact this h
theorem use_loop_total (super : reiserfs_super) (x : Nat)
    (hc : super.sb_oid_cursize < 2 ^ 16) (hM : super.sb_oid_maxsize < 2 ^ 16)
    (hcM : super.sb_oid_cursize ≤ super.sb_oid_maxsize)
    (hMe : super.sb_oid_maxsize % 2 = 0) (hM0 : 0 < super.sb_oid_maxsize)
    (hMl : super.sb_oid_maxsize ≤ super.objectid_map.length) (n : Nat) :
    ∀ m, 2 * m + 2 * n = super.sb_oid_cursize →
      ∃ r, reiserfs_object_use_loop super x super.sb_oid_cursize n (2 * m) = some r := by
  induction n with
  | zero =>
    intro m hm
    unfold reiserfs_object_use_loop reiserfs_object_use_tail
    rw [Nat.mod_eq_of_lt hM]
    dsimp only
    by_cases h1 : 2 * m < super.sb_oid_maxsize
    · rw [if_pos h1]
      obtain ⟨o1, hp1, hl1⟩ := oid_put_isSome super.objectid_map (2 * m) x (by omega)
      obtain ⟨o2, hp2, _⟩ := oid_put_isSome o1 (2 * m + 1) (x + 1) (by omega)
      rw [hp1]; dsimp only; rw [hp2]
      exact ⟨_, rfl⟩
    · rw [if_neg h1]
      by_cases h2 : 2 * m = super.sb_oid_maxsize
      · rw [if_pos h2, if_neg (by omega)]
        obtain ⟨o1, hp1, _⟩ := oid_put_isSome super.objectid_map (2 * m - 1) (x + 1) (by omega)
        rw [hp1]
        exact ⟨_, rfl⟩
      · rw [if_neg h2]; exact ⟨_, rfl⟩
  | succ n ih =>
    intro m hm
    unfold reiserfs_object_use_loop
    dsimp only
    rw [Nat.mod_eq_of_lt hM]
    obtain ⟨o1, hp1, _⟩ := oid_put_isSome super.objectid_map (2 * m) x (by omega)
    obtain ⟨o2, hp2, hl2⟩ := oid_put_isSome super.objectid_map (2 * m + 1)
      (oid_at super.objectid_map (2 * m + 1) + 1) (by omega)
    by_cases b1 : x ≥ oid_at super.objectid_map (2 * m) ∧
        x < oid_at super.objectid_map (2 * m + 1)
    · rw [if_pos b1]; exact ⟨_, rfl⟩
    · rw [if_neg b1]
      by_cases b2 : (x + 1) % 2 ^ 32 = oid_at super.objectid_map (2 * m)
      · rw [if_pos b2, hp1]; exact ⟨_, rfl⟩
      · rw [if_neg b2]
        by_cases b3 : x = oid_at super.objectid_map (2 * m + 1)
        · rw [if_pos b3, hp2]
          dsimp only
          by_cases b4 : 2 * m + 2 < super.sb_oid_cursize ∧
              oid_at o2 (2 * m + 1) = oid_at o2 (2 * m + 2)
          · obtain ⟨o3, hp3, _⟩ := oid_memmove_isSome o2 (2 * m + 1) (2 * m + 1 + 2)
              (super.sb_oid_cursize - (2 * m + 2 + 2 - 1)) (by omega) (by omega)
            rw [if_pos b4, hp3]
            exact ⟨_, rfl⟩
          · rw [if_neg b4]
            exact ⟨_, rfl⟩
        · rw [if_neg b3]
          by_cases b5 : x < oid_at super.objectid_map (2 * m)
          · rw [if_pos b5]
            by_cases b6 : super.sb_oid_cursize = super.sb_oid_maxsize
            · rw [if_pos b6, hp1]; exact ⟨_, rfl⟩
            · obtain ⟨o3, hp3, hl3⟩ := oid_memmove_isSome super.objectid_map (2 * m + 2)
                (2 * m) (super.sb_oid_cursize - 2 * m) (by omega) (by omega)
              obtain ⟨o4, hp4, hl4⟩ := oid_put_isSome o3 (2 * m) x (by omega)
              obtain ⟨o5, hp5, _⟩ := oid_put_isSome o4 (2 * m + 1) (x + 1) (by omega)
              rw [if_neg b6, hp3]; dsimp only; rw [hp4]; dsimp only; rw [hp5]
              exact ⟨_, rfl⟩
          · rw [if_neg b5]
            have := ih (m + 1) (by omega)
            rw [show 2 * (m + 1) = 2 * m + 2 by ring] at this
            exact this

theorem object_use_post (super : reiserfs_super) (x : Nat) (hwf : oid_map_wf super)
    (hx : x < 0xffffffff) (r : Int × reiserfs_super)
    (h : reiserfs_object_use super x = some r) : use_post super x r := by
  obtain ⟨hs, hcM, hM, hlen⟩ := hwf
  have hsorted : seq_sorted (oid_at super.objectid_map) super.sb_oid_cursize := by
    intro k hk
    exact hs.2.2 k (by omega) hk
  unfold reiserfs_object_use at h
  by_cases ht : reiserfs_object_test super x ≠ 0
  · rw [if_pos ht] at h
    injection h with h
    subst h
    have h1 : reiserfs_object_test super x = 1 := by
      rcases test_loop_range super.objectid_map x
        ((super.sb_oid_cursize % 2 ^ 16 + 1) / 2) 0 with h0 | h1
      · exact absurd h0 ht
      · exact h1
    exact ⟨rfl, hs.1, hs.2.1, rfl, rfl, hsorted, (object_test_iff super x hs).1 h1,
      fun _ hy => hy⟩
  · rw [if_neg ht, Nat.mod_eq_of_lt hs.2.1] at h
    have := use_loop_spec super x (by omega) hs.2.1 hM hcM hlen hsorted
      ((super.sb_oid_cursize + 1) / 2) 0 r (by have := hs.1; omega) (by intro j hj; omega)
    exact this h

theorem use_post_sorted (super : reiserfs_super) (x : Nat) (r : Int × reiserfs_super)
    (h : use_post super x r) : oid_sorted r.2 :=
  ⟨h.2.1, h.2.2.1, fun k _ hk => h.2.2.2.2.2.1 k hk⟩

/-- C12 (amended): for a superblock whose object-id map is a strictly increasing sequence
of `[start, end)` pairs with even `oid_cursize` at most `oid_maxsize`, and every object id
below 0xffffffff: when `reiserfs_object_use(id)` returns 1, `reiserfs_object_test(id)`
returns 1 afterwards and every id that tested 1 before still tests 1. The call does
return 1 when `oid_maxsize` is even, positive and within the words of the block. -/
theorem C12_object_use_marks_and_preserves (super : reiserfs_super) (id : Nat)
    (hwf : oid_map_wf super) (hid : id < 0xffffffff) :
    (super.sb_oid_maxsize % 2 = 0 → 0 < super.sb_oid_maxsize →
      super.sb_oid_maxsize ≤ super.objectid_map.length →
      ∃ super', reiserfs_object_use super id = some (1, super')) ∧
    ∀ super', reiserfs_object_use super id = some (1, super') →
      reiserfs_object_test super' id = 1 ∧
      ∀ other, reiserfs_object_test super other = 1 → reiserfs_object_test super' other = 1 := by
  constructor
  · intro hMe hM0 hMl
    obtain ⟨hs, hcM, hM, hlen⟩ := hwf
    by_cases ht : reiserfs_object_test super id ≠ 0
    · refine ⟨super, ?_⟩
      unfold reiserfs_object_use
      rw [if_pos ht]
    · obtain ⟨r, hr⟩ := use_loop_total super id hs.2.1 hM hcM hMe hM0 hMl
        ((super.sb_oid_cursize + 1) / 2) 0 (by have := hs.1; omega)
      have huse : reiserfs_object_use super id = some r := by
        unfold reiserfs_object_use
        rw [if_neg ht, Nat.mod_eq_of_lt hs.2.1]
        exact hr
      have hp := object_use_post super id ⟨hs, hcM, hM, hlen⟩ hid r huse
      refine ⟨r.2, ?_⟩
      rw [huse]
      have : r.1 = 1 := hp.1
      rw [← this]
  · intro super' h
    have hp := object_use_post super id hwf hid (1, super') h
    have hs' := use_post_sorted super id (1, super') hp
    obtain ⟨_, _, _, _, _, _, hmem, hmono⟩ := hp
    refine ⟨(object_test_iff super' id hs').2 hmem, ?_⟩
    intro other ho
    exact (object_test_iff super' other hs').2 (hmono other ((object_test_iff super other hwf.1).1 ho))

theorem C12_object_use_marks_and_preserves_witness :
    (oid_example.sb_oid_maxsize % 2 = 0 → 0 < oid_example.sb_oid_maxsize →
      oid_example.sb_oid_maxsize ≤ oid_example.objectid_map.length →
      ∃ super', reiserfs_object_use oid_example 5 = some (1, super')) ∧
    ∀ super', reiserfs_object_use oid_example 5 = some (1, super') →
      reiserfs_object_test super' 5 = 1 ∧
      ∀ other, reiserfs_object_test oid_example other = 1 →
        reiserfs_object_test super' other = 1 :=
  C12_object_use_marks_and_preserves oid_example 5 (by decide) (by decide)

/-- C12 as stated fails for the object id 0xffffffff: on the map holding the one extent
[1, 0xffffffff) `reiserfs_object_use(0xffffffff)` returns 1 and turns the end of the
extent into 0, after which neither 0xffffffff nor the id 5, which tested 1 before, tests
1. -/
theorem C12_counterexample_object_id_ffffffff :
    oid_map_wf oid_example_full ∧
    reiserfs_object_test oid_example_full 5 = 1 ∧
    (reiserfs_object_use oid_example_full 0xffffffff).map
      (fun r => (r.1, r.2.objectid_map, reiserfs_object_test r.2 0xffffffff,
        reiserfs_object_test r.2 5)) = some (1, [1, 0, 0, 0, 0, 0, 0, 0], 0, 0) := by
  decide

/-! ## The root block of a new tree -/

/-- Two buffers hold the same bytes below offset `lo`. -/
def agree_below (lo : Nat) (b c : Nat → Nat) : Prop := ∀ k, k < lo → b k = c k

theorem agree_below_refl (lo : Nat) (b : Nat → Nat) : agree_below lo b b := fun _ _ => rfl

theorem agree_below_symm {lo : Nat} {b c : Nat → Nat} (h : agree_below lo b c) :
    agree_below lo c b := fun k hk => (h k hk).symm

theorem agree_below_trans {lo : Nat} {b c d : Nat → Nat} (h1 : agree_below lo b c)
    (h2 : agree_below lo c d) : agree_below lo b d := fun k hk => (h1 k hk).trans (h2 k hk)

theorem agree_buf_put {lo : Nat} {b c : Nat → Nat} (h : agree_below lo b c) (off : Nat)
    (vals : List Nat) : agree_below lo (buf_put b off vals) (buf_put c off vals) := by
  intro k hk
  unfold buf_put
  split_ifs
  · rfl
  · exact h k hk

theorem agree_buf_put_above {lo : Nat} (b : Nat → Nat) (off : Nat) (vals : List Nat)
    (hoff : lo ≤ off) : agree_below lo (buf_put b off vals) b := by
  intro k hk
  unfold buf_put
  rw [if_neg (by omega)]

theorem agree_buf_zero {lo : Nat} {b c : Nat → Nat} (h : agree_below lo b c) (off n : Nat) :
    agree_below lo (buf_zero b off n) (buf_zero c off n) := by
  intro k hk
  unfold buf_zero
  split_ifs
  · rfl
  · exact h k hk

theorem agree_set_le16 {lo : Nat} {b c : Nat → Nat} (h : agree_below lo b c) (off val : Nat) :
    agree_below lo (set_le16 b off val) (set_le16 c off val) :=
  agree_buf_put h _ _

theorem agree_set_le32 {lo : Nat} {b c : Nat → Nat} (h : agree_below lo b c) (off val : Nat) :
    agree_below lo (set_le32 b off val) (set_le32 c off val) :=
  agree_buf_put h _ _

theorem agree_set_le64 {lo : Nat} {b c : Nat → Nat} (h : agree_below lo b c) (off val : Nat) :
    agree_below lo (set_le64 b off val) (set_le64 c off val) :=
  agree_set_le32 (agree_set_le32 h _ _) _ _

theorem agree_key_store {lo : Nat} {b c : Nat → Nat} (h : agree_below lo b c) (off : Nat)
    (k : key) : agree_below lo (key_store b off k) (key_store c off k) :=
  agree_set_le64 (agree_set_le32 (agree_set_le32 h _ _) _ _) _ _

theorem agree_set_le16_above {lo : Nat} (b : Nat → Nat) (off val : Nat) (hoff : lo ≤ off) :
    agree_below lo (set_le16 b off val) b :=
  agree_buf_put_above b off _ hoff

theorem agree_set_le32_above {lo : Nat} (b : Nat → Nat) (off val : Nat) (hoff : lo ≤ off) :
    agree_below lo (set_le32 b off val) b :=
  agree_buf_put_above b off _ hoff

theorem agree_set_le64_above {lo : Nat} (b : Nat → Nat) (off val : Nat) (hoff : lo ≤ off) :
    agree_below lo (set_le64 b off val) b :=
  agree_below_trans (agree_set_le32_above _ _ _ (by omega)) (agree_set_le32_above _ _ _ hoff)

theorem get_le16_agree {lo : Nat} {b c : Nat → Nat} (h : agree_below lo b c) (off : Nat)
    (hoff : off + 2 ≤ lo) : get_le16 b off = get_le16 c off := by
  unfold get_le16
  rw [h off (by omega), h (off + 1) (by omega)]

theorem get_le32_agree {lo : Nat} {b c : Nat → Nat} (h : agree_below lo b c) (off : Nat)
    (hoff : off + 4 ≤ lo) : get_le32 b off = get_le32 c off := by
  unfold get_le32
  rw [h off (by omega), h (off + 1) (by omega), h (off + 2) (by omega), h (off + 3) (by omega)]

theorem get_le64_agree {lo : Nat} {b c : Nat → Nat} (h : agree_below lo b c) (off : Nat)
    (hoff : off + 8 ≤ lo) : get_le64 b off = get_le64 c off := by
  unfold get_le64
  rw [get_le32_agree h off (by omega), get_le32_agree h (off + 4) (by omega)]

theorem key_load_agree {lo : Nat} {b c : Nat → Nat} (h : agree_below lo b c) (off : Nat)
    (hoff : off + 16 ≤ lo) : key_load b off = key_load c off := by
  unfold key_load
  rw [get_le32_agree h off (by omega), get_le32_agree h (off + 4) (by omega),
    get_le64_agree h (off + 8) (by omega)]

theorem buf_get_agree {lo : Nat} {b c : Nat → Nat} (h : agree_below lo b c) (off n : Nat)
    (hoff : off + n ≤ lo) : buf_get b off n = buf_get c off n := by
  unfold buf_get
  apply List.map_congr_left
  intro i hi
  rw [List.mem_range] at hi
  rw [h (off + i) (by omega)]

theorem agree_mark_de_visible {lo : Nat} {b c : Nat → Nat} (h : agree_below lo b c) (de : Nat)
    (hde : de + 16 ≤ lo) : agree_below lo (mark_de_visible b de) (mark_de_visible c de) := by
  unfold mark_de_visible
  rw [buf_get_agree h (de + 14) 2 (by omega)]
  exact agree_buf_put h _ _

theorem agree_make_stat_data (b : Nat → Nat) (sd format : Nat) (env : dir_env) :
    agree_below sd (make_stat_data b sd format env) b := by
  unfold make_stat_data
  split_ifs
  · dsimp only
    refine agree_below_trans (agree_set_le32_above _ _ _ (by omega)) ?_
    refine agree_below_trans (agree_set_le32_above _ _ _ (by omega)) ?_
    refine agree_below_trans (agree_set_le32_above _ _ _ (by omega)) ?_
    refine agree_below_trans (agree_set_le32_above _ _ _ (by omega)) ?_
    refine agree_below_trans (agree_set_le32_above _ _ _ (by omega)) ?_
    refine agree_below_trans (agree_set_le64_above _ _ _ (by omega)) ?_
    refine agree_below_trans (agree_set_le32_above _ _ _ (by omega)) ?_
    refine agree_below_trans (agree_set_le32_above _ _ _ (by omega)) ?_
    refine agree_below_trans (agree_set_le32_above _ _ _ (by omega)) ?_
    exact agree_set_le16_above _ _ _ (by omega)
  · dsimp only
    refine agree_below_trans (agree_set_le32_above _ _ _ (by omega)) ?_
    refine agree_below_trans (agree_set_le32_above _ _ _ (by omega)) ?_
    refine agree_below_trans (agree_set_le32_above _ _ _ (by omega)) ?_
    refine agree_below_trans (agree_set_le32_above _ _ _ (by omega)) ?_
    refine agree_below_trans (agree_set_le32_above _ _ _ (by omega)) ?_
    refine agree_below_trans (agree_set_le16_above _ _ _ (by omega)) ?_
    refine agree_below_trans (agree_set_le16_above _ _ _ (by omega)) ?_
    refine agree_below_trans (agree_set_le16_above _ _ _ (by omega)) ?_
    exact agree_set_le16_above _ _ _ (by omega)

theorem agree_dr_head {lo : Nat} {b c : Nat → Nat} (h : agree_below lo b c)
    (format dirid objid : Nat) (hlo : 72 ≤ lo) :
    agree_below lo (make_empty_dir_dr_head b format dirid objid)
      (make_empty_dir_dr_head c format dirid objid) := by
  unfold make_empty_dir_dr_head NDHD_SIZE IH_SIZE
  dsimp only
  have e1 : key_load b (24 + 24) = key_load c (24 + 24) := key_load_agree h _ (by omega)
  rw [e1]
  have h1 := agree_set_le16 (agree_key_store h (24 + 24)
    (set_key_objid (set_key_dirid (key_load c (24 + 24)) dirid) objid)) (24 + 24 + 22)
    (if (decide (format = FS_FORMAT_3_6)) = true then ITEM_FORMAT_2 else ITEM_FORMAT_1)
  have e2 := key_load_agree h1 (24 + 24) (by omega)
  rw [e2]
  have h2 := agree_set_le16 (agree_key_store h1 (24 + 24)
    (if (decide (format = FS_FORMAT_3_6)) = true then
      set_key_v2_type (set_key_v2_offset (key_load (set_le16 (key_store c (24 + 24)
        (set_key_objid (set_key_dirid (key_load c (24 + 24)) dirid) objid)) (24 + 24 + 22)
        (if (decide (format = FS_FORMAT_3_6)) = true then ITEM_FORMAT_2 else ITEM_FORMAT_1))
        (24 + 24)) DOT_OFFSET) KEY_TYPE_DR
     else set_key_v1_type (set_key_v1_offset (key_load (set_le16 (key_store c (24 + 24)
        (set_key_objid (set_key_dirid (key_load c (24 + 24)) dirid) objid)) (24 + 24 + 22)
        (if (decide (format = FS_FORMAT_3_6)) = true then ITEM_FORMAT_2 else ITEM_FORMAT_1))
        (24 + 24)) DOT_OFFSET) KEY_UNIQ_DR)) (24 + 24 + 18)
    (if (decide (format = FS_FORMAT_3_6)) = true then EMPTY_DIR_V2_SIZE else EMPTY_DIR_V1_SIZE)
  have e3 := get_le16_agree h2 (24 + 20) (by omega)
  have e4 := get_le16_agree h2 (24 + 24 + 18) (by omega)
  unfold get_ih_item_location get_ih_item_len
  rw [e3, e4]
  exact agree_set_le16 (agree_set_le16 h2 _ _) _ _
theorem agree_buf_put_eq {lo : Nat} {b c : Nat → Nat} {off off' : Nat}
    (h : agree_below lo b c) (vals : List Nat) (e : off = off') :
    agree_below lo (buf_put b off vals) (buf_put c off' vals) := by
  subst e; exact agree_buf_put h _ _

theorem agree_set_le16_eq {lo : Nat} {b c : Nat → Nat} {val val' : Nat}
    (h : agree_below lo b c) (off : Nat) (e : val = val') :
    agree_below lo (set_le16 b off val) (set_le16 c off val') := by
  subst e; exact agree_set_le16 h _ _

theorem agree_make_empty_direntry {lo : Nat} {b c : Nat → Nat} (h : agree_below lo b c)
    (deh format dirid objid par_dirid par_objid : Nat) (hde : deh + 32 ≤ lo) :
    agree_below lo (make_empty_direntry b deh format dirid objid par_dirid par_objid)
      (make_empty_direntry c deh format dirid objid par_dirid par_objid) := by
  unfold make_empty_direntry DE_SIZE get_de_location
  dsimp only
  split_ifs
  all_goals
    repeat' with_reducible first
      | exact h
      | apply agree_buf_put_eq
      | apply agree_set_le16_eq
      | apply agree_set_le32
      | apply agree_buf_zero
      | apply agree_mark_de_visible
      | rfl
      | refine congrArg (fun v => deh + v) ?_
      | refine congrArg (fun v => v - ROUND_UP 2) ?_
      | refine congrArg (fun v => v - 2) ?_
      | refine @get_le16_agree lo _ _ ?_ _ ?_
      | omega
theorem root_view_agree {lo : Nat} {b c : Nat → Nat} (h : agree_below lo b c)
    (hb : root_view_below lo c) : root_view_of b = root_view_of c := by
  unfold root_view_below at hb
  unfold root_view_of dir_entry_name
  simp only [get_ih_item_head, NDHD_SIZE, IH_SIZE, DE_SIZE, get_ih_item_location,
    get_ih_item_len, get_ih_entry_count, get_de_location, get_de_offset, get_de_dirid,
    get_de_objid, node_get_level, node_get_nritems, Nat.reduceMul, Nat.reduceAdd,
    Nat.add_zero, Nat.mul_zero, if_true, Nat.reduceSub, Nat.reduceEqDiff, if_false,
    Nat.add_assoc] at hb ⊢
  obtain ⟨h72, hde, hn0, hn1, hn2⟩ := hb
  have e1 : get_le16 b 68 = get_le16 c 68 := get_le16_agree h _ (by omega)
  rw [e1]
  have e2 : get_le16 b (get_le16 c 68 + 12) = get_le16 c (get_le16 c 68 + 12) :=
    get_le16_agree h _ (by omega)
  have e3 : get_le16 b (get_le16 c 68 + 28) = get_le16 c (get_le16 c 68 + 28) :=
    get_le16_agree h _ (by omega)
  rw [e2, e3]
  rw [get_le16_agree h 0 (by omega), get_le16_agree h 2 (by omega),
    key_load_agree h 24 (by omega), key_load_agree h 48 (by omega),
    get_le16_agree h 42 (by omega), get_le16_agree h 44 (by omega),
    get_le16_agree h 64 (by omega), get_le16_agree h 66 (by omega),
    get_le32_agree h (get_le16 c 68) (by omega),
    get_le32_agree h (get_le16 c 68 + 4) (by omega),
    get_le32_agree h (get_le16 c 68 + 8) (by omega),
    get_le32_agree h (get_le16 c 68 + 16) (by omega),
    get_le32_agree h (get_le16 c 68 + 20) (by omega),
    get_le32_agree h (get_le16 c 68 + 24) (by omega),
    buf_get_agree h (get_le16 c 68 + get_le16 c (get_le16 c 68 + 12)) _ (by omega),
    buf_get_agree h (get_le16 c 68 + get_le16 c (get_le16 c 68 + 28)) _ (by omega)]

theorem make_empty_dir_agree (b : Nat → Nat) (format blocksize dirid objid pd po : Nat)
    (env env0 : dir_env)
    (h1 : 72 ≤ get_ih_item_location (make_empty_dir_sd_head b format blocksize dirid objid)
      NDHD_SIZE)
    (h2 : get_ih_item_location (make_empty_dir_dr_head
        (make_stat_data (make_empty_dir_sd_head b format blocksize dirid objid)
          (get_ih_item_location (make_empty_dir_sd_head b format blocksize dirid objid)
            NDHD_SIZE) format env0) format dirid objid) (NDHD_SIZE + IH_SIZE) + 32 ≤
      get_ih_item_location (make_empty_dir_sd_head b format blocksize dirid objid) NDHD_SIZE) :
    agree_below
      (get_ih_item_location (make_empty_dir_sd_head b format blocksize dirid objid) NDHD_SIZE)
      (make_empty_dir b format blocksize dirid objid pd po env)
      (make_empty_dir b format blocksize dirid objid pd po env0) := by
  unfold make_empty_dir
  dsimp only
  generalize hsd : get_ih_item_location (make_empty_dir_sd_head b format blocksize dirid objid)
    NDHD_SIZE = sd at h1 h2 ⊢
  have hS : agree_below sd
      (make_stat_data (make_empty_dir_sd_head b format blocksize dirid objid) sd format env)
      (make_stat_data (make_empty_dir_sd_head b format blocksize dirid objid) sd format env0) :=
    agree_below_trans (agree_make_stat_data _ sd format env)
      (agree_below_symm (agree_make_stat_data _ sd format env0))
  have hD := agree_dr_head hS format dirid objid h1
  have hloc : get_ih_item_location (make_empty_dir_dr_head
        (make_stat_data (make_empty_dir_sd_head b format blocksize dirid objid) sd format env)
        format dirid objid) (NDHD_SIZE + IH_SIZE) =
      get_ih_item_location (make_empty_dir_dr_head
        (make_stat_data (make_empty_dir_sd_head b format blocksize dirid objid) sd format env0)
        format dirid objid) (NDHD_SIZE + IH_SIZE) := by
    unfold get_ih_item_location NDHD_SIZE IH_SIZE
    exact get_le16_agree hD _ (by omega)
  rw [hloc]
  exact agree_make_empty_direntry hD _ format dirid objid 0 dirid h2
theorem tree_create_root_view (format blocksize : Nat) (env : dir_env)
    (h : root_frame_ok format blocksize) :
    root_view_of (tree_create_root format blocksize env) =
      root_view_of (tree_create_root format blocksize dir_env_zero) := by
  obtain ⟨h1, h2, h3⟩ := h
  have ha : agree_below (root_sd_offset format blocksize)
      (tree_create_root format blocksize env)
      (tree_create_root format blocksize dir_env_zero) :=
    make_empty_dir_agree (tree_create_head format blocksize) format blocksize ROOT_DIR_ID
      ROOT_OBJ_ID 0 ROOT_DIR_ID env dir_env_zero h1 h2
  exact root_view_agree ha h3

/-! ## The stat data of the root directory -/

theorem buf_put_outside (b : Nat → Nat) (off : Nat) (vals : List Nat) (k : Nat)
    (h : k < off ∨ off + vals.length ≤ k) : buf_put b off vals k = b k := by
  unfold buf_put
  rw [if_neg (by omega)]

theorem buf_zero_outside (b : Nat → Nat) (off n k : Nat) (h : k < off ∨ off + n ≤ k) :
    buf_zero b off n k = b k := by
  unfold buf_zero
  rw [if_neg (by omega)]

theorem set_le16_outside (b : Nat → Nat) (off val k : Nat) (h : k < off ∨ off + 2 ≤ k) :
    set_le16 b off val k = b k :=
  buf_put_outside _ _ _ _ h

theorem set_le32_outside (b : Nat → Nat) (off val k : Nat) (h : k < off ∨ off + 4 ≤ k) :
    set_le32 b off val k = b k :=
  buf_put_outside _ _ _ _ h

theorem set_le64_outside (b : Nat → Nat) (off val k : Nat) (h : k < off ∨ off + 8 ≤ k) :
    set_le64 b off val k = b k := by
  unfold set_le64
  rw [set_le32_outside _ _ _ _ (by omega), set_le32_outside _ _ _ _ (by omega)]

theorem key_store_outside (b : Nat → Nat) (off : Nat) (key : key) (k : Nat)
    (h : k < off ∨ off + 16 ≤ k) : key_store b off key k = b k := by
  unfold key_store
  rw [set_le64_outside _ _ _ _ (by omega), set_le32_outside _ _ _ _ (by omega),
    set_le32_outside _ _ _ _ (by omega)]

theorem mark_de_visible_outside (b : Nat → Nat) (de k : Nat) (h : k < de + 14 ∨ de + 16 ≤ k) :
    mark_de_visible b de k = b k := by
  unfold mark_de_visible
  apply buf_put_outside
  rw [set_bit_length]
  unfold buf_get
  rw [List.length_map, List.length_range]
  exact h

theorem get_le16_congr (b c : Nat → Nat) (off : Nat) (h : ∀ i, i < 2 → b (off + i) = c (off + i)) :
    get_le16 b off = get_le16 c off := by
  unfold get_le16
  rw [h 1 (by omega), show b off = c off from h 0 (by omega)]

theorem get_le32_congr (b c : Nat → Nat) (off : Nat) (h : ∀ i, i < 4 → b (off + i) = c (off + i)) :
    get_le32 b off = get_le32 c off := by
  unfold get_le32
  rw [h 1 (by omega), h 2 (by omega), h 3 (by omega), show b off = c off from h 0 (by omega)]

theorem get_le64_congr (b c : Nat → Nat) (off : Nat) (h : ∀ i, i < 8 → b (off + i) = c (off + i)) :
    get_le64 b off = get_le64 c off := by
  unfold get_le64
  rw [get_le32_congr b c off (fun i hi => h i (by omega)),
    get_le32_congr b c (off + 4) (fun i hi => by rw [Nat.add_assoc]; exact h (4 + i) (by omega))]

theorem get_le16_set_le16_same (b : Nat → Nat) (off val : Nat) :
    get_le16 (set_le16 b off val) off = val % 65536 := by
  unfold get_le16 set_le16 buf_put
  rw [if_pos (by constructor <;> simp), if_pos (by constructor <;> simp)]
  simp
  omega

theorem get_le32_set_le32_same (b : Nat → Nat) (off val : Nat) :
    get_le32 (set_le32 b off val) off = val % 4294967296 := by
  unfold get_le32 set_le32 buf_put
  rw [if_pos (by constructor <;> simp), if_pos (by constructor <;> simp),
    if_pos (by constructor <;> simp), if_pos (by constructor <;> simp)]
  simp
  omega

theorem get_le16_put (b : Nat → Nat) (off : Nat) (vals : List Nat) (off' : Nat)
    (h : off' + 2 ≤ off ∨ off + vals.length ≤ off') :
    get_le16 (buf_put b off vals) off' = get_le16 b off' :=
  get_le16_congr _ _ _ (fun i hi => buf_put_outside _ _ _ _ (by omega))

theorem get_le16_set_le16 (b : Nat → Nat) (off val off' : Nat)
    (h : off' + 2 ≤ off ∨ off + 2 ≤ off') :
    get_le16 (set_le16 b off val) off' = get_le16 b off' :=
  get_le16_congr _ _ _ (fun i hi => set_le16_outside _ _ _ _ (by omega))

theorem get_le16_set_le32 (b : Nat → Nat) (off val off' : Nat)
    (h : off' + 2 ≤ off ∨ off + 4 ≤ off') :
    get_le16 (set_le32 b off val) off' = get_le16 b off' :=
  get_le16_congr _ _ _ (fun i hi => set_le32_outside _ _ _ _ (by omega))

theorem get_le16_set_le64 (b : Nat → Nat) (off val off' : Nat)
    (h : off' + 2 ≤ off ∨ off + 8 ≤ off') :
    get_le16 (set_le64 b off val) off' = get_le16 b off' :=
  get_le16_congr _ _ _ (fun i hi => set_le64_outside _ _ _ _ (by omega))

theorem get_le16_mark (b : Nat → Nat) (de off' : Nat)
    (h : off' + 2 ≤ de + 14 ∨ de + 16 ≤ off') :
    get_le16 (mark_de_visible b de) off' = get_le16 b off' :=
  get_le16_congr _ _ _ (fun i hi => mark_de_visible_outside _ _ _ (by omega))

theorem get_le32_set_le16 (b : Nat → Nat) (off val off' : Nat)
    (h : off' + 4 ≤ off ∨ off + 2 ≤ off') :
    get_le32 (set_le16 b off val) off' = get_le32 b off' :=
  get_le32_congr _ _ _ (fun i hi => set_le16_outside _ _ _ _ (by omega))

theorem get_le32_set_le32 (b : Nat → Nat) (off val off' : Nat)
    (h : off' + 4 ≤ off ∨ off + 4 ≤ off') :
    get_le32 (set_le32 b off val) off' = get_le32 b off' :=
  get_le32_congr _ _ _ (fun i hi => set_le32_outside _ _ _ _ (by omega))

theorem get_le32_set_le64 (b : Nat → Nat) (off val off' : Nat)
    (h : off' + 4 ≤ off ∨ off + 8 ≤ off') :
    get_le32 (set_le64 b off val) off' = get_le32 b off' :=
  get_le32_congr _ _ _ (fun i hi => set_le64_outside _ _ _ _ (by omega))

theorem get_le64_set_le32 (b : Nat → Nat) (off val off' : Nat)
    (h : off' + 8 ≤ off ∨ off + 4 ≤ off') :
    get_le64 (set_le32 b off val) off' = get_le64 b off' :=
  get_le64_congr _ _ _ (fun i hi => set_le32_outside _ _ _ _ (by omega))

theorem get_le64_set_le64_same (b : Nat → Nat) (off val : Nat) :
    get_le64 (set_le64 b off val) off = val % 2 ^ 64 := by
  unfold get_le64 set_le64
  rw [get_le32_set_le32_same, get_le32_set_le32 _ _ _ _ (by omega), get_le32_set_le32_same]
  omega

theorem dr_head_outside (b : Nat → Nat) (format dirid objid k : Nat) (hk : 72 ≤ k) :
    make_empty_dir_dr_head b format dirid objid k = b k := by
  unfold make_empty_dir_dr_head NDHD_SIZE IH_SIZE
  rw [set_le16_outside _ _ _ _ (Or.inr (by omega)),
    set_le16_outside _ _ _ _ (Or.inr (by omega)),
    set_le16_outside _ _ _ _ (Or.inr (by omega)),
    key_store_outside _ _ _ _ (Or.inr (by omega)),
    set_le16_outside _ _ _ _ (Or.inr (by omega)),
    key_store_outside _ _ _ _ (Or.inr (by omega))]

theorem get_le16_put1 (b : Nat → Nat) (off x off' : Nat)
    (h : off' + 2 ≤ off ∨ off + 1 ≤ off') :
    get_le16 (buf_put b off [x]) off' = get_le16 b off' :=
  get_le16_put _ _ _ _ h

theorem buf_put1_outside (b : Nat → Nat) (off x k : Nat) (h : k < off ∨ off + 1 ≤ k) :
    buf_put b off [x] k = b k :=
  buf_put_outside _ _ _ _ h

theorem buf_put2_outside (b : Nat → Nat) (off x y k : Nat) (h : k < off ∨ off + 2 ≤ k) :
    buf_put b off [x, y] k = b k :=
  buf_put_outside _ _ _ _ h

theorem direntry_outside (b : Nat → Nat) (deh format dirid objid pd po k : Nat)
    (hk : deh + (if format = FS_FORMAT_3_6 then EMPTY_DIR_V2_SIZE else EMPTY_DIR_V1_SIZE) ≤ k) :
    make_empty_direntry b deh format dirid objid pd po k = b k := by
  have h48 : EMPTY_DIR_V2_SIZE = 48 := by decide
  have h35 : EMPTY_DIR_V1_SIZE = 35 := by decide
  have hr1 : ROUND_UP 1 = 8 := by decide
  have hr2 : ROUND_UP 2 = 8 := by decide
  rw [h48, h35] at hk
  unfold make_empty_direntry DE_SIZE get_de_location
  by_cases hf : format = FS_FORMAT_3_6
  · rw [if_pos hf] at hk
    simp only [if_pos hf, h48, hr1, hr2]
    simp (disch := omega) only [get_le16_mark, get_le16_set_le16, get_le16_set_le32,
      get_le16_set_le16_same, get_le16_put1, Nat.reduceSub, Nat.reduceMod]
    simp (disch := omega) only [buf_put1_outside, buf_put2_outside, mark_de_visible_outside,
      set_le16_outside, set_le32_outside, buf_zero_outside]
  · rw [if_neg hf] at hk
    simp only [if_neg hf, h35]
    simp (disch := omega) only [get_le16_mark, get_le16_set_le16, get_le16_set_le32,
      get_le16_set_le16_same, get_le16_put1, Nat.reduceSub, Nat.reduceMod]
    simp (disch := omega) only [buf_put1_outside, buf_put2_outside, mark_de_visible_outside,
      set_le16_outside, set_le32_outside, buf_zero_outside]

theorem make_stat_data_v2_stat (b : Nat → Nat) (sd : Nat) (env : dir_env) :
    object_fill_stat (make_stat_data b sd FS_FORMAT_3_6 env) ITEM_FORMAT_2 sd =
      { st_mode := S_IFDIR + 0o755, st_nlink := 3, st_uid := env.uid % 2 ^ 32,
        st_gid := env.gid % 2 ^ 32, st_rdev := 0, st_size := EMPTY_DIR_V2_SIZE,
        st_blocks := 0, st_atime := env.now % 2 ^ 32, st_mtime := env.now % 2 ^ 32,
        st_ctime := env.now % 2 ^ 32 } := by
  have hm : (S_IFDIR + 0o755) % 65536 = S_IFDIR + 0o755 := by decide
  have hs : EMPTY_DIR_V2_SIZE % 2 ^ 64 = EMPTY_DIR_V2_SIZE := by decide
  have hne : ¬ ITEM_FORMAT_2 = ITEM_FORMAT_1 := by decide
  unfold object_fill_stat make_stat_data
  rw [if_neg hne, if_pos rfl]
  simp (disch := omega) only [get_le16_set_le16, get_le16_set_le32, get_le16_set_le64,
    get_le32_set_le16, get_le32_set_le32, get_le32_set_le64, get_le64_set_le32,
    get_le16_set_le16_same, get_le32_set_le32_same, get_le64_set_le64_same, hm, hs]
  norm_num

theorem make_stat_data_v1_stat (b : Nat → Nat) (sd format : Nat) (env : dir_env)
    (hf : format ≠ FS_FORMAT_3_6) :
    object_fill_stat (make_stat_data b sd format env) ITEM_FORMAT_1 sd =
      { st_mode := S_IFDIR + 0o755, st_nlink := 3, st_uid := env.uid % 2 ^ 16,
        st_gid := env.gid % 2 ^ 16, st_rdev := get_st_blocks EMPTY_DIR_V1_SIZE,
        st_size := EMPTY_DIR_V1_SIZE, st_blocks := get_st_blocks EMPTY_DIR_V1_SIZE,
        st_atime := env.now % 2 ^ 32, st_mtime := env.now % 2 ^ 32,
        st_ctime := env.now % 2 ^ 32 } := by
  have hm : (S_IFDIR + 0o755) % 65536 = S_IFDIR + 0o755 := by decide
  have hs : EMPTY_DIR_V1_SIZE % 4294967296 = EMPTY_DIR_V1_SIZE := by decide
  have hb : get_st_blocks EMPTY_DIR_V1_SIZE % 4294967296 = get_st_blocks EMPTY_DIR_V1_SIZE := by
    decide
  unfold object_fill_stat make_stat_data
  rw [if_pos rfl, if_neg hf]
  simp (disch := omega) only [get_le16_set_le16, get_le16_set_le32, get_le16_set_le64,
    get_le32_set_le16, get_le32_set_le32, get_le32_set_le64, get_le64_set_le32,
    get_le16_set_le16_same, get_le32_set_le32_same, get_le64_set_le64_same, hm, hs, hb]
  norm_num

theorem fill_stat_congr (b c : Nat → Nat) (format sd : Nat) (h : ∀ k, sd ≤ k → b k = c k) :
    object_fill_stat b format sd = object_fill_stat c format sd := by
  have h16 : ∀ off, sd ≤ off → get_le16 b off = get_le16 c off :=
    fun off ho => get_le16_congr _ _ _ (fun i _ => h _ (by omega))
  have h32 : ∀ off, sd ≤ off → get_le32 b off = get_le32 c off :=
    fun off ho => get_le32_congr _ _ _ (fun i _ => h _ (by omega))
  have h64 : ∀ off, sd ≤ off → get_le64 b off = get_le64 c off :=
    fun off ho => get_le64_congr _ _ _ (fun i _ => h _ (by omega))
  unfold object_fill_stat
  rw [h16 sd (le_refl _), h16 (sd + 2) (by omega), h16 (sd + 4) (by omega),
    h16 (sd + 6) (by omega), h32 (sd + 4) (by omega), h32 (sd + 8) (by omega),
    h32 (sd + 12) (by omega), h32 (sd + 16) (by omega), h32 (sd + 20) (by omega),
    h32 (sd + 24) (by omega), h32 (sd + 28) (by omega), h32 (sd + 32) (by omega),
    h32 (sd + 40) (by omega), h64 (sd + 8) (by omega)]

theorem tree_create_root_agree (format blocksize : Nat) (env : dir_env)
    (h : root_frame_ok format blocksize) :
    agree_below (root_sd_offset format blocksize) (tree_create_root format blocksize env)
      (tree_create_root format blocksize dir_env_zero) :=
  make_empty_dir_agree (tree_create_head format blocksize) format blocksize ROOT_DIR_ID
    ROOT_OBJ_ID 0 ROOT_DIR_ID env dir_env_zero h.1 h.2.1

theorem root_dr_location (b : Nat → Nat) (sd format dirid objid : Nat) (env env0 : dir_env)
    (h1 : 72 ≤ sd) :
    get_ih_item_location (make_empty_dir_dr_head (make_stat_data b sd format env) format dirid
        objid) (NDHD_SIZE + IH_SIZE) =
      get_ih_item_location (make_empty_dir_dr_head (make_stat_data b sd format env0) format
        dirid objid) (NDHD_SIZE + IH_SIZE) := by
  have hS : agree_below sd (make_stat_data b sd format env) (make_stat_data b sd format env0) :=
    agree_below_trans (agree_make_stat_data _ sd format env)
      (agree_below_symm (agree_make_stat_data _ sd format env0))
  have hD := agree_dr_head hS format dirid objid h1
  unfold get_ih_item_location NDHD_SIZE IH_SIZE
  exact get_le16_agree hD _ (by omega)

/-- From the stat-data body on, the root block is what "Fill new stat data" wrote: the
head of the directory item and its entries lie before the stat-data body. -/
theorem tree_create_root_body (format blocksize : Nat) (env : dir_env)
    (h : root_frame_ok format blocksize) (hb : root_body_ok format blocksize) (k : Nat)
    (hk : root_sd_offset format blocksize ≤ k) :
    tree_create_root format blocksize env k =
      make_stat_data
        (make_empty_dir_sd_head (tree_create_head format blocksize) format blocksize
          ROOT_DIR_ID ROOT_OBJ_ID)
        (root_sd_offset format blocksize) format env k := by
  have h72 := h.1
  unfold root_body_ok at hb
  rw [← root_dr_location _ _ format ROOT_DIR_ID ROOT_OBJ_ID env dir_env_zero h72] at hb
  unfold root_sd_offset at hb hk h72 ⊢
  show make_empty_direntry _ _ format ROOT_DIR_ID ROOT_OBJ_ID 0 ROOT_DIR_ID k = _
  rw [direntry_outside _ _ _ _ _ _ _ k (le_trans hb hk), dr_head_outside _ _ _ _ k (by omega)]

/-- The stat data that `reiserfs_object_find_stat` reads back from item 0 of the root
block. -/
theorem tree_create_root_stat (format blocksize : Nat) (env : dir_env)
    (h : root_frame_ok format blocksize) (hb : root_body_ok format blocksize)
    (hfmt : get_ih_item_format (tree_create_root format blocksize dir_env_zero)
      (get_ih_item_head 0) = (if format = FS_FORMAT_3_6 then ITEM_FORMAT_2 else ITEM_FORMAT_1))
    (hloc : get_ih_item_location (tree_create_root format blocksize dir_env_zero)
      (get_ih_item_head 0) = root_sd_offset format blocksize) :
    leaf_item_stat (tree_create_root format blocksize env) 0 =
      (if format = FS_FORMAT_3_6 then
        { st_mode := S_IFDIR + 0o755, st_nlink := 3, st_uid := env.uid % 2 ^ 32,
          st_gid := env.gid % 2 ^ 32, st_rdev := 0, st_size := EMPTY_DIR_V2_SIZE,
          st_blocks := 0, st_atime := env.now % 2 ^ 32, st_mtime := env.now % 2 ^ 32,
          st_ctime := env.now % 2 ^ 32 }
       else
        { st_mode := S_IFDIR + 0o755, st_nlink := 3, st_uid := env.uid % 2 ^ 16,
          st_gid := env.gid % 2 ^ 16, st_rdev := get_st_blocks EMPTY_DIR_V1_SIZE,
          st_size := EMPTY_DIR_V1_SIZE, st_blocks := get_st_blocks EMPTY_DIR_V1_SIZE,
          st_atime := env.now % 2 ^ 32, st_mtime := env.now % 2 ^ 32,
          st_ctime := env.now % 2 ^ 32 }) := by
  have ha := tree_create_root_agree format blocksize env h
  have h72 := h.1
  have e1 : get_ih_item_format (tree_create_root format blocksize env) (get_ih_item_head 0) =
      get_ih_item_format (tree_create_root format blocksize dir_env_zero)
        (get_ih_item_head 0) := by
    unfold get_ih_item_format get_ih_item_head NDHD_SIZE IH_SIZE
    exact get_le16_agree ha _ (by omega)
  have e2 : get_ih_item_location (tree_create_root format blocksize env) (get_ih_item_head 0) =
      get_ih_item_location (tree_create_root format blocksize dir_env_zero)
        (get_ih_item_head 0) := by
    unfold get_ih_item_location get_ih_item_head NDHD_SIZE IH_SIZE
    exact get_le16_agree ha _ (by omega)
  unfold leaf_item_stat
  rw [e1, e2, hfmt, hloc,
    fill_stat_congr _ _ _ _ (tree_create_root_body format blocksize env h hb)]
  by_cases hf : format = FS_FORMAT_3_6
  · subst hf
    rw [if_pos rfl, if_pos rfl]
    exact make_stat_data_v2_stat _ _ env
  · rw [if_neg hf, if_neg hf]
    exact make_stat_data_v1_stat _ _ format env hf

theorem isdir_mode : LINUX_S_ISDIR (S_IFDIR + 0o755) = true := by decide

set_option maxRecDepth 100000 in
/-- C13: for both formats and every block size `reiserfs_fs_create` accepts (the powers of
two from 1024 to 65536), the root block `reiserfs_tree_create` builds from the superblock's
16-bit `block_size` is a leaf with two items, the stat-data item (1, 2, 0, SD) and the
directory item (1, 2, 1, DR) with the two entries "." (offset 1, for (1, 2)) and ".."
(offset 2, for (0, 1)); the keys increase and the item bodies end the block, one after the
other, behind the item heads. The items describe an empty directory: the stat-data item
has the size of the format's stat data and the directory item the size of an empty
directory, and the stat data read back from item 0 as `reiserfs_object_find_stat` does is
that of a directory (`LINUX_S_ISDIR`) of mode 0755 with 3 links, the size of an empty
directory, and the uid, gid and times of the call. -/
theorem C13_tree_create_root_is_empty_directory (format blocksize : Nat) (env : dir_env)
    (hf : format = FS_FORMAT_3_5 ∨ format = FS_FORMAT_3_6)
    (hb : blocksize ∈ [1024, 2048, 4096, 8192, 16384, 32768, 65536]) :
    root_view_ok blocksize (root_view_of (tree_create_root format (blocksize % 2 ^ 16) env)) ∧
    (root_view_of (tree_create_root format (blocksize % 2 ^ 16) env)).len0 =
      (if format = FS_FORMAT_3_6 then SD_V2_SIZE else SD_V1_SIZE) ∧
    (root_view_of (tree_create_root format (blocksize % 2 ^ 16) env)).len1 =
      (if format = FS_FORMAT_3_6 then EMPTY_DIR_V2_SIZE else EMPTY_DIR_V1_SIZE) ∧
    leaf_item_stat (tree_create_root format (blocksize % 2 ^ 16) env) 0 =
      (if format = FS_FORMAT_3_6 then
        { st_mode := S_IFDIR + 0o755, st_nlink := 3, st_uid := env.uid % 2 ^ 32,
          st_gid := env.gid % 2 ^ 32, st_rdev := 0, st_size := EMPTY_DIR_V2_SIZE,
          st_blocks := 0, st_atime := env.now % 2 ^ 32, st_mtime := env.now % 2 ^ 32,
          st_ctime := env.now % 2 ^ 32 }
       else
        { st_mode := S_IFDIR + 0o755, st_nlink := 3, st_uid := env.uid % 2 ^ 16,
          st_gid := env.gid % 2 ^ 16, st_rdev := get_st_blocks EMPTY_DIR_V1_SIZE,
          st_size := EMPTY_DIR_V1_SIZE, st_blocks := get_st_blocks EMPTY_DIR_V1_SIZE,
          st_atime := env.now % 2 ^ 32, st_mtime := env.now % 2 ^ 32,
          st_ctime := env.now % 2 ^ 32 }) ∧
    LINUX_S_ISDIR (leaf_item_stat (tree_create_root format (blocksize % 2 ^ 16) env) 0).st_mode
      = true := by
  simp only [List.mem_cons, List.mem_singleton, List.not_mem_nil, or_false] at hb
  rcases hf with rfl | rfl <;> rcases hb with rfl | rfl | rfl | rfl | rfl | rfl | rfl <;>
    (rw [tree_create_root_stat _ _ env (by decide) (by decide) (by decide) (by decide),
      tree_create_root_view _ _ env (by decide)]
     refine ⟨by decide, by decide, by decide, rfl, by split_ifs <;> exact isdir_mode⟩)

set_option maxRecDepth 100000 in
theorem C13_tree_create_root_is_empty_directory_witness :
    root_view_ok 4096
      (root_view_of (tree_create_root FS_FORMAT_3_6 (4096 % 2 ^ 16) ⟨1000, 100, 1700000000⟩)) ∧
    leaf_item_stat (tree_create_root FS_FORMAT_3_6 (4096 % 2 ^ 16) ⟨1000, 100, 1700000000⟩) 0 =
      { st_mode := 0o40755, st_nlink := 3, st_uid := 1000, st_gid := 100, st_rdev := 0,
        st_size := 48, st_blocks := 0, st_atime := 1700000000, st_mtime := 1700000000,
        st_ctime := 1700000000 } :=
  ⟨(C13_tree_create_root_is_empty_directory FS_FORMAT_3_6 4096 ⟨1000, 100, 1700000000⟩
      (by decide) (by decide)).1,
   (C13_tree_create_root_is_empty_directory FS_FORMAT_3_6 4096 ⟨1000, 100, 1700000000⟩
      (by decide) (by decide)).2.2.2.1.trans (by decide)⟩

/-! ## Marking a list of blocks in the bitmap -/

theorem use_block_start (bm : reiserfs_bitmap) (b : Nat) :
    (reiserfs_bitmap_use_block bm b).start = bm.start := by
  unfold reiserfs_bitmap_use_block
  split_ifs <;> rfl

theorem use_block_bits_all (bm : reiserfs_bitmap) (hwf : bitmap_wf bm) (b c : Nat) :
    bit_set (reiserfs_bitmap_use_block bm b).map c =
      (bit_set bm.map c || decide (c = b ∧ c < bm.total_blocks)) := by
  by_cases hb : b < bm.total_blocks
  · rw [use_block_bits bm hwf b hb c]
    by_cases hbc : b = c
    · subst hbc; simp [hb]
    · have : ¬ c = b := fun h => hbc h.symm
      simp [hbc, this]
  · have e : reiserfs_bitmap_use_block bm b = bm := by
      unfold reiserfs_bitmap_use_block
      rw [if_pos (by omega)]
    rw [e]
    have : ¬ (c = b ∧ c < bm.total_blocks) := by
      rintro ⟨h1, h2⟩; subst h1; exact hb h2
    simp [this]

theorem use_fold_wf (L : List Nat) : ∀ bm : reiserfs_bitmap, bitmap_wf bm →
    bitmap_wf (L.foldl reiserfs_bitmap_use_block bm) ∧
    (L.foldl reiserfs_bitmap_use_block bm).total_blocks = bm.total_blocks ∧
    (L.foldl reiserfs_bitmap_use_block bm).size = bm.size ∧
    (L.foldl reiserfs_bitmap_use_block bm).start = bm.start := by
  induction L with
  | nil => intro bm h; exact ⟨h, rfl, rfl, rfl⟩
  | cons b L ih =>
    intro bm h
    simp only [List.foldl_cons]
    obtain ⟨h1, h2⟩ := use_block_wf bm h b
    obtain ⟨i1, i2, i3, i4⟩ := ih _ h1
    exact ⟨i1, by rw [i2, h2], by rw [i3, (use_block_fields bm b).2.1],
      by rw [i4, use_block_start]⟩

theorem use_fold_bits (L : List Nat) : ∀ bm : reiserfs_bitmap, bitmap_wf bm → ∀ c,
    bit_set (L.foldl reiserfs_bitmap_use_block bm).map c =
      (bit_set bm.map c || decide (c ∈ L ∧ c < bm.total_blocks)) := by
  induction L with
  | nil => intro bm _ c; simp
  | cons b L ih =>
    intro bm h c
    simp only [List.foldl_cons]
    obtain ⟨h1, h2⟩ := use_block_wf bm h b
    rw [ih _ h1 c, use_block_bits_all bm h b c, h2]
    by_cases hc : c < bm.total_blocks
    · by_cases hb : c = b
      · subst hb; simp [hc]
      · simp [hc, hb]
    · simp [hc]

theorem use_fold_count (L : List Nat) : ∀ bm : reiserfs_bitmap, bitmap_wf bm → L.Nodup →
    (∀ b, b ∈ L → b < bm.total_blocks ∧ bit_set bm.map b = false) →
    bm.used_blocks + L.length < 2 ^ 64 →
    (L.foldl reiserfs_bitmap_use_block bm).used_blocks = bm.used_blocks + L.length := by
  induction L with
  | nil => intro bm _ _ _ _; simp
  | cons b L ih =>
    intro bm h hnd hall hlt
    simp only [List.foldl_cons]
    obtain ⟨h1, h2⟩ := use_block_wf bm h b
    obtain ⟨hb1, hb2⟩ := hall b (List.mem_cons_self _ _)
    have hu : (reiserfs_bitmap_use_block bm b).used_blocks = bm.used_blocks + 1 := by
      rw [(use_block_spec bm h b hb1).2 hb2]
      simp only [List.length_cons] at hlt
      show (bm.used_blocks + 1) % 2 ^ 64 = bm.used_blocks + 1
      omega
    rw [List.nodup_cons] at hnd
    rw [ih _ h1 hnd.2 ?_ ?_, hu]
    · simp only [List.length_cons]; omega
    · intro b1 hb1m
      obtain ⟨q1, q2⟩ := hall b1 (List.mem_cons_of_mem _ hb1m)
      refine ⟨by rw [h2]; exact q1, ?_⟩
      rw [use_block_bits_all bm h b b1, q2]
      have : ¬ b1 = b := by rintro rfl; exact hnd.1 hb1m
      simp [this]
    · rw [hu]; simp only [List.length_cons] at hlt; omega

theorem alloc_wf (len : Nat) (h : len + 8 ≤ 2 ^ 31) : bitmap_wf (reiserfs_bitmap_alloc len) := by
  have e : (len + 7) / 8 % 2 ^ 32 = (len + 7) / 8 := by omega
  unfold bitmap_wf reiserfs_bitmap_alloc
  simp only [e, List.length_replicate]
  exact ⟨h, trivial, trivial⟩

theorem replicate_zero_bits (n c : Nat) : bit_set (List.replicate n 0) c = false := by
  unfold bit_set byte_at
  rw [if_neg (by omega)]
  have : (List.replicate n 0).getD ((c / 8 : Nat) : Int).toNat 0 = 0 := by
    rw [List.getD_eq_getElem?_getD, List.getElem?_replicate]
    split <;> rfl
  rw [this]
  simp

theorem alloc_bits (len c : Nat) : bit_set (reiserfs_bitmap_alloc len).map c = false :=
  replicate_zero_bits _ c

/-! ## The devices during the creation of a filesystem -/

theorem world_same_refl {β : Type} (w : World β) : world_same w w := ⟨rfl, rfl, rfl, rfl⟩

theorem world_same_trans {β : Type} {w w1 w2 : World β} (h1 : world_same w w1)
    (h2 : world_same w1 w2) : world_same w w2 :=
  ⟨h2.1.trans h1.1, h2.2.1.trans h1.2.1, h2.2.2.1.trans h1.2.2.1, h2.2.2.2.trans h1.2.2.2⟩

theorem world_same_put {β : Type} (w : World β) (dal blk : Nat) (v : β) :
    world_same w (w.put dal blk v) := ⟨rfl, rfl, rfl, rfl⟩

theorem segment_fill_same (w : World block_image) (dal start c : Nat) (n : Nat) :
    ∀ w1, reiserfs_segment_fill w dal start c n = some w1 → world_same w w1 := by
  induction n with
  | zero =>
    intro w1 h
    simp only [reiserfs_segment_fill, Option.some.injEq] at h
    subst h
    exact world_same_refl w
  | succ n ih =>
    intro w1 h
    simp only [reiserfs_segment_fill] at h
    cases hn : reiserfs_segment_fill w dal start c n with
    | none => rw [hn] at h; cases h
    | some w0 =>
      rw [hn] at h
      simp only at h
      split at h
      · cases h
      · simp only [Option.some.injEq] at h
        subst h
        exact world_same_trans (ih w0 hn) (world_same_put _ _ _ _)

theorem segment_fill_total (w : World block_image) (dal start c : Nat)
    (hw : ∀ b, w.write_ok dal b = true) (n : Nat) :
    ∃ w1, reiserfs_segment_fill w dal start c n = some w1 := by
  induction n with
  | zero => exact ⟨w, rfl⟩
  | succ n ih =>
    obtain ⟨w0, h0⟩ := ih
    have hs := segment_fill_same w dal start c n w0 h0
    simp only [reiserfs_segment_fill, h0]
    rw [if_neg (by rw [hs.2.2.1, hw]; simp)]
    exact ⟨_, rfl⟩

/-! ## The filesystem structure while blocks are marked -/

theorem fs_use_fold (L : List Nat) : ∀ (fs : reiserfs_fs_t) (bm : reiserfs_bitmap),
    fs.bitmap = some bm →
    (L.foldl fs_bitmap_use_block fs).bitmap = some (L.foldl reiserfs_bitmap_use_block bm) ∧
    (L.foldl fs_bitmap_use_block fs).super = fs.super ∧
    (L.foldl fs_bitmap_use_block fs).dal = fs.dal ∧
    (L.foldl fs_bitmap_use_block fs).journal = fs.journal ∧
    (L.foldl fs_bitmap_use_block fs).super_off = fs.super_off := by
  induction L with
  | nil => intro fs bm h; exact ⟨h, rfl, rfl, rfl, rfl⟩
  | cons b L ih =>
    intro fs bm h
    simp only [List.foldl_cons]
    have e : fs_bitmap_use_block fs b =
        { fs with bitmap := some (reiserfs_bitmap_use_block bm b), bitmap_dirty := true } := by
      unfold fs_bitmap_use_block
      rw [h]
    rw [e]
    exact ih _ _ rfl

/-! ## The stages of `reiserfs_fs_create` -/

theorem super_create_inv (jc : journal_consts) (env : fs_env) (w : World block_image)
    (fs : reiserfs_fs_t) (format hash : Nat) (label uuid : Option (List Nat))
    (blocksize start len fs_len : Nat) (relocated : Bool) (bm : reiserfs_bitmap)
    (hbm : fs.bitmap = some bm) (r : Int) (fs2 : reiserfs_fs_t) (w2 : World block_image)
    (h : reiserfs_fs_super_create jc env w fs format hash label uuid blocksize start len fs_len
      relocated = some (r, fs2, w2)) (hr : r ≠ 0) :
    world_same w w2 ∧ fs2.dal = fs.dal ∧ fs2.journal = fs.journal ∧
    fs2.super_off = DEFAULT_SUPER_OFFSET / blocksize ∧
    fs2.bitmap = some ((List.range (DEFAULT_SUPER_OFFSET / blocksize + 1)).foldl
      reiserfs_bitmap_use_block bm) ∧
    ∃ jp, fs2.super = some (super_with_journal
      (super_create_fields format hash label uuid blocksize len fs_len relocated) jp) ∧
      reiserfs_journal_params_update jc
        (super_create_fields format hash label uuid blocksize len fs_len relocated).sb_journal
        start len 0 (if relocated then 1 else 0)
        (super_create_fields format hash label uuid blocksize len fs_len relocated).sb_block_size
        env.random_super = some jp := by
  have hn : fs.bitmap.isNone = false := by rw [hbm]; rfl
  unfold reiserfs_fs_super_create at h
  simp only [hn, Bool.false_eq_true, if_false] at h
  cases hc : reiserfs_fs_clobber_skipped w fs.dal with
  | none =>
    rw [hc] at h
    simp only [Option.some.injEq, Prod.mk.injEq] at h
    exact absurd h.1.symm hr
  | some w1 =>
    rw [hc] at h
    simp only at h
    split at h
    · cases h
    · split at h
      · cases h
      · rename_i jp hjp
        simp only [Option.some.injEq, Prod.mk.injEq] at h
        obtain ⟨_, h2, h3⟩ := h
        subst h2 h3
        obtain ⟨f1, f2, f3, f4, f5⟩ := fs_use_fold (List.range (DEFAULT_SUPER_OFFSET / blocksize + 1))
          { fs with
            super := some (super_with_journal (super_create_fields format hash label uuid
              blocksize len fs_len relocated) jp)
            super_off := DEFAULT_SUPER_OFFSET / blocksize } bm hbm
        refine ⟨segment_fill_same _ _ _ _ _ _ hc, f3, f4, f5, f1, jp, f2, hjp⟩

theorem super_create_total (jc : journal_consts) (env : fs_env) (w : World block_image)
    (fs : reiserfs_fs_t) (format hash : Nat) (label uuid : Option (List Nat))
    (blocksize start len fs_len : Nat) (relocated : Bool) (bm : reiserfs_bitmap)
    (hbm : fs.bitmap = some bm) (hw : ∀ b, w.write_ok fs.dal b = true) (hb : blocksize ≠ 0)
    (hjp : (reiserfs_journal_params_update jc
      (super_create_fields format hash label uuid blocksize len fs_len relocated).sb_journal
      start len 0 (if relocated then 1 else 0)
      (super_create_fields format hash label uuid blocksize len fs_len relocated).sb_block_size
      env.random_super).isSome) :
    ∃ fs2 w2, reiserfs_fs_super_create jc env w fs format hash label uuid blocksize start len
      fs_len relocated = some (1, fs2, w2) := by
  have hn : fs.bitmap.isNone = false := by rw [hbm]; rfl
  unfold reiserfs_fs_super_create
  simp only [hn, Bool.false_eq_true, if_false]
  obtain ⟨w1, h1⟩ := segment_fill_total w fs.dal 0 0 hw (DEFAULT_SUPER_OFFSET / w.blocksize fs.dal)
  have hc : reiserfs_fs_clobber_skipped w fs.dal = some w1 := h1
  rw [hc]
  simp only [if_neg hb]
  obtain ⟨jp, hjp'⟩ := Option.isSome_iff_exists.1 hjp
  rw [hjp']
  exact ⟨_, _, rfl⟩

theorem journal_create_inv0 (jc : journal_consts) (env : fs_env) (w : World block_image)
    (dal start len max_trans : Nat) (journal : reiserfs_journal_t) (w1 : World block_image)
    (h : reiserfs_journal_create jc env w dal start len max_trans false =
      some (some journal, w1)) :
    world_same w w1 ∧ reiserfs_journal_params_check jc w dal start len false ≠ 0 := by
  unfold reiserfs_journal_create at h
  split at h
  · cases h
  · rename_i hpc
    refine ⟨?_, hpc⟩
    cases hf : reiserfs_segment_fill w dal start 0
        (reiserfs_segment_len ⟨dal, start, (start + len) % 2 ^ 64⟩) with
    | none => rw [hf] at h; cases h
    | some w0 =>
      rw [hf] at h
      have hs := segment_fill_same _ _ _ _ _ _ hf
      simp only [Bool.false_eq_true, false_and, if_false] at h
      split at h
      · cases h
      · split at h
        · cases h
        · simp only [Option.some.injEq, Prod.mk.injEq] at h
          rw [← h.2]
          exact world_same_trans hs (world_same_put _ _ _ _)

theorem journal_create_dal (jc : journal_consts) (env : fs_env) (w : World block_image)
    (dal start len max_trans : Nat) (journal : reiserfs_journal_t) (w1 : World block_image)
    (h : reiserfs_journal_create jc env w dal start len max_trans false =
      some (some journal, w1)) : journal.dal = dal := by
  unfold reiserfs_journal_create at h
  split at h
  · cases h
  · split at h
    · cases h
    · simp only [Bool.false_eq_true, false_and, if_false] at h
      split at h
      · cases h
      · split at h
        · cases h
        · simp only [Option.some.injEq, Prod.mk.injEq] at h
          rw [← h.1]

theorem journal_create_total0 (jc : journal_consts) (env : fs_env) (w : World block_image)
    (dal start len max_trans : Nat) (hw : ∀ b, w.write_ok dal b = true)
    (hpc : reiserfs_journal_params_check jc w dal start len false ≠ 0)
    (hjp : (reiserfs_journal_params_update jc ⟨0, 0, 0, 0, 0, 0, 0, 0⟩ start len max_trans 0
      (w.blocksize dal) env.random_journal).isSome) :
    ∃ journal w1, reiserfs_journal_create jc env w dal start len max_trans false =
      some (some journal, w1) := by
  unfold reiserfs_journal_create
  rw [if_neg hpc]
  obtain ⟨w0, hf⟩ := segment_fill_total w dal start 0 hw
    (reiserfs_segment_len ⟨dal, start, (start + len) % 2 ^ 64⟩)
  have hs := segment_fill_same _ _ _ _ _ _ hf
  rw [hf]
  simp only [Bool.false_eq_true, false_and, if_false]
  rw [hs.1]
  obtain ⟨jp, hjp'⟩ := Option.isSome_iff_exists.1 hjp
  rw [hjp']
  simp only
  rw [if_neg (by rw [hs.2.2.1, hw]; simp)]
  exact ⟨_, _, rfl⟩

theorem fs_journal_create_inv (jc : journal_consts) (env : fs_env) (w : World block_image)
    (fs : reiserfs_fs_t) (start len max_trans : Nat) (bm : reiserfs_bitmap)
    (sb : reiserfs_super) (hbm : fs.bitmap = some bm) (hsb : fs.super = some sb)
    (r : Int) (fs2 : reiserfs_fs_t) (w2 : World block_image)
    (h : reiserfs_fs_journal_create jc env w fs (some fs.dal) start len max_trans =
      some (r, fs2, w2)) (hr : r ≠ 0) :
    world_same w w2 ∧ fs2.dal = fs.dal ∧ fs2.super_off = fs.super_off ∧
    fs2.bitmap = some ((List.range' ((fs.super_off + 2) % 2 ^ 64) ((len + 1) % 2 ^ 64)).foldl
      reiserfs_bitmap_use_block bm) ∧
    (∃ jp, fs2.super = some (super_with_journal sb jp)) ∧
    reiserfs_journal_params_check jc w fs.dal ((fs.super_off + 2) % 2 ^ 64) len false ≠ 0 ∧
    ∃ journal, fs2.journal = some journal ∧ journal.dal = fs.dal := by
  have hn : fs.bitmap.isNone = false := by rw [hbm]; rfl
  unfold reiserfs_fs_journal_create at h
  simp only [hn, ne_eq, not_true_eq_false, decide_False, Bool.false_eq_true, if_false,
    Option.getD_some] at h
  split at h
  · simp only [Option.some.injEq, Prod.mk.injEq] at h
    exact absurd h.1.symm hr
  · cases hjc : reiserfs_journal_create jc env w fs.dal ((fs.super_off + 2) % 2 ^ 64) len
        max_trans false with
    | none => rw [hjc] at h; cases h
    | some p =>
      obtain ⟨oj, w1⟩ := p
      rw [hjc] at h
      cases oj with
      | none =>
        simp only [Option.some.injEq, Prod.mk.injEq] at h
        exact absurd h.1.symm hr
      | some journal =>
        obtain ⟨hs, hpc⟩ := journal_create_inv0 _ _ _ _ _ _ _ _ _ hjc
        simp only [hsb, Option.some.injEq, Prod.mk.injEq] at h
        obtain ⟨_, h2, h3⟩ := h
        subst h2 h3
        obtain ⟨f1, f2, f3, f4, f5⟩ := fs_use_fold
          (List.range' ((fs.super_off + 2) % 2 ^ 64) ((len + 1) % 2 ^ 64))
          { fs with
            journal := some journal
            super := some (super_with_journal sb journal.head.jh_params) } bm hbm
        exact ⟨hs, f3, f5, f1, ⟨_, f2⟩, hpc, journal, f4, journal_create_dal _ _ _ _ _ _ _ _ _ hjc⟩

theorem fs_journal_create_total (jc : journal_consts) (env : fs_env) (w : World block_image)
    (fs : reiserfs_fs_t) (start len max_trans : Nat) (bm : reiserfs_bitmap)
    (sb : reiserfs_super) (hbm : fs.bitmap = some bm) (hsb : fs.super = some sb)
    (hj : fs.journal = none) (hw : ∀ b, w.write_ok fs.dal b = true)
    (hpc : reiserfs_journal_params_check jc w fs.dal ((fs.super_off + 2) % 2 ^ 64) len false ≠ 0)
    (hjp : (reiserfs_journal_params_update jc ⟨0, 0, 0, 0, 0, 0, 0, 0⟩
      ((fs.super_off + 2) % 2 ^ 64) len max_trans 0 (w.blocksize fs.dal)
      env.random_journal).isSome) :
    ∃ fs2 w2, reiserfs_fs_journal_create jc env w fs (some fs.dal) start len max_trans =
      some (1, fs2, w2) := by
  have hn : fs.bitmap.isNone = false := by rw [hbm]; rfl
  obtain ⟨journal, w1, hjc⟩ := journal_create_total0 jc env w fs.dal
    ((fs.super_off + 2) % 2 ^ 64) len max_trans hw hpc hjp
  unfold reiserfs_fs_journal_create
  simp only [hn, hj, ne_eq, not_true_eq_false, decide_False, Bool.false_eq_true, if_false,
    Option.getD_some, Option.isSome_none, hjc, hsb]
  exact ⟨_, _, rfl⟩

/-! ## The object ids of the root directory in a new superblock -/

theorem object_use_first (sb : reiserfs_super) (x : Nat) (h0 : sb.sb_oid_cursize = 0)
    (hM : 2 ≤ sb.sb_oid_maxsize) (hM2 : sb.sb_oid_maxsize < 2 ^ 16)
    (hl : 2 ≤ sb.objectid_map.length) :
    ∃ sb1, reiserfs_object_use sb x = some (1, sb1) ∧ super_counts sb1 = super_counts sb ∧
      sb1.sb_oid_cursize = 2 ∧ sb1.sb_oid_maxsize = sb.sb_oid_maxsize ∧
      sb1.objectid_map.length = sb.objectid_map.length ∧
      oid_at sb1.objectid_map 0 = x % 2 ^ 32 ∧ oid_at sb1.objectid_map 1 = (x + 1) % 2 ^ 32 := by
  have hM3 : sb.sb_oid_maxsize % 2 ^ 16 = sb.sb_oid_maxsize := Nat.mod_eq_of_lt hM2
  have e1 : oid_put sb.objectid_map 0 x = some (sb.objectid_map.set 0 (x % 2 ^ 32)) := by
    unfold oid_put; rw [if_pos (by omega)]
  have e2 : oid_put (sb.objectid_map.set 0 (x % 2 ^ 32)) (0 + 1) (x + 1) =
      some ((sb.objectid_map.set 0 (x % 2 ^ 32)).set 1 ((x + 1) % 2 ^ 32)) := by
    unfold oid_put; rw [if_pos (by rw [List.length_set]; omega)]
  refine ⟨{ sb with objectid_map := (sb.objectid_map.set 0 (x % 2 ^ 32)).set 1 ((x + 1) % 2 ^ 32),
                    sb_oid_cursize := 2 }, ?_, rfl, rfl, rfl, ?_, ?_, ?_⟩
  · unfold reiserfs_object_use reiserfs_object_test
    simp only [h0, Nat.zero_mod, Nat.zero_add, Nat.reduceDiv, reiserfs_object_test_loop,
      ne_eq, not_true_eq_false, if_false, reiserfs_object_use_loop, reiserfs_object_use_tail,
      hM3, e1, e2]
    rw [if_pos (by omega)]
    rfl
  · simp only [List.length_set]
  · unfold oid_at
    simp only [List.getD_eq_getElem?_getD]
    rw [List.getElem?_set_ne (by omega), List.getElem?_set_self (by omega)]
    simp
  · unfold oid_at
    simp only [List.getD_eq_getElem?_getD]
    rw [List.getElem?_set_self (by rw [List.length_set]; omega)]
    simp

theorem object_use_second (sb : reiserfs_super) (h2 : sb.sb_oid_cursize = 2)
    (a0 : oid_at sb.objectid_map 0 = 1) (a1 : oid_at sb.objectid_map 1 = 2)
    (hl : 2 ≤ sb.objectid_map.length) :
    ∃ sb1, reiserfs_object_use sb 2 = some (1, sb1) ∧ super_counts sb1 = super_counts sb := by
  have e1 : oid_put sb.objectid_map 1 3 = some (sb.objectid_map.set 1 3) := by
    unfold oid_put; rw [if_pos (by omega)]; norm_num
  refine ⟨{ sb with objectid_map := sb.objectid_map.set 1 3 }, ?_, rfl⟩
  unfold reiserfs_object_use reiserfs_object_test
  simp only [h2, Nat.reduceMod, Nat.reduceAdd, Nat.reduceDiv, reiserfs_object_test_loop, a0, a1,
    Nat.zero_add, Nat.reduceEqDiff, if_false, gt_iff_lt, Nat.one_lt_ofNat, lt_self_iff_false,
    and_false, Nat.not_ofNat_lt_one, ne_eq, not_true_eq_false, reiserfs_object_use_loop,
    ge_iff_le, Nat.one_le_ofNat, OfNat.ofNat_ne_one, if_true, e1]
  simp

/-! ## Blocks beyond the range of `int` -/

theorem above_int_byte_low (n j : Nat) (hj : j < n) :
    byte_at (bitmap_above_int n).map (j : Int) = 255 := by
  unfold byte_at bitmap_above_int
  rw [if_neg (by omega)]
  dsimp only
  rw [Int.toNat_ofNat, List.getD_eq_getElem?_getD,
    List.getElem?_append_left (by rw [List.length_replicate]; exact hj),
    List.getElem?_replicate, if_pos hj]
  rfl

theorem above_int_byte_last (n : Nat) : byte_at (bitmap_above_int n).map (n : Int) = 1 := by
  unfold byte_at bitmap_above_int
  rw [if_neg (by omega)]
  dsimp only
  rw [Int.toNat_ofNat, List.getD_eq_getElem?_getD,
    List.getElem?_append_right (by rw [List.length_replicate]), List.length_replicate,
    Nat.sub_self]
  rfl

theorem above_int_byte_out (n j : Nat) (hj : n < j) :
    byte_at (bitmap_above_int n).map (j : Int) = 0 := by
  unfold byte_at bitmap_above_int
  rw [if_neg (by omega)]
  dsimp only
  rw [Int.toNat_ofNat, List.getD_eq_getElem?_getD,
    List.getElem?_eq_none (by rw [List.length_append, List.length_replicate]; simp; omega)]
  rfl

theorem above_int_bits_low (n c : Nat) (hc : c < 8 * n) :
    bit_set (bitmap_above_int n).map c = true := by
  unfold bit_set
  rw [above_int_byte_low n (c / 8) (by omega)]
  exact (byte_eq_255_iff 255 (by norm_num)).mp rfl (c % 8) (Nat.mod_lt _ (by norm_num))

theorem above_int_bit_mid (n c : Nat) (hc : c = 8 * n) :
    bit_set (bitmap_above_int n).map c = true := by
  unfold bit_set
  have h1 : c / 8 = n := by omega
  have h2 : c % 8 = 0 := by omega
  rw [h1, h2, above_int_byte_last]
  rfl

theorem above_int_bits_high (n c : Nat) (hc : 8 * n < c) :
    bit_set (bitmap_above_int n).map c = false := by
  unfold bit_set
  by_cases h : c / 8 = n
  · rw [h, above_int_byte_last]
    have h2 : 1 ≤ c % 8 := by omega
    exact Nat.testBit_lt_two_pow (Nat.one_lt_two_pow (by omega))
  · rw [above_int_byte_out n (c / 8) (by omega)]
    exact Nat.zero_testBit _

theorem above_int_layout (n : Nat) : bitmap_layout (bitmap_above_int n) := by
  unfold bitmap_layout bitmap_above_int
  dsimp only
  refine ⟨by omega, ?_⟩
  rw [List.length_append, List.length_replicate]
  rfl

theorem above_int_padding (n : Nat) : padding_zero (bitmap_above_int n) := by
  intro c h1 h2
  have h3 : 8 * n + 8 ≤ c := h1
  have h4 : c < 8 * (n + 1) := h2
  omega

/-- On the bitmap whose blocks below `8 * n + 1` are all in use, with `8 * n` at or beyond
2^31, the search for a free block returns 0 from every start. -/
theorem find_free_above_int (n k : Nat) (h1 : 2 ^ 31 ≤ 8 * n) (h2 : 8 * n + 8 < 2 ^ 32)
    (hk : k < 8 * n + 8) : reiserfs_bitmap_find_free (bitmap_above_int n) k = some 0 := by
  obtain ⟨r, _, _, hr3, hr4⟩ := find_free_scan (bitmap_above_int n) (above_int_layout n) h2
    (above_int_padding n) k hk
  rw [hr4]
  have hnot : ¬ (r < (bitmap_above_int n).total_blocks ∧ r < 2 ^ 31) := by
    rintro ⟨ha, hb⟩
    have hclear := hr3 ha
    rw [above_int_bits_low n r (by omega)] at hclear
    cases hclear
  rw [if_neg hnot]

/-- The use of a block of 2^31 or more (below 2^32): the bit tools get a negative `int`, the
map stays as it is and `used_blocks` is incremented. -/
theorem use_block_beyond_int (bitmap : reiserfs_bitmap) (b : Nat)
    (hb : b < bitmap.total_blocks) (h1 : 2 ^ 31 ≤ b) (h2 : b < 2 ^ 32) :
    reiserfs_bitmap_use_block bitmap b =
      { bitmap with used_blocks := (bitmap.used_blocks + 1) % 2 ^ 64 } := by
  obtain ⟨_, _, ht, hs, _⟩ := test_bit_beyond_int bitmap.map b h1 h2
  unfold reiserfs_bitmap_use_block
  rw [if_neg (by omega), ht, if_neg (by simp), hs]

theorem unuse_block_beyond_int (bitmap : reiserfs_bitmap) (b : Nat)
    (hb : b < bitmap.total_blocks) (h1 : 2 ^ 31 ≤ b) (h2 : b < 2 ^ 32) :
    reiserfs_bitmap_unuse_block bitmap b = bitmap ∧
    reiserfs_bitmap_test_block bitmap b = 0 := by
  obtain ⟨_, _, ht, _, _⟩ := test_bit_beyond_int bitmap.map b h1 h2
  unfold reiserfs_bitmap_unuse_block reiserfs_bitmap_test_block
  rw [if_neg (by omega), ht, if_pos rfl, if_neg (by omega)]
  exact ⟨rfl, rfl⟩

/-- C5: the code departs from the claim for a block of 2^31 or more. The bit tools take the
block number as an `int`: block 2^31 of a fresh bitmap of 2^31 + 1 blocks (a map of 2^28 + 1
bytes, bit 2^31 being bit 0 of its last byte) reaches them as -2^31, and the byte they address
lies 2^28 bytes before the map. After `reiserfs_bitmap_use_block` the map is what it was, so
bit 2^31 is still clear where the claim has it set, while `used_blocks` has gone from 0
to 1. -/
theorem C5_use_block_beyond_int :
    (2 : Nat) ^ 31 < (reiserfs_bitmap_alloc (2 ^ 31 + 1)).total_blocks ∧
    (reiserfs_bitmap_alloc (2 ^ 31 + 1)).map.length = 2 ^ 28 + 1 ∧
    bit_set (reiserfs_bitmap_alloc (2 ^ 31 + 1)).map (2 ^ 31) = false ∧
    int32 ((2 ^ 31 : Nat) : Int) = -(2 ^ 31) ∧
    (reiserfs_bitmap_use_block (reiserfs_bitmap_alloc (2 ^ 31 + 1)) (2 ^ 31)).map =
      (reiserfs_bitmap_alloc (2 ^ 31 + 1)).map ∧
    bit_set (reiserfs_bitmap_use_block (reiserfs_bitmap_alloc (2 ^ 31 + 1)) (2 ^ 31)).map
      (2 ^ 31) = false ∧
    (reiserfs_bitmap_use_block (reiserfs_bitmap_alloc (2 ^ 31 + 1)) (2 ^ 31)).used_blocks = 1 := by
  have hb : (2 : Nat) ^ 31 < (reiserfs_bitmap_alloc (2 ^ 31 + 1)).total_blocks := by
    show (2 : Nat) ^ 31 < 2 ^ 31 + 1
    omega
  have hu := use_block_beyond_int (reiserfs_bitmap_alloc (2 ^ 31 + 1)) (2 ^ 31) hb (le_refl _)
    (by norm_num)
  refine ⟨hb, ?_, alloc_bits _ _, ?_, ?_, ?_, ?_⟩
  · show (List.replicate (((2 ^ 31 + 1 + 7) / 8) % 2 ^ 32) 0).length = 2 ^ 28 + 1
    rw [List.length_replicate]
    norm_num
  · exact (test_bit_beyond_int [] (2 ^ 31) (le_refl _) (by norm_num)).1.trans (by norm_num)
  · rw [hu]
  · rw [hu]
    exact alloc_bits _ _
  · rw [hu]
    rfl

/-- C6: the code departs from the claim when the first clear bit is bit 2^31 or beyond. The
bitmap of 2^31 + 8 blocks with the blocks 0 .. 2^31 in use has no padding bits, and its
blocks 2^31 + 1 .. 2^31 + 7 are free. `reiserfs_tools_find_next_zero_bit` finds bit
2^31 + 1 and returns it as an `int`, which is negative; converted to `blk_t` it is not below
`total_blocks`, and `reiserfs_bitmap_find_free` returns 0, from the start 1 as well as from
the free block 2^31 + 1 itself, where the claim has it return block 2^31 + 1. -/
theorem C6_find_free_misses_free_block :
    padding_zero (bitmap_above_int (2 ^ 28)) ∧
    (bitmap_above_int (2 ^ 28)).total_blocks = 2 ^ 31 + 8 ∧
    (∀ c, c ≤ 2 ^ 31 → bit_set (bitmap_above_int (2 ^ 28)).map c = true) ∧
    bit_set (bitmap_above_int (2 ^ 28)).map (2 ^ 31 + 1) = false ∧
    reiserfs_tools_find_next_zero_bit (bitmap_above_int (2 ^ 28)).map (2 ^ 31 + 8) 1 =
      some (-(2 ^ 31) + 1) ∧
    ulong (-(2 ^ 31) + 1) = 2 ^ 64 - 2 ^ 31 + 1 ∧
    reiserfs_bitmap_find_free (bitmap_above_int (2 ^ 28)) 1 = some 0 ∧
    reiserfs_bitmap_find_free (bitmap_above_int (2 ^ 28)) (2 ^ 31 + 1) = some 0 := by
  refine ⟨above_int_padding _, by show 8 * 2 ^ 28 + 8 = 2 ^ 31 + 8; norm_num, ?_,
    above_int_bits_high _ _ (by norm_num), ?_, by decide,
    find_free_above_int _ _ (by norm_num) (by norm_num) (by norm_num),
    find_free_above_int _ _ (by norm_num) (by norm_num) (by norm_num)⟩
  · intro c hc
    rcases Nat.lt_or_ge c (8 * 2 ^ 28) with h | h
    · exact above_int_bits_low _ _ h
    · exact above_int_bit_mid _ _ (by omega)
  · obtain ⟨r, hr, hr1, hr2, hr3, hr4⟩ := find_next_zero_bit_scan
      (bitmap_above_int (2 ^ 28)).map (2 ^ 31 + 8) 1 (by norm_num) (by norm_num)
      (by intro c h1 h2; omega)
    have hlo : ¬ r < 2 ^ 31 + 1 := by
      intro hlt
      have hclear := hr4 (by omega)
      rcases Nat.lt_or_ge r (8 * 2 ^ 28) with h | h
      · rw [above_int_bits_low _ _ h] at hclear; cases hclear
      · rw [above_int_bit_mid _ _ (by omega)] at hclear; cases hclear
    have hhi : ¬ 2 ^ 31 + 1 < r := by
      intro hgt
      have hset := hr3 (2 ^ 31 + 1) (by omega) hgt
      rw [above_int_bits_high _ _ (by norm_num)] at hset
      cases hset
    have e : r = 2 ^ 31 + 1 := by omega
    rw [hr, e]
    unfold int32
    norm_num

/-! ## The first free block -/

theorem find_free_first (bitmap : reiserfs_bitmap) (hwf : bitmap_wf bitmap)
    (hpad : padding_zero bitmap) (k : Nat) (hk : k < bitmap.total_blocks) :
    ∃ r, reiserfs_bitmap_find_free bitmap k = some r ∧
      (r = 0 ∨ (k ≤ r ∧ r < bitmap.total_blocks ∧ bit_set bitmap.map r = false ∧
        ∀ c, k ≤ c → c < r → bit_set bitmap.map c = true)) ∧
      (r = 0 → (∀ c, k ≤ c → c < bitmap.total_blocks → bit_set bitmap.map c = true) ∨
        (k = 0 ∧ bit_set bitmap.map 0 = false)) := by
  obtain ⟨r, h1, h2, h3, _⟩ := find_free_spec bitmap (bitmap_layout_of_wf bitmap hwf)
    (by have := hwf.1; omega) hpad k hk
  exact ⟨r, h1, h2, h3⟩

/-! ## The creation of the tree -/

theorem tree_create_stage (env : fs_env) (w : World block_image) (fs : reiserfs_fs_t)
    (bm : reiserfs_bitmap) (sb : reiserfs_super) (hbm : fs.bitmap = some bm)
    (hsb : fs.super = some sb) (h0 : sb.sb_oid_cursize = 0) (hM : 2 ≤ sb.sb_oid_maxsize)
    (hM2 : sb.sb_oid_maxsize < 2 ^ 16) (hl : 2 ≤ sb.objectid_map.length) (root : Nat)
    (hff : reiserfs_bitmap_find_free bm 1 = some root) (hr0 : root ≠ 0)
    (hroot : (root * w.blocksize fs.dal % 2 ^ 64) / w.blocksize fs.dal = root) :
    (w.write_ok fs.dal root = false →
      ∃ fs2 w2, reiserfs_fs_tree_create env w fs = some (0, fs2, w2)) ∧
    (w.write_ok fs.dal root = true →
      ∃ fs2 w2 sb2, reiserfs_fs_tree_create env w fs = some (1, fs2, w2) ∧ world_same w w2 ∧
        fs2.bitmap = some (reiserfs_bitmap_use_block bm root) ∧ fs2.super = some sb2 ∧
        super_counts sb2 = super_counts sb ∧ sb2.sb_root_block = root % 2 ^ 32 ∧
        fs2.dal = fs.dal ∧ fs2.super_off = fs.super_off ∧ fs2.journal = fs.journal) := by
  have hn : fs.bitmap.isNone = false := by rw [hbm]; rfl
  have hf : fs_bitmap_find_free_block fs 1 = some root := by
    unfold fs_bitmap_find_free_block; rw [hbm]; exact hff
  obtain ⟨sb1, u1, c1, k1, m1, l1, a0, a1⟩ := object_use_first sb ROOT_DIR_ID h0 hM hM2 hl
  obtain ⟨sb2, u2, c2⟩ := object_use_second sb1 k1 a0 a1 (by omega)
  constructor
  · intro hw
    unfold reiserfs_fs_tree_create reiserfs_tree_create
    simp only [hn, hf, hsb, hr0, reiserfs_block_write, reiserfs_block_get_nr, hroot, hw,
      Bool.false_eq_true, if_false, if_true]
    exact ⟨_, _, rfl⟩
  · intro hw
    have e1 : fs_bitmap_use_block fs root =
        { fs with bitmap := some (reiserfs_bitmap_use_block bm root), bitmap_dirty := true } := by
      unfold fs_bitmap_use_block; rw [hbm]
    unfold reiserfs_fs_tree_create reiserfs_tree_create
    simp only [hn, hf, hsb, hr0, reiserfs_block_write, reiserfs_block_get_nr, hroot, hw,
      Bool.false_eq_true, if_false, Bool.true_eq_false, e1, fs_object_use, u1, u2, ROOT_OBJ_ID]
    refine ⟨_, _, _, rfl, world_same_put _ _ _ _, rfl, rfl, ?_, rfl, rfl, rfl, rfl⟩
    rw [← c1, ← c2]
    rfl

/-! ## Writing the new filesystem to the device -/

theorem super_sync_core (w : World block_image) (fs : reiserfs_fs_t) (r : Int)
    (fs2 : reiserfs_fs_t) (w2 : World block_image)
    (h : reiserfs_fs_super_sync w fs = some (r, fs2, w2)) :
    fs_core fs2 = fs_core fs ∧ world_same w w2 := by
  unfold reiserfs_fs_super_sync at h
  split at h
  · cases h
  · split at h
    · simp only [Option.some.injEq, Prod.mk.injEq] at h
      obtain ⟨_, h2, h3⟩ := h
      subst h2 h3
      exact ⟨rfl, world_same_refl _⟩
    · simp only [Option.some.injEq, Prod.mk.injEq] at h
      obtain ⟨_, h2, h3⟩ := h
      subst h2 h3
      exact ⟨rfl, world_same_put _ _ _ _⟩

theorem super_sync_total (w : World block_image) (fs : reiserfs_fs_t) (sb : reiserfs_super)
    (hsb : fs.super = some sb) (hw : ∀ b, w.write_ok fs.dal b = true) :
    ∃ fs2 w2, reiserfs_fs_super_sync w fs = some (1, fs2, w2) := by
  unfold reiserfs_fs_super_sync
  simp only [hsb, hw, Bool.true_eq_false, if_false]
  exact ⟨_, _, rfl⟩

theorem flush_loop_same (bitmap : reiserfs_bitmap) (dal : Nat) (fuel : Nat) :
    ∀ (w : World block_image) (blk pos left : Nat) (w1 : World block_image),
      reiserfs_bitmap_flush_loop bitmap dal fuel w blk pos left = some (some w1) →
      world_same w w1 := by
  induction fuel with
  | zero => intro w blk pos left w1 h; simp only [reiserfs_bitmap_flush_loop] at h; cases h
  | succ fuel ih =>
    intro w blk pos left w1 h
    simp only [reiserfs_bitmap_flush_loop] at h
    split at h
    · split at h
      · cases h
      · exact world_same_trans (world_same_put _ _ _ _) (ih _ _ _ _ _ h)
    · simp only [Option.some.injEq] at h
      subst h
      exact world_same_refl _

theorem flush_loop_total (bitmap : reiserfs_bitmap) (dal : Nat) (fuel : Nat) :
    ∀ (w : World block_image) (blk pos left : Nat), (∀ b, w.write_ok dal b = true) →
      0 < w.blocksize dal → w.blocksize dal < 2 ^ 32 → left < 2 ^ 32 → left < fuel →
      ∃ w1, reiserfs_bitmap_flush_loop bitmap dal fuel w blk pos left = some (some w1) := by
  induction fuel with
  | zero => intro w blk pos left _ _ _ _ h; omega
  | succ fuel ih =>
    intro w blk pos left hw hb0 hb1 hl hf
    simp only [reiserfs_bitmap_flush_loop]
    by_cases h0 : left > 0
    · rw [if_pos h0, if_neg (by rw [hw]; simp)]
      apply ih
      · intro b; exact hw b
      · exact hb0
      · exact hb1
      · exact Nat.mod_lt _ (by norm_num)
      · show (left + 2 ^ 32 - (if left < w.blocksize dal then left
            else w.blocksize dal % 2 ^ 32)) % 2 ^ 32 < fuel
        split_ifs <;> omega
    · rw [if_neg h0]
      exact ⟨w, rfl⟩

theorem bitmap_sync_core (w : World block_image) (fs : reiserfs_fs_t) (r : Int)
    (fs2 : reiserfs_fs_t) (w2 : World block_image)
    (h : reiserfs_fs_bitmap_sync w fs = some (r, fs2, w2)) :
    fs_core fs2 = fs_core fs ∧ world_same w w2 := by
  unfold reiserfs_fs_bitmap_sync at h
  split at h
  · simp only [Option.some.injEq, Prod.mk.injEq] at h
    obtain ⟨_, h2, h3⟩ := h
    subst h2 h3
    exact ⟨rfl, world_same_refl _⟩
  · rename_i bitmap hbm
    split at h
    · cases h
    · simp only [Option.some.injEq, Prod.mk.injEq] at h
      obtain ⟨_, h2, h3⟩ := h
      subst h2 h3
      exact ⟨rfl, world_same_refl _⟩
    · rename_i w1 hs
      simp only [Option.some.injEq, Prod.mk.injEq] at h
      obtain ⟨_, h2, h3⟩ := h
      subst h2 h3
      refine ⟨rfl, ?_⟩
      unfold reiserfs_bitmap_sync at hs
      split at hs
      · cases hs
      · exact flush_loop_same _ _ _ _ _ _ _ _ hs

theorem bitmap_sync_total (w : World block_image) (fs : reiserfs_fs_t) (bm : reiserfs_bitmap)
    (hbm : fs.bitmap = some bm) (hw : ∀ b, w.write_ok fs.dal b = true)
    (hb0 : 0 < w.blocksize fs.dal) (hb1 : w.blocksize fs.dal * 8 < 2 ^ 32)
    (hsz : bm.size < 2 ^ 32) :
    ∃ fs2 w2, reiserfs_fs_bitmap_sync w fs = some (1, fs2, w2) := by
  obtain ⟨w1, h1⟩ := flush_loop_total bm fs.dal (bm.size + 1) w bm.start 0 bm.size hw hb0
    (by omega) hsz (by omega)
  unfold reiserfs_fs_bitmap_sync reiserfs_bitmap_sync
  simp only [hbm, if_neg (show ¬ w.blocksize fs.dal * 8 % 2 ^ 32 = 0 by omega), h1]
  exact ⟨_, _, rfl⟩

theorem journal_sync_core (w : World block_image) (fs : reiserfs_fs_t) (r : Int)
    (fs2 : reiserfs_fs_t) (w2 : World block_image)
    (h : reiserfs_fs_journal_sync w fs = some (r, fs2, w2)) :
    fs_core fs2 = fs_core fs ∧ world_same w w2 := by
  unfold reiserfs_fs_journal_sync at h
  split at h
  · simp only [Option.some.injEq, Prod.mk.injEq] at h
    obtain ⟨_, h2, h3⟩ := h
    subst h2 h3
    exact ⟨rfl, world_same_refl _⟩
  · split at h
    · simp only [Option.some.injEq, Prod.mk.injEq] at h
      obtain ⟨_, h2, h3⟩ := h
      subst h2 h3
      exact ⟨rfl, world_same_refl _⟩
    · simp only at h
      split at h
      · simp only [Option.some.injEq, Prod.mk.injEq] at h
        obtain ⟨_, h2, h3⟩ := h
        subst h2 h3
        exact ⟨rfl, world_same_refl _⟩
      · simp only [Option.some.injEq, Prod.mk.injEq] at h
        obtain ⟨_, h2, h3⟩ := h
        subst h2 h3
        exact ⟨rfl, world_same_put _ _ _ _⟩

theorem journal_sync_total (w : World block_image) (fs : reiserfs_fs_t)
    (bm : reiserfs_bitmap) (journal : reiserfs_journal_t) (hbm : fs.bitmap = some bm)
    (hj : fs.journal = some journal) (hw : ∀ b, w.write_ok journal.dal b = true) :
    ∃ fs2 w2, reiserfs_fs_journal_sync w fs = some (1, fs2, w2) := by
  have hn : fs.bitmap.isNone = false := by rw [hbm]; rfl
  unfold reiserfs_fs_journal_sync
  simp only [hn, hj, hw, Bool.false_eq_true, Bool.true_eq_false, if_false]
  exact ⟨_, _, rfl⟩

theorem fs_sync_core (w : World block_image) (fs : reiserfs_fs_t) (r : Int)
    (fs2 : reiserfs_fs_t) (w2 : World block_image)
    (h : reiserfs_fs_sync w fs = some (r, fs2, w2)) :
    fs_core fs2 = fs_core fs ∧ world_same w w2 := by
  unfold reiserfs_fs_sync at h
  simp only at h
  split at h
  · cases h
  · rename_i s1 fs1 w1 h1
    have k1 : fs_core fs1 = fs_core fs ∧ world_same w w1 := by
      split at h1
      · exact super_sync_core _ _ _ _ _ h1
      · simp only [Option.some.injEq, Prod.mk.injEq] at h1
        obtain ⟨_, a, b⟩ := h1
        subst a b
        exact ⟨rfl, world_same_refl _⟩
    split at h
    · simp only [Option.some.injEq, Prod.mk.injEq] at h
      obtain ⟨_, a, b⟩ := h
      subst a b
      exact k1
    · split at h
      · cases h
      · rename_i s2 fs2a w2a h2
        have k2 : fs_core fs2a = fs_core fs1 ∧ world_same w1 w2a := by
          split at h2
          · exact bitmap_sync_core _ _ _ _ _ h2
          · simp only [Option.some.injEq, Prod.mk.injEq] at h2
            obtain ⟨_, a, b⟩ := h2
            subst a b
            exact ⟨rfl, world_same_refl _⟩
        split at h
        · simp only [Option.some.injEq, Prod.mk.injEq] at h
          obtain ⟨_, a, b⟩ := h
          subst a b
          exact ⟨k2.1.trans k1.1, world_same_trans k1.2 k2.2⟩
        · split at h
          · cases h
          · rename_i s3 fs3a w3a h3
            have k3 : fs_core fs3a = fs_core fs2a ∧ world_same w2a w3a := by
              split at h3
              · exact journal_sync_core _ _ _ _ _ h3
              · simp only [Option.some.injEq, Prod.mk.injEq] at h3
                obtain ⟨_, a, b⟩ := h3
                subst a b
                exact ⟨rfl, world_same_refl _⟩
            have k : fs_core fs3a = fs_core fs ∧ world_same w w3a :=
              ⟨k3.1.trans (k2.1.trans k1.1), world_same_trans k1.2 (world_same_trans k2.2 k3.2)⟩
            split at h
            · simp only [Option.some.injEq, Prod.mk.injEq] at h
              obtain ⟨_, a, b⟩ := h
              subst a b
              exact k
            · simp only [Option.some.injEq, Prod.mk.injEq] at h
              obtain ⟨_, a, b⟩ := h
              subst a b
              exact k

theorem fs_sync_total (w : World block_image) (fs : reiserfs_fs_t) (sb : reiserfs_super)
    (bm : reiserfs_bitmap) (journal : reiserfs_journal_t) (hsb : fs.super = some sb)
    (hbm : fs.bitmap = some bm) (hj : fs.journal = some journal)
    (hw : ∀ d b, w.write_ok d b = true)
    (hb0 : 0 < w.blocksize fs.dal) (hb1 : w.blocksize fs.dal * 8 < 2 ^ 32)
    (hsz : bm.size < 2 ^ 32) :
    ∃ fs2 w2, reiserfs_fs_sync w fs = some (1, fs2, w2) := by
  have s1 : ∃ fs1 w1, (if fs.super_dirty = true then reiserfs_fs_super_sync w fs
      else some (1, fs, w)) = some (1, fs1, w1) ∧ fs_core fs1 = fs_core fs ∧ world_same w w1 := by
    split
    · obtain ⟨fs1, w1, e⟩ := super_sync_total w fs sb hsb (hw fs.dal)
      exact ⟨fs1, w1, e, super_sync_core _ _ _ _ _ e⟩
    · exact ⟨fs, w, rfl, rfl, world_same_refl _⟩
  obtain ⟨fs1, w1, e1, c1, q1⟩ := s1
  have hd1 : fs1.dal = fs.dal := congrArg (fun p => p.1) c1
  have hbm1 : fs1.bitmap = some bm := (congrArg (fun p => p.2.2.1) c1).trans hbm
  have hj1 : fs1.journal = some journal := (congrArg (fun p => p.2.2.2.1) c1).trans hj
  have hw1 : ∀ d b, w1.write_ok d b = true := by intro d b; rw [q1.2.2.1]; exact hw d b
  have s2 : ∃ fs2 w2, (if fs1.bitmap.isSome = true ∧ fs1.bitmap_dirty = true then
      reiserfs_fs_bitmap_sync w1 fs1 else some (1, fs1, w1)) = some (1, fs2, w2) ∧
      fs_core fs2 = fs_core fs1 ∧ world_same w1 w2 := by
    split
    · obtain ⟨fs2, w2, e⟩ := bitmap_sync_total w1 fs1 bm hbm1 (hw1 fs1.dal)
        (by rw [q1.1, hd1]; exact hb0) (by rw [q1.1, hd1]; exact hb1) hsz
      exact ⟨fs2, w2, e, bitmap_sync_core _ _ _ _ _ e⟩
    · exact ⟨fs1, w1, rfl, rfl, world_same_refl _⟩
  obtain ⟨fs2, w2, e2, c2, q2⟩ := s2
  have hbm2 : fs2.bitmap = some bm := (congrArg (fun p => p.2.2.1) c2).trans hbm1
  have hj2 : fs2.journal = some journal := (congrArg (fun p => p.2.2.2.1) c2).trans hj1
  have hw2 : ∀ d b, w2.write_ok d b = true := by intro d b; rw [q2.2.2.1]; exact hw1 d b
  have s3 : ∃ fs3 w3, (if fs2.journal.isSome = true ∧ fs2.journal_dirty = true then
      reiserfs_fs_journal_sync w2 fs2 else some (1, fs2, w2)) = some (1, fs3, w3) := by
    split
    · exact journal_sync_total w2 fs2 bm journal hbm2 hj2 (hw2 journal.dal)
    · exact ⟨fs2, w2, rfl⟩
  obtain ⟨fs3, w3, e3⟩ := s3
  unfold reiserfs_fs_sync
  simp only [e1, e2, e3, one_ne_zero, if_false]
  exact ⟨_, _, rfl⟩

/-! ## The block sizes `reiserfs_fs_create_check` accepts -/

theorem pow2_scan_sound (fuel : Nat) : ∀ lo n, pow2_scan fuel lo n = true →
    ∀ x, lo ≤ x → x < lo + n → reiserfs_tools_power_of_two x = true →
      x ∈ [1024, 2048, 4096, 8192, 16384, 32768, 65536] := by
  induction fuel with
  | zero =>
    intro lo n h x h1 h2 hp
    simp only [pow2_scan, List.all_eq_true, List.mem_range] at h
    have := h (x - lo) (by omega)
    rw [show lo + (x - lo) = x by omega, hp] at this
    simpa using this
  | succ fuel ih =>
    intro lo n h x h1 h2 hp
    simp only [pow2_scan, Bool.and_eq_true] at h
    by_cases hx : x < lo + n / 2
    · exact ih lo (n / 2) h.1 x h1 hx hp
    · exact ih (lo + n / 2) (n - n / 2) h.2 x (by omega) (by omega) hp

theorem pow2_scan_all : pow2_scan 10 1024 64513 = true := by decide!

theorem create_check_inv (w : World block_image) (host_dal len blocksize fs_len : Nat)
    (h : reiserfs_fs_create_check w host_dal len blocksize fs_len false ≠ 0) :
    (create_blocksize blocksize ∨ blocksize = 65536) ∧ fs_len ≤ w.len host_dal ∧
    ((65536 / w.blocksize host_dal + 2 + (len + 1)) % 2 ^ 64 + 100) % 2 ^ 64 < fs_len := by
  unfold reiserfs_fs_create_check DEFAULT_SUPER_OFFSET at h
  simp only [Bool.false_eq_true, if_false, show (64 * 1024 : Nat) = 65536 from rfl] at h
  generalize 65536 / w.blocksize host_dal = q at h ⊢
  split at h
  · exact absurd rfl h
  · rename_i hp
    split at h
    · exact absurd rfl h
    · split at h
      · exact absurd rfl h
      · split at h
        · exact absurd rfl h
        · split at h
          · exact absurd rfl h
          · split at h
            · exact absurd rfl h
            · have hp' : reiserfs_tools_power_of_two blocksize = true := by simpa using hp
              have := pow2_scan_sound 10 1024 64513 pow2_scan_all blocksize (by omega) (by omega) hp'
              simp only [List.mem_cons, List.mem_singleton, List.not_mem_nil, or_false] at this
              refine ⟨?_, by omega, by omega⟩
              unfold create_blocksize
              omega

theorem create_check_ok (w : World block_image) (host_dal len blocksize fs_len : Nat)
    (hb : create_blocksize blocksize) (hbs : w.blocksize host_dal = blocksize)
    (hdev : fs_len ≤ w.len host_dal) (hsz : 65536 / blocksize + len + 103 < fs_len) :
    reiserfs_fs_create_check w host_dal len blocksize fs_len false ≠ 0 := by
  have hp : reiserfs_tools_power_of_two blocksize = true := by
    rcases hb with rfl | rfl | rfl | rfl | rfl | rfl <;> decide
  unfold reiserfs_fs_create_check DEFAULT_SUPER_OFFSET
  simp only [hp, Bool.true_eq_false, Bool.false_eq_true, if_false, hbs,
    show (64 * 1024 : Nat) = 65536 from rfl]
  have h1 : ¬ blocksize < 1024 := by rcases hb with rfl | rfl | rfl | rfl | rfl | rfl <;> omega
  have h2 : ¬ blocksize > 65536 := by
    rcases hb with rfl | rfl | rfl | rfl | rfl | rfl <;> omega
  have hq : 65536 / blocksize ≤ 65536 := Nat.div_le_self _ _
  generalize 65536 / blocksize = q at hq hsz ⊢
  rw [if_neg h1, if_neg h2, if_neg (by omega), if_neg (by omega), if_neg (by omega)]
  omega

theorem params_check_inv (jc : journal_consts) (w : World block_image) (dal start len : Nat)
    (h : reiserfs_journal_params_check jc w dal start len false ≠ 0) :
    len ≤ ulong (((w.blocksize dal * 8) % 2 ^ 32 : Nat) - (start : Int) - 1) ∧
    (len = 0 ∨ jc.JOURNAL_MIN_SIZE ≤ len) := by
  unfold reiserfs_journal_params_check reiserfs_journal_max_len at h
  simp only [Bool.false_eq_true, if_false] at h
  split at h
  · exact absurd rfl h
  · split at h
    · exact absurd rfl h
    · split at h
      · exact absurd rfl h
      · constructor <;> omega

theorem params_check_ok (jc : journal_consts) (w : World block_image) (dal len : Nat)
    (hl : len ≤ ulong (((w.blocksize dal * 8) % 2 ^ 32 : Nat) -
      (((65536 / w.blocksize dal + 2) % 2 ^ 64 : Nat) : Int) - 1))
    (hm : len = 0 ∨ jc.JOURNAL_MIN_SIZE ≤ len) :
    reiserfs_journal_params_check jc w dal ((65536 / w.blocksize dal + 2) % 2 ^ 64) len
      false ≠ 0 := by
  unfold reiserfs_journal_params_check reiserfs_journal_max_len DEFAULT_SUPER_OFFSET
  simp only [Bool.false_eq_true, if_false, show (64 * 1024 : Nat) = 65536 from rfl]
  have hq : 65536 / w.blocksize dal ≤ 65536 := Nat.div_le_self _ _
  have h64 : (65536 / w.blocksize dal + 2) % 2 ^ 64 = 65536 / w.blocksize dal + 2 := by
    generalize 65536 / w.blocksize dal = q at hq ⊢
    omega
  rw [if_neg (by rw [h64]; simp), if_neg (by omega), if_neg (by omega)]
  exact one_ne_zero

theorem max_trans_isSome (jc : journal_consts) (max_trans len blocksize : Nat)
    (hb : create_blocksize blocksize) (hjc : 4 ≤ jc.JOURNAL_MAX_TRANS) :
    (reiserfs_journal_max_trans jc max_trans len blocksize).isSome := by
  unfold reiserfs_journal_max_trans
  rcases hb with rfl | rfl | rfl | rfl | rfl | rfl <;> norm_num <;> split_ifs <;> omega

theorem max_trans_blocksize (jc : journal_consts) (max_trans len : Nat) :
    reiserfs_journal_max_trans jc max_trans len 0 = none := by
  unfold reiserfs_journal_max_trans
  simp

theorem params_update_isSome (jc : journal_consts) (params : reiserfs_journal_params)
    (start len max_trans dev blocksize magic : Nat)
    (hb : create_blocksize blocksize) (hjc : 4 ≤ jc.JOURNAL_MAX_TRANS) :
    (reiserfs_journal_params_update jc params start len max_trans dev blocksize magic).isSome := by
  obtain ⟨mt, hmt⟩ := Option.isSome_iff_exists.1 (max_trans_isSome jc max_trans len blocksize hb hjc)
  unfold reiserfs_journal_params_update
  rw [hmt]
  simp only
  rw [if_neg (by omega)]
  rfl

theorem params_update_blocksize (jc : journal_consts) (params : reiserfs_journal_params)
    (start len max_trans dev magic : Nat) :
    reiserfs_journal_params_update jc params start len max_trans dev 0 magic = none := by
  unfold reiserfs_journal_params_update
  rw [max_trans_blocksize]

/-! ## The fields of the new superblock -/

theorem magic_update_fields (sb : reiserfs_super) (format : Nat) (relocated : Bool) :
    ∃ m, reiserfs_fs_super_magic_update sb format relocated = { sb with sb_magic := m } := by
  unfold reiserfs_fs_super_magic_update
  split_ifs
  · exact ⟨_, rfl⟩
  · exact ⟨_, rfl⟩
  · exact ⟨sb.sb_magic, rfl⟩
  · exact ⟨_, rfl⟩

theorem super_create_fields_spec (format hash : Nat) (label uuid : Option (List Nat))
    (blocksize len fs_len : Nat) :
    super_counts (super_create_fields format hash label uuid blocksize len fs_len false) =
      (fs_len % 2 ^ 32,
       (ulong ((fs_len : Int) - (DEFAULT_SUPER_OFFSET / blocksize : Nat) - 1 -
          ((len + 1) % 2 ^ 64 : Nat) -
          ((((fs_len + 2 ^ 64 - 1) % 2 ^ 64) / (8 * blocksize % 2 ^ 64) + 1) % 2 ^ 16 : Nat) - 1)) %
          2 ^ 32,
       (((fs_len + 2 ^ 64 - 1) % 2 ^ 64) / (8 * blocksize % 2 ^ 64) + 1) % 2 ^ 16,
       blocksize % 2 ^ 16, format % 2 ^ 16) ∧
    (super_create_fields format hash label uuid blocksize len fs_len false).sb_oid_cursize = 0 ∧
    (super_create_fields format hash label uuid blocksize len fs_len false).sb_oid_maxsize =
      (ulong ((blocksize : Int) -
        (if format = FS_FORMAT_3_6 then SUPER_V2_SIZE else SUPER_V1_SIZE)) / 4 / 2 * 2) % 2 ^ 16 ∧
    (super_create_fields format hash label uuid blocksize len fs_len false).objectid_map.length =
      (blocksize - (if format = FS_FORMAT_3_6 then SUPER_V2_SIZE else SUPER_V1_SIZE)) / 4 := by
  unfold super_create_fields
  simp only
  generalize hsb : ({ ({ ({ ({ ({ ({ ({ ({ super_calloc blocksize format with
    sb_umount_state := FS_CLEAN } : reiserfs_super) with
    sb_block_count := fs_len % 2 ^ 32 } : reiserfs_super) with
    sb_bmap_nr := (((fs_len + 2 ^ 64 - 1) % 2 ^ 64) / (8 * blocksize % 2 ^ 64) + 1) % 2 ^ 16 }
      : reiserfs_super) with
    sb_free_blocks := _ } : reiserfs_super) with
    sb_format := format % 2 ^ 16 } : reiserfs_super) with
    sb_block_size := blocksize % 2 ^ 16 } : reiserfs_super) with
    sb_fs_state := FS_CONSISTENT } : reiserfs_super) with
    sb_hash_function_code := hash % 2 ^ 32 } : reiserfs_super) = sb0
  obtain ⟨m, hm⟩ := magic_update_fields sb0 format false
  rw [hm]
  subst hsb
  refine ⟨?_, ?_, ?_, ?_⟩
  · simp [super_counts]
  · trivial
  · trivial
  · simp [super_calloc]

/-! ## The bitmap of a new filesystem -/

theorem use_list_layout (bm : reiserfs_bitmap) (hwf : bitmap_wf bm)
    (hclear : ∀ c, bit_set bm.map c = false) (hused : bm.used_blocks = 0) (L : List Nat)
    (hnd : L.Nodup) (hlt : ∀ b, b ∈ L → b < bm.total_blocks) :
    bitmap_wf (L.foldl reiserfs_bitmap_use_block bm) ∧
    (L.foldl reiserfs_bitmap_use_block bm).total_blocks = bm.total_blocks ∧
    padding_zero (L.foldl reiserfs_bitmap_use_block bm) ∧
    (L.foldl reiserfs_bitmap_use_block bm).used_blocks = L.length ∧
    ∀ c, bit_set (L.foldl reiserfs_bitmap_use_block bm).map c = true ↔ c ∈ L := by
  obtain ⟨w1, w2, w3, _⟩ := use_fold_wf L bm hwf
  have hbits : ∀ c, bit_set (L.foldl reiserfs_bitmap_use_block bm).map c = true ↔ c ∈ L := by
    intro c
    rw [use_fold_bits L bm hwf c, hclear c]
    simp only [Bool.false_or, decide_eq_true_eq]
    exact ⟨fun h => h.1, fun h => ⟨h, hlt c h⟩⟩
  refine ⟨w1, w2, ?_, ?_, hbits⟩
  · intro c hc1 _
    rw [w2] at hc1
    cases hb : bit_set (L.foldl reiserfs_bitmap_use_block bm).map c with
    | false => rfl
    | true =>
      have := hlt c ((hbits c).1 hb)
      omega
  · have hl : L.length ≤ bm.total_blocks := by
      have h1 : L.toFinset ⊆ Finset.range bm.total_blocks := by
        intro x hx
        rw [List.mem_toFinset] at hx
        exact Finset.mem_range.2 (hlt x hx)
      have h2 := Finset.card_le_card h1
      rw [List.toFinset_card_of_nodup hnd, Finset.card_range] at h2
      exact h2
    have h31 := hwf.1
    rw [use_fold_count L bm hwf hnd (fun b hb => ⟨hlt b hb, hclear b⟩) (by omega), hused]
    omega

theorem bitmap_create_fold (blocksize start len : Nat) :
    reiserfs_bitmap_create blocksize start len =
      (start :: (List.range' 1 (((len + 2 ^ 64 - 1) % 2 ^ 64 / (blocksize * 8 % 2 ^ 32) + 1) %
          2 ^ 64 - 1)).map (fun i => i * blocksize * 8 % 2 ^ 64)).foldl
        reiserfs_bitmap_use_block { reiserfs_bitmap_alloc len with start := start } := by
  unfold reiserfs_bitmap_create
  dsimp only
  generalize ((len + 2 ^ 64 - 1) % 2 ^ 64 / (blocksize * 8 % 2 ^ 32) + 1) % 2 ^ 64 - 1 = n
  rw [List.foldl_cons, List.foldl_map]

theorem create_bitmap_layout (bs len fs_len : Nat) (hbs : 1024 ≤ bs) (hbs2 : bs ≤ 65536)
    (hlen : fs_len + 8 ≤ 2 ^ 31) (hsz : 65536 / bs + len + 103 < fs_len)
    (hjm : len + 65536 / bs + 3 ≤ 8 * bs) :
    ∃ bm, (List.range' ((DEFAULT_SUPER_OFFSET / bs + 2) % 2 ^ 64) ((len + 1) % 2 ^ 64)).foldl
        reiserfs_bitmap_use_block ((List.range (DEFAULT_SUPER_OFFSET / bs + 1)).foldl
          reiserfs_bitmap_use_block
          (reiserfs_bitmap_create bs ((DEFAULT_SUPER_OFFSET / bs + 1) % 2 ^ 64) fs_len)) = bm ∧
      bitmap_wf bm ∧ bm.total_blocks = fs_len ∧ padding_zero bm ∧
      bm.used_blocks = 65536 / bs + 1 + ((fs_len - 1) / (8 * bs) + 1) + (len + 1) ∧
      ∀ c, bit_set bm.map c = true ↔
        (c ≤ 65536 / bs + 1 ∨ (∃ i, 1 ≤ i ∧ i ≤ (fs_len - 1) / (8 * bs) ∧ c = i * (8 * bs)) ∨
          (65536 / bs + 2 ≤ c ∧ c ≤ 65536 / bs + 2 + len)) := by
  have hS : DEFAULT_SUPER_OFFSET / bs = 65536 / bs := rfl
  have hsb : 65536 / bs ≤ 64 := by
    rw [Nat.div_le_iff_le_mul_add_pred (by omega)]
    omega
  have hB : bs * 8 % 2 ^ 32 = 8 * bs := by omega
  have hqB : (fs_len - 1) / (8 * bs) * (8 * bs) ≤ fs_len - 1 := Nat.div_mul_le_self _ _
  have hqle : (fs_len - 1) / (8 * bs) ≤ fs_len - 1 := Nat.div_le_self _ _
  rw [hS, bitmap_create_fold, hB]
  generalize 65536 / bs = sb at *
  have hq0 : (fs_len + 2 ^ 64 - 1) % 2 ^ 64 = fs_len - 1 := by omega
  rw [hq0]
  generalize (fs_len - 1) / (8 * bs) = q at *
  have e1 : (sb + 2) % 2 ^ 64 = sb + 2 := by omega
  have e2 : (len + 1) % 2 ^ 64 = len + 1 := by omega
  have e3 : (sb + 1) % 2 ^ 64 = sb + 1 := by omega
  have e4 : (q + 1) % 2 ^ 64 - 1 = q := by omega
  rw [e1, e2, e3, e4]
  have hmul : ∀ i, 1 ≤ i → i ≤ q → 8 * bs ≤ i * (8 * bs) ∧ i * (8 * bs) ≤ fs_len - 1 := by
    intro i h1 h2
    constructor
    · calc 8 * bs = 1 * (8 * bs) := by ring
        _ ≤ i * (8 * bs) := Nat.mul_le_mul_right _ h1
    · exact le_trans (Nat.mul_le_mul_right _ h2) hqB
  have hmap : (List.range' 1 q).map (fun i => i * bs * 8 % 2 ^ 64) =
      (List.range' 1 q).map (fun i => i * (8 * bs)) := by
    apply List.map_congr_left
    intro i hi
    rw [List.mem_range'_1] at hi
    have := hmul i hi.1 (by omega)
    have e : i * bs * 8 = i * (8 * bs) := by ring
    rw [e]
    omega
  rw [hmap, ← List.foldl_append, ← List.foldl_append]
  have hmem : ∀ c, c ∈ ((sb + 1) :: (List.range' 1 q).map (fun i => i * (8 * bs))) ++
      (List.range (sb + 1) ++ List.range' (sb + 2) (len + 1)) ↔
      (c ≤ sb + 1 ∨ (∃ i, 1 ≤ i ∧ i ≤ q ∧ c = i * (8 * bs)) ∨ (sb + 2 ≤ c ∧ c ≤ sb + 2 + len)) := by
    intro c
    simp only [List.mem_append, List.mem_cons, List.mem_map, List.mem_range, List.mem_range'_1]
    constructor
    · rintro ((h | ⟨i, hi, rfl⟩) | h | h)
      · left; omega
      · right; left; exact ⟨i, hi.1, by omega, rfl⟩
      · left; omega
      · right; right; omega
    · rintro (h | ⟨i, h1, h2, rfl⟩ | h)
      · by_cases hc : c = sb + 1
        · left; left; exact hc
        · right; left; omega
      · left; right; exact ⟨i, ⟨h1, by omega⟩, rfl⟩
      · right; right; omega
  have hnd : (((sb + 1) :: (List.range' 1 q).map (fun i => i * (8 * bs))) ++
      (List.range (sb + 1) ++ List.range' (sb + 2) (len + 1))).Nodup := by
    rw [List.nodup_append, List.nodup_append, List.nodup_cons]
    refine ⟨⟨?_, ?_⟩, ⟨List.nodup_range _, List.nodup_range' _ _, ?_⟩, ?_⟩
    · simp only [List.mem_map, List.mem_range'_1, not_exists, not_and]
      intro i hi he
      have := hmul i hi.1 (by omega)
      omega
    · apply List.Nodup.map_on _ (List.nodup_range' _ _)
      intro x hx y _ hxy
      exact Nat.eq_of_mul_eq_mul_right (by omega) hxy
    · intro c h1 h2
      rw [List.mem_range] at h1
      rw [List.mem_range'_1] at h2
      omega
    · intro c h1 h2
      simp only [List.mem_cons, List.mem_map, List.mem_range'_1] at h1
      simp only [List.mem_append, List.mem_range'_1, List.mem_range] at h2
      rcases h1 with h | ⟨i, hi, rfl⟩
      · omega
      · have := hmul i hi.1 (by omega)
        omega
  have hwf0 : bitmap_wf { reiserfs_bitmap_alloc fs_len with start := sb + 1 } := alloc_wf fs_len hlen
  obtain ⟨r1, r2, r3, r4, r5⟩ := use_list_layout
    { reiserfs_bitmap_alloc fs_len with start := sb + 1 } hwf0 (alloc_bits fs_len) rfl _ hnd
    (by
      intro b hb
      rw [hmem] at hb
      show b < fs_len
      rcases hb with h | ⟨i, h1, h2, rfl⟩ | h
      · omega
      · have := hmul i h1 h2
        omega
      · omega)
  refine ⟨_, rfl, r1, r2, r3, ?_, ?_⟩
  · rw [r4]
    simp only [List.length_append, List.length_cons, List.length_map, List.length_range',
      List.length_range]
    omega
  · intro c
    rw [r5, hmem]

theorem tree_create_stage_zero (env : fs_env) (w : World block_image) (fs : reiserfs_fs_t)
    (bm : reiserfs_bitmap) (hbm : fs.bitmap = some bm)
    (hff : reiserfs_bitmap_find_free bm 1 = some 0) :
    ∃ fs2 w2, reiserfs_fs_tree_create env w fs = some (0, fs2, w2) := by
  have hn : fs.bitmap.isNone = false := by rw [hbm]; rfl
  have hf : fs_bitmap_find_free_block fs 1 = some 0 := by
    unfold fs_bitmap_find_free_block; rw [hbm]; exact hff
  unfold reiserfs_fs_tree_create reiserfs_tree_create
  simp only [hn, hf, Bool.false_eq_true, if_false, if_true]
  exact ⟨_, _, rfl⟩

theorem fs_create_stages (jc : journal_consts) (env : fs_env) (w : World block_image)
    (host_dal start max_trans len blocksize format hash : Nat) (label uuid : Option (List Nat))
    (fs_len : Nat) (fs : reiserfs_fs_t) (w1 : World block_image)
    (h : reiserfs_fs_create jc env w host_dal (some host_dal) start max_trans len blocksize
      format hash label uuid fs_len = some (some fs, w1)) :
    reiserfs_fs_create_check w host_dal len blocksize fs_len false ≠ 0 ∧
    ∃ r2 fs2 w2 s3 fs3 w3 s4 fs4 w4 s5,
      reiserfs_fs_super_create jc env w (create_fs_bitmap w host_dal blocksize fs_len) format hash
        label uuid blocksize start len fs_len false = some (r2, fs2, w2) ∧ r2 ≠ 0 ∧
      reiserfs_fs_journal_create jc env w2 fs2 (some host_dal) start len max_trans =
        some (s3, fs3, w3) ∧ s3 ≠ 0 ∧
      reiserfs_fs_tree_create env w3 fs3 = some (s4, fs4, w4) ∧ s4 ≠ 0 ∧
      reiserfs_fs_sync w4 fs4 = some (s5, fs, w1) ∧ s5 ≠ 0 := by
  unfold reiserfs_fs_create at h
  simp only [ne_eq, not_true_eq_false, decide_False, reiserfs_fs_bitmap_create,
    fs_calloc] at h
  split at h
  · cases h
  split at h
  · simp at h
  rename_i hb0 hcc
  refine ⟨hcc, ?_⟩
  simp only [one_ne_zero, if_false] at h
  split at h
  · cases h
  rename_i r2 fs2 w2 hB
  split at h
  · simp at h
  rename_i hr2
  split at h
  · cases h
  rename_i s3 fs3 w3 hJ
  split at h
  · simp at h
  rename_i hs3
  split at h
  · cases h
  rename_i s4 fs4 w4 hT
  split at h
  · simp at h
  rename_i hs4
  split at h
  · cases h
  rename_i s5 fs5 w5 hY
  split at h
  · simp at h
  rename_i hs5
  simp only [Option.some.injEq, Prod.mk.injEq] at h
  obtain ⟨h5, h6⟩ := h
  subst h5 h6
  exact ⟨r2, fs2, w2, s3, fs3, w3, s4, fs4, w4, s5, hB, hr2, hJ, hs3, hT, hs4, hY, hs5⟩

/-! ## Arithmetic of the layout -/

theorem create_blocksize_range (blocksize : Nat) (hb : create_blocksize blocksize) :
    1024 ≤ blocksize ∧ blocksize ≤ 32768 := by
  rcases hb with rfl | rfl | rfl | rfl | rfl | rfl <;> omega

theorem super_offset_le (blocksize : Nat) (hb : 1024 ≤ blocksize) : 65536 / blocksize ≤ 64 := by
  rw [Nat.div_le_iff_le_mul_add_pred (by omega)]
  omega

theorem root_offset (blocksize r : Nat) (hb : create_blocksize blocksize) (hr : r < 2 ^ 31) :
    (r * blocksize % 2 ^ 64) / blocksize = r := by
  rcases hb with rfl | rfl | rfl | rfl | rfl | rfl <;> omega

theorem create_free_fits (blocksize len fs_len : Nat) (hb : create_blocksize blocksize)
    (hsz : 65536 / blocksize + len + 103 < fs_len)
    (hjm : len + 65536 / blocksize + 3 ≤ 8 * blocksize) :
    65536 / blocksize + len + 3 + ((fs_len - 1) / (8 * blocksize) + 1) ≤ fs_len := by
  rcases hb with rfl | rfl | rfl | rfl | rfl | rfl <;> omega

theorem create_free_blocks (sbo len fs_len q free bmap : Nat) (hlen : fs_len + 8 ≤ 2 ^ 31)
    (hfit : sbo + len + 3 + (q + 1) ≤ fs_len)
    (hb : bmap = (q + 1) % 2 ^ 16)
    (hf : free = ulong ((fs_len : Int) - (sbo : Nat) - 1 - ((len + 1) % 2 ^ 64 : Nat) -
      (((q + 1) % 2 ^ 16 : Nat) : Int) - 1) % 2 ^ 32) :
    free + (sbo + 1 + (len + 1) + bmap + 1) = fs_len := by
  subst hb hf
  unfold ulong
  omega

theorem create_journal_fits (sbo len bs8 fs_len : Nat) (hs : sbo ≤ 64) (hb : 8192 ≤ bs8)
    (hb2 : bs8 ≤ 2 ^ 20)
    (hl : len ≤ ulong ((bs8 : Int) - (((sbo + 2) % 2 ^ 64 : Nat) : Int) - 1))
    (hts : ((sbo + 2 + (len + 1)) % 2 ^ 64 + 100) % 2 ^ 64 < fs_len) :
    len + sbo + 3 ≤ bs8 ∧ sbo + len + 103 < fs_len := by
  unfold ulong at hl
  omega

theorem oid_fresh_bounds (blocksize format : Nat) (hb : 1024 ≤ blocksize)
    (hb2 : blocksize ≤ 32768) :
    2 ≤ (ulong ((blocksize : Int) -
        (if format = FS_FORMAT_3_6 then SUPER_V2_SIZE else SUPER_V1_SIZE)) / 4 / 2 * 2) % 2 ^ 16 ∧
    2 ≤ (blocksize - (if format = FS_FORMAT_3_6 then SUPER_V2_SIZE else SUPER_V1_SIZE)) / 4 := by
  unfold ulong SUPER_V2_SIZE SUPER_V1_SIZE
  split_ifs <;> omega

theorem create_super_counts (format hash : Nat) (label uuid : Option (List Nat))
    (blocksize len fs_len : Nat) (jp2 jp3 : reiserfs_journal_params)
    (hb : create_blocksize blocksize) (hlen : fs_len + 8 ≤ 2 ^ 31)
    (hsz : 65536 / blocksize + len + 103 < fs_len)
    (hjm : len + 65536 / blocksize + 3 ≤ 8 * blocksize) (sb : reiserfs_super)
    (hsb : sb = super_with_journal (super_with_journal
      (super_create_fields format hash label uuid blocksize len fs_len false) jp2) jp3) :
    sb.sb_block_count = fs_len ∧
    sb.sb_bmap_nr = ((fs_len - 1) / (8 * blocksize) + 1) % 2 ^ 16 ∧
    sb.sb_free_blocks + (65536 / blocksize + 1 + (len + 1) + sb.sb_bmap_nr + 1) = fs_len ∧
    sb.sb_block_size = blocksize ∧
    sb.sb_oid_cursize = 0 ∧ 2 ≤ sb.sb_oid_maxsize ∧ sb.sb_oid_maxsize < 2 ^ 16 ∧
    2 ≤ sb.objectid_map.length := by
  obtain ⟨cnt, cur0, mx, ml⟩ := super_create_fields_spec format hash label uuid blocksize len fs_len
  obtain ⟨hb1, hb2⟩ := create_blocksize_range blocksize hb
  simp only [super_counts, Prod.mk.injEq] at cnt
  obtain ⟨q1, q2, q3, q4, _⟩ := cnt
  have hpos : 0 < fs_len := lt_of_le_of_lt (Nat.zero_le _) hsz
  have hB8 : 8 * blocksize % 2 ^ 64 = 8 * blocksize := by clear hsz hjm q1 q2 q3 q4; omega
  have hq0 : (fs_len + 2 ^ 64 - 1) % 2 ^ 64 = fs_len - 1 := by
    clear hsz hjm q1 q2 q3 q4; omega
  rw [hB8, hq0] at q2 q3
  have hS : DEFAULT_SUPER_OFFSET / blocksize = 65536 / blocksize := rfl
  rw [hS] at q2
  have hfit := create_free_fits blocksize len fs_len hb hsz hjm
  obtain ⟨o1, o2⟩ := oid_fresh_bounds blocksize format hb1 hb2
  subst hsb
  simp only [super_with_journal]
  refine ⟨by rw [q1]; clear hsz hjm q1 q2 q3 q4 hfit; omega, q3, ?_,
    by rw [q4]; clear hsz hjm q1 q2 q3 q4 hfit; omega, cur0, ?_, ?_, ?_⟩
  · exact create_free_blocks (65536 / blocksize) len fs_len ((fs_len - 1) / (8 * blocksize))
      _ _ hlen hfit q3 q2
  · rw [mx]; exact o1
  · rw [mx]; exact Nat.mod_lt _ (by norm_num)
  · rw [ml]; exact o2

theorem create_stage_before_tree (jc : journal_consts) (env : fs_env) (w : World block_image)
    (host_dal start max_trans len blocksize format hash : Nat) (label uuid : Option (List Nat))
    (fs_len : Nat) (hbs : w.blocksize host_dal = blocksize) (hlen : fs_len + 8 ≤ 2 ^ 31)
    (hcc : reiserfs_fs_create_check w host_dal len blocksize fs_len false ≠ 0)
    (r2 : Int) (fs2 : reiserfs_fs_t) (w2 : World block_image)
    (hB : reiserfs_fs_super_create jc env w (create_fs_bitmap w host_dal blocksize fs_len) format
      hash label uuid blocksize start len fs_len false = some (r2, fs2, w2)) (hr2 : r2 ≠ 0)
    (s3 : Int) (fs3 : reiserfs_fs_t) (w3 : World block_image)
    (hJ : reiserfs_fs_journal_create jc env w2 fs2 (some host_dal) start len max_trans =
      some (s3, fs3, w3)) (hs3 : s3 ≠ 0) :
    create_blocksize blocksize ∧ 65536 / blocksize + len + 103 < fs_len ∧
    len + 65536 / blocksize + 3 ≤ 8 * blocksize ∧ fs3.dal = host_dal ∧
    w3.blocksize host_dal = blocksize ∧ create_before_tree blocksize len fs_len fs3 := by
  obtain ⟨hb, hdev, hts⟩ := create_check_inv _ _ _ _ _ hcc
  obtain ⟨ws2, d2, j2, so2, b2, jp2, s2, hjp2⟩ := super_create_inv _ _ _ _ _ _ _ _ _ _ _ _ _ _ rfl
    _ _ _ hB hr2
  have hd2 : fs2.dal = host_dal := d2
  rw [← hd2] at hJ
  obtain ⟨ws3, d3, so3, b3, ⟨jp3, sb3⟩, pc3, _⟩ := fs_journal_create_inv _ _ _ _ _ _ _ _ _ b2 s2
    _ _ _ hJ hs3
  obtain ⟨cnt, _, _, _⟩ := super_create_fields_spec format hash label uuid blocksize len fs_len
  have hb6 : create_blocksize blocksize := by
    rcases hb with hb | hb
    · exact hb
    · have e : (super_create_fields format hash label uuid blocksize len fs_len false).sb_block_size
          = 0 := by
        have := congrArg (fun p => p.2.2.2.1) cnt
        simp only [super_counts] at this
        rw [this, hb]
        norm_num
      rw [e, params_update_blocksize] at hjp2
      cases hjp2
  obtain ⟨hb1, hb2⟩ := create_blocksize_range blocksize hb6
  have hsbq := super_offset_le blocksize hb1
  obtain ⟨hl1, _⟩ := params_check_inv _ _ _ _ _ pc3
  have hS : DEFAULT_SUPER_OFFSET / blocksize = 65536 / blocksize := rfl
  rw [ws2.1, hd2, hbs, so2, hS, Nat.mod_eq_of_lt (show blocksize * 8 < 2 ^ 32 by omega)] at hl1
  rw [hbs] at hts
  obtain ⟨hjm, hsz⟩ := create_journal_fits (65536 / blocksize) len (blocksize * 8) fs_len hsbq
    (by omega) (by omega) hl1 hts
  have hjm2 : len + 65536 / blocksize + 3 ≤ 8 * blocksize := by omega
  obtain ⟨bmC, hbmC, wfC, totC, padC, usedC, bitsC⟩ :=
    create_bitmap_layout blocksize len fs_len hb1 (by omega) hlen hsz hjm2
  have hb3 : fs3.bitmap = some bmC := by
    rw [b3, so2, ← hbmC]
    show some (List.foldl _ (List.foldl _ (reiserfs_bitmap_create (w.blocksize host_dal) _ _) _)
      _) = _
    rw [hbs]
  obtain ⟨k1, k2, k3, k4, k5, k6, k7, k8⟩ := create_super_counts format hash label uuid blocksize
    len fs_len jp2 jp3 hb6 hlen hsz hjm2 _ rfl
  refine ⟨hb6, hsz, hjm2, d3.trans hd2, by rw [ws3.1, ws2.1, hbs], _, bmC, sb3, hb3,
    so3.trans so2, k1, k2, k3, k4, k5, k6, k7, k8, wfC, padC, totC, usedC, bitsC⟩

theorem create_stage_tree (env : fs_env) (w3 : World block_image) (fs3 : reiserfs_fs_t)
    (host_dal len blocksize fs_len : Nat) (hb6 : create_blocksize blocksize)
    (hlen : fs_len + 8 ≤ 2 ^ 31) (hsz : 65536 / blocksize + len + 103 < fs_len)
    (hjm : len + 65536 / blocksize + 3 ≤ 8 * blocksize) (hd3 : fs3.dal = host_dal)
    (hw3 : w3.blocksize host_dal = blocksize)
    (hpre : create_before_tree blocksize len fs_len fs3)
    (s4 : Int) (fs4 : reiserfs_fs_t) (w4 : World block_image)
    (hT : reiserfs_fs_tree_create env w3 fs3 = some (s4, fs4, w4)) (hs4 : s4 ≠ 0)
    (s5 : Int) (fs : reiserfs_fs_t) (w5 : World block_image)
    (hY : reiserfs_fs_sync w4 fs4 = some (s5, fs, w5)) :
    create_layout blocksize len fs_len fs := by
  obtain ⟨sb, bmC, sb3, b3, so3, k1, k2, k3, k4, cur0, hM1, hM2, hl, wfC, padC, totC, usedC,
    hfix⟩ := hpre
  obtain ⟨core5, _⟩ := fs_sync_core _ _ _ _ _ hY
  obtain ⟨r, hr, hr1, hr3⟩ := find_free_first bmC wfC padC 1 (by rw [totC]; omega)
  by_cases hr0 : r = 0
  · subst hr0
    obtain ⟨a, b, e⟩ := tree_create_stage_zero env w3 fs3 bmC b3 hr
    rw [e] at hT
    simp only [Option.some.injEq, Prod.mk.injEq] at hT
    exact absurd hT.1.symm hs4
  rcases hr1 with hr1 | ⟨hr1, hr2, hr4, hr5⟩
  · exact absurd hr1 hr0
  rw [totC] at hr2
  have hroot : (r * w3.blocksize fs3.dal % 2 ^ 64) / w3.blocksize fs3.dal = r := by
    rw [hd3, hw3]
    exact root_offset blocksize r hb6 (by omega)
  obtain ⟨st0, st1⟩ := tree_create_stage env w3 fs3 bmC sb b3 sb3 cur0 hM1 hM2 hl r hr hr0 hroot
  cases hwr : w3.write_ok fs3.dal r with
  | false =>
    obtain ⟨a, b, e⟩ := st0 hwr
    rw [e] at hT
    simp only [Option.some.injEq, Prod.mk.injEq] at hT
    exact absurd hT.1.symm hs4
  | true =>
    obtain ⟨fs4a, w4a, sb4, e, _, b4, s4a, c4, rb4, d4, so4, j4⟩ := st1 hwr
    rw [e] at hT
    simp only [Option.some.injEq, Prod.mk.injEq] at hT
    obtain ⟨_, hT2, _⟩ := hT
    subst hT2
    have k5 : fs.super = some sb4 := (congrArg (fun p => p.2.1) core5).trans s4a
    have k6 : fs.bitmap = some (reiserfs_bitmap_use_block bmC r) :=
      (congrArg (fun p => p.2.2.1) core5).trans b4
    have k7 : fs.super_off = 65536 / blocksize :=
      (congrArg (fun p => p.2.2.2.2) core5).trans (so4.trans so3)
    simp only [super_counts, Prod.mk.injEq] at c4
    obtain ⟨q1, q2, q3, q4, _⟩ := c4
    obtain ⟨wfD, totD⟩ := use_block_wf bmC wfC r
    refine ⟨sb4, _, r, k5, k6, k7, hb6, hsz, hjm, q1.trans k1, q3.trans k2, ?_, ?_, q4.trans k4,
      wfD, ?_, totD.trans totC, ?_, hr1, hr2, ?_, ?_, ?_⟩
    · rw [q2, q3]; exact k3
    · rw [rb4]; exact Nat.mod_eq_of_lt (by omega)
    · intro c hc1 hc2
      rw [totD, totC] at hc1
      rw [use_block_bits_all bmC wfC r c]
      have := padC c (by rw [totC]; exact hc1) (by rw [(use_block_fields bmC r).2.1] at hc2; exact hc2)
      rw [this]
      have : ¬ (c = r ∧ c < bmC.total_blocks) := by rw [totC]; omega
      simp [this]
    · rw [((use_block_spec bmC wfC r (by rw [totC]; exact hr2)).2 hr4), usedC]
      show (_ + 1) % 2 ^ 64 = _
      have h1 := super_offset_le blocksize (create_blocksize_range blocksize hb6).1
      have h2 : (fs_len - 1) / (8 * blocksize) ≤ fs_len - 1 := Nat.div_le_self _ _
      exact Nat.mod_eq_of_lt (by omega)
    · intro hf
      rw [← hfix, hr4] at hf
      cases hf
    · intro c hc1 hc2
      rw [← hfix]
      exact hr5 c hc1 hc2
    · intro c
      rw [use_block_bits_all bmC wfC r c, ← hfix, totC]
      cases bit_set bmC.map c with
      | true => simp
      | false =>
        simp only [Bool.false_or, decide_eq_true_eq, Bool.false_eq_true, false_or]
        constructor
        · exact fun h => h.1
        · intro h; exact ⟨h, by omega⟩

theorem fs_create_inv (jc : journal_consts) (env : fs_env) (w : World block_image)
    (host_dal start max_trans len blocksize format hash : Nat) (label uuid : Option (List Nat))
    (fs_len : Nat) (fs : reiserfs_fs_t) (w1 : World block_image)
    (hbs : w.blocksize host_dal = blocksize) (hlen : fs_len + 8 ≤ 2 ^ 31)
    (h : reiserfs_fs_create jc env w host_dal (some host_dal) start max_trans len blocksize
      format hash label uuid fs_len = some (some fs, w1)) :
    create_layout blocksize len fs_len fs := by
  obtain ⟨hcc, r2, fs2, w2, s3, fs3, w3, s4, fs4, w4, s5, hB, hr2, hJ, hs3, hT, hs4, hY, _⟩ :=
    fs_create_stages _ _ _ _ _ _ _ _ _ _ _ _ _ _ _ h
  obtain ⟨hb6, hsz, hjm, hd3, hw3, hpre⟩ := create_stage_before_tree jc env w host_dal start
    max_trans len blocksize format hash label uuid fs_len hbs hlen hcc r2 fs2 w2 hB hr2 s3 fs3 w3
    hJ hs3
  exact create_stage_tree env w3 fs3 host_dal len blocksize fs_len hb6 hlen hsz hjm hd3 hw3 hpre
    s4 fs4 w4 hT hs4 s5 fs w1 hY

/-! ## Creation succeeds on a device that takes every write -/

theorem fs_create_of_stages (jc : journal_consts) (env : fs_env) (w : World block_image)
    (host_dal start max_trans len blocksize format hash : Nat) (label uuid : Option (List Nat))
    (fs_len : Nat) (hb0 : ¬ w.blocksize host_dal * 8 % 2 ^ 32 = 0)
    (hcc : reiserfs_fs_create_check w host_dal len blocksize fs_len false ≠ 0)
    (r2 : Int) (fs2 : reiserfs_fs_t) (w2 : World block_image)
    (hB : reiserfs_fs_super_create jc env w (create_fs_bitmap w host_dal blocksize fs_len) format
      hash label uuid blocksize start len fs_len false = some (r2, fs2, w2)) (hr2 : r2 ≠ 0)
    (s3 : Int) (fs3 : reiserfs_fs_t) (w3 : World block_image)
    (hJ : reiserfs_fs_journal_create jc env w2 fs2 (some host_dal) start len max_trans =
      some (s3, fs3, w3)) (hs3 : s3 ≠ 0)
    (s4 : Int) (fs4 : reiserfs_fs_t) (w4 : World block_image)
    (hT : reiserfs_fs_tree_create env w3 fs3 = some (s4, fs4, w4)) (hs4 : s4 ≠ 0)
    (s5 : Int) (fs : reiserfs_fs_t) (w5 : World block_image)
    (hY : reiserfs_fs_sync w4 fs4 = some (s5, fs, w5)) (hs5 : s5 ≠ 0) :
    reiserfs_fs_create jc env w host_dal (some host_dal) start max_trans len blocksize
      format hash label uuid fs_len = some (some fs, w5) := by
  have hB2 := hB
  unfold create_fs_bitmap fs_calloc at hB2
  unfold reiserfs_fs_create
  simp only [ne_eq, not_true_eq_false, decide_False, reiserfs_fs_bitmap_create,
    fs_calloc, hb0, hcc, if_false, one_ne_zero, hB2, hr2, hJ, hs3, hT, hs4, hY, hs5]

theorem create_free_exists (blocksize len fs_len : Nat) (hb : create_blocksize blocksize)
    (hsz : 65536 / blocksize + len + 103 < fs_len)
    (hjm : len + 65536 / blocksize + 3 ≤ 8 * blocksize) :
    ∃ c, 1 ≤ c ∧ c < fs_len ∧ ¬ create_fixed blocksize len fs_len c := by
  unfold create_fixed
  generalize 65536 / blocksize = sbo at *
  generalize (fs_len - 1) / (8 * blocksize) = q at *
  have key : ∀ c, sbo + 2 + len < c → c ≤ sbo + len + 4 →
      (c ≤ sbo + 1 ∨ (∃ i, 1 ≤ i ∧ i ≤ q ∧ c = i * (8 * blocksize)) ∨
        (sbo + 2 ≤ c ∧ c ≤ sbo + 2 + len)) → c = 8 * blocksize := by
    intro c h1 h2 hf
    rcases hf with h | ⟨i, hi1, _, hi3⟩ | h
    · omega
    · rcases hb with rfl | rfl | rfl | rfl | rfl | rfl <;> omega
    · omega
  by_cases h : (sbo + len + 3 ≤ sbo + 1 ∨ (∃ i, 1 ≤ i ∧ i ≤ q ∧ sbo + len + 3 = i * (8 * blocksize)) ∨
        (sbo + 2 ≤ sbo + len + 3 ∧ sbo + len + 3 ≤ sbo + 2 + len))
  · have e1 := key _ (by omega) (by omega) h
    refine ⟨sbo + len + 4, by omega, by omega, ?_⟩
    intro h2
    have e2 := key _ (by omega) (by omega) h2
    omega
  · exact ⟨sbo + len + 3, by omega, by omega, h⟩

theorem fs_create_total (jc : journal_consts) (env : fs_env) (w : World block_image)
    (host_dal start max_trans len blocksize format hash : Nat) (label uuid : Option (List Nat))
    (fs_len : Nat) (hbs : w.blocksize host_dal = blocksize) (hb : create_blocksize blocksize)
    (hw : ∀ d b, w.write_ok d b = true) (hdev : fs_len ≤ w.len host_dal)
    (hlen : fs_len + 8 ≤ 2 ^ 31) (hsz : 65536 / blocksize + len + 103 < fs_len)
    (hjm : len + 65536 / blocksize + 3 ≤ 8 * blocksize)
    (hjl : len = 0 ∨ jc.JOURNAL_MIN_SIZE ≤ len) (hjc : 4 ≤ jc.JOURNAL_MAX_TRANS) :
    ∃ fs w1, reiserfs_fs_create jc env w host_dal (some host_dal) start max_trans len blocksize
      format hash label uuid fs_len = some (some fs, w1) := by
  obtain ⟨hb1, hb2⟩ := create_blocksize_range blocksize hb
  have hsbq := super_offset_le blocksize hb1
  have hb0 : ¬ w.blocksize host_dal * 8 % 2 ^ 32 = 0 := by rw [hbs]; omega
  have hcc := create_check_ok w host_dal len blocksize fs_len hb hbs hdev hsz
  obtain ⟨cnt, _, _, _⟩ := super_create_fields_spec format hash label uuid blocksize len fs_len
  have hsize : (super_create_fields format hash label uuid blocksize len fs_len false).sb_block_size
      = blocksize := by
    have := congrArg (fun p => p.2.2.2.1) cnt
    simp only [super_counts] at this
    rw [this]
    exact Nat.mod_eq_of_lt (by omega)
  -- the superblock
  obtain ⟨fs2, w2, hB⟩ := super_create_total jc env w (create_fs_bitmap w host_dal blocksize fs_len)
    format hash label uuid blocksize start len fs_len false _ rfl (hw host_dal) (by omega)
    (by rw [hsize]; exact params_update_isSome _ _ _ _ _ _ _ _ hb hjc)
  obtain ⟨ws2, d2, j2, so2, b2, jp2, s2, _⟩ := super_create_inv _ _ _ _ _ _ _ _ _ _ _ _ _ _ rfl
    _ _ _ hB one_ne_zero
  have hd2 : fs2.dal = host_dal := d2
  have hw2 : ∀ d b, w2.write_ok d b = true := by intro d b; rw [ws2.2.2.1]; exact hw d b
  have hbs2 : w2.blocksize fs2.dal = blocksize := by rw [ws2.1, hd2, hbs]
  -- the journal
  have hpc : reiserfs_journal_params_check jc w2 fs2.dal ((fs2.super_off + 2) % 2 ^ 64) len
      false ≠ 0 := by
    have := params_check_ok jc w2 fs2.dal len
      (by
        rw [hbs2]
        generalize 65536 / blocksize = sbo at *
        unfold ulong
        omega) hjl
    rw [hbs2] at this
    rw [so2]
    exact this
  obtain ⟨fs3, w3, hJ⟩ := fs_journal_create_total jc env w2 fs2 start len max_trans _ _ b2 s2 j2
    (hw2 fs2.dal) hpc (by rw [hbs2]; exact params_update_isSome _ _ _ _ _ _ _ _ hb hjc)
  obtain ⟨ws3, d3, so3, b3, _, _, journal, hj3, hjd⟩ := fs_journal_create_inv _ _ _ _ _ _ _ _ _ b2
    s2 _ _ _ hJ one_ne_zero
  rw [hd2] at hJ
  obtain ⟨_, _, _, hd3, hw3b, hpre⟩ := create_stage_before_tree jc env w host_dal start
    max_trans len blocksize format hash label uuid fs_len hbs hlen hcc 1 fs2 w2 hB one_ne_zero
    1 fs3 w3 hJ one_ne_zero
  have hw3 : ∀ d b, w3.write_ok d b = true := by intro d b; rw [ws3.2.2.1]; exact hw2 d b
  -- the tree
  obtain ⟨sb, bmC, sb3, bm3, so3b, k1, k2, k3, k4, cur0, hM1, hM2, hl, wfC, padC, totC, usedC,
    hfix⟩ := hpre
  obtain ⟨r, hr, hr1, hr3⟩ := find_free_first bmC wfC padC 1 (by rw [totC]; omega)
  obtain ⟨c, hc1, hc2, hc3⟩ := create_free_exists blocksize len fs_len hb hsz hjm
  have hr0 : r ≠ 0 := by
    intro h0
    rcases hr3 h0 with h | h
    · have := h c hc1 (by rw [totC]; exact hc2)
      rw [hfix] at this
      exact hc3 this
    · omega
  rcases hr1 with hr1 | ⟨hr1, hr2, hr4, hr5⟩
  · exact absurd hr1 hr0
  rw [totC] at hr2
  have hroot : (r * w3.blocksize fs3.dal % 2 ^ 64) / w3.blocksize fs3.dal = r := by
    rw [hd3, hw3b]
    exact root_offset blocksize r hb (by omega)
  obtain ⟨_, st1⟩ := tree_create_stage env w3 fs3 bmC sb bm3 sb3 cur0 hM1 hM2 hl r hr hr0 hroot
  obtain ⟨fs4, w4, sb4, hT, ws4, b4, s4, _, _, d4, _, j4⟩ := st1 (hw3 fs3.dal r)
  -- the synchronisation
  have hw4 : ∀ d b, w4.write_ok d b = true := by intro d b; rw [ws4.2.2.1]; exact hw3 d b
  have hbs4 : w4.blocksize fs4.dal = blocksize := by rw [ws4.1, d4, hd3, hw3b]
  obtain ⟨wfD, totD⟩ := use_block_wf bmC wfC r
  have hsize4 : (reiserfs_bitmap_use_block bmC r).size < 2 ^ 32 := by
    have h1 := wfD.1
    have h2 := wfD.2.1
    omega
  obtain ⟨fs5, w5, hY⟩ := fs_sync_total w4 fs4 sb4 _ journal s4 b4 (j4.trans hj3) hw4
    (by rw [hbs4]; omega) (by rw [hbs4]; omega) hsize4
  exact ⟨fs5, w5, fs_create_of_stages jc env w host_dal start max_trans len blocksize format hash
    label uuid fs_len hb0 hcc 1 fs2 w2 hB one_ne_zero 1 fs3 w3 hJ one_ne_zero 1 fs4 w4 hT
    one_ne_zero 1 fs5 w5 hY one_ne_zero⟩

theorem find_free_zero_eq (bm : reiserfs_bitmap) (hwf : bitmap_wf bm) (hpad : padding_zero bm)
    (c0 : Nat) (hc : c0 < bm.total_blocks) (hset : ∀ c, c < c0 → bit_set bm.map c = true)
    (hclr : bit_set bm.map c0 = false) (h0 : 0 < c0) :
    reiserfs_bitmap_find_free bm 0 = some c0 := by
  obtain ⟨r, hr, hr1, hr3⟩ := find_free_first bm hwf hpad 0 (by omega)
  rw [hr]
  have hr0 : r ≠ 0 := by
    intro h
    rcases hr3 h with h1 | h1
    · have := h1 c0 (by omega) hc
      rw [hclr] at this
      cases this
    · have := hset 0 h0
      rw [h1.2] at this
      cases this
  rcases hr1 with hr1 | ⟨_, hr2, hr4, hr5⟩
  · exact absurd hr1 hr0
  · congr 1
    by_contra hne
    rcases Nat.lt_or_gt_of_ne hne with h | h
    · have := hset r h
      rw [hr4] at this
      cases this
    · have := hr5 c0 (by omega) h
      rw [hclr] at this
      cases this

/-- Where the count of bitmap blocks fits the 16-bit field `sb_bmap_nr` and the block numbers
fit the `int` parameter of the bit tools: after `reiserfs_fs_create` succeeds on a host
device opened with the block size of the filesystem, with the journal on the host device
(in-band journal of length `len`), for a size `fs_len` with `fs_len + 8 ≤ 2^31` that needs
fewer than 2^16 bitmap blocks, the superblock and the in-memory bitmap agree:
`free_blocks + used_blocks = block_count = fs_len`, and a bit of the bitmap is set exactly
for the skipped area and superblock `[0, super_off]`, the bitmap blocks (`super_off + 1` and
`i * 8 * blocksize` for `1 ≤ i < bmap_nr`), the journal blocks
`[super_off + 2, super_off + 2 + len]` and the root block. -/
theorem create_counts_agree (jc : journal_consts) (env : fs_env) (w : World block_image)
    (host_dal start max_trans len blocksize format hash : Nat) (label uuid : Option (List Nat))
    (fs_len : Nat) (fs : reiserfs_fs_t) (w1 : World block_image)
    (hbs : w.blocksize host_dal = blocksize) (hlen : fs_len + 8 ≤ 2 ^ 31)
    (hbm : (fs_len - 1) / (8 * blocksize) + 1 < 2 ^ 16)
    (h : reiserfs_fs_create jc env w host_dal (some host_dal) start max_trans len blocksize
      format hash label uuid fs_len = some (some fs, w1)) :
    ∃ sb bm, fs.super = some sb ∧ fs.bitmap = some bm ∧
      sb.sb_free_blocks + bm.used_blocks = sb.sb_block_count ∧ sb.sb_block_count = fs_len ∧
      ∀ c, bit_set bm.map c = true ↔
        (c ≤ fs.super_off ∨
         (c = fs.super_off + 1 ∨ ∃ i, 1 ≤ i ∧ i < sb.sb_bmap_nr ∧ c = i * (8 * blocksize)) ∨
         (fs.super_off + 2 ≤ c ∧ c ≤ fs.super_off + 2 + len) ∨ c = sb.sb_root_block) := by
  obtain ⟨sb, bm, root, h1, h2, h3, _, _, _, h7, h8, h9, h10, _, _, _, _, h15, _, _, _, _, h20⟩ :=
    fs_create_inv jc env w host_dal start max_trans len blocksize format hash label uuid fs_len
      fs w1 hbs hlen h
  have e8 : sb.sb_bmap_nr = (fs_len - 1) / (8 * blocksize) + 1 := by
    rw [h8]; exact Nat.mod_eq_of_lt hbm
  refine ⟨sb, bm, h1, h2, ?_, h7, ?_⟩
  · rw [h15, h7]
    rw [e8] at h9
    omega
  · intro c
    rw [h20 c, h3, e8, h10]
    unfold create_fixed
    constructor
    · rintro ((hc | ⟨i, hi1, hi2, hi3⟩ | hc) | hc)
      · by_cases hc2 : c = 65536 / blocksize + 1
        · right; left; left; exact hc2
        · left; omega
      · right; left; right; exact ⟨i, hi1, by omega, hi3⟩
      · right; right; left; exact hc
      · right; right; right; exact hc
    · rintro (hc | (hc | ⟨i, hi1, hi2, hi3⟩) | hc | hc)
      · left; left; omega
      · left; left; omega
      · left; right; left; exact ⟨i, hi1, by omega, hi3⟩
      · left; right; right; exact hc
      · right; exact hc

theorem create_counts_agree_example :
    ∃ fs w1, reiserfs_fs_create journal_consts_reference create_example_env
        (create_world 4096 10000) 0 (some 0) 0 0 8192 4096 FS_FORMAT_3_6 3 none none 10000 =
        some (some fs, w1) ∧
      ∃ sb bm, fs.super = some sb ∧ fs.bitmap = some bm ∧
        sb.sb_free_blocks + bm.used_blocks = sb.sb_block_count ∧ sb.sb_block_count = 10000 ∧
        ∀ c, bit_set bm.map c = true ↔
          (c ≤ fs.super_off ∨
           (c = fs.super_off + 1 ∨ ∃ i, 1 ≤ i ∧ i < sb.sb_bmap_nr ∧ c = i * (8 * 4096)) ∨
           (fs.super_off + 2 ≤ c ∧ c ≤ fs.super_off + 2 + 8192) ∨ c = sb.sb_root_block) := by
  obtain ⟨fs, w1, h⟩ := fs_create_total journal_consts_reference create_example_env
    (create_world 4096 10000) 0 0 0 8192 4096 FS_FORMAT_3_6 3 none none 10000 rfl
    (Or.inr (Or.inr (Or.inl rfl))) (fun _ _ => rfl) (by decide) (by norm_num) (by norm_num)
    (by norm_num) (Or.inr (by decide)) (by decide)
  exact ⟨fs, w1, h, create_counts_agree journal_consts_reference create_example_env
    (create_world 4096 10000) 0 0 0 8192 4096 FS_FORMAT_3_6 3 none none 10000 fs w1 rfl
    (by norm_num) (by norm_num) h⟩

/-- C14 (the code departs from the claim): for a filesystem of 2^29 blocks of 1024 bytes,
which needs 65536 bitmap blocks, `reiserfs_fs_create` succeeds. The bitmap marks every one
of the 65536 bitmap blocks as used, as the comment in `reiserfs_fs_super_create` lists them,
but `free_blocks` is computed from the 16-bit field `sb_bmap_nr`, which holds 0: it is
536870845 while 65603 blocks are marked used, and `free_blocks + used_blocks` exceeds
`block_count` by 65536. -/
theorem C14_create_free_blocks_from_truncated_bmap_nr :
    ∃ fs w1 sb bm, reiserfs_fs_create journal_consts_reference create_example_env
        (create_world 1024 536870912) 0 (some 0) 0 0 0 1024 FS_FORMAT_3_6 3 none none
        536870912 = some (some fs, w1) ∧
      fs.super = some sb ∧ fs.bitmap = some bm ∧ sb.sb_block_count = 536870912 ∧
      sb.sb_bmap_nr = 0 ∧ sb.sb_free_blocks = 536870845 ∧ bm.used_blocks = 65603 ∧
      sb.sb_free_blocks + bm.used_blocks ≠ sb.sb_block_count := by
  obtain ⟨fs, w1, h⟩ := fs_create_total journal_consts_reference create_example_env
    (create_world 1024 536870912) 0 0 0 0 1024 FS_FORMAT_3_6 3 none none 536870912 rfl
    (Or.inl rfl) (fun _ _ => rfl) (by decide) (by norm_num) (by norm_num)
    (by norm_num) (Or.inl rfl) (by decide)
  obtain ⟨sb, bm, root, h1, h2, _, _, _, _, h7, h8, h9, _, _, _, _, _, h15, _⟩ :=
    fs_create_inv journal_consts_reference create_example_env
      (create_world 1024 536870912) 0 0 0 0 1024 FS_FORMAT_3_6 3 none none 536870912 fs w1 rfl
      (by norm_num) h
  have e8 : sb.sb_bmap_nr = 0 := h8.trans (by norm_num)
  have e15 : bm.used_blocks = 65603 := h15.trans (by norm_num)
  have e9 : sb.sb_free_blocks = 536870845 := by
    rw [e8] at h9
    norm_num at h9
    omega
  exact ⟨fs, w1, sb, bm, h, h1, h2, h7, e8, e9, e15, by omega⟩

/-- C15 (amended): after `reiserfs_fs_create` with an in-band journal of length `len` on a
host device opened with the block size of the filesystem, for every accepted size that
needs one bitmap block (`fs_len ≤ 8 * blocksize`), `bmap_nr` is 1, the first
`N = super_off + 1 + bmap_nr + len + 1 + 1` bits of the bitmap are all set and
`reiserfs_bitmap_find_free(0)` returns exactly `N`. -/
theorem C15_first_free_after_create (jc : journal_consts) (env : fs_env)
    (w : World block_image) (host_dal start max_trans len blocksize format hash : Nat)
    (label uuid : Option (List Nat)) (fs_len : Nat) (fs : reiserfs_fs_t)
    (w1 : World block_image) (hbs : w.blocksize host_dal = blocksize)
    (hone : fs_len ≤ 8 * blocksize)
    (h : reiserfs_fs_create jc env w host_dal (some host_dal) start max_trans len blocksize
      format hash label uuid fs_len = some (some fs, w1)) :
    ∃ sb bm, fs.super = some sb ∧ fs.bitmap = some bm ∧ sb.sb_bmap_nr = 1 ∧
      (∀ c, c < fs.super_off + 1 + sb.sb_bmap_nr + len + 1 + 1 → bit_set bm.map c = true) ∧
      reiserfs_bitmap_find_free bm 0 =
        some (fs.super_off + 1 + sb.sb_bmap_nr + len + 1 + 1) := by
  obtain ⟨hcc, _⟩ := fs_create_stages _ _ _ _ _ _ _ _ _ _ _ _ _ _ _ h
  obtain ⟨hb, _, _⟩ := create_check_inv _ _ _ _ _ hcc
  have hlen : fs_len + 8 ≤ 2 ^ 31 := by
    rcases hb with hb | hb
    · have := create_blocksize_range blocksize hb
      omega
    · omega
  obtain ⟨sb, bm, root, h1, h2, h3, h4, h5, h6, h7, h8, h9, h10, h11, h12, h13, h14, h15, h16,
    h17, h18, h19, h20⟩ := fs_create_inv jc env w host_dal start max_trans len blocksize format
      hash label uuid fs_len fs w1 hbs hlen h
  obtain ⟨hb1, hb2⟩ := create_blocksize_range blocksize h4
  have hq : (fs_len - 1) / (8 * blocksize) = 0 := Nat.div_eq_of_lt (by omega)
  have e8 : sb.sb_bmap_nr = 1 := by rw [h8, hq]; norm_num
  have hfix : ∀ c, create_fixed blocksize len fs_len c ↔ c ≤ 65536 / blocksize + 2 + len := by
    intro c
    unfold create_fixed
    rw [hq]
    constructor
    · rintro (hc | ⟨i, hi1, hi2, _⟩ | hc) <;> omega
    · intro hc
      by_cases hc2 : c ≤ 65536 / blocksize + 1
      · left; exact hc2
      · right; right; omega
  have hroot : root = 65536 / blocksize + len + 3 := by
    rw [hfix] at h18
    by_contra hne
    have := h19 (65536 / blocksize + len + 3) (by omega) (by omega)
    rw [hfix] at this
    omega
  have hbits : ∀ c, bit_set bm.map c = true ↔ c ≤ 65536 / blocksize + len + 3 := by
    intro c
    rw [h20, hfix, hroot]
    omega
  refine ⟨sb, bm, h1, h2, e8, ?_, ?_⟩
  · intro c hc
    rw [hbits, ← h3]
    omega
  · rw [h3, e8]
    apply find_free_zero_eq bm h12 h13
    · rw [h14]; omega
    · intro c hc
      rw [hbits]
      omega
    · cases hb : bit_set bm.map (65536 / blocksize + 1 + 1 + len + 1 + 1) with
      | false => rfl
      | true =>
        rw [hbits] at hb
        omega
    · omega

theorem C15_first_free_after_create_witness :
    ∃ fs w1, reiserfs_fs_create journal_consts_reference create_example_env
        (create_world 4096 10000) 0 (some 0) 0 0 8192 4096 FS_FORMAT_3_6 3 none none 10000 =
        some (some fs, w1) ∧
      ∃ sb bm, fs.super = some sb ∧ fs.bitmap = some bm ∧ sb.sb_bmap_nr = 1 ∧
        (∀ c, c < fs.super_off + 1 + sb.sb_bmap_nr + 8192 + 1 + 1 → bit_set bm.map c = true) ∧
        reiserfs_bitmap_find_free bm 0 = some (fs.super_off + 1 + sb.sb_bmap_nr + 8192 + 1 + 1) := by
  obtain ⟨fs, w1, h⟩ := fs_create_total journal_consts_reference create_example_env
    (create_world 4096 10000) 0 0 0 8192 4096 FS_FORMAT_3_6 3 none none 10000 rfl
    (Or.inr (Or.inr (Or.inl rfl))) (fun _ _ => rfl) (by decide) (by norm_num) (by norm_num)
    (by norm_num) (Or.inr (by decide)) (by decide)
  exact ⟨fs, w1, h, C15_first_free_after_create journal_consts_reference create_example_env
    (create_world 4096 10000) 0 0 0 8192 4096 FS_FORMAT_3_6 3 none none 10000 fs w1 rfl
    (by norm_num) h⟩

/-- C15 as stated fails for a filesystem of 10000 blocks of 1024 bytes with a 512-block
journal, which needs two bitmap blocks: `reiserfs_fs_create` succeeds with `bmap_nr = 2`, so
`N = 64 + 1 + 2 + 512 + 1 + 1 = 581`, but the second bitmap block is block 8192, bit 580 is
clear and `reiserfs_bitmap_find_free(0)` returns 580. -/
theorem C15_counterexample_two_bitmap_blocks :
    ∃ fs w1 sb bm, reiserfs_fs_create journal_consts_reference create_example_env
        (create_world 1024 10000) 0 (some 0) 0 0 512 1024 FS_FORMAT_3_6 3 none none 10000 =
        some (some fs, w1) ∧
      fs.super = some sb ∧ fs.bitmap = some bm ∧
      fs.super_off + 1 + sb.sb_bmap_nr + 512 + 1 + 1 = 581 ∧
      bit_set bm.map 580 = false ∧ reiserfs_bitmap_find_free bm 0 = some 580 := by
  obtain ⟨fs, w1, h⟩ := fs_create_total journal_consts_reference create_example_env
    (create_world 1024 10000) 0 0 0 512 1024 FS_FORMAT_3_6 3 none none 10000 rfl
    (Or.inl rfl) (fun _ _ => rfl) (by decide) (by norm_num) (by norm_num)
    (by norm_num) (Or.inr (by decide)) (by decide)
  obtain ⟨sb, bm, root, h1, h2, h3, h4, h5, h6, h7, h8, h9, h10, h11, h12, h13, h14, h15, h16,
    h17, h18, h19, h20⟩ := fs_create_inv journal_consts_reference create_example_env
      (create_world 1024 10000) 0 0 0 512 1024 FS_FORMAT_3_6 3 none none 10000 fs w1 rfl
      (by norm_num) h
  have e8 : sb.sb_bmap_nr = 2 := h8.trans (by norm_num)
  have hfix : ∀ c, create_fixed 1024 512 10000 c ↔ (c ≤ 578 ∨ c = 8192) := by
    intro c
    unfold create_fixed
    norm_num
    constructor
    · rintro (hc | ⟨i, hi1, hi2, hi3⟩ | hc) <;> omega
    · rintro (hc | hc)
      · by_cases hc2 : c ≤ 65
        · left; exact hc2
        · right; right; omega
      · right; left; exact ⟨1, le_refl _, le_refl _, by omega⟩
  have hroot : root = 579 := by
    rw [hfix] at h18
    by_contra hne
    have := h19 579 (by omega) (by omega)
    rw [hfix] at this
    omega
  have hbits : ∀ c, bit_set bm.map c = true ↔ (c ≤ 579 ∨ c = 8192) := by
    intro c
    rw [h20, hfix, hroot]
    omega
  have hclr : bit_set bm.map 580 = false := by
    cases hb : bit_set bm.map 580 with
    | false => rfl
    | true =>
      rw [hbits] at hb
      omega
  refine ⟨fs, w1, sb, bm, h, h1, h2, ?_, hclr, ?_⟩
  · rw [h3, e8]
  · apply find_free_zero_eq bm h12 h13 580 (by rw [h14]; norm_num) ?_ hclr (by norm_num)
    intro c hc
    rw [hbits]
    omega

/-! ## Reading a direct item -/

theorem file_example_stuck_seek :
    reiserfs_file_seek 4 (file_example_world file_example_digits)
      (file_example file_example_digits 5 4 3) 4 =
      some (1, file_example file_example_digits 5 4 3) := by
  decide

theorem file_example_stuck_read :
    reiserfs_file_read_item (file_example file_example_digits 5 4 3) 0 =
      some (1, file_example file_example_digits 5 4 3, []) := by
  decide

theorem file_example_stuck (fuel : Nat) :
    reiserfs_file_read_loop 4 (file_example_world file_example_digits) 4 fuel
      (file_example file_example_digits 5 4 3) 4 4 [48, 49, 50, 51] = none := by
  induction fuel with
  | zero => rfl
  | succ fuel ih =>
    have e1 : (file_example file_example_digits 5 4 3).offset = 4 := rfl
    simp only [reiserfs_file_read_loop, e1, file_example_stuck_seek]
    have e2 : (4 + 2 ^ 64 - 4) % 2 ^ 64 = 0 := by norm_num
    simp only [one_ne_zero, if_false, e2, file_example_stuck_read]
    have e3 : buffer_put [48, 49, 50, 51] 4 [] = [48, 49, 50, 51] := by decide
    have e4 : (4 + 0) % 2 ^ 64 = 4 := by norm_num
    simp only [e1, e2, e3, e4]
    exact ih

theorem file_example_first_steps (fuel : Nat) :
    reiserfs_file_read_loop 4 (file_example_world file_example_digits) 4 (fuel + 2)
      (file_example file_example_digits 2305843009213693953 0 0) 0 0 [0, 0, 0, 0] =
    reiserfs_file_read_loop 4 (file_example_world file_example_digits) 4 fuel
      (file_example file_example_digits 5 4 3) 4 4 [48, 49, 50, 51] := by
  have s1 : reiserfs_file_seek 4 (file_example_world file_example_digits)
      (file_example file_example_digits 2305843009213693953 0 0) 0 =
      some (1, file_example file_example_digits 1 0 0) := by decide
  have r1 : reiserfs_file_read_item (file_example file_example_digits 1 0 0) 4 =
      some (1, file_example file_example_digits 1 4 4, [48, 49, 50, 51]) := by decide
  have s2 : reiserfs_file_seek 4 (file_example_world file_example_digits)
      (file_example file_example_digits 1 4 4) 4 =
      some (1, file_example file_example_digits 5 4 3) := by decide
  have e0 : (file_example file_example_digits 2305843009213693953 0 0).offset = 0 := rfl
  have e1 : (file_example file_example_digits 1 4 4).offset = 4 := rfl
  have e5 : (file_example file_example_digits 5 4 3).offset = 4 := rfl
  have a1 : (4 + 2 ^ 64 - 0) % 2 ^ 64 = 4 := by norm_num
  have a2 : (0 + (4 + 2 ^ 64 - 0) % 2 ^ 64) % 2 ^ 64 = 4 := by norm_num
  have a3 : (4 + 2 ^ 64 - 4) % 2 ^ 64 = 0 := by norm_num
  have a4 : (4 + (4 + 2 ^ 64 - 4) % 2 ^ 64) % 2 ^ 64 = 4 := by norm_num
  have a5 : (0 + 4) % 2 ^ 64 = 4 := by norm_num
  have a6 : (4 + 0) % 2 ^ 64 = 4 := by norm_num
  have b1 : buffer_put [0, 0, 0, 0] 0 [48, 49, 50, 51] = [48, 49, 50, 51] := by decide
  have b2 : buffer_put [48, 49, 50, 51] 4 [] = [48, 49, 50, 51] := by decide
  rw [reiserfs_file_read_loop]
  simp only [e0, s1, one_ne_zero, if_false, a1, r1, e1, a2, a5, b1]
  rw [reiserfs_file_read_loop]
  simp only [e1, s2, one_ne_zero, if_false, a3, file_example_stuck_read, e5, a4, a5, a6, b2]

/-- C16 fails in `reiserfs_file_read`, whose loop `while (reiserfs_file_seek(file,
file->offset))` has no test of `readed < size`, and in `reiserfs_file_seek`, which takes the
1-based offset of the item key for a 0-based one. For the file "0123456789" stored as one
direct item: (1) rewound, a read of 4 bytes never returns, whatever the fuel: after the
first 4 bytes every further iteration seeks to offset 4 with success and copies 0 bytes;
(2) positioned at offset 2 by `reiserfs_file_seek`, a read of 8 bytes returns 8 but copies
the bytes 1..8, "12345678", and a read of 100 bytes returns 9; (3) a file of 3 bytes is
not read at all, `reiserfs_file_read` returns 0. -/
theorem C16_file_read_direct_item_diverges :
    reiserfs_file_rewind 4 (file_example_world file_example_digits)
      (file_example_closed file_example_digits) =
      some (1, file_example file_example_digits 2305843009213693953 0 0) ∧
    (∀ fuel, reiserfs_file_read fuel 4 (file_example_world file_example_digits)
      (file_example file_example_digits 2305843009213693953 0 0) [0, 0, 0, 0] 4 = none) ∧
    reiserfs_file_seek 4 (file_example_world file_example_digits)
      (file_example file_example_digits 5 4 3) 4 =
      some (1, file_example file_example_digits 5 4 3) ∧
    reiserfs_file_read_item (file_example file_example_digits 5 4 3) 0 =
      some (1, file_example file_example_digits 5 4 3, []) ∧
    reiserfs_file_seek 4 (file_example_world file_example_digits)
      (file_example file_example_digits 2305843009213693953 0 0) 2 =
      some (1, file_example file_example_digits 3 2 1) ∧
    (reiserfs_file_read 4 4 (file_example_world file_example_digits)
      (file_example file_example_digits 3 2 1) [0, 0, 0, 0, 0, 0, 0, 0] 8).map
      (fun r => (r.1, r.2.2)) = some (8, [49, 50, 51, 52, 53, 54, 55, 56]) ∧
    (reiserfs_file_read 4 4 (file_example_world file_example_digits)
      (file_example file_example_digits 3 2 1) (List.replicate 100 0) 100).map
      (fun r => (r.1, r.2.2.take 10)) = some (9, [49, 50, 51, 52, 53, 54, 55, 56, 57, 0]) ∧
    (reiserfs_file_rewind 4 (file_example_world [97, 98, 99])
      (file_example_closed [97, 98, 99])).bind
      (fun f => (reiserfs_file_read 4 4 (file_example_world [97, 98, 99]) f.2 [0, 0, 0] 3).map
        (fun r => (f.1, r.1, r.2.2))) = some (1, 0, [0, 0, 0]) := by
  refine ⟨by decide, ?_, file_example_stuck_seek, file_example_stuck_read, by decide, by decide,
    by decide, by decide⟩
  intro fuel
  have hlt : ¬ (file_example file_example_digits 2305843009213693953 0 0).offset ≥
      (file_example file_example_digits 2305843009213693953 0 0).size := by decide
  have e0 : (file_example file_example_digits 2305843009213693953 0 0).offset = 0 := rfl
  unfold reiserfs_file_read
  rw [if_neg hlt, e0]
  match fuel with
  | 0 => rfl
  | 1 =>
    have s1 : reiserfs_file_seek 4 (file_example_world file_example_digits)
        (file_example file_example_digits 2305843009213693953 0 0) 0 =
        some (1, file_example file_example_digits 1 0 0) := by decide
    have r1 : reiserfs_file_read_item (file_example file_example_digits 1 0 0) 4 =
        some (1, file_example file_example_digits 1 4 4, [48, 49, 50, 51]) := by decide
    have a1 : (4 + 2 ^ 64 - 0) % 2 ^ 64 = 4 := by norm_num
    rw [reiserfs_file_read_loop]
    simp only [e0, s1, one_ne_zero, if_false, a1, r1, reiserfs_file_read_loop]
  | fuel + 2 =>
    rw [file_example_first_steps, file_example_stuck]

/-! ## Use followed by unuse (C24) -/

theorem use_unuse_used_blocks (bitmap : reiserfs_bitmap) (hl : bitmap_layout bitmap) (b : Nat)
    (hb : b < bitmap.total_blocks) (hb31 : b < 2 ^ 31) :
    (reiserfs_bitmap_unuse_block (reiserfs_bitmap_use_block bitmap b) b).used_blocks =
      (if bit_set bitmap.map b = true then (bitmap.used_blocks + 2 ^ 64 - 1) % 2 ^ 64
       else ((bitmap.used_blocks + 1) % 2 ^ 64 + 2 ^ 64 - 1) % 2 ^ 64) := by
  have hb1 : b < (reiserfs_bitmap_use_block bitmap b).total_blocks := by
    rw [(use_block_fields bitmap b).1]; exact hb
  have hset : bit_set (reiserfs_bitmap_use_block bitmap b).map b = true := by
    rw [use_block_bits_int bitmap hl b hb hb31 b]; simp
  rw [(unuse_block_spec_int _ b hb1 hb31).2 hset]
  by_cases h : bit_set bitmap.map b = true
  · rw [if_pos h, (use_block_spec_int bitmap b hb hb31).1 h]
  · have h0 : bit_set bitmap.map b = false := by simpa using h
    rw [if_neg h, (use_block_spec_int bitmap b hb hb31).2 h0]

/-- C24 (as amended): on a bitmap laid out as `reiserfs_bitmap_alloc` does, with `used_blocks`
in the range of `count_t`, for a block `b` in range that fits the `int` parameter of the bit
tools (`b < 2^31`), after `reiserfs_bitmap_use_block` followed by
`reiserfs_bitmap_unuse_block` on `b` the counter `used_blocks` equals its value before the
two calls if and only if bit `b` was initially clear; when bit `b` was initially set the
counter is one less (in `count_t` arithmetic) and bit `b` ends clear in both cases. -/
theorem C24_use_unuse_used_blocks (bitmap : reiserfs_bitmap) (hl : bitmap_layout bitmap)
    (hu : bitmap.used_blocks < 2 ^ 64) (b : Nat) (hb : b < bitmap.total_blocks)
    (hb31 : b < 2 ^ 31) :
    ((reiserfs_bitmap_unuse_block (reiserfs_bitmap_use_block bitmap b) b).used_blocks =
        bitmap.used_blocks ↔ bit_set bitmap.map b = false) ∧
    (bit_set bitmap.map b = true →
      (reiserfs_bitmap_unuse_block (reiserfs_bitmap_use_block bitmap b) b).used_blocks =
        (bitmap.used_blocks + 2 ^ 64 - 1) % 2 ^ 64) ∧
    bit_set (reiserfs_bitmap_unuse_block (reiserfs_bitmap_use_block bitmap b) b).map b = false := by
  have hl1 := use_block_layout bitmap hl b
  have hb1 : b < (reiserfs_bitmap_use_block bitmap b).total_blocks := by
    rw [(use_block_fields bitmap b).1]; exact hb
  rw [use_unuse_used_blocks bitmap hl b hb hb31]
  refine ⟨?_, ?_, ?_⟩
  · by_cases h : bit_set bitmap.map b = true
    · rw [if_pos h]
      constructor
      · intro e; exfalso; omega
      · intro e; rw [h] at e; cases e
    · have h0 : bit_set bitmap.map b = false := by simpa using h
      rw [if_neg h]
      constructor
      · intro _; exact h0
      · intro _; omega
  · intro h; rw [if_pos h]
  · rw [unuse_block_bits_int _ hl1 b hb1 hb31 b]; simp

theorem C24_use_unuse_used_blocks_witness :
    (reiserfs_bitmap_unuse_block (reiserfs_bitmap_use_block bitmap_example 11) 11).used_blocks =
        bitmap_example.used_blocks ∧
    bit_set bitmap_example.map 11 = false :=
  ⟨(C24_use_unuse_used_blocks bitmap_example bitmap_example_layout (by decide) 11 (by decide)
      (by norm_num)).1.2 (by decide), by decide⟩

/-- C24, the claim as first stated fails: in the example bitmap bit 0 is initially set and
`used_blocks` is 19, yet after `reiserfs_bitmap_use_block` and `reiserfs_bitmap_unuse_block`
on block 0 the counter is 18; and bit 11 is initially clear while the counter comes back
to 19. The bound on `b` is needed as well: in the bitmap of 2^31 + 8 blocks with the blocks
0 .. 2^31 in use, bit 2^31 is initially set and `used_blocks` is 2^31 + 1; block 2^31
reaches the bit tools as the `int` -2^31, whose byte lies before the map, and after the two
calls the counter is 2^31 + 2, neither the value before nor one less. -/
theorem C24_counterexample_set_bit_loses_one :
    (bit_set bitmap_example.map 0 = true ∧
     bitmap_example.used_blocks = 19 ∧
     (reiserfs_bitmap_unuse_block (reiserfs_bitmap_use_block bitmap_example 0) 0).used_blocks
       = 18 ∧
     bit_set bitmap_example.map 11 = false ∧
     (reiserfs_bitmap_unuse_block (reiserfs_bitmap_use_block bitmap_example 11) 11).used_blocks
       = 19) ∧
    ((2 : Nat) ^ 31 < (bitmap_above_int (2 ^ 28)).total_blocks ∧
     bit_set (bitmap_above_int (2 ^ 28)).map (2 ^ 31) = true ∧
     (bitmap_above_int (2 ^ 28)).used_blocks = 2 ^ 31 + 1 ∧
     int32 ((2 ^ 31 : Nat) : Int) = -(2 ^ 31) ∧
     (reiserfs_bitmap_unuse_block
       (reiserfs_bitmap_use_block (bitmap_above_int (2 ^ 28)) (2 ^ 31)) (2 ^ 31)).used_blocks
       = 2 ^ 31 + 2) := by
  have hb : (2 : Nat) ^ 31 < (bitmap_above_int (2 ^ 28)).total_blocks := by
    show (2 : Nat) ^ 31 < 8 * 2 ^ 28 + 8
    norm_num
  refine ⟨by decide, hb, above_int_bit_mid _ _ (by norm_num),
    by show 8 * 2 ^ 28 + 1 = 2 ^ 31 + 1; norm_num,
    (test_bit_beyond_int [] (2 ^ 31) (le_refl _) (by norm_num)).1.trans (by norm_num), ?_⟩
  rw [use_block_beyond_int _ _ hb (le_refl _) (by norm_num),
    (unuse_block_beyond_int { bitmap_above_int (2 ^ 28) with
      used_blocks := ((bitmap_above_int (2 ^ 28)).used_blocks + 1) % 2 ^ 64 } _ hb
      (le_refl _) (by norm_num)).1]
  show (8 * 2 ^ 28 + 1 + 1) % 2 ^ 64 = 2 ^ 31 + 2
  norm_num
/-! ## Format of a version 1 key (C26) -/

theorem key_v1_form_type (dirid objid offset uniq : Nat) :
    get_key_v2_type (reiserfs_key_v1_form dirid objid offset uniq) = uniq % 2 ^ 32 / 2 ^ 28 := by
  rw [get_key_v2_type_eq, key_form_v1_u]
  omega

/-- C26 (as amended): for every dirid, objid, offset and uniqueness value (taken as 32-bit
words), `reiserfs_key_format` classifies the key built by `reiserfs_key_v1_form` as
`KEY_FORMAT_1` exactly when the top four bits of the uniqueness are all clear or all set;
in particular for each of the five uniqueness values of the format (0, 500, 555, 0xfffffffe,
0xffffffff) and for every uniqueness below 2^28, while every other uniqueness gives
`KEY_FORMAT_2`. -/
theorem C26_key_v1_form_format (dirid objid offset uniq : Nat) :
    (reiserfs_key_format (reiserfs_key_v1_form dirid objid offset uniq) = KEY_FORMAT_1 ↔
      (uniq % 2 ^ 32 / 2 ^ 28 = 0 ∨ uniq % 2 ^ 32 / 2 ^ 28 = 15)) ∧
    (¬ (uniq % 2 ^ 32 / 2 ^ 28 = 0 ∨ uniq % 2 ^ 32 / 2 ^ 28 = 15) →
      reiserfs_key_format (reiserfs_key_v1_form dirid objid offset uniq) = KEY_FORMAT_2) ∧
    ((uniq = KEY_UNIQ_SD ∨ uniq = KEY_UNIQ_DR ∨ uniq = KEY_UNIQ_UN ∨ uniq = KEY_UNIQ_IT ∨
        uniq = KEY_UNIQ_DT ∨ uniq < 2 ^ 28) →
      reiserfs_key_format (reiserfs_key_v1_form dirid objid offset uniq) = KEY_FORMAT_1) := by
  have hf : reiserfs_key_format (reiserfs_key_v1_form dirid objid offset uniq) =
      if uniq % 2 ^ 32 / 2 ^ 28 = 0 ∨ uniq % 2 ^ 32 / 2 ^ 28 = 15 then KEY_FORMAT_1
      else KEY_FORMAT_2 := by
    unfold reiserfs_key_format
    simp only [key_v1_form_type]
  rw [hf]
  refine ⟨?_, ?_, ?_⟩
  · constructor
    · intro h
      by_contra hn
      rw [if_neg hn] at h
      exact absurd h (by decide)
    · intro h; rw [if_pos h]
  · intro h; rw [if_neg h]
  · intro h
    have : uniq % 2 ^ 32 / 2 ^ 28 = 0 ∨ uniq % 2 ^ 32 / 2 ^ 28 = 15 := by
      simp only [KEY_UNIQ_SD, KEY_UNIQ_DR, KEY_UNIQ_UN, KEY_UNIQ_IT, KEY_UNIQ_DT] at h
      omega
    rw [if_pos this]

/-- C26, the claim as first stated fails: the key built by `reiserfs_key_v1_form` with
dirid 1, objid 2, offset 0 and the 32-bit uniqueness 0x10000000 is classified as
`KEY_FORMAT_2`, because `reiserfs_key_format` reads the top four bits of the uniqueness
as the version 2 type, here 1. -/
theorem C26_counterexample_uniq_top_nibble :
    (0x10000000 : Nat) < 2 ^ 32 ∧
    get_key_v2_type (reiserfs_key_v1_form 1 2 0 0x10000000) = 1 ∧
    reiserfs_key_format (reiserfs_key_v1_form 1 2 0 0x10000000) = KEY_FORMAT_2 ∧
    KEY_FORMAT_2 ≠ KEY_FORMAT_1 := by
  decide

theorem C26_key_v1_form_format_witness :
    reiserfs_key_format (reiserfs_key_v1_form 1 2 0 KEY_UNIQ_DR) = KEY_FORMAT_1 :=
  (C26_key_v1_form_format 1 2 0 KEY_UNIQ_DR).2.2 (Or.inr (Or.inl rfl))
/-! ## Path insert and pop (C27, C28) -/

theorem path_insert_loop_zero (fuel i : Nat) (nodes : List (Option reiserfs_path_node)) :
    reiserfs_path_insert_loop 0 fuel i nodes = none := by
  induction fuel generalizing i nodes with
  | zero => rfl
  | succ fuel ih =>
    unfold reiserfs_path_insert_loop
    rw [if_pos (Nat.zero_le i)]
    split
    · exact ih _ _
    · rfl

theorem path_insert_loop_spec (pos : Nat) (hpos : 1 ≤ pos) (k : Nat) :
    ∀ (fuel i : Nat) (nodes : List (Option reiserfs_path_node)),
      i + 1 < nodes.length → nodes.length ≤ 2 ^ 32 → pos ≤ i + 1 → k = i + 1 - pos →
      k + 1 ≤ fuel →
      ∃ nodes1, reiserfs_path_insert_loop pos fuel i nodes = some nodes1 ∧
        nodes1.length = nodes.length ∧
        ∀ j, nodes1.getD j none =
          if pos < j ∧ j ≤ i + 1 then nodes.getD (j - 1) none else nodes.getD j none := by
  induction k with
  | zero =>
    intro fuel i nodes hi hlen hp hk hf
    obtain ⟨f, rfl⟩ : ∃ f, fuel = f + 1 := ⟨fuel - 1, by omega⟩
    refine ⟨nodes, ?_, rfl, ?_⟩
    · unfold reiserfs_path_insert_loop
      rw [if_neg (by omega)]
    · intro j
      rw [if_neg (by omega)]
  | succ k ih =>
    intro fuel i nodes hi hlen hp hk hf
    obtain ⟨f, rfl⟩ : ∃ f, fuel = f + 1 := ⟨fuel - 1, by omega⟩
    have h1 : (i + 1) % 2 ^ 32 = i + 1 := Nat.mod_eq_of_lt (by omega)
    have h2 : (i + 2 ^ 32 - 1) % 2 ^ 32 = i - 1 := by omega
    unfold reiserfs_path_insert_loop
    rw [if_pos (by omega), if_pos ⟨by omega, by omega⟩, h1, h2]
    obtain ⟨nodes1, e1, l1, g1⟩ := ih f (i - 1) (nodes.set (i + 1) (nodes.getD i none))
      (by rw [List.length_set]; omega) (by rw [List.length_set]; exact hlen) (by omega)
      (by omega) (by omega)
    refine ⟨nodes1, e1, by rw [l1, List.length_set], ?_⟩
    intro j
    rw [g1 j]
    have hi1 : i - 1 + 1 = i := by omega
    rw [hi1]
    by_cases hj : pos < j ∧ j ≤ i
    · rw [if_pos hj, if_pos ⟨hj.1, by omega⟩]
      simp only [List.getD_eq_getElem?_getD, List.getElem?_set]
      rw [if_neg (by omega)]
    · rw [if_neg hj]
      by_cases hj1 : j = i + 1
      · subst hj1
        rw [if_pos ⟨by omega, le_refl _⟩]
        simp [List.getD_eq_getElem?_getD, List.getElem?_set, hi]
      · rw [if_neg (by omega)]
        simp only [List.getD_eq_getElem?_getD, List.getElem?_set]
        rw [if_neg (by omega)]

/-- For a position from 1 on `reiserfs_path_insert` returns 1 and leaves the frames below
`pos` in place, the new frame at `pos` and the former frames `pos .. n - 1` one entry up. -/
theorem path_insert_spec (path : reiserfs_path) (pos : Nat) (node : reiserfs_path_node)
    (fuel : Nat) (hpos : 1 ≤ pos) (hle : pos ≤ path.length)
    (hmax : path.length < path.max_length) (hlen : path.nodes.length = path.max_length)
    (h32 : path.max_length < 2 ^ 32) (hf : path.length + 1 ≤ fuel) :
    ∃ path1, reiserfs_path_insert fuel path pos node = some (1, path1) ∧
      path1.length = path.length + 1 ∧ path1.max_length = path.max_length ∧
      path1.nodes.length = path.nodes.length ∧
      ∀ j, path1.nodes.getD j none =
        if j = pos then some node
        else if pos < j ∧ j ≤ path.length then path.nodes.getD (j - 1) none
        else path.nodes.getD j none := by
  have hl1 : (path.length + 1) % 2 ^ 32 = path.length + 1 := Nat.mod_eq_of_lt (by omega)
  unfold reiserfs_path_insert
  rw [if_neg (by simpa using hle), if_neg (by simpa using hmax)]
  by_cases hp : pos < path.length
  · rw [if_pos hp]
    have h2 : (path.length + 2 ^ 32 - 1) % 2 ^ 32 = path.length - 1 := by omega
    rw [h2]
    obtain ⟨nodes1, e1, l1, g1⟩ := path_insert_loop_spec pos hpos (path.length - pos) fuel
      (path.length - 1) path.nodes (by omega) (by omega) (by omega) (by omega) (by omega)
    rw [e1]
    simp only
    rw [if_pos (by omega), hl1]
    refine ⟨_, rfl, rfl, rfl, by simp only [List.length_set]; exact l1, ?_⟩
    intro j
    simp only [List.getD_eq_getElem?_getD, List.getElem?_set]
    by_cases hj : j = pos
    · subst hj
      rw [if_pos rfl, if_pos rfl]
      simp only [if_pos (show j < nodes1.length by omega), Option.getD_some]
    · rw [if_neg (fun h => hj h.symm), if_neg hj]
      have := g1 j
      simp only [List.getD_eq_getElem?_getD] at this
      rw [this]
      have hh : path.length - 1 + 1 = path.length := by omega
      rw [hh]
  · rw [if_neg hp]
    simp only
    rw [if_pos (by omega), hl1]
    refine ⟨_, rfl, rfl, rfl, by simp only [List.length_set], ?_⟩
    intro j
    simp only [List.getD_eq_getElem?_getD, List.getElem?_set]
    by_cases hj : j = pos
    · subst hj
      rw [if_pos rfl, if_pos rfl]
      simp only [if_pos (show j < path.nodes.length by omega), Option.getD_some]
    · rw [if_neg (fun h => hj h.symm), if_neg hj, if_neg (by omega)]

/-- C27: `reiserfs_path_insert` at position 0 of a non-empty path that is not full never
returns 1: the loop counter `i` is an `unsigned int`, `i >= 0` holds for every value, so
after the frame of index 0 is shifted the counter wraps to 0xffffffff and the loop goes on
reading entries outside the array; whatever the number of iterations allowed, the call
produces no result. -/
theorem C27_path_insert_front_never_returns (fuel : Nat) (path : reiserfs_path)
    (node : reiserfs_path_node) (h0 : 0 < path.length) (hmax : path.length < path.max_length) :
    reiserfs_path_insert fuel path 0 node = none := by
  unfold reiserfs_path_insert
  rw [if_neg (by simp), if_neg (by simpa using hmax), if_pos h0, path_insert_loop_zero]

theorem C27_path_insert_front_never_returns_witness :
    (0 < path_example_one.length ∧ path_example_one.length < path_example_one.max_length) ∧
    reiserfs_path_insert 1000 path_example_one 0 (path_example_frame 22 0) = none :=
  ⟨by decide,
   C27_path_insert_front_never_returns 1000 path_example_one (path_example_frame 22 0)
     (by decide) (by decide)⟩

theorem path_pop_spec (path : reiserfs_path) (h0 : 0 < path.length)
    (hlen : path.length ≤ path.nodes.length) (h32 : path.length < 2 ^ 32) :
    reiserfs_path_pop path =
      some (path.nodes.getD (path.length - 1) none,
            { path with nodes := path.nodes.set (path.length - 1) none }) := by
  have h2 : (path.length + 2 ^ 32 - 1) % 2 ^ 32 = path.length - 1 := by omega
  unfold reiserfs_path_pop
  simp only [h2]
  rw [if_pos (by omega)]

/-- C28: `reiserfs_path_pop` on a non-empty path returns the frame at index `n - 1` and
overwrites that entry with NULL, but never decrements `path->length`: the length is still
`n` afterwards, and `reiserfs_path_last` then reads the emptied entry `n - 1` and returns
NULL instead of the frame that was at index `n - 2`. -/
theorem C28_path_pop_keeps_length (path : reiserfs_path) (h0 : 0 < path.length)
    (hlen : path.length ≤ path.nodes.length) (h32 : path.length < 2 ^ 32) :
    ∃ path1, reiserfs_path_pop path = some (path.nodes.getD (path.length - 1) none, path1) ∧
      path1.length = path.length ∧
      reiserfs_path_last path1 = none ∧
      (∀ j, j ≠ path.length - 1 → path1.nodes.getD j none = path.nodes.getD j none) := by
  have h2 : (path.length + 2 ^ 32 - 1) % 2 ^ 32 = path.length - 1 := by omega
  refine ⟨_, path_pop_spec path h0 hlen h32, rfl, ?_, ?_⟩
  · unfold reiserfs_path_last reiserfs_path_at
    simp only [h2]
    rw [if_neg (by omega)]
    simp only [List.getD_eq_getElem?_getD, List.getElem?_set, if_true]
    rw [if_pos (by omega)]
    rfl
  · intro j hj
    simp only [List.getD_eq_getElem?_getD, List.getElem?_set]
    rw [if_neg (fun h => hj h.symm)]

theorem C28_path_pop_keeps_length_witness :
    ∃ path1, reiserfs_path_pop path_example_two =
        some (some (path_example_frame 22 0), path1) ∧
      path1.length = 2 ∧
      reiserfs_path_last path1 = none ∧
      path1.nodes.getD 0 none = some (path_example_frame 20 1) := by
  obtain ⟨path1, h1, h2, h3, h4⟩ :=
    C28_path_pop_keeps_length path_example_two (by decide) (by decide) (by decide)
  exact ⟨path1, h1, h2, h3, h4 0 (by decide)⟩
/-! ## The block size of a device (C29) -/

theorem and_double (a b : Nat) : (2 * a) &&& (2 * b) = 2 * (a &&& b) := by
  have := Nat.land_bit false a false b
  simpa [Nat.bit_val] using this

theorem and_double_succ (a b : Nat) : (2 * a + 1) &&& (2 * b + 1) = 2 * (a &&& b) + 1 := by
  have := Nat.land_bit true a true b
  simpa [Nat.bit_val] using this

theorem and_compl_zero (a n : Nat) (h : a < 2 ^ n) : a &&& (2 ^ n - (a + 1)) = 0 := by
  apply Nat.eq_of_testBit_eq
  intro i
  rw [Nat.testBit_and, Nat.testBit_two_pow_sub_succ h, Nat.zero_testBit]
  cases a.testBit i <;> simp

/-- In `w`-bit arithmetic `v & -v` is `v` exactly for 0 and for the powers of two. -/
theorem and_neg_iff (w : Nat) : ∀ v, v < 2 ^ w →
    (v &&& ((2 ^ w - v) % 2 ^ w) = v ↔ v = 0 ∨ ∃ k, k < w ∧ v = 2 ^ k) := by
  induction w with
  | zero =>
    intro v hv
    have : v = 0 := by simpa using hv
    subst this
    simp
  | succ w ih =>
    intro v hv
    rcases Nat.eq_zero_or_pos v with h0 | h0
    · subst h0; simp
    have hm : (2 ^ (w + 1) - v) % 2 ^ (w + 1) = 2 ^ (w + 1) - v := Nat.mod_eq_of_lt (by omega)
    rw [hm]
    have hp : 2 ^ (w + 1) = 2 * 2 ^ w := by rw [pow_succ]; ring
    rcases Nat.even_or_odd' v with ⟨a, ha | ha⟩
    · subst ha
      have ha0 : 0 < a := by omega
      have ha1 : a < 2 ^ w := by omega
      have e1 : 2 ^ (w + 1) - 2 * a = 2 * (2 ^ w - a) := by omega
      rw [e1, and_double]
      have hm2 : (2 ^ w - a) % 2 ^ w = 2 ^ w - a := Nat.mod_eq_of_lt (by omega)
      have := ih a ha1
      rw [hm2] at this
      constructor
      · intro h
        have h2 : a &&& (2 ^ w - a) = a := by omega
        rcases this.1 h2 with h3 | ⟨k, hk, h3⟩
        · omega
        · exact Or.inr ⟨k + 1, by omega, by rw [h3, pow_succ]; ring⟩
      · rintro (h | ⟨k, hk, h⟩)
        · omega
        · cases k with
          | zero => simp at h
          | succ k =>
            have h5 : a = 2 ^ k := by rw [pow_succ] at h; omega
            have := this.2 (Or.inr ⟨k, by omega, h5⟩)
            omega
    · subst ha
      have ha1 : a < 2 ^ w := by omega
      have e1 : 2 ^ (w + 1) - (2 * a + 1) = 2 * (2 ^ w - (a + 1)) + 1 := by omega
      rw [e1, and_double_succ, and_compl_zero a w ha1]
      constructor
      · intro h
        exact Or.inr ⟨0, by omega, by omega⟩
      · rintro (h | ⟨k, hk, h⟩)
        · omega
        · cases k with
          | zero => simp at h; omega
          | succ k => rw [pow_succ] at h; omega

theorem pow_of_two_iff (n : Nat) (hn : n < 2 ^ 64) :
    pow_of_two n = true ↔ (n = 0 ∨ ∃ k, n = 2 ^ k) := by
  unfold pow_of_two
  rw [decide_eq_true_iff, Nat.mod_eq_of_lt hn, and_neg_iff 64 n hn]
  constructor
  · rintro (h | ⟨k, _, h⟩)
    · exact Or.inl h
    · exact Or.inr ⟨k, h⟩
  · rintro (h | ⟨k, h⟩)
    · exact Or.inl h
    · refine Or.inr ⟨k, ?_, h⟩
      by_contra hk
      have : 2 ^ 64 ≤ 2 ^ k := Nat.pow_le_pow_right (by norm_num) (by omega)
      omega

/-- C29: `dal_set_blocksize` accepts the block size 0: `pow_of_two(0)` is
`(0 & -0) == 0`, true, so the call returns 1 and sets the block size of the device to 0,
although 0 is no power of two. For every `unsigned` block size `n` the call succeeds
exactly when `n` is 0 or a power of two; on success the block size of the device is `n`,
otherwise the devices are unchanged. -/
theorem C29_dal_set_blocksize_accepts_zero {β : Type} (w : World β) (d n : Nat)
    (hn : n < 2 ^ 32) :
    (dal_set_blocksize w (some d) 0).1 = 1 ∧
    (dal_set_blocksize w (some d) 0).2.blocksize d = 0 ∧
    (¬ ∃ k : Nat, 0 = 2 ^ k) ∧
    ((dal_set_blocksize w (some d) n).1 = 1 ↔ (n = 0 ∨ ∃ k, n = 2 ^ k)) ∧
    ((dal_set_blocksize w (some d) n).1 = 1 → (dal_set_blocksize w (some d) n).2.blocksize d = n) ∧
    (¬ (n = 0 ∨ ∃ k, n = 2 ^ k) → dal_set_blocksize w (some d) n = (0, w)) := by
  have hm : n % 2 ^ 32 = n := Nat.mod_eq_of_lt hn
  have hp := pow_of_two_iff n (by omega)
  have h0 : pow_of_two (0 % 2 ^ 32) = true := by decide
  refine ⟨?_, ?_, ?_, ?_, ?_, ?_⟩
  · simp only [dal_set_blocksize, h0]; rfl
  · simp only [dal_set_blocksize, h0]; simp
  · rintro ⟨k, hk⟩
    have := Nat.pos_pow_of_pos k (show 0 < 2 by norm_num)
    omega
  · simp only [dal_set_blocksize, hm]
    by_cases h : pow_of_two n = true
    · simp only [h]
      constructor
      · intro _; exact hp.1 h
      · intro _; rfl
    · have hf : pow_of_two n = false := by simpa using h
      simp only [hf, if_true]
      constructor
      · intro e; exact absurd e (by decide)
      · intro e; exact absurd (hp.2 e) h
  · simp only [dal_set_blocksize, hm]
    by_cases h : pow_of_two n = true
    · simp only [h]; intro _; simp
    · have hf : pow_of_two n = false := by simpa using h
      simp only [hf, if_true]
      intro e; exact absurd e (by decide)
  · intro hne
    have hf : pow_of_two n = false := by
      cases h : pow_of_two n
      · rfl
      · exact absurd (hp.1 h) hne
    simp only [dal_set_blocksize, hm, hf]
    rfl

theorem C29_dal_set_blocksize_accepts_zero_witness :
    (dal_set_blocksize world_example (some 0) 0).1 = 1 ∧
    (dal_set_blocksize world_example (some 0) 0).2.blocksize 0 = 0 ∧
    (dal_set_blocksize world_example (some 0) 3 = (0, world_example)) :=
  ⟨(C29_dal_set_blocksize_accepts_zero world_example 0 3 (by norm_num)).1,
   (C29_dal_set_blocksize_accepts_zero world_example 0 3 (by norm_num)).2.1,
   (C29_dal_set_blocksize_accepts_zero world_example 0 3 (by norm_num)).2.2.2.2.2 (by
     rintro (h | ⟨k, h⟩)
     · exact absurd h (by decide)
     · rcases k with _ | _ | k
       · exact absurd h (by decide)
       · exact absurd h (by decide)
       · rw [pow_succ, pow_succ] at h; omega)⟩
/-! ## The level check of the lookup (C30) -/

/-- C30 (as amended): during `reiserfs_tree_node_lookup`, with a superblock `tree_height` of
at least 1, a node that was read is rejected (the lookup returns 0 with the path as it was)
whenever its level is `tree_height` or more, in particular when its level equals
`tree_height`; a node whose level is less than `tree_height` is accepted: a leaf searched
for a leaf gets its frame pushed and the lookup returns the search result, and an internal
node gets its frame pushed and the lookup goes on in the child of the chosen slot (or
returns 1 at level 2 when an internal node is looked for). -/
theorem C30_lookup_level_check (w : World Node) (tree : reiserfs_tree)
    (comp_func : key → key → Int) (k : key) (for_leaf : Bool) (fuel blk : Nat)
    (path : reiserfs_path) (node : reiserfs_block Node)
    (hread : reiserfs_block_read w tree.dal blk = some node)
    (hh : 1 ≤ reiserfs_tree_get_height tree) :
    (reiserfs_tree_get_height tree ≤ get_node_level node.data →
      reiserfs_tree_node_lookup_loop w tree comp_func k for_leaf (fuel + 1) blk path =
        some (0, path)) ∧
    (∀ found pos, get_node_level node.data < reiserfs_tree_get_height tree →
      reiserfs_tools_fast_search k node.data.keys (get_node_nritems node.data)
          (if is_leaf_node node.data = true then IH_SIZE else FULL_KEY_SIZE) comp_func =
        some (found, pos) →
      path.length < path.max_length →
      (is_leaf_node node.data = true → for_leaf = true →
        reiserfs_tree_node_lookup_loop w tree comp_func k for_leaf (fuel + 1) blk path =
          some (found, (reiserfs_path_inc path { node := node, pos := pos }).2)) ∧
      (is_internal_node node.data = true →
        reiserfs_tree_node_lookup_loop w tree comp_func k for_leaf (fuel + 1) blk path =
          if get_node_level node.data = 2 ∧ for_leaf = false then
            some (1, (reiserfs_path_inc path
              { node := node, pos := if found ≠ 0 then (pos + 1) % 2 ^ 32 else pos }).2)
          else
            reiserfs_tree_node_lookup_loop w tree comp_func k for_leaf fuel
              (ulong ((get_dc_child_blocknr node.data
                (if found ≠ 0 then (pos + 1) % 2 ^ 32 else pos) : Int) + tree.offset))
              (reiserfs_path_inc path
                { node := node, pos := if found ≠ 0 then (pos + 1) % 2 ^ 32 else pos }).2)) := by
  have hH : reiserfs_tree_get_height tree < 2 ^ 16 := by
    unfold reiserfs_tree_get_height; exact Nat.mod_lt _ (by norm_num)
  have hm : (reiserfs_tree_get_height tree + 2 ^ 32 - 1) % 2 ^ 32 =
      reiserfs_tree_get_height tree - 1 := by omega
  refine ⟨?_, ?_⟩
  · intro hl
    unfold reiserfs_tree_node_lookup_loop
    simp only [hread, hm]
    rw [if_pos (by omega)]
  · intro found pos hl hs hp
    have hinc : (reiserfs_path_inc path { node := node, pos := pos }).1 = 1 := by
      unfold reiserfs_path_inc; rw [if_neg (by simpa using hp)]
    have hinc2 : ∀ p, (reiserfs_path_inc path { node := node, pos := p }).1 = 1 := by
      intro p; unfold reiserfs_path_inc; rw [if_neg (by simpa using hp)]
    constructor
    · intro hleaf hfor
      have hni : is_internal_node node.data = false := by
        unfold is_leaf_node at hleaf
        unfold is_internal_node
        simp only [decide_eq_true_eq] at hleaf
        simp [hleaf, LEAF_LEVEL]
      unfold reiserfs_tree_node_lookup_loop
      simp only [hread, hm, hs]
      rw [if_neg (by omega), if_neg (by simp [hfor])]
      simp only [hni, Bool.false_eq_true, and_false, if_false, hinc2, hleaf, if_true]
      simp
    · intro hint
      have hnl : is_leaf_node node.data = false := by
        unfold is_internal_node at hint
        unfold is_leaf_node
        simp only [decide_eq_true_eq] at hint
        simp only [decide_eq_false_iff_not]
        omega
      rw [reiserfs_tree_node_lookup_loop]
      simp only [hread, hm, hs]
      rw [if_neg (by omega), if_neg (by simp [hnl])]
      simp only [hint, and_true, hinc2, hnl]
      simp

theorem C30_lookup_level_check_witness :
    reiserfs_tree_node_lookup_loop tree_example_world tree_example_height2
      reiserfs_key_comp_four_components (key_at 5) true 10 20 path_empty =
        some (0, path_empty) :=
  (C30_lookup_level_check tree_example_world tree_example_height2
    reiserfs_key_comp_four_components (key_at 5) true 9 20 path_empty
    { dal := 0, data := tree_example_world.data 0 20, offset := 20 * 4096, dirty := 0 }
    (by decide) (by decide)).1 (by decide)

/-- C30, the claim as first stated fails: in the example tree the root node of block 20 has
level 2; under a superblock with `tree_height` 2 the node is rejected and the lookup of the
stored key 5 returns 0 with an empty path, while under `tree_height` 3 the same lookup
finds the key. -/
theorem C30_counterexample_level_equal_height :
    get_node_level (tree_example_world.data 0 20) = 2 ∧
    reiserfs_tree_get_height tree_example_height2 = 2 ∧
    reiserfs_tree_node_lookup 10 tree_example_world tree_example_height2 20
      (some reiserfs_key_comp_four_components) (key_at 5) true path_empty =
        some (0, path_empty) ∧
    (reiserfs_tree_node_lookup 10 tree_example_world tree_example 20
      (some reiserfs_key_comp_four_components) (key_at 5) true path_empty).map (fun r => r.1) =
        some 1 := by
  refine ⟨by decide, by decide, by decide, by decide⟩

/-! ## The journal parameters check (C25) -/

theorem journal_max_len_inband {β : Type} (w : World β) (dal start : Nat)
    (hb : w.blocksize dal * 8 < 2 ^ 32) (hs : start + 1 ≤ w.blocksize dal * 8) :
    reiserfs_journal_max_len w dal start false = w.blocksize dal * 8 - start - 1 := by
  unfold reiserfs_journal_max_len ulong
  simp only [Bool.false_eq_true, if_false]
  rw [Nat.mod_eq_of_lt hb]
  omega

theorem journal_max_len_relocated {β : Type} (w : World β) (dal start : Nat)
    (hb : w.len dal < 2 ^ 64) (hs : start + 1 ≤ w.len dal) :
    reiserfs_journal_max_len w dal start true = w.len dal - start - 1 := by
  unfold reiserfs_journal_max_len ulong
  simp only [if_true]
  omega

/-- C25 (as amended): for a device of non-zero block size,
`reiserfs_journal_params_check(dal, start, len, relocated)` returns 1 if and only if
(relocated, or start = 0, or start = super_block + 2 where super_block = 64 KiB / blocksize)
and len <= max_len and (len = 0 or len >= JOURNAL_MIN_SIZE), and returns 0 otherwise;
max_len is `reiserfs_journal_max_len`, which is blocksize*8 - start - 1 for a journal on the
host device and device_len - start - 1 for a relocated one whenever start lies below that
bound (the subtraction is done in the unsigned type `blk_t`). -/
theorem C25_journal_params_check {β : Type} (jc : journal_consts) (w : World β)
    (dal start len : Nat) (relocated : Bool) (_hbs : w.blocksize dal ≠ 0) :
    (reiserfs_journal_params_check jc w dal start len relocated = 1 ↔
      ((relocated = true ∨ start = 0 ∨ start = DEFAULT_SUPER_OFFSET / w.blocksize dal + 2) ∧
       len ≤ reiserfs_journal_max_len w dal start relocated ∧
       (len = 0 ∨ jc.JOURNAL_MIN_SIZE ≤ len))) ∧
    (reiserfs_journal_params_check jc w dal start len relocated = 1 ∨
      reiserfs_journal_params_check jc w dal start len relocated = 0) ∧
    (w.blocksize dal * 8 < 2 ^ 32 → start + 1 ≤ w.blocksize dal * 8 →
      reiserfs_journal_max_len w dal start false = w.blocksize dal * 8 - start - 1) ∧
    (w.len dal < 2 ^ 64 → start + 1 ≤ w.len dal →
      reiserfs_journal_max_len w dal start true = w.len dal - start - 1) := by
  refine ⟨?_, ?_, journal_max_len_inband w dal start, journal_max_len_relocated w dal start⟩
  · unfold reiserfs_journal_params_check
    cases relocated
    · simp only [true_and, Bool.false_eq_true, false_or]
      split_ifs with h1 h2 h3
      · constructor
        · intro e; exact absurd e (by decide)
        · rintro ⟨h, _, _⟩; omega
      · constructor
        · intro e; exact absurd e (by decide)
        · rintro ⟨_, h, _⟩; omega
      · constructor
        · intro e; exact absurd e (by decide)
        · rintro ⟨_, _, h⟩; omega
      · constructor
        · intro _; exact ⟨by omega, by omega, by omega⟩
        · intro _; rfl
    · simp only [Bool.true_eq_false, false_and, if_false, true_or, true_and]
      split_ifs with h2 h3
      · constructor
        · intro e; exact absurd e (by decide)
        · rintro ⟨h, _⟩; omega
      · constructor
        · intro e; exact absurd e (by decide)
        · rintro ⟨_, h⟩; omega
      · constructor
        · intro _; exact ⟨by omega, by omega⟩
        · intro _; rfl
  · unfold reiserfs_journal_params_check
    split_ifs <;> simp

theorem C25_journal_params_check_witness :
    reiserfs_journal_params_check journal_consts_reference (create_world 4096 10000) 0 18 8192
      false = 1 :=
  ((C25_journal_params_check journal_consts_reference (create_world 4096 10000) 0 18 8192 false
    (by decide)).1).2 ⟨Or.inr (Or.inr (by decide)), by decide, Or.inr (by decide)⟩

/-- C25, the claim as first stated fails: on a device of 10000 blocks of 4096 bytes the
check returns 1 for the journal start 18 with the length 0, and for the start 0 with the
length 0, although 0 is below `JOURNAL_MIN_SIZE` = 512; a length of 1 is rejected. -/
theorem C25_counterexample_zero_length :
    reiserfs_journal_params_check journal_consts_reference (create_world 4096 10000) 0 18 0
      false = 1 ∧
    reiserfs_journal_params_check journal_consts_reference (create_world 4096 10000) 0 0 0
      false = 1 ∧
    ¬ (journal_consts_reference.JOURNAL_MIN_SIZE ≤ 0) ∧
    reiserfs_journal_params_check journal_consts_reference (create_world 4096 10000) 0 18 1
      false = 0 := by
  decide

/-! ## Sync of the dirty regions (C23) -/

theorem fs_sync_clean (w : World block_image) (fs : reiserfs_fs_t)
    (h1 : fs.super_dirty = false) (h2 : fs.bitmap_dirty = false)
    (h3 : fs.journal_dirty = false) :
    reiserfs_fs_sync w fs = some (1, fs, w) := by
  unfold reiserfs_fs_sync
  simp [h1, h2, h3]

theorem fs_sync_stage_super (w : World block_image) (fs fs1 : reiserfs_fs_t)
    (w1 : World block_image)
    (h : (if fs.super_dirty = true then reiserfs_fs_super_sync w fs else some (1, fs, w)) =
      some (1, fs1, w1)) :
    fs1 = { fs with super_dirty := false } ∧
    ((fs.super_dirty = true ∧ ∃ sb, fs.super = some sb ∧
        w1 = w.put fs.dal fs.super_off (block_image.super sb)) ∨
      (fs.super_dirty = false ∧ w1 = w)) := by
  by_cases hd : fs.super_dirty = true
  · rw [if_pos hd] at h
    unfold reiserfs_fs_super_sync at h
    split at h
    · cases h
    · rename_i sb hsb
      split at h
      · simp only [Option.some.injEq, Prod.mk.injEq] at h
        exact absurd h.1 (by decide)
      · simp only [Option.some.injEq, Prod.mk.injEq, true_and] at h
        exact ⟨h.1.symm, Or.inl ⟨hd, sb, hsb, h.2.symm⟩⟩
  · have hd0 : fs.super_dirty = false := by simpa using hd
    rw [if_neg hd] at h
    simp only [Option.some.injEq, Prod.mk.injEq, true_and] at h
    refine ⟨?_, Or.inr ⟨hd0, h.2.symm⟩⟩
    rw [← h.1, ← hd0]

theorem fs_sync_stage_bitmap (w1 : World block_image) (fs1 fs2 : reiserfs_fs_t)
    (w2 : World block_image)
    (h : (if fs1.bitmap.isSome = true ∧ fs1.bitmap_dirty = true then
        reiserfs_fs_bitmap_sync w1 fs1 else some (1, fs1, w1)) = some (1, fs2, w2)) :
    fs2 = { fs1 with bitmap_dirty := fs1.bitmap_dirty && fs1.bitmap.isNone } ∧
    ((fs1.bitmap_dirty = true ∧ ∃ bm, fs1.bitmap = some bm ∧
        reiserfs_bitmap_sync w1 bm fs1.dal = some (some w2)) ∨
      ((fs1.bitmap_dirty = false ∨ fs1.bitmap = none) ∧ w2 = w1)) := by
  by_cases hd : fs1.bitmap.isSome = true ∧ fs1.bitmap_dirty = true
  · rw [if_pos hd] at h
    unfold reiserfs_fs_bitmap_sync at h
    split at h
    · simp only [Option.some.injEq, Prod.mk.injEq] at h
      exact absurd h.1 (by decide)
    · rename_i bm hbm
      split at h
      · cases h
      · simp only [Option.some.injEq, Prod.mk.injEq] at h
        exact absurd h.1 (by decide)
      · rename_i w3 hs
        simp only [Option.some.injEq, Prod.mk.injEq, true_and] at h
        obtain ⟨ha, hb⟩ := h
        subst hb
        refine ⟨?_, Or.inl ⟨hd.2, bm, hbm, hs⟩⟩
        rw [← ha, hd.2, hbm]
        rfl
  · rw [if_neg hd] at h
    simp only [Option.some.injEq, Prod.mk.injEq, true_and] at h
    obtain ⟨ha, hb⟩ := h
    subst ha hb
    have hc : fs1.bitmap_dirty = false ∨ fs1.bitmap = none := by
      cases hbd : fs1.bitmap_dirty
      · exact Or.inl rfl
      · cases hbm : fs1.bitmap
        · exact Or.inr rfl
        · exact absurd ⟨by rw [hbm]; rfl, hbd⟩ hd
    refine ⟨?_, Or.inr ⟨hc, rfl⟩⟩
    rcases hc with hc | hc
    · have e : (fs1.bitmap_dirty && fs1.bitmap.isNone) = fs1.bitmap_dirty := by rw [hc]; rfl
      rw [e]
    · have e : (fs1.bitmap_dirty && fs1.bitmap.isNone) = fs1.bitmap_dirty := by
        rw [hc]; simp
      rw [e]

theorem fs_sync_stage_journal (w2 : World block_image) (fs2 fs3 : reiserfs_fs_t)
    (w3 : World block_image)
    (h : (if fs2.journal.isSome = true ∧ fs2.journal_dirty = true then
        reiserfs_fs_journal_sync w2 fs2 else some (1, fs2, w2)) = some (1, fs3, w3)) :
    fs3 = { fs2 with journal_dirty := fs2.journal_dirty && fs2.journal.isNone } ∧
    ((fs2.journal_dirty = true ∧ ∃ journal, fs2.journal = some journal ∧
        fs2.bitmap.isSome = true ∧
        w3 = w2.put journal.dal
          ((journal.head.jh_params.jp_start + journal.head.jh_params.jp_len) % 2 ^ 64)
          (block_image.journal_head journal.head)) ∨
      ((fs2.journal_dirty = false ∨ fs2.journal = none) ∧ w3 = w2)) := by
  by_cases hd : fs2.journal.isSome = true ∧ fs2.journal_dirty = true
  · rw [if_pos hd] at h
    unfold reiserfs_fs_journal_sync at h
    split at h
    · simp only [Option.some.injEq, Prod.mk.injEq] at h
      exact absurd h.1 (by decide)
    · rename_i hbn
      split at h
      · simp only [Option.some.injEq, Prod.mk.injEq] at h
        exact absurd h.1 (by decide)
      · rename_i journal hj
        simp only at h
        split at h
        · simp only [Option.some.injEq, Prod.mk.injEq] at h
          exact absurd h.1 (by decide)
        · simp only [Option.some.injEq, Prod.mk.injEq, true_and] at h
          obtain ⟨ha, hb⟩ := h
          refine ⟨?_, Or.inl ⟨hd.2, journal, hj, ?_, hb.symm⟩⟩
          · rw [← ha, hd.2, hj]
            rfl
          · cases hbm : fs2.bitmap
            · rw [hbm] at hbn; exact absurd rfl hbn
            · rfl
  · rw [if_neg hd] at h
    simp only [Option.some.injEq, Prod.mk.injEq, true_and] at h
    obtain ⟨ha, hb⟩ := h
    subst ha hb
    have hc : fs2.journal_dirty = false ∨ fs2.journal = none := by
      cases hbd : fs2.journal_dirty
      · exact Or.inl rfl
      · cases hbm : fs2.journal
        · exact Or.inr rfl
        · exact absurd ⟨by rw [hbm]; rfl, hbd⟩ hd
    refine ⟨?_, Or.inr ⟨hc, rfl⟩⟩
    rcases hc with hc | hc
    · have e : (fs2.journal_dirty && fs2.journal.isNone) = fs2.journal_dirty := by rw [hc]; rfl
      rw [e]
    · have e : (fs2.journal_dirty && fs2.journal.isNone) = fs2.journal_dirty := by
        rw [hc]; simp
      rw [e]

theorem fs_sync_stage_result (c : Prop) [Decidable c]
    (f : Option (Int × reiserfs_fs_t × World block_image)) (fs : reiserfs_fs_t)
    (w : World block_image) (s : Int) (fs1 : reiserfs_fs_t) (w1 : World block_image)
    (hf : ∀ s fs1 w1, f = some (s, fs1, w1) → s = 0 ∨ s = 1)
    (h : (if c then f else some (1, fs, w)) = some (s, fs1, w1)) (hs : ¬ s = 0) : s = 1 := by
  by_cases hc : c
  · rw [if_pos hc] at h
    rcases hf s fs1 w1 h with h0 | h1
    · exact absurd h0 hs
    · exact h1
  · rw [if_neg hc] at h
    simp only [Option.some.injEq, Prod.mk.injEq] at h
    exact h.1.symm

theorem super_sync_result (w : World block_image) (fs : reiserfs_fs_t) (s : Int)
    (fs1 : reiserfs_fs_t) (w1 : World block_image)
    (h : reiserfs_fs_super_sync w fs = some (s, fs1, w1)) : s = 0 ∨ s = 1 := by
  unfold reiserfs_fs_super_sync at h
  split at h
  · cases h
  · split at h
    · simp only [Option.some.injEq, Prod.mk.injEq] at h; exact Or.inl h.1.symm
    · simp only [Option.some.injEq, Prod.mk.injEq] at h; exact Or.inr h.1.symm

theorem bitmap_sync_result (w : World block_image) (fs : reiserfs_fs_t) (s : Int)
    (fs1 : reiserfs_fs_t) (w1 : World block_image)
    (h : reiserfs_fs_bitmap_sync w fs = some (s, fs1, w1)) : s = 0 ∨ s = 1 := by
  unfold reiserfs_fs_bitmap_sync at h
  split at h
  · simp only [Option.some.injEq, Prod.mk.injEq] at h; exact Or.inl h.1.symm
  · split at h
    · cases h
    · simp only [Option.some.injEq, Prod.mk.injEq] at h; exact Or.inl h.1.symm
    · simp only [Option.some.injEq, Prod.mk.injEq] at h; exact Or.inr h.1.symm

theorem journal_sync_result (w : World block_image) (fs : reiserfs_fs_t) (s : Int)
    (fs1 : reiserfs_fs_t) (w1 : World block_image)
    (h : reiserfs_fs_journal_sync w fs = some (s, fs1, w1)) : s = 0 ∨ s = 1 := by
  unfold reiserfs_fs_journal_sync at h
  split at h
  · simp only [Option.some.injEq, Prod.mk.injEq] at h; exact Or.inl h.1.symm
  · split at h
    · simp only [Option.some.injEq, Prod.mk.injEq] at h; exact Or.inl h.1.symm
    · simp only at h
      split at h
      · simp only [Option.some.injEq, Prod.mk.injEq] at h; exact Or.inl h.1.symm
      · simp only [Option.some.injEq, Prod.mk.injEq] at h; exact Or.inr h.1.symm

theorem fs_sync_stages (w : World block_image) (fs fs3 : reiserfs_fs_t)
    (w3 : World block_image) (h : reiserfs_fs_sync w fs = some (1, fs3, w3)) :
    ∃ fs1 w1 fs2 w2,
      (if fs.super_dirty = true then reiserfs_fs_super_sync w fs else some (1, fs, w)) =
        some (1, fs1, w1) ∧
      (if fs1.bitmap.isSome = true ∧ fs1.bitmap_dirty = true then
        reiserfs_fs_bitmap_sync w1 fs1 else some (1, fs1, w1)) = some (1, fs2, w2) ∧
      (if fs2.journal.isSome = true ∧ fs2.journal_dirty = true then
        reiserfs_fs_journal_sync w2 fs2 else some (1, fs2, w2)) = some (1, fs3, w3) := by
  unfold reiserfs_fs_sync at h
  simp only at h
  split at h
  · cases h
  · rename_i s1 fs1 w1 h1
    split at h
    · simp only [Option.some.injEq, Prod.mk.injEq] at h
      exact absurd h.1 (by decide)
    · rename_i hs1
      have e1 := fs_sync_stage_result _ _ _ _ _ _ _ (super_sync_result w fs) h1 hs1
      subst e1
      split at h
      · cases h
      · rename_i s2 fs2 w2 h2
        split at h
        · simp only [Option.some.injEq, Prod.mk.injEq] at h
          exact absurd h.1 (by decide)
        · rename_i hs2
          have e2 := fs_sync_stage_result _ _ _ _ _ _ _ (bitmap_sync_result w1 fs1) h2 hs2
          subst e2
          split at h
          · cases h
          · rename_i s3 fs3b w3b h3
            split at h
            · simp only [Option.some.injEq, Prod.mk.injEq] at h
              exact absurd h.1 (by decide)
            · rename_i hs3
              have e3 := fs_sync_stage_result _ _ _ _ _ _ _ (journal_sync_result w2 fs2) h3 hs3
              subst e3
              simp only [Option.some.injEq, Prod.mk.injEq, true_and] at h
              obtain ⟨ha, hb⟩ := h
              subst ha hb
              exact ⟨fs1, w1, fs2, w2, h1, h2, h3⟩

/-- C23 (as amended): `reiserfs_fs_sync` writes exactly the regions whose dirty flag is set
and that are opened (the superblock always, the bitmap when `fs->bitmap` is not NULL, the
journal when `fs->journal` is not NULL), in the order superblock, bitmap, journal: when it
returns 1 the devices are those reached by the superblock write (if its flag was set), then
the bitmap flush (if its flag was set and the bitmap opened), then the journal head write
(if its flag was set and the journal opened, which also needs the bitmap opened); the flag
of each region written is clear afterwards, the flag of a region that is not opened keeps
its value and nothing else in the structure changes. When no dirty flag is set the call
returns 1 with the structure and the devices unchanged. -/
theorem C23_fs_sync_writes_dirty_regions (w : World block_image) (fs : reiserfs_fs_t) :
    (∀ fs3 w3, reiserfs_fs_sync w fs = some (1, fs3, w3) →
      ∃ w1 w2,
        ((fs.super_dirty = true ∧ ∃ sb, fs.super = some sb ∧
            w1 = w.put fs.dal fs.super_off (block_image.super sb)) ∨
          (fs.super_dirty = false ∧ w1 = w)) ∧
        ((fs.bitmap_dirty = true ∧ ∃ bm, fs.bitmap = some bm ∧
            reiserfs_bitmap_sync w1 bm fs.dal = some (some w2)) ∨
          ((fs.bitmap_dirty = false ∨ fs.bitmap = none) ∧ w2 = w1)) ∧
        ((fs.journal_dirty = true ∧ ∃ journal, fs.journal = some journal ∧
            fs.bitmap.isSome = true ∧
            w3 = w2.put journal.dal
              ((journal.head.jh_params.jp_start + journal.head.jh_params.jp_len) % 2 ^ 64)
              (block_image.journal_head journal.head)) ∨
          ((fs.journal_dirty = false ∨ fs.journal = none) ∧ w3 = w2)) ∧
        fs3 = { fs with
                super_dirty := false
                bitmap_dirty := fs.bitmap_dirty && fs.bitmap.isNone
                journal_dirty := fs.journal_dirty && fs.journal.isNone }) ∧
    (fs.super_dirty = false → fs.bitmap_dirty = false → fs.journal_dirty = false →
      reiserfs_fs_sync w fs = some (1, fs, w)) := by
  refine ⟨?_, fs_sync_clean w fs⟩
  intro fs3 w3 h
  obtain ⟨fs1, w1, fs2, w2, h1, h2, h3⟩ := fs_sync_stages w fs fs3 w3 h
  obtain ⟨e1, c1⟩ := fs_sync_stage_super w fs fs1 w1 h1
  obtain ⟨e2, c2⟩ := fs_sync_stage_bitmap w1 fs1 fs2 w2 h2
  obtain ⟨e3, c3⟩ := fs_sync_stage_journal w2 fs2 fs3 w3 h3
  subst e1
  subst e2
  subst e3
  exact ⟨w1, w2, c1, c2, c3, rfl⟩

theorem C23_fs_sync_writes_dirty_regions_witness :
    reiserfs_fs_sync (create_world 4096 10000) sync_example_fs_super =
      some (1, { sync_example_fs_super with super_dirty := false },
        (create_world 4096 10000).put 0 16 (block_image.super (super_calloc 4096 FS_FORMAT_3_6))) ∧
    reiserfs_fs_sync (create_world 4096 10000) { sync_example_fs_super with super_dirty := false } =
      some (1, { sync_example_fs_super with super_dirty := false }, create_world 4096 10000) :=
  ⟨rfl,
   (C23_fs_sync_writes_dirty_regions (create_world 4096 10000)
     { sync_example_fs_super with super_dirty := false }).2 rfl rfl rfl⟩

/-- C23, the claim as first stated fails: on a structure whose bitmap is not opened
(`fs->bitmap` is NULL) while its bitmap flag is dirty, `reiserfs_fs_sync` returns 1, writes
nothing and leaves the flag set. -/
theorem C23_counterexample_dirty_region_not_opened :
    sync_example_fs.bitmap_dirty = true ∧
    reiserfs_fs_sync (create_world 4096 10000) sync_example_fs =
      some (1, sync_example_fs, create_world 4096 10000) := by
  constructor
  · rfl
  · rfl

/-! ## Resize of the bitmap (C21) -/

theorem resize_map_same_size (bitmap : reiserfs_bitmap) (journal_len super_off : Nat)
    (end_ : Int) (hs : Int.tdiv (end_ + 7) 8 = (bitmap.size : Int)) :
    reiserfs_bitmap_resize_map bitmap 0 end_ journal_len super_off =
      some (bitmap.size % 2 ^ 32, bitmap) := by
  unfold reiserfs_bitmap_resize_map
  simp only [sub_zero, if_true, hs]

theorem resize_map_other_size (bitmap : reiserfs_bitmap) (journal_len super_off : Nat)
    (end_ : Nat) (hs : (end_ + 7) / 8 ≠ bitmap.size) (he : end_ + 8 ≤ 2 ^ 31) :
    reiserfs_bitmap_resize_map bitmap 0 (end_ : Int) journal_len super_off =
      some ((end_ + 7) / 8,
        { bitmap with
          map := bitmap.map.take ((end_ + 7) / 8) ++
            List.replicate ((end_ + 7) / 8 - bitmap.size) 0 }) := by
  have e : Int.tdiv ((end_ : Int) - 0 + 7) 8 = (((end_ + 7) / 8 : Nat) : Int) := by
    rw [sub_zero, Int.tdiv_eq_ediv (by omega) (by norm_num)]
    norm_cast
  unfold reiserfs_bitmap_resize_map
  simp only [e, if_true, Int.toNat_ofNat]
  rw [if_neg (by exact_mod_cast hs), if_neg (by omega)]
  have e2 : (end_ + 7) / 8 % 2 ^ 32 = (end_ + 7) / 8 := Nat.mod_eq_of_lt (by omega)
  rw [e2]

theorem use_fold_fields (f : Nat → Nat) (L : List Nat) : ∀ bm : reiserfs_bitmap,
    (L.foldl (fun bm i => reiserfs_bitmap_use_block bm (f i)) bm).total_blocks =
      bm.total_blocks ∧
    (L.foldl (fun bm i => reiserfs_bitmap_use_block bm (f i)) bm).size = bm.size ∧
    (L.foldl (fun bm i => reiserfs_bitmap_use_block bm (f i)) bm).map.length =
      bm.map.length ∧
    (L.foldl (fun bm i => reiserfs_bitmap_use_block bm (f i)) bm).start = bm.start := by
  induction L with
  | nil => intro bm; exact ⟨rfl, rfl, rfl, rfl⟩
  | cons b L ih =>
    intro bm
    simp only [List.foldl_cons]
    obtain ⟨h1, h2, h3, h4⟩ := ih (reiserfs_bitmap_use_block bm (f b))
    obtain ⟨g1, g2, g3⟩ := use_block_fields bm (f b)
    have g4 : (reiserfs_bitmap_use_block bm (f b)).start = bm.start := by
      unfold reiserfs_bitmap_use_block
      split_ifs <;> rfl
    exact ⟨h1.trans g1, h2.trans g2, h3.trans g3, h4.trans g4⟩

/-- With another byte size `reiserfs_bitmap_resize(bitmap, 0, end)` returns 1 and the bitmap
has `end` blocks in `(end + 7) / 8` bytes. -/
theorem bitmap_resize_other_size (bitmap : reiserfs_bitmap)
    (blocksize journal_len super_off end_ : Nat) (h0 : 0 < end_)
    (hs : (end_ + 7) / 8 ≠ bitmap.size) (he : end_ + 8 ≤ 2 ^ 31) (hsz : bitmap.size < 2 ^ 32)
    (hb0 : 0 < blocksize) (hb1 : blocksize * 8 < 2 ^ 32)
    (hlen : bitmap.map.length = bitmap.size) :
    ∃ bm, reiserfs_bitmap_resize bitmap blocksize journal_len super_off 0 (end_ : Int) =
        some (1, bm) ∧
      bm.total_blocks = end_ ∧ bm.size = (end_ + 7) / 8 ∧ bm.map.length = (end_ + 7) / 8 ∧
      bm.start = bitmap.start := by
  have e1 : ¬ ¬ ((end_ : Int) - 0 > 0) := by simp; omega
  have e2 : ((end_ + 7) / 8 + 2 ^ 32 - bitmap.size % 2 ^ 32) % 2 ^ 32 ≠ 0 := by omega
  have e3 : ulong ((end_ : Int) - 0) = end_ := by unfold ulong; omega
  have e4 : (List.take ((end_ + 7) / 8) bitmap.map ++
      List.replicate ((end_ + 7) / 8 - bitmap.size) 0).length = (end_ + 7) / 8 := by
    rw [List.length_append, List.length_take, List.length_replicate, hlen]
    omega
  unfold reiserfs_bitmap_resize
  rw [if_neg e1, resize_map_other_size bitmap journal_len super_off end_ hs he]
  simp only
  rw [if_neg e2, if_neg (by omega)]
  simp only [e3]
  split
  · refine ⟨_, rfl, ?_⟩
    obtain ⟨h1, h2, h3, h4⟩ := use_fold_fields (fun i => i * blocksize * 8 % 2 ^ 64)
      (List.range' (bitmap.size % 2 ^ 32 / (blocksize % 2 ^ 32))
        (ulong (Int.tdiv ((end_ : Int) - 0 - 1) ((blocksize * 8 % 2 ^ 32 : Nat) : Int) + 1) -
          bitmap.size % 2 ^ 32 / (blocksize % 2 ^ 32)))
      { bitmap with
        map := bitmap.map.take ((end_ + 7) / 8) ++ List.replicate ((end_ + 7) / 8 - bitmap.size) 0
        size := (end_ + 7) / 8
        total_blocks := end_ }
    exact ⟨h1, h2, h3.trans e4, h4⟩
  · exact ⟨_, rfl, rfl, rfl, e4, rfl⟩

theorem bitmap_resize_same_size (bitmap : reiserfs_bitmap)
    (blocksize journal_len super_off end_ : Nat) (h0 : 0 < end_)
    (hs : (end_ + 7) / 8 = bitmap.size) :
    reiserfs_bitmap_resize bitmap blocksize journal_len super_off 0 (end_ : Int) =
      some (1, bitmap) := by
  have e : Int.tdiv ((end_ : Int) + 7) 8 = (bitmap.size : Int) := by
    rw [Int.tdiv_eq_ediv (by omega) (by norm_num), ← hs]
    norm_cast
  have e1 : ¬ ¬ ((end_ : Int) - 0 > 0) := by simp; omega
  unfold reiserfs_bitmap_resize
  rw [if_neg e1, resize_map_same_size bitmap journal_len super_off (end_ : Int) e]
  simp only
  rw [if_pos (by omega)]

/-- C21: when the new byte size equals the old one, `reiserfs_bitmap_resize(bitmap, 0, end)`
returns 1 and leaves the bitmap as it was: `reiserfs_bitmap_resize_map` returns
`bitmap->size`, the test `size - bitmap->size == 0` succeeds and the function returns
before `bitmap->total_blocks = end - start` is reached, so `total_blocks` keeps its old
value whatever `end` is. -/
theorem C21_bitmap_resize_same_byte_size_keeps_total_blocks (bitmap : reiserfs_bitmap)
    (blocksize journal_len super_off end_ : Nat) (h0 : 0 < end_)
    (hs : (end_ + 7) / 8 = bitmap.size) :
    reiserfs_bitmap_resize bitmap blocksize journal_len super_off 0 (end_ : Int) =
      some (1, bitmap) ∧
    ((reiserfs_bitmap_resize bitmap blocksize journal_len super_off 0 (end_ : Int)).map
      (fun r => r.2.total_blocks)) = some bitmap.total_blocks :=
  ⟨bitmap_resize_same_size bitmap blocksize journal_len super_off end_ h0 hs,
   by rw [bitmap_resize_same_size bitmap blocksize journal_len super_off end_ h0 hs]; rfl⟩

theorem C21_bitmap_resize_same_byte_size_keeps_total_blocks_witness :
    bitmap_example_ten.total_blocks = 10 ∧
    reiserfs_bitmap_resize bitmap_example_ten 4096 8192 16 0 12 =
      some (1, bitmap_example_ten) :=
  ⟨rfl, (C21_bitmap_resize_same_byte_size_keeps_total_blocks bitmap_example_ten 4096 8192 16 12
    (by decide) (by decide)).1⟩
/-! ## Store and load of the bitmap (C22) -/

/-- C22: the round trip fails on a fully used bitmap of 20 blocks whose padding bits are
zero, on a device of 100 blocks of 1024 bytes where every read and write succeeds:
`reiserfs_bitmap_sync` writes the map to block 17, but `reiserfs_bitmap_open` with the same
start and length returns NULL, because `reiserfs_bitmap_calc_used` counts the clear bits of
the loaded map bit by bit, finds 0, and `if (!(bitmap->used_blocks = ...)) goto error`
takes that for a failure. On the example bitmap, which has a free block, the same round
trip gives back the map. -/
theorem C22_bitmap_round_trip_fails_on_full_bitmap :
    (∀ c, 20 ≤ c → c < 24 → bit_set bitmap_full20.map c = false) ∧
    (∃ w1, reiserfs_bitmap_sync (create_world 1024 100) bitmap_full20 0 = some (some w1) ∧
      reiserfs_bitmap_open w1 0 17 20 = some none) ∧
    (∃ w1, reiserfs_bitmap_sync (create_world 1024 100) bitmap_example17 0 = some (some w1) ∧
      (reiserfs_bitmap_open w1 0 17 20).map (fun r => r.map (fun b => b.map)) =
        some (some bitmap_example17.map)) := by
  refine ⟨by decide, ⟨_, rfl, ?_⟩, ⟨_, rfl, ?_⟩⟩
  · decide!
  · decide!

/-! ## Traversal of the tree (C17) -/

theorem traverse_children_spec {σ : Type} (nf : reiserfs_block Node → σ → Int × σ)
    (traverse : Nat → σ → Option (Int × σ)) (order : Nat → List (reiserfs_block Node))
    (tree : reiserfs_tree) (node : reiserfs_block Node) (L : List Nat)
    (hT : ∀ i, i ∈ L → ∀ data, ∃ r, r ≠ 0 ∧
      traverse (child_block tree node.data i) data =
        some (r, (order (child_block tree node.data i)).foldl (fun d n => (nf n d).2) data)) :
    ∀ (r : Int) (data : σ), r ≠ 0 → ∃ r1, r1 ≠ 0 ∧
      reiserfs_tree_node_traverse_children traverse tree node none L r data =
        some (true, r1,
          (L.flatMap (fun i => order (child_block tree node.data i))).foldl
            (fun d n => (nf n d).2) data) := by
  induction L with
  | nil =>
    intro r data hr
    exact ⟨r, hr, rfl⟩
  | cons i rest ih =>
    intro r data hr
    obtain ⟨r1, hr1, e1⟩ := hT i (List.mem_cons_self _ _) data
    obtain ⟨r2, hr2, e2⟩ := ih (fun j hj => hT j (List.mem_cons_of_mem _ hj)) r1
      ((order (child_block tree node.data i)).foldl (fun d n => (nf n d).2) data) hr1
    refine ⟨r2, hr2, ?_⟩
    simp only [reiserfs_tree_node_traverse_children, e1, if_neg hr1, e2, List.flatMap_cons,
      List.foldl_append]

theorem node_traverse_spec {σ : Type} (nf : reiserfs_block Node → σ → Int × σ)
    (hnf : ∀ n d, is_leaf_node n.data = true ∨ is_internal_node n.data = true →
      (nf n d).1 ≠ 0)
    (w : World Node) (tree : reiserfs_tree) (height : Nat) :
    ∀ (fuel blk : Nat) (data : σ), traverse_wf w tree height blk = true → height ≤ fuel →
      ∃ r, r ≠ 0 ∧
        reiserfs_tree_node_traverse w tree none (some nf) none none fuel blk data =
          some (r, (traverse_order w tree height blk).foldl (fun d n => (nf n d).2) data) := by
  induction height with
  | zero =>
    intro fuel blk data hwf _
    simp [traverse_wf] at hwf
  | succ height ih =>
    intro fuel blk data hwf hfuel
    obtain ⟨fuel, rfl⟩ : ∃ f, fuel = f + 1 := ⟨fuel - 1, by omega⟩
    unfold traverse_wf at hwf
    unfold traverse_order
    rw [reiserfs_tree_node_traverse]
    cases hread : reiserfs_block_read w tree.dal blk with
    | none => rw [hread] at hwf; simp at hwf
    | some node =>
      rw [hread] at hwf
      simp only [Bool.and_eq_true, Bool.or_eq_true, Bool.not_eq_true', List.all_eq_true,
        List.mem_range] at hwf
      obtain ⟨hkind, hch⟩ := hwf
      have h1 : ¬ (is_leaf_node node.data = false ∧ is_internal_node node.data = false) := by
        rintro ⟨a, b⟩
        rcases hkind with h | h
        · rw [a] at h; cases h
        · rw [b] at h; cases h
      simp only [if_neg h1, one_ne_zero, if_false, if_neg (hnf node data hkind), List.foldl_cons]
      by_cases hint : is_internal_node node.data = true
      · have hch2 : ∀ i, i < get_node_nritems node.data + 1 →
            traverse_wf w tree height (child_block tree node.data i) = true := by
          rcases hch with h | h
          · rw [hint] at h; cases h
          · exact h
        obtain ⟨r1, hr1, e1⟩ := traverse_children_spec nf
          (reiserfs_tree_node_traverse w tree none (some nf) none none fuel)
          (traverse_order w tree height) tree node (List.range (get_node_nritems node.data + 1))
          (fun i hi data1 => ih fuel (child_block tree node.data i) data1
            (hch2 i (List.mem_range.1 hi)) (by omega))
          (nf node data).1 (nf node data).2 (hnf node data hkind)
        simp only [hint, if_true, e1]
        exact ⟨r1, hr1, rfl⟩
      · simp only [hint, Bool.false_eq_true, if_false, List.foldl_nil]
        exact ⟨(nf node data).1, hnf node data hkind, rfl⟩

theorem node_func_fold (L : List (reiserfs_block Node)) :
    (∀ n, n ∈ L → is_leaf_node n.data = true ∨ is_internal_node n.data = true) →
    ∀ a b : Nat, L.foldl (fun d n => (node_func n d).2) (a % 2 ^ 64, b % 2 ^ 64) =
      ((a + L.countP (fun n => is_leaf_node n.data)) % 2 ^ 64,
       (b + L.countP (fun n => is_internal_node n.data)) % 2 ^ 64) := by
  induction L with
  | nil => intro _ a b; simp
  | cons n L ih =>
    intro hk a b
    have hn := hk n (List.mem_cons_self _ _)
    have hL := ih (fun m hm => hk m (List.mem_cons_of_mem _ hm))
    simp only [List.foldl_cons, List.countP_cons]
    by_cases hint : is_internal_node n.data = true
    · have hleaf : is_leaf_node n.data = false := by
        unfold is_internal_node at hint
        unfold is_leaf_node
        simp only [decide_eq_true_eq] at hint
        simp only [decide_eq_false_iff_not]
        omega
      have e : (node_func n (a % 2 ^ 64, b % 2 ^ 64)).2 = (a % 2 ^ 64, (b + 1) % 2 ^ 64) := by
        unfold node_func
        rw [if_pos hint]
        simp
      rw [e, hL a (b + 1)]
      simp only [hint, hleaf, if_true, Bool.false_eq_true, if_false, add_zero]
      congr 2
      omega
    · have hleaf : is_leaf_node n.data = true := by
        rcases hn with h | h
        · exact h
        · exact absurd h hint
      have hint0 : is_internal_node n.data = false := by simpa using hint
      have e : (node_func n (a % 2 ^ 64, b % 2 ^ 64)).2 = ((a + 1) % 2 ^ 64, b % 2 ^ 64) := by
        unfold node_func
        rw [if_neg hint, if_pos hleaf]
        simp
      rw [e, hL (a + 1) b]
      simp only [hint0, hleaf, if_true, Bool.false_eq_true, if_false, add_zero]
      congr 2
      omega

theorem traverse_order_kind (w : World Node) (tree : reiserfs_tree) (height : Nat) :
    ∀ blk, traverse_wf w tree height blk = true →
      ∀ n, n ∈ traverse_order w tree height blk →
        is_leaf_node n.data = true ∨ is_internal_node n.data = true := by
  induction height with
  | zero => intro blk h; simp [traverse_wf] at h
  | succ height ih =>
    intro blk hwf n hn
    unfold traverse_wf at hwf
    unfold traverse_order at hn
    cases hread : reiserfs_block_read w tree.dal blk with
    | none => rw [hread] at hwf; simp at hwf
    | some node =>
      rw [hread] at hwf hn
      simp only [Bool.and_eq_true, Bool.or_eq_true, Bool.not_eq_true', List.all_eq_true,
        List.mem_range] at hwf
      obtain ⟨hkind, hch⟩ := hwf
      simp only [List.mem_cons] at hn
      rcases hn with rfl | hn
      · exact hkind
      · by_cases hint : is_internal_node node.data = true
        · rw [if_pos hint] at hn
          simp only [List.mem_flatMap, List.mem_range] at hn
          obtain ⟨i, hi, hmem⟩ := hn
          rcases hch with h | h
          · rw [hint] at h; cases h
          · exact ih _ (h i hi) n hmem
        · rw [if_neg hint] at hn
          cases hn

set_option maxRecDepth 100000 in
theorem tree_create_root_level (format blocksize : Nat) (env : dir_env)
    (hf : format = FS_FORMAT_3_5 ∨ format = FS_FORMAT_3_6)
    (hb : blocksize ∈ [1024, 2048, 4096, 8192, 16384, 32768, 65536]) :
    node_get_level (tree_create_root format (blocksize % 2 ^ 16) env) = LEAF_LEVEL := by
  show (root_view_of (tree_create_root format (blocksize % 2 ^ 16) env)).level = LEAF_LEVEL
  simp only [List.mem_cons, List.mem_singleton, List.not_mem_nil, or_false] at hb
  rcases hf with rfl | rfl <;> rcases hb with rfl | rfl | rfl | rfl | rfl | rfl | rfl <;>
    (rw [tree_create_root_view _ _ env (by decide)]; decide)

theorem simple_traverse_leaf_root (w : World Node) (tree : reiserfs_tree) (fuel : Nat)
    (node : reiserfs_block Node) (hroot : 2 ≤ reiserfs_tree_get_root tree)
    (hread : reiserfs_block_read w tree.dal
      (ulong ((reiserfs_tree_get_root tree : Int) + tree.offset)) = some node)
    (hleaf : is_leaf_node node.data = true) :
    reiserfs_tree_simple_traverse (fuel + 1) w tree (0, 0) (some node_func) =
      some (1, (1, 0)) := by
  have hint : is_internal_node node.data = false := by
    unfold is_leaf_node at hleaf
    unfold is_internal_node
    simp only [decide_eq_true_eq] at hleaf
    simp [hleaf, LEAF_LEVEL]
  have e : node_func node (0, 0) = (1, (1, 0)) := by
    unfold node_func
    simp [hint, hleaf]
  unfold reiserfs_tree_simple_traverse
  rw [if_neg (by omega), reiserfs_tree_node_traverse]
  simp only [hread, hleaf, hint, Bool.true_eq_false, Bool.false_eq_true, false_and, and_false,
    if_false, one_ne_zero, e]

/-- C17: for every tree that is well formed below its root block (every node readable and a
leaf or an internal node, the child pointers without a cycle: the height is bounded) and
whose root block number is at least 2, `reiserfs_tree_simple_traverse` with a node callback
that returns non-zero on the nodes of the tree returns non-zero, and the user data it
leaves is that of calling the callback on the nodes in the order of the specification, a
node before its children and the children of an internal node in slot order 0 .. nritems;
when no node is shared by two parents every node of that list is called exactly once.
With the callback `node_func` of the demo the two counters end as the numbers of leaves and
of internal nodes (in `unsigned long`); for a tree whose root is the leaf
`reiserfs_tree_create` writes they are 1 and 0. -/
theorem C17_simple_traverse_visits_every_node {σ : Type} (w : World Node)
    (tree : reiserfs_tree) (height fuel : Nat) (nf : reiserfs_block Node → σ → Int × σ)
    (data : σ) (hroot : 2 ≤ reiserfs_tree_get_root tree)
    (hwf : traverse_wf w tree height
      (ulong ((reiserfs_tree_get_root tree : Int) + tree.offset)) = true)
    (hfuel : height ≤ fuel)
    (hnf : ∀ n d, is_leaf_node n.data = true ∨ is_internal_node n.data = true →
      (nf n d).1 ≠ 0) :
    (∃ r, r ≠ 0 ∧
      reiserfs_tree_simple_traverse fuel w tree data (some nf) =
        some (r, (traverse_order w tree height
          (ulong ((reiserfs_tree_get_root tree : Int) + tree.offset))).foldl
            (fun d n => (nf n d).2) data)) ∧
    ((traverse_order w tree height
        (ulong ((reiserfs_tree_get_root tree : Int) + tree.offset))).Nodup →
      ∀ n, n ∈ traverse_order w tree height
          (ulong ((reiserfs_tree_get_root tree : Int) + tree.offset)) →
        (traverse_order w tree height
          (ulong ((reiserfs_tree_get_root tree : Int) + tree.offset))).count n = 1) ∧
    (∃ r, r ≠ 0 ∧
      reiserfs_tree_simple_traverse fuel w tree (0, 0) (some node_func) =
        some (r,
          ((traverse_order w tree height
              (ulong ((reiserfs_tree_get_root tree : Int) + tree.offset))).countP
                (fun n => is_leaf_node n.data) % 2 ^ 64,
           (traverse_order w tree height
              (ulong ((reiserfs_tree_get_root tree : Int) + tree.offset))).countP
                (fun n => is_internal_node n.data) % 2 ^ 64))) ∧
    (∀ (format blocksize : Nat) (env : dir_env) (node : reiserfs_block Node),
      (format = FS_FORMAT_3_5 ∨ format = FS_FORMAT_3_6) →
      blocksize ∈ [1024, 2048, 4096, 8192, 16384, 32768, 65536] →
      reiserfs_block_read w tree.dal
        (ulong ((reiserfs_tree_get_root tree : Int) + tree.offset)) = some node →
      get_node_level node.data =
        node_get_level (tree_create_root format (blocksize % 2 ^ 16) env) →
      reiserfs_tree_simple_traverse (fuel + 1) w tree (0, 0) (some node_func) =
        some (1, (1, 0))) := by
  have hkind := traverse_order_kind w tree height _ hwf
  refine ⟨?_, ?_, ?_, ?_⟩
  · obtain ⟨r, hr, e⟩ := node_traverse_spec nf hnf w tree height fuel _ data hwf hfuel
    refine ⟨r, hr, ?_⟩
    unfold reiserfs_tree_simple_traverse
    rw [if_neg (by omega), e]
  · intro hnd n hn
    exact List.count_eq_one_of_mem hnd hn
  · have hd : ∀ n (d : Nat × Nat),
        is_leaf_node n.data = true ∨ is_internal_node n.data = true →
        (node_func n d).1 ≠ 0 := by
      intro n d hk
      unfold node_func
      by_cases hint : is_internal_node n.data = true
      · rw [if_pos hint]; exact one_ne_zero
      · rcases hk with h | h
        · rw [if_neg hint, if_pos h]; exact one_ne_zero
        · exact absurd h hint
    obtain ⟨r, hr, e⟩ := node_traverse_spec node_func hd w tree height fuel _ (0, 0) hwf hfuel
    refine ⟨r, hr, ?_⟩
    unfold reiserfs_tree_simple_traverse
    rw [if_neg (by omega), e]
    have := node_func_fold _ hkind 0 0
    simp only [Nat.zero_mod, zero_add] at this
    rw [this]
  · intro format blocksize env node hf hb hread hlevel
    apply simple_traverse_leaf_root w tree fuel node hroot hread
    unfold is_leaf_node
    rw [hlevel, tree_create_root_level format blocksize env hf hb]
    rfl

theorem C17_simple_traverse_visits_every_node_witness :
    (∃ r, r ≠ 0 ∧
      reiserfs_tree_simple_traverse 5 tree_example_world tree_example (0, 0) (some node_func) =
        some (r,
          ((traverse_order tree_example_world tree_example 2
              (ulong ((reiserfs_tree_get_root tree_example : Int) + tree_example.offset))).countP
                (fun n => is_leaf_node n.data) % 2 ^ 64,
           (traverse_order tree_example_world tree_example 2
              (ulong ((reiserfs_tree_get_root tree_example : Int) + tree_example.offset))).countP
                (fun n => is_internal_node n.data) % 2 ^ 64))) ∧
    (traverse_order tree_example_world tree_example 2 20).countP
      (fun n => is_leaf_node n.data) = 2 ∧
    (traverse_order tree_example_world tree_example 2 20).countP
      (fun n => is_internal_node n.data) = 1 ∧
    (traverse_order tree_example_world tree_example 2 20).map
      (fun n => reiserfs_block_get_nr tree_example_world n) = [20, 21, 22] :=
  ⟨(C17_simple_traverse_visits_every_node tree_example_world tree_example 2 5 node_func (0, 0)
      (by decide) (by decide) (by decide) (by
        intro n d hk
        unfold node_func
        by_cases hint : is_internal_node n.data = true
        · rw [if_pos hint]; exact one_ne_zero
        · rcases hk with h | h
          · rw [if_neg hint, if_pos h]; exact one_ne_zero
          · exact absurd h hint)).2.2.1,
   by decide, by decide, by decide⟩

/-! ## The hash of a name (C18) -/

theorem hash_value_mask (x : Nat) :
    GET_HASH_VALUE x % 128 = 0 ∧ GET_HASH_VALUE x ≤ 0x7fffff80 := by
  unfold GET_HASH_VALUE
  constructor
  · have h := Nat.and_pow_two_sub_one_eq_mod (x &&& 0x7fffff80) 7
    have e : (x &&& 0x7fffff80) &&& (2 ^ 7 - 1) = 0 := by
      rw [Nat.land_assoc]
      have : (0x7fffff80 : Nat) &&& (2 ^ 7 - 1) = 0 := by decide
      rw [this, Nat.and_zero]
    rw [e] at h
    exact h.symm
  · exact Nat.and_le_right

theorem hash_func_of_code (code : Nat)
    (h : code = TEA_HASH ∨ code = YURA_HASH ∨ code = R5_HASH) :
    reiserfs_fs_hash_func code =
      some (if code = TEA_HASH then __tea_hash_func
        else if code = YURA_HASH then __yura_hash_func else __r5_hash_func) := by
  unfold reiserfs_fs_hash_func
  rcases h with rfl | rfl | rfl <;> simp [TEA_HASH, YURA_HASH, R5_HASH]

/-- C18: for every superblock whose hash code is TEA, YURA or R5, `reiserfs_fs_hash_value`
gives 1 for "." and 2 for ".."; for every other name it gives `h(name, strlen(name)) &
0x7fffff80` with `h` the hash function of the code (`__tea_hash_func`, `__yura_hash_func`
or `__r5_hash_func`), and 128 when that value is 0; the result is then not 0, a multiple of
128, at least 128 and at most 0x7fffff80. -/
theorem C18_hash_value (super : reiserfs_super) (name : List Int)
    (hcode : super.sb_hash_function_code % 2 ^ 32 = TEA_HASH ∨
      super.sb_hash_function_code % 2 ^ 32 = YURA_HASH ∨
      super.sb_hash_function_code % 2 ^ 32 = R5_HASH) :
    reiserfs_fs_hash_value super [46] = some 1 ∧
    reiserfs_fs_hash_value super [46, 46] = some 2 ∧
    (name ≠ [46] → name ≠ [46, 46] →
      ∃ h v, reiserfs_fs_hash_func (super.sb_hash_function_code % 2 ^ 32) = some h ∧
        h = (if super.sb_hash_function_code % 2 ^ 32 = TEA_HASH then __tea_hash_func
          else if super.sb_hash_function_code % 2 ^ 32 = YURA_HASH then __yura_hash_func
          else __r5_hash_func) ∧
        reiserfs_fs_hash_value super name = some v ∧
        v = (if h name (int32 name.length) &&& 0x7fffff80 = 0 then 128
          else h name (int32 name.length) &&& 0x7fffff80) ∧
        v ≠ 0 ∧ v % 128 = 0 ∧ 128 ≤ v ∧ v ≤ 0x7fffff80) := by
  refine ⟨by simp [reiserfs_fs_hash_value, DOT_OFFSET],
    by simp [reiserfs_fs_hash_value, DOT_DOT_OFFSET], ?_⟩
  intro h1 h2
  have hf := hash_func_of_code _ hcode
  obtain ⟨h, hh⟩ : ∃ h, h = (if super.sb_hash_function_code % 2 ^ 32 = TEA_HASH then
      __tea_hash_func
    else if super.sb_hash_function_code % 2 ^ 32 = YURA_HASH then __yura_hash_func
    else __r5_hash_func) := ⟨_, rfl⟩
  rw [← hh] at hf
  obtain ⟨m1, m2⟩ := hash_value_mask (h name (int32 name.length))
  unfold GET_HASH_VALUE at m1 m2
  refine ⟨h, _, hf, hh, ?_, rfl, ?_⟩
  · unfold reiserfs_fs_hash_value
    rw [if_neg h1, if_neg h2, hf]
    simp only [GET_HASH_VALUE]
    by_cases h0 : h name (int32 name.length) &&& 0x7fffff80 = 0
    · rw [if_pos h0, if_pos h0]
    · rw [if_neg h0, if_neg h0]
  · by_cases h0 : h name (int32 name.length) &&& 0x7fffff80 = 0
    · rw [if_pos h0]
      exact ⟨by norm_num, by norm_num, by norm_num, by norm_num⟩
    · rw [if_neg h0]
      refine ⟨h0, m1, ?_, m2⟩
      omega

theorem C18_hash_value_witness :
    reiserfs_fs_hash_value { super_zero with sb_hash_function_code := R5_HASH } name_hello =
      some (__r5_hash_func name_hello 5 &&& 0x7fffff80) ∧
    __r5_hash_func name_hello 5 &&& 0x7fffff80 = 295240192 ∧
    reiserfs_fs_hash_value { super_zero with sb_hash_function_code := TEA_HASH } [46] =
      some 1 :=
  ⟨by decide, by decide,
   (C18_hash_value { super_zero with sb_hash_function_code := TEA_HASH } name_hello
     (Or.inl (by decide))).1⟩

/-! ## core.c : resize, the theorems -/

/-! ## Resize of the filesystem (C19, C20) -/

theorem state_update_inv (w : World block_image) (fs : reiserfs_fs_t) (state : Nat) (r : Int)
    (fs1 : reiserfs_fs_t) (w1 : World block_image)
    (h : reiserfs_fs_state_update w fs state = some (r, fs1, w1)) (hr : r ≠ 0) :
    ∃ sb, fs.super = some sb ∧
      fs1 = { fs with super := some { sb with sb_fs_state := state % 2 ^ 16 },
                      super_dirty := false } ∧
      w1 = w.put fs.dal fs.super_off
        (block_image.super { sb with sb_fs_state := state % 2 ^ 16 }) := by
  unfold reiserfs_fs_state_update at h
  split at h
  · cases h
  · rename_i sb hsb
    unfold reiserfs_fs_super_sync at h
    simp only at h
    split at h
    · simp only [Option.some.injEq, Prod.mk.injEq] at h
      exact absurd h.1.symm hr
    · simp only [Option.some.injEq, Prod.mk.injEq] at h
      exact ⟨sb, hsb, h.2.1.symm, h.2.2.symm⟩

theorem state_update_total (w : World block_image) (fs : reiserfs_fs_t) (state : Nat)
    (sb : reiserfs_super) (hsb : fs.super = some sb)
    (hw : w.write_ok fs.dal fs.super_off = true) :
    reiserfs_fs_state_update w fs state =
      some (1, { fs with super := some { sb with sb_fs_state := state % 2 ^ 16 },
                         super_dirty := false },
        w.put fs.dal fs.super_off
          (block_image.super { sb with sb_fs_state := state % 2 ^ 16 })) := by
  unfold reiserfs_fs_state_update reiserfs_fs_super_sync
  simp only [hsb, hw, Bool.true_eq_false, if_false]

theorem fs_bitmap_resize_inv (w : World block_image) (fs : reiserfs_fs_t) (start end_ : Int)
    (r : Int) (fs2 : reiserfs_fs_t)
    (h : reiserfs_fs_bitmap_resize w fs start end_ = some (r, fs2)) (hr : r ≠ 0) :
    ∃ bm1, fs2 = { fs with bitmap := some bm1, bitmap_dirty := true } := by
  unfold reiserfs_fs_bitmap_resize at h
  split at h
  · simp only [Option.some.injEq, Prod.mk.injEq] at h
    exact absurd h.1.symm hr
  · split at h
    · cases h
    · rename_i r1 bm1 _
      split at h
      · simp only [Option.some.injEq, Prod.mk.injEq] at h
        exact absurd h.1.symm hr
      · simp only [Option.some.injEq, Prod.mk.injEq] at h
        exact ⟨bm1, h.2.symm⟩

/-- The superblock `reiserfs_fs_expand` leaves when it returns 1. -/
theorem expand_inv (w : World block_image) (fs : reiserfs_fs_t) (fs_len : Nat) (r : Int)
    (fs5 : reiserfs_fs_t) (w5 : World block_image) (sb : reiserfs_super)
    (hsb : fs.super = some sb)
    (h : reiserfs_fs_expand w fs fs_len = some (r, fs5, w5)) (hr : r ≠ 0) :
    fs_len ≤ w.len fs.dal ∧ sb.sb_block_size % 2 ^ 16 * 8 ≠ 0 ∧
    fs5.super = some { sb with
      sb_fs_state := FS_CONSISTENT % 2 ^ 16
      sb_free_blocks :=
        sub64 (add64 (sb.sb_free_blocks % 2 ^ 32) (sub64 fs_len (sb.sb_block_count % 2 ^ 32)))
          (sub64 (((fs_len + 2 ^ 64 - 1) % 2 ^ 64 / (sb.sb_block_size % 2 ^ 16 * 8) + 1) % 2 ^ 64)
            (sb.sb_bmap_nr % 2 ^ 16)) % 2 ^ 32
      sb_block_count := fs_len % 2 ^ 32
      sb_bmap_nr :=
        ((fs_len + 2 ^ 64 - 1) % 2 ^ 64 / (sb.sb_block_size % 2 ^ 16 * 8) + 1) % 2 ^ 64 % 2 ^ 16 } ∧
    fs5.super_off = fs.super_off ∧ fs5.dal = fs.dal ∧ fs5.bitmap.isSome = true ∧
    world_same w w5 := by
  unfold reiserfs_fs_expand at h
  split at h
  · simp only [Option.some.injEq, Prod.mk.injEq] at h
    exact absurd h.1.symm hr
  · rename_i hlen
    rw [hsb] at h
    simp only at h
    split at h
    · cases h
    · rename_i hbs
      split at h
      · cases h
      · rename_i r1 fs1 w1 h1
        split at h
        · simp only [Option.some.injEq, Prod.mk.injEq] at h
          exact absurd h.1.symm hr
        · rename_i hr1
          obtain ⟨sb1, hsb1, e1, ew1⟩ := state_update_inv w fs _ r1 fs1 w1 h1 hr1
          rw [hsb] at hsb1
          cases hsb1
          split at h
          · cases h
          · rename_i r2 fs2 h2
            split at h
            · simp only [Option.some.injEq, Prod.mk.injEq] at h
              exact absurd h.1.symm hr
            · rename_i hr2
              obtain ⟨bm1, e2⟩ := fs_bitmap_resize_inv w1 fs1 _ _ r2 fs2 h2 hr2
              subst e2
              subst e1
              simp only at h
              obtain ⟨sb5, hsb5, e5, ew5⟩ := state_update_inv _ _ _ r fs5 w5 h hr
              simp only [Option.some.injEq] at hsb5
              subst hsb5
              subst e5
              subst ew5
              subst ew1
              refine ⟨by omega, hbs, rfl, rfl, rfl, rfl, ?_⟩
              exact world_same_trans (world_same_put _ _ _ _) (world_same_put _ _ _ _)


theorem to_long_small (x : Nat) (h : x < 2 ^ 63) : to_long x = (x : Int) := by
  unfold to_long
  have e : x % 2 ^ 64 = x := Nat.mod_eq_of_lt (by omega)
  rw [e, if_pos h]

theorem fs_bitmap_resize_total (w : World block_image) (fs : reiserfs_fs_t)
    (bm : reiserfs_bitmap) (fs_len : Nat) (hbm : fs.bitmap = some bm)
    (hlen : bm.map.length = bm.size) (hsz : bm.size < 2 ^ 32) (h0 : 0 < fs_len)
    (h31 : fs_len + 8 ≤ 2 ^ 31) (hb0 : 0 < w.blocksize fs.dal)
    (hb1 : w.blocksize fs.dal * 8 < 2 ^ 32) :
    ∃ bm1, reiserfs_fs_bitmap_resize w fs 0 (to_long fs_len) =
        some (1, { fs with bitmap := some bm1, bitmap_dirty := true }) ∧
      bm1.map.length = bm1.size ∧ bm1.size < 2 ^ 32 := by
  rw [to_long_small fs_len (by omega)]
  unfold reiserfs_fs_bitmap_resize
  rw [hbm]
  simp only
  by_cases hs : (fs_len + 7) / 8 = bm.size
  · rw [bitmap_resize_same_size bm _ _ _ fs_len h0 hs]
    simp only [one_ne_zero, if_false]
    exact ⟨bm, rfl, hlen, hsz⟩
  · obtain ⟨bm1, e, _, e2, e3, _⟩ := bitmap_resize_other_size bm (w.blocksize fs.dal)
      (match fs.super with
       | none => 0
       | some sb => sb.sb_journal.jp_len % 2 ^ 32) fs.super_off fs_len h0 hs h31 hsz hb0 hb1 hlen
    rw [e]
    simp only [one_ne_zero, if_false]
    refine ⟨bm1, rfl, by rw [e3, e2], ?_⟩
    rw [e2]
    omega

theorem expand_total (w : World block_image) (fs : reiserfs_fs_t) (fs_len : Nat)
    (sb : reiserfs_super) (bm : reiserfs_bitmap) (hsb : fs.super = some sb)
    (hbm : fs.bitmap = some bm) (hlen : bm.map.length = bm.size) (hsz : bm.size < 2 ^ 32)
    (h0 : 0 < fs_len) (h31 : fs_len + 8 ≤ 2 ^ 31) (hdev : fs_len ≤ w.len fs.dal)
    (hbs : sb.sb_block_size % 2 ^ 16 ≠ 0)
    (hb0 : 0 < w.blocksize fs.dal) (hb1 : w.blocksize fs.dal * 8 < 2 ^ 32)
    (hw : w.write_ok fs.dal fs.super_off = true) :
    ∃ fs5 w5 bm5, reiserfs_fs_expand w fs fs_len = some (1, fs5, w5) ∧
      fs5.bitmap = some bm5 ∧ bm5.map.length = bm5.size ∧ bm5.size < 2 ^ 32 := by
  have e1 := state_update_total w fs FS_CORRUPTED sb hsb hw
  obtain ⟨bm1, e2, l1, l2⟩ := fs_bitmap_resize_total
    (w.put fs.dal fs.super_off (block_image.super { sb with sb_fs_state := FS_CORRUPTED % 2 ^ 16 }))
    { fs with super := some { sb with sb_fs_state := FS_CORRUPTED % 2 ^ 16 },
              super_dirty := false }
    bm fs_len hbm hlen hsz h0 h31 hb0 hb1
  unfold reiserfs_fs_expand
  rw [if_neg (by omega), hsb]
  simp only
  rw [if_neg (by omega), e1]
  simp only [one_ne_zero, if_false, e2]
  exact ⟨_, _, bm1, state_update_total _ _ FS_CONSISTENT _ rfl hw, rfl, l1, l2⟩

theorem resize_dumb_inv
    (relocate : reiserfs_fs_t → World block_image → reiserfs_segment → reiserfs_segment →
      Option (Nat × reiserfs_fs_t × World block_image))
    (w : World block_image) (fs : reiserfs_fs_t) (fs_len : Nat) (r : Int)
    (fs5 : reiserfs_fs_t) (w5 : World block_image) (sb : reiserfs_super)
    (hsb : fs.super = some sb)
    (h : reiserfs_fs_resize_dumb relocate w fs fs_len = some (r, fs5, w5)) (hr : r ≠ 0) :
    reiserfs_fs_is_resizeable fs = true ∧ fs.bitmap.isSome = true ∧
    sb.sb_umount_state % 2 ^ 16 = FS_CLEAN ∧ fs_len ≠ sb.sb_block_count % 2 ^ 32 ∧
    (sb.sb_block_count % 2 ^ 32 < fs_len → reiserfs_fs_expand w fs fs_len = some (r, fs5, w5)) ∧
    (fs_len < sb.sb_block_count % 2 ^ 32 →
      reiserfs_fs_shrink relocate w fs fs_len = some (r, fs5, w5)) := by
  unfold reiserfs_fs_resize_dumb reiserfs_fs_resize_check at h
  rw [hsb] at h
  simp only at h
  by_cases h1 : reiserfs_fs_is_resizeable fs = false
  · simp only [h1, if_true, Option.some.injEq, Prod.mk.injEq] at h
    exact absurd h.1.symm hr
  · rw [if_neg h1] at h
    by_cases h2 : fs.bitmap.isNone = true
    · simp only [h2, if_true, Option.some.injEq, Prod.mk.injEq] at h
      exact absurd h.1.symm hr
    · simp only [h2, Bool.false_eq_true, if_false] at h
      by_cases h3 : sb.sb_umount_state % 2 ^ 16 ≠ FS_CLEAN
      · simp only [if_pos h3, if_true, Option.some.injEq, Prod.mk.injEq] at h
        exact absurd h.1.symm hr
      · simp only [if_neg h3, one_ne_zero, if_false] at h
        by_cases h4 : fs_len = sb.sb_block_count % 2 ^ 32
        · simp only [if_pos h4, Option.some.injEq, Prod.mk.injEq] at h
          exact absurd h.1.symm hr
        · rw [if_neg h4] at h
          refine ⟨by simpa using h1, ?_, by simpa using h3, h4, ?_, ?_⟩
          · cases hb : fs.bitmap
            · rw [hb] at h2; exact absurd rfl h2
            · rfl
          · intro hg; rw [if_pos hg] at h; exact h
          · intro hl; rw [if_neg (by omega)] at h; exact h

theorem resize_dumb_expand
    (relocate : reiserfs_fs_t → World block_image → reiserfs_segment → reiserfs_segment →
      Option (Nat × reiserfs_fs_t × World block_image))
    (w : World block_image) (fs : reiserfs_fs_t) (fs_len : Nat) (sb : reiserfs_super)
    (hsb : fs.super = some sb) (hr : reiserfs_fs_is_resizeable fs = true)
    (hb : fs.bitmap.isSome = true) (hu : sb.sb_umount_state % 2 ^ 16 = FS_CLEAN)
    (hg : sb.sb_block_count % 2 ^ 32 < fs_len) :
    reiserfs_fs_resize_dumb relocate w fs fs_len = reiserfs_fs_expand w fs fs_len := by
  have hn : fs.bitmap.isNone = false := by
    cases h : fs.bitmap
    · rw [h] at hb; cases hb
    · rfl
  unfold reiserfs_fs_resize_dumb reiserfs_fs_resize_check
  simp only [hr, hn, hsb, hu, Bool.true_eq_false, Bool.false_eq_true, if_false, ne_eq,
    not_true_eq_false, one_ne_zero]
  rw [if_neg (by omega), if_pos hg]


theorem alloc_map_length (len : Nat) :
    (reiserfs_bitmap_alloc len).map.length = (reiserfs_bitmap_alloc len).size := by
  unfold reiserfs_bitmap_alloc
  simp only [List.length_replicate]

theorem expand_free_blocks (F L B N O : Nat) (hF : F < 2 ^ 32) (hL : L < 2 ^ 32) (hB : B < L)
    (hN : N < 2 ^ 16) (hO : O < 2 ^ 16) :
    ((sub64 (add64 F (sub64 L B)) (sub64 N O) % 2 ^ 32 : Nat) : Int) =
      ((F : Int) + ((L : Int) - B) - ((N : Int) - O)) % 2 ^ 32 := by
  unfold sub64 add64
  omega

/-- C19 (as amended): for every new size `fs_len` above `block_count` and below 2^32 that
needs fewer than 2^16 bitmap blocks, when `reiserfs_fs_resize_dumb(fs, fs_len)` returns 1
the filesystem was resizeable, cleanly unmounted, with its bitmap opened and `fs_len` within
the device, and the superblock then has `block_count = fs_len`,
`bmap_nr = (fs_len - 1) / (8 * block_size) + 1`, `fs_state` CONSISTENT and `free_blocks`
increased by `(fs_len - old block_count) - (new bmap_nr - old bmap_nr)` as a 32-bit value
(exactly that sum when it lies in `[0, 2^32)`). -/
theorem C19_resize_dumb_expand_counters
    (relocate : reiserfs_fs_t → World block_image → reiserfs_segment → reiserfs_segment →
      Option (Nat × reiserfs_fs_t × World block_image))
    (w : World block_image) (fs : reiserfs_fs_t) (fs_len : Nat) (fs5 : reiserfs_fs_t)
    (w5 : World block_image) (sb : reiserfs_super) (hsb : fs.super = some sb)
    (hgrow : sb.sb_block_count % 2 ^ 32 < fs_len) (h32 : fs_len < 2 ^ 32)
    (hbm : (fs_len - 1) / (8 * (sb.sb_block_size % 2 ^ 16)) + 1 < 2 ^ 16)
    (h : reiserfs_fs_resize_dumb relocate w fs fs_len = some (1, fs5, w5)) :
    reiserfs_fs_is_resizeable fs = true ∧ fs.bitmap.isSome = true ∧
    sb.sb_umount_state % 2 ^ 16 = FS_CLEAN ∧ fs_len ≤ w.len fs.dal ∧
    ∃ sb5, fs5.super = some sb5 ∧
      sb5.sb_block_count = fs_len ∧
      sb5.sb_bmap_nr = (fs_len - 1) / (8 * (sb.sb_block_size % 2 ^ 16)) + 1 ∧
      sb5.sb_fs_state = FS_CONSISTENT ∧
      (sb5.sb_free_blocks : Int) =
        (((sb.sb_free_blocks % 2 ^ 32 : Nat) : Int) +
          ((fs_len : Int) - ((sb.sb_block_count % 2 ^ 32 : Nat) : Int)) -
          ((((fs_len - 1) / (8 * (sb.sb_block_size % 2 ^ 16)) + 1 : Nat) : Int) -
            ((sb.sb_bmap_nr % 2 ^ 16 : Nat) : Int))) % 2 ^ 32 ∧
      sb5.sb_block_size = sb.sb_block_size ∧ sb5.sb_umount_state = sb.sb_umount_state := by
  obtain ⟨a1, a2, a3, _, a5, _⟩ := resize_dumb_inv relocate w fs fs_len 1 fs5 w5 sb hsb h
    one_ne_zero
  obtain ⟨b1, b2, b3, _, _, _, _⟩ := expand_inv w fs fs_len 1 fs5 w5 sb hsb (a5 hgrow)
    one_ne_zero
  have e1 : (fs_len + 2 ^ 64 - 1) % 2 ^ 64 = fs_len - 1 := by omega
  have e2 : sb.sb_block_size % 2 ^ 16 * 8 = 8 * (sb.sb_block_size % 2 ^ 16) := by ring
  rw [e1, e2] at b3
  have e3 : ((fs_len - 1) / (8 * (sb.sb_block_size % 2 ^ 16)) + 1) % 2 ^ 64 =
      (fs_len - 1) / (8 * (sb.sb_block_size % 2 ^ 16)) + 1 := Nat.mod_eq_of_lt (by omega)
  rw [e3] at b3
  refine ⟨a1, a2, a3, b1, _, b3, ?_, ?_, rfl, ?_, rfl, rfl⟩
  · exact Nat.mod_eq_of_lt h32
  · exact Nat.mod_eq_of_lt hbm
  · exact expand_free_blocks _ _ _ _ _ (Nat.mod_lt _ (by norm_num)) h32 hgrow hbm
      (Nat.mod_lt _ (by norm_num))


theorem C19_resize_dumb_expand_counters_witness :
    ∃ fs5 w5 sb5,
      reiserfs_fs_resize_dumb relocate_in_place (create_world 4096 20000) resize_example_fs
        20000 = some (1, fs5, w5) ∧
      fs5.super = some sb5 ∧ sb5.sb_block_count = 20000 ∧ sb5.sb_bmap_nr = 1 ∧
      sb5.sb_fs_state = FS_CONSISTENT ∧ sb5.sb_free_blocks = 1788 + 10000 := by
  obtain ⟨fs5, w5, _, h, _, _, _⟩ := expand_total (create_world 4096 20000) resize_example_fs 20000
    (resize_example_super 4096 10000 1788 1) (reiserfs_bitmap_alloc 10000) rfl rfl
    (alloc_map_length 10000) (by decide) (by decide) (by decide) (by decide)
    (by decide) (by decide) (by decide) rfl
  have h2 : reiserfs_fs_resize_dumb relocate_in_place (create_world 4096 20000)
      resize_example_fs 20000 = some (1, fs5, w5) := by
    rw [resize_dumb_expand relocate_in_place _ _ _ (resize_example_super 4096 10000 1788 1) rfl
      (by decide) (by decide) (by decide) (by decide)]
    exact h
  obtain ⟨_, _, _, _, sb5, c1, c2, c3, c4, c5, _, _⟩ :=
    C19_resize_dumb_expand_counters relocate_in_place (create_world 4096 20000)
      resize_example_fs 20000 fs5 w5 (resize_example_super 4096 10000 1788 1) rfl
      (by decide) (by decide) (by decide) h2
  refine ⟨fs5, w5, sb5, h2, c1, c2, ?_, c4, ?_⟩
  · rw [c3]; decide
  · have e : (((resize_example_super 4096 10000 1788 1).sb_free_blocks % 2 ^ 32 : Nat) : Int) +
        (((20000 : Nat) : Int) -
          (((resize_example_super 4096 10000 1788 1).sb_block_count % 2 ^ 32 : Nat) : Int)) -
        ((((20000 - 1) / (8 * ((resize_example_super 4096 10000 1788 1).sb_block_size % 2 ^ 16))
          + 1 : Nat) : Int) -
          (((resize_example_super 4096 10000 1788 1).sb_bmap_nr % 2 ^ 16 : Nat) : Int)) =
        11788 := by decide
    rw [e] at c5
    omega


/-- C19, the claim as first stated fails: a filesystem of 10000 blocks of 1024 bytes on a
device of 2^29 blocks is expanded to 2^29 blocks; the call returns 1 and `block_count` is
2^29, but `bmap_nr`, a 16-bit field, is 0 and not `ceil(2^29 / (8 * 1024)) = 65536`. -/
theorem C19_counterexample_bitmap_count_overflow :
    (2 ^ 29 - 1) / (8 * 1024) + 1 = 65536 ∧
    ∃ fs5 w5 sb5,
      reiserfs_fs_resize_dumb relocate_in_place (create_world 1024 (2 ^ 29))
        resize_example_fs_1k (2 ^ 29) = some (1, fs5, w5) ∧
      fs5.super = some sb5 ∧ sb5.sb_block_count = 2 ^ 29 ∧ sb5.sb_bmap_nr = 0 := by
  refine ⟨by norm_num, ?_⟩
  obtain ⟨fs5, w5, _, h, _, _, _⟩ := expand_total (create_world 1024 (2 ^ 29)) resize_example_fs_1k (2 ^ 29)
    (resize_example_super 1024 10000 1739 2) (reiserfs_bitmap_alloc 10000) rfl rfl
    (alloc_map_length 10000) (by decide) (by norm_num) (by norm_num)
    (le_refl _) (by decide) (by decide) (by decide) rfl
  have h2 : reiserfs_fs_resize_dumb relocate_in_place (create_world 1024 (2 ^ 29))
      resize_example_fs_1k (2 ^ 29) = some (1, fs5, w5) := by
    rw [resize_dumb_expand relocate_in_place _ _ _ (resize_example_super 1024 10000 1739 2) rfl
      (by decide) (by decide) (by decide) (by decide)]
    exact h
  obtain ⟨_, _, b3, _, _, _, _⟩ := expand_inv _ _ _ 1 fs5 w5
    (resize_example_super 1024 10000 1739 2) rfl h one_ne_zero
  refine ⟨fs5, w5, _, h2, b3, ?_, ?_⟩
  · show 2 ^ 29 % 2 ^ 32 = 2 ^ 29
    norm_num
  · show ((2 ^ 29 + 2 ^ 64 - 1) % 2 ^ 64 /
      ((resize_example_super 1024 10000 1739 2).sb_block_size % 2 ^ 16 * 8) + 1) % 2 ^ 64 %
        2 ^ 16 = 0
    have e : (resize_example_super 1024 10000 1739 2).sb_block_size % 2 ^ 16 * 8 = 8192 := by
      decide
    rw [e]
    norm_num


/-- The superblock `reiserfs_fs_shrink` leaves when it returns 1 and the relocation has moved
nothing. -/
theorem shrink_inv
    (relocate : reiserfs_fs_t → World block_image → reiserfs_segment → reiserfs_segment →
      Option (Nat × reiserfs_fs_t × World block_image))
    (hrel : ∀ f v d s root f2 v2, relocate f v d s = some (root, f2, v2) → f2 = f ∧ v2 = v)
    (w : World block_image) (fs : reiserfs_fs_t) (fs_len : Nat) (r : Int)
    (fs5 : reiserfs_fs_t) (w5 : World block_image) (sb : reiserfs_super)
    (hsb : fs.super = some sb)
    (h : reiserfs_fs_shrink relocate w fs fs_len = some (r, fs5, w5)) (hr : r ≠ 0) :
    8 * (sb.sb_block_size % 2 ^ 16) ≠ 0 ∧
    fs5.super = some { sb with
      sb_fs_state := FS_CONSISTENT % 2 ^ 16
      sb_free_blocks :=
        add64 (sub64 (sb.sb_free_blocks % 2 ^ 32) (sub64 (sb.sb_block_count % 2 ^ 32) fs_len))
          (sub64 (sb.sb_bmap_nr % 2 ^ 16)
            (((fs_len + 2 ^ 64 - 1) % 2 ^ 64 / (8 * (sb.sb_block_size % 2 ^ 16)) + 1) % 2 ^ 64)) %
          2 ^ 32
      sb_block_count := fs_len % 2 ^ 32
      sb_bmap_nr :=
        ((fs_len + 2 ^ 64 - 1) % 2 ^ 64 / (8 * (sb.sb_block_size % 2 ^ 16)) + 1) % 2 ^ 64 % 2 ^ 16 } ∧
    fs5.super_off = fs.super_off ∧ fs5.dal = fs.dal ∧ fs5.bitmap.isSome = true ∧
    world_same w w5 := by
  unfold reiserfs_fs_shrink at h
  rw [hsb] at h
  simp only at h
  split at h
  · cases h
  · rename_i hbs
    split at h
    · simp only [Option.some.injEq, Prod.mk.injEq] at h
      exact absurd h.1.symm hr
    · split at h
      · cases h
      · rename_i r1 fs1 w1 h1
        split at h
        · simp only [Option.some.injEq, Prod.mk.injEq] at h
          exact absurd h.1.symm hr
        · rename_i hr1
          obtain ⟨sb1, hsb1, e1, ew1⟩ := state_update_inv w fs _ r1 fs1 w1 h1 hr1
          rw [hsb] at hsb1
          cases hsb1
          split at h
          · cases h
          · rename_i root fs2 w2 h2
            obtain ⟨ef, ev⟩ := hrel _ _ _ _ _ _ _ h2
            subst ef
            subst ev
            split at h
            · simp only [Option.some.injEq, Prod.mk.injEq] at h
              exact absurd h.1.symm hr
            · split at h
              · cases h
              · rename_i r3 fs3 h3
                split at h
                · simp only [Option.some.injEq, Prod.mk.injEq] at h
                  exact absurd h.1.symm hr
                · rename_i hr3
                  obtain ⟨bm1, e3⟩ := fs_bitmap_resize_inv _ _ _ _ r3 fs3 h3 hr3
                  subst e3
                  subst e1
                  simp only at h
                  obtain ⟨sb5, hsb5, e5, ew5⟩ := state_update_inv _ _ _ r fs5 w5 h hr
                  simp only [Option.some.injEq] at hsb5
                  subst hsb5
                  subst e5
                  subst ew5
                  subst ew1
                  refine ⟨hbs, rfl, rfl, rfl, rfl, ?_⟩
                  exact world_same_trans (world_same_put _ _ _ _) (world_same_put _ _ _ _)

theorem shrink_total
    (relocate : reiserfs_fs_t → World block_image → reiserfs_segment → reiserfs_segment →
      Option (Nat × reiserfs_fs_t × World block_image))
    (w : World block_image) (fs : reiserfs_fs_t) (fs_len : Nat)
    (sb : reiserfs_super)
    (hrel : ∀ f v d s, f.super = some { sb with sb_fs_state := FS_CORRUPTED % 2 ^ 16 } →
      ∃ root, root ≠ 0 ∧ relocate f v d s = some (root, f, v))
    (bm : reiserfs_bitmap) (hsb : fs.super = some sb)
    (hbm : fs.bitmap = some bm) (hlen : bm.map.length = bm.size) (hsz : bm.size < 2 ^ 32)
    (h0 : 0 < fs_len) (h31 : fs_len + 8 ≤ 2 ^ 31)
    (hbs : sb.sb_block_size % 2 ^ 16 ≠ 0)
    (hfree : ¬ sub64 (sb.sb_block_count % 2 ^ 32) fs_len >
      sub64 ((sb.sb_free_blocks % 2 ^ 32 + sb.sb_bmap_nr % 2 ^ 16) % 2 ^ 32)
        (((fs_len + 2 ^ 64 - 1) % 2 ^ 64 / (8 * (sb.sb_block_size % 2 ^ 16)) + 1) % 2 ^ 64))
    (hb0 : 0 < w.blocksize fs.dal) (hb1 : w.blocksize fs.dal * 8 < 2 ^ 32)
    (hw : w.write_ok fs.dal fs.super_off = true) :
    ∃ fs5 w5, reiserfs_fs_shrink relocate w fs fs_len = some (1, fs5, w5) := by
  have e1 := state_update_total w fs FS_CORRUPTED sb hsb hw
  obtain ⟨bm1, e2, _, _⟩ := fs_bitmap_resize_total
    (w.put fs.dal fs.super_off (block_image.super { sb with sb_fs_state := FS_CORRUPTED % 2 ^ 16 }))
    { fs with super := some { sb with sb_fs_state := FS_CORRUPTED % 2 ^ 16 },
              super_dirty := false }
    bm fs_len hbm hlen hsz h0 h31 hb0 hb1
  unfold reiserfs_fs_shrink
  rw [hsb]
  simp only
  rw [if_neg (by omega), if_neg hfree, e1]
  simp only [one_ne_zero, if_false]
  obtain ⟨root, hroot, erel⟩ := hrel
    { fs with super := some { sb with sb_fs_state := FS_CORRUPTED % 2 ^ 16 },
              super_dirty := false }
    (w.put fs.dal fs.super_off (block_image.super { sb with sb_fs_state := FS_CORRUPTED % 2 ^ 16 }))
    { dal := fs.dal, start := (fs.super_off + 2 + reiserfs_fs_journal_area sb) % 2 ^ 64,
      end_ := fs_len }
    { dal := fs.dal, start := fs_len, end_ := sb.sb_block_count % 2 ^ 32 } rfl
  rw [erel]
  simp only [hroot, if_false, e2, one_ne_zero]
  exact ⟨_, _, state_update_total _ _ FS_CONSISTENT _ rfl hw⟩

theorem resize_dumb_shrink
    (relocate : reiserfs_fs_t → World block_image → reiserfs_segment → reiserfs_segment →
      Option (Nat × reiserfs_fs_t × World block_image))
    (w : World block_image) (fs : reiserfs_fs_t) (fs_len : Nat) (sb : reiserfs_super)
    (hsb : fs.super = some sb) (hr : reiserfs_fs_is_resizeable fs = true)
    (hb : fs.bitmap.isSome = true) (hu : sb.sb_umount_state % 2 ^ 16 = FS_CLEAN)
    (hg : fs_len < sb.sb_block_count % 2 ^ 32) :
    reiserfs_fs_resize_dumb relocate w fs fs_len = reiserfs_fs_shrink relocate w fs fs_len := by
  have hn : fs.bitmap.isNone = false := by
    cases h : fs.bitmap
    · rw [h] at hb; cases hb
    · rfl
  unfold reiserfs_fs_resize_dumb reiserfs_fs_resize_check
  simp only [hr, hn, hsb, hu, Bool.true_eq_false, Bool.false_eq_true, if_false, ne_eq,
    not_true_eq_false, one_ne_zero]
  rw [if_neg (by omega), if_neg (by omega)]


theorem sub64_modEq (a b : Nat) :
    Int.ModEq (2 ^ 32) ((sub64 a b : Nat) : Int) ((a : Int) - b) := by
  unfold Int.ModEq sub64
  omega

theorem add64_modEq (a b : Nat) :
    Int.ModEq (2 ^ 32) ((add64 a b : Nat) : Int) ((a : Int) + b) := by
  unfold Int.ModEq add64
  omega

theorem mod32_modEq (a : Nat) : Int.ModEq (2 ^ 32) ((a % 2 ^ 32 : Nat) : Int) (a : Int) := by
  unfold Int.ModEq
  omega

theorem modEq_small (x F : Nat) (hF : F < 2 ^ 32) (h : Int.ModEq (2 ^ 32) (x : Int) (F : Int)) :
    x % 2 ^ 32 = F := by
  unfold Int.ModEq at h
  omega

theorem round_trip_free_up (F L0 L1 N0 N1 : Nat) (hF : F < 2 ^ 32)
    (h1 : L1 < 2 ^ 32) (hN1 : N1 < 2 ^ 16) :
    add64 (sub64 (sub64 (add64 F (sub64 L1 L0)) (sub64 N1 N0) % 2 ^ 32 % 2 ^ 32)
      (sub64 (L1 % 2 ^ 32 % 2 ^ 32) L0)) (sub64 (N1 % 2 ^ 16 % 2 ^ 16) N0) % 2 ^ 32 = F := by
  rw [Nat.mod_mod, Nat.mod_mod, Nat.mod_mod, Nat.mod_eq_of_lt h1, Nat.mod_eq_of_lt hN1]
  apply modEq_small _ _ hF
  refine (add64_modEq _ _).trans ?_
  refine (Int.ModEq.add_right _ ((sub64_modEq _ _).trans (Int.ModEq.sub_right _
    ((mod32_modEq _).trans ((sub64_modEq _ _).trans
      (Int.ModEq.sub_right _ (add64_modEq _ _))))))).trans ?_
  have e : (F : Int) + ((sub64 L1 L0 : Nat) : Int) - ((sub64 N1 N0 : Nat) : Int) -
      ((sub64 L1 L0 : Nat) : Int) + ((sub64 N1 N0 : Nat) : Int) = F := by ring
  rw [e]

theorem round_trip_free_down (F L0 L1 N0 N1 : Nat) (hF : F < 2 ^ 32)
    (h1 : L1 < 2 ^ 32) (hN1 : N1 < 2 ^ 16) :
    sub64 (add64 (add64 (sub64 F (sub64 L0 L1)) (sub64 N0 N1) % 2 ^ 32 % 2 ^ 32)
      (sub64 L0 (L1 % 2 ^ 32 % 2 ^ 32))) (sub64 N0 (N1 % 2 ^ 16 % 2 ^ 16)) % 2 ^ 32 = F := by
  rw [Nat.mod_mod, Nat.mod_mod, Nat.mod_mod, Nat.mod_eq_of_lt h1, Nat.mod_eq_of_lt hN1]
  apply modEq_small _ _ hF
  refine (sub64_modEq _ _).trans ?_
  refine (Int.ModEq.sub_right _ ((add64_modEq _ _).trans (Int.ModEq.add_right _
    ((mod32_modEq _).trans ((add64_modEq _ _).trans
      (Int.ModEq.add_right _ (sub64_modEq _ _))))))).trans ?_
  have e : (F : Int) - ((sub64 L0 L1 : Nat) : Int) + ((sub64 N0 N1 : Nat) : Int) +
      ((sub64 L0 L1 : Nat) : Int) - ((sub64 N0 N1 : Nat) : Int) = F := by ring
  rw [e]

/-- The resize round trip where the counts of bitmap blocks fit the 16-bit field `bmap_nr`.
With a relocation that moves nothing (whenever
it returns, the filesystem structure and the devices are as before), for a superblock with
`block_count` = L0 whose `bmap_nr` is the bitmap block count of L0, and every other size L1
below 2^32 that needs fewer than 2^16 bitmap blocks: when `reiserfs_fs_resize_dumb(fs, L1)`
and then `reiserfs_fs_resize_dumb(fs, L0)` return 1, the superblock fields `free_blocks`,
`block_count` and `bmap_nr` have their original values, for L1 > L0 as well as L1 < L0. -/
theorem resize_dumb_round_trip
    (relocate : reiserfs_fs_t → World block_image → reiserfs_segment → reiserfs_segment →
      Option (Nat × reiserfs_fs_t × World block_image))
    (hrel : ∀ f v d s root f2 v2, relocate f v d s = some (root, f2, v2) → f2 = f ∧ v2 = v)
    (w : World block_image) (fs : reiserfs_fs_t) (L1 : Nat) (fs1 : reiserfs_fs_t)
    (w1 : World block_image) (fs2 : reiserfs_fs_t) (w2 : World block_image)
    (sb : reiserfs_super) (hsb : fs.super = some sb)
    (hF : sb.sb_free_blocks < 2 ^ 32) (hL0 : sb.sb_block_count < 2 ^ 32)
    (hpos0 : 0 < sb.sb_block_count) (hL1 : L1 < 2 ^ 32) (hpos1 : 0 < L1)
    (hN0 : sb.sb_bmap_nr = (sb.sb_block_count - 1) / (8 * (sb.sb_block_size % 2 ^ 16)) + 1)
    (hN0b : sb.sb_bmap_nr < 2 ^ 16)
    (hN1 : (L1 - 1) / (8 * (sb.sb_block_size % 2 ^ 16)) + 1 < 2 ^ 16)
    (h1 : reiserfs_fs_resize_dumb relocate w fs L1 = some (1, fs1, w1))
    (h2 : reiserfs_fs_resize_dumb relocate w1 fs1 sb.sb_block_count = some (1, fs2, w2)) :
    ∃ sb2, fs2.super = some sb2 ∧ sb2.sb_free_blocks = sb.sb_free_blocks ∧
      sb2.sb_block_count = sb.sb_block_count ∧ sb2.sb_bmap_nr = sb.sb_bmap_nr := by
  have eL0 : sb.sb_block_count % 2 ^ 32 = sb.sb_block_count := Nat.mod_eq_of_lt hL0
  have eF : sb.sb_free_blocks % 2 ^ 32 = sb.sb_free_blocks := Nat.mod_eq_of_lt hF
  have eN : sb.sb_bmap_nr % 2 ^ 16 = sb.sb_bmap_nr := Nat.mod_eq_of_lt hN0b
  have eL1 : L1 % 2 ^ 32 = L1 := Nat.mod_eq_of_lt hL1
  have q1 : (L1 + 2 ^ 64 - 1) % 2 ^ 64 = L1 - 1 := by omega
  have q0 : (sb.sb_block_count + 2 ^ 64 - 1) % 2 ^ 64 = sb.sb_block_count - 1 := by omega
  have comm : sb.sb_block_size % 2 ^ 16 * 8 = 8 * (sb.sb_block_size % 2 ^ 16) := by ring
  obtain ⟨_, _, _, hne, hup, hdown⟩ := resize_dumb_inv relocate w fs L1 1 fs1 w1 sb hsb h1
    one_ne_zero
  rw [eL0] at hne hup hdown
  generalize hn1 : (L1 - 1) / (8 * (sb.sb_block_size % 2 ^ 16)) + 1 = N1 at hN1
  have m1 : N1 % 2 ^ 64 = N1 := Nat.mod_eq_of_lt (by omega)
  have m0 : sb.sb_bmap_nr % 2 ^ 64 = sb.sb_bmap_nr := Nat.mod_eq_of_lt (by omega)
  rcases Nat.lt_or_gt_of_ne hne with hlt | hgt
  · -- L1 < L0 : shrink, then expand
    obtain ⟨_, s1, _, _, _, _⟩ := shrink_inv relocate hrel w fs L1 1 fs1 w1 sb hsb (hdown hlt)
      one_ne_zero
    obtain ⟨_, _, _, _, hup2, _⟩ := resize_dumb_inv relocate w1 fs1 sb.sb_block_count 1 fs2 w2
      _ s1 h2 one_ne_zero
    have hx := hup2 (by
      show L1 % 2 ^ 32 % 2 ^ 32 < sb.sb_block_count
      omega)
    obtain ⟨_, _, s2, _, _, _, _⟩ := expand_inv w1 fs1 sb.sb_block_count 1 fs2 w2 _ s1 hx
      one_ne_zero
    refine ⟨_, s2, ?_, eL0, ?_⟩
    · show sub64 (add64 (add64 (sub64 (sb.sb_free_blocks % 2 ^ 32)
          (sub64 (sb.sb_block_count % 2 ^ 32) L1))
          (sub64 (sb.sb_bmap_nr % 2 ^ 16)
            (((L1 + 2 ^ 64 - 1) % 2 ^ 64 / (8 * (sb.sb_block_size % 2 ^ 16)) + 1) % 2 ^ 64)) %
            2 ^ 32 % 2 ^ 32)
        (sub64 sb.sb_block_count (L1 % 2 ^ 32 % 2 ^ 32)))
        (sub64 (((sb.sb_block_count + 2 ^ 64 - 1) % 2 ^ 64 /
            (sb.sb_block_size % 2 ^ 16 * 8) + 1) % 2 ^ 64)
          (((L1 + 2 ^ 64 - 1) % 2 ^ 64 / (8 * (sb.sb_block_size % 2 ^ 16)) + 1) % 2 ^ 64 %
            2 ^ 16 % 2 ^ 16)) % 2 ^ 32 = sb.sb_free_blocks
      rw [q1, q0, comm, ← hN0, hn1, eL0, eF, eN, m1, m0]
      exact round_trip_free_down _ _ _ _ _ hF hL1 hN1
    · show ((sb.sb_block_count + 2 ^ 64 - 1) % 2 ^ 64 / (sb.sb_block_size % 2 ^ 16 * 8) + 1) %
          2 ^ 64 % 2 ^ 16 = sb.sb_bmap_nr
      rw [q0, comm, ← hN0, m0, eN]
  · -- L0 < L1 : expand, then shrink
    obtain ⟨_, _, s1, _, _, _, _⟩ := expand_inv w fs L1 1 fs1 w1 sb hsb (hup hgt) one_ne_zero
    obtain ⟨_, _, _, _, _, hdown2⟩ := resize_dumb_inv relocate w1 fs1 sb.sb_block_count 1 fs2 w2
      _ s1 h2 one_ne_zero
    have hx := hdown2 (by
      show sb.sb_block_count < L1 % 2 ^ 32 % 2 ^ 32
      omega)
    obtain ⟨_, s2, _, _, _, _⟩ := shrink_inv relocate hrel w1 fs1 sb.sb_block_count 1 fs2 w2 _
      s1 hx one_ne_zero
    refine ⟨_, s2, ?_, eL0, ?_⟩
    · show add64 (sub64 (sub64 (add64 (sb.sb_free_blocks % 2 ^ 32)
          (sub64 L1 (sb.sb_block_count % 2 ^ 32)))
          (sub64 (((L1 + 2 ^ 64 - 1) % 2 ^ 64 / (sb.sb_block_size % 2 ^ 16 * 8) + 1) % 2 ^ 64)
            (sb.sb_bmap_nr % 2 ^ 16)) % 2 ^ 32 % 2 ^ 32)
        (sub64 (L1 % 2 ^ 32 % 2 ^ 32) sb.sb_block_count))
        (sub64 (((L1 + 2 ^ 64 - 1) % 2 ^ 64 / (sb.sb_block_size % 2 ^ 16 * 8) + 1) % 2 ^ 64 %
            2 ^ 16 % 2 ^ 16)
          (((sb.sb_block_count + 2 ^ 64 - 1) % 2 ^ 64 /
            (8 * (sb.sb_block_size % 2 ^ 16)) + 1) % 2 ^ 64)) % 2 ^ 32 = sb.sb_free_blocks
      rw [q1, q0, comm, ← hN0, hn1, eL0, eF, eN, m1, m0]
      exact round_trip_free_up _ _ _ _ _ hF hL1 hN1
    · show ((sb.sb_block_count + 2 ^ 64 - 1) % 2 ^ 64 / (8 * (sb.sb_block_size % 2 ^ 16)) + 1) %
          2 ^ 64 % 2 ^ 16 = sb.sb_bmap_nr
      rw [q0, ← hN0, m0, eN]

theorem relocate_in_place_same (f : reiserfs_fs_t) (v : World block_image)
    (d s : reiserfs_segment) (root : Nat) (f2 : reiserfs_fs_t) (v2 : World block_image)
    (h : relocate_in_place f v d s = some (root, f2, v2)) : f2 = f ∧ v2 = v := by
  unfold relocate_in_place at h
  simp only [Option.some.injEq, Prod.mk.injEq] at h
  exact ⟨h.2.1.symm, h.2.2.symm⟩

theorem relocate_in_place_runs (sb : reiserfs_super) (hroot : sb.sb_root_block % 2 ^ 32 ≠ 0)
    (f : reiserfs_fs_t) (v : World block_image) (d s : reiserfs_segment)
    (hf : f.super = some { sb with sb_fs_state := FS_CORRUPTED % 2 ^ 16 }) :
    ∃ root, root ≠ 0 ∧ relocate_in_place f v d s = some (root, f, v) := by
  refine ⟨sb.sb_root_block % 2 ^ 32, hroot, ?_⟩
  unfold relocate_in_place
  rw [hf]

theorem resize_dumb_round_trip_example :
    ∃ fs1 w1 fs2 w2 sb2,
      reiserfs_fs_resize_dumb relocate_in_place (create_world 4096 20000) resize_example_fs
        20000 = some (1, fs1, w1) ∧
      reiserfs_fs_resize_dumb relocate_in_place w1 fs1 10000 = some (1, fs2, w2) ∧
      fs2.super = some sb2 ∧ sb2.sb_free_blocks = 1788 ∧ sb2.sb_block_count = 10000 ∧
      sb2.sb_bmap_nr = 1 := by
  obtain ⟨fs1, w1, bm1, h, hb1, hl1, hs1⟩ := expand_total (create_world 4096 20000)
    resize_example_fs 20000
    (resize_example_super 4096 10000 1788 1) (reiserfs_bitmap_alloc 10000) rfl rfl
    (alloc_map_length 10000) (by decide) (by decide) (by decide) (by decide)
    (by decide) (by decide) (by decide) rfl
  have h1 : reiserfs_fs_resize_dumb relocate_in_place (create_world 4096 20000)
      resize_example_fs 20000 = some (1, fs1, w1) := by
    rw [resize_dumb_expand relocate_in_place _ _ _ (resize_example_super 4096 10000 1788 1) rfl
      (by decide) (by decide) (by decide) (by decide)]
    exact h
  obtain ⟨_, _, s1, so1, d1, _, ws1⟩ := expand_inv _ _ _ 1 fs1 w1
    (resize_example_super 4096 10000 1788 1) rfl h one_ne_zero
  have hso : fs1.super_off = 16 := so1
  have hd : fs1.dal = 0 := d1
  have hres : reiserfs_fs_is_resizeable fs1 = true := by
    unfold reiserfs_fs_is_resizeable; rw [hso]; decide
  have hbs1 : w1.blocksize fs1.dal = 4096 := by rw [ws1.1, hd]; rfl
  have hw1 : w1.write_ok fs1.dal fs1.super_off = true := by rw [ws1.2.2.1]; rfl
  have hsome : fs1.bitmap.isSome = true := by rw [hb1]; rfl
  obtain ⟨fs2, w2, hS⟩ := shrink_total relocate_in_place w1 fs1 10000 _
    (relocate_in_place_runs _ (by decide))
    bm1 s1 hb1 hl1 hs1 (by decide) (by decide) (by decide) (by decide)
    (by rw [hbs1]; decide) (by rw [hbs1]; decide) hw1
  have h2 : reiserfs_fs_resize_dumb relocate_in_place w1 fs1 10000 = some (1, fs2, w2) := by
    rw [resize_dumb_shrink relocate_in_place _ _ _ _ s1 hres hsome (by decide) (by decide)]
    exact hS
  obtain ⟨sb2, a, b, c, d⟩ := resize_dumb_round_trip relocate_in_place
    relocate_in_place_same (create_world 4096 20000) resize_example_fs 20000 fs1 w1 fs2 w2
    (resize_example_super 4096 10000 1788 1) rfl (by decide) (by decide) (by decide)
    (by decide) (by decide) (by decide) (by decide) (by decide) h1 h2
  exact ⟨fs1, w1, fs2, w2, sb2, h1, h2, a, b, c, d⟩

/-- C20 (the code departs from the claim): a filesystem of 100000 blocks of 1024 bytes with
80000 free blocks and 13 bitmap blocks, on a device of 2^29 blocks, with a relocation that
moves nothing. `reiserfs_fs_resize_dumb(fs, 2^29)` returns 1: the expand takes the full
difference 65536 - 13 of the bitmap block counts off `free_blocks` and stores the new count
65536 in the 16-bit field `bmap_nr` as 0. `reiserfs_fs_resize_dumb(fs, 100000)` then returns
1 as well: the shrink reads the count back from the field and adds 0 - 13. `block_count`
and `bmap_nr` are 100000 and 13 again, but `free_blocks` is 14464 and not 80000. -/
theorem C20_round_trip_loses_free_blocks :
    (resize_example_super 1024 100000 80000 13).sb_free_blocks = 80000 ∧
    ∃ fs1 w1 fs2 w2 sb2,
      reiserfs_fs_resize_dumb relocate_in_place (create_world 1024 (2 ^ 29))
        resize_example_fs_100k (2 ^ 29) = some (1, fs1, w1) ∧
      reiserfs_fs_resize_dumb relocate_in_place w1 fs1 100000 = some (1, fs2, w2) ∧
      fs2.super = some sb2 ∧ sb2.sb_block_count = 100000 ∧ sb2.sb_bmap_nr = 13 ∧
      sb2.sb_free_blocks = 14464 := by
  refine ⟨rfl, ?_⟩
  obtain ⟨fs1, w1, bm1, h, hb1, hl1, hs1⟩ := expand_total (create_world 1024 (2 ^ 29))
    resize_example_fs_100k (2 ^ 29)
    (resize_example_super 1024 100000 80000 13) (reiserfs_bitmap_alloc 100000) rfl rfl
    (alloc_map_length 100000) (by decide) (by norm_num) (by norm_num) (le_refl _)
    (by decide) (by decide) (by decide) rfl
  have h1 : reiserfs_fs_resize_dumb relocate_in_place (create_world 1024 (2 ^ 29))
      resize_example_fs_100k (2 ^ 29) = some (1, fs1, w1) := by
    rw [resize_dumb_expand relocate_in_place _ _ _ (resize_example_super 1024 100000 80000 13)
      rfl (by decide) (by decide) (by decide) (by decide)]
    exact h
  obtain ⟨_, _, s1, so1, d1, _, ws1⟩ := expand_inv _ _ _ 1 fs1 w1
    (resize_example_super 1024 100000 80000 13) rfl h one_ne_zero
  have hso : fs1.super_off = 64 := so1
  have hd : fs1.dal = 0 := d1
  have hres : reiserfs_fs_is_resizeable fs1 = true := by
    unfold reiserfs_fs_is_resizeable; rw [hso]; decide
  have hbs1 : w1.blocksize fs1.dal = 1024 := by rw [ws1.1, hd]; rfl
  have hw1 : w1.write_ok fs1.dal fs1.super_off = true := by rw [ws1.2.2.1]; rfl
  have hsome : fs1.bitmap.isSome = true := by rw [hb1]; rfl
  obtain ⟨fs2, w2, hS⟩ := shrink_total relocate_in_place w1 fs1 100000 _
    (relocate_in_place_runs _ (by decide))
    bm1 s1 hb1 hl1 hs1 (by decide) (by decide) (by decide) (by decide)
    (by rw [hbs1]; decide) (by rw [hbs1]; decide) hw1
  have h2 : reiserfs_fs_resize_dumb relocate_in_place w1 fs1 100000 = some (1, fs2, w2) := by
    rw [resize_dumb_shrink relocate_in_place _ _ _ _ s1 hres hsome (by decide) (by decide)]
    exact hS
  obtain ⟨_, s2, _, _, _, _⟩ := shrink_inv relocate_in_place relocate_in_place_same w1 fs1
    100000 1 fs2 w2 _ s1 hS one_ne_zero
  exact ⟨fs1, w1, fs2, w2, _, h1, h2, s2, by decide, by decide, by decide⟩

/-! ## The offset setter of a version 2 key (C38) -/

theorem not_offset_mask : not64 KEY_OFFSET_MASK = (2 ^ 4 - 1) <<< 60 := by decide

theorem set_key_v2_offset_type (k : key) (val : Nat) :
    get_key_v2_type (set_key_v2_offset k val) =
      get_key_v2_type k ||| (val % 2 ^ 64 / 2 ^ 60) := by
  rw [get_key_v2_type_eq, get_key_v2_type_eq]
  show (((k.u % 2 ^ 64) &&& not64 KEY_OFFSET_MASK) ||| ((val % 2 ^ 64) <<< 0)) % 2 ^ 64 /
    2 ^ 60 % 16 = _
  apply Nat.eq_of_testBit_eq
  intro i
  have h16 : (16 : Nat) = 2 ^ 4 := by norm_num
  rw [h16, not_offset_mask, ← Nat.shiftRight_eq_div_pow, ← Nat.shiftRight_eq_div_pow,
    ← Nat.shiftRight_eq_div_pow]
  simp only [Nat.testBit_shiftRight, Nat.testBit_and, Nat.testBit_mod_two_pow, Nat.testBit_or,
    Nat.testBit_shiftLeft, Nat.testBit_two_pow_sub_one, Nat.shiftLeft_zero]
  by_cases h : i < 4
  · have : 60 + i < 64 := by omega
    simp [h, this]
  · have : ¬ 60 + i < 64 := by omega
    simp [h, this]

/-- C38 (the code departs from the claim): `set_key_v2_offset(key, val)` ORs the whole 64-bit
`val` into the word, so for every key and value the type read afterwards is the old type
ORed with the top four bits of `val`: unchanged for `val < 2^60`, but for the zeroed key and
`val = 2^60` the type goes from 0 to 1. -/
theorem C38_set_key_v2_offset_type_bits :
    (∀ (k : key) (val : Nat), get_key_v2_type (set_key_v2_offset k val) =
      get_key_v2_type k ||| (val % 2 ^ 64 / 2 ^ 60)) ∧
    get_key_v2_type key_zero = 0 ∧
    get_key_v2_type (set_key_v2_offset key_zero (2 ^ 60)) = 1 := by
  refine ⟨set_key_v2_offset_type, by decide, ?_⟩
  rw [set_key_v2_offset_type]
  decide

theorem set_key_v2_offset_type_small (k : key) (val : Nat) (h : val < 2 ^ 60) :
    get_key_v2_type (set_key_v2_offset k val) = get_key_v2_type k := by
  rw [set_key_v2_offset_type, Nat.mod_eq_of_lt (by omega), Nat.div_eq_of_lt h, Nat.or_zero]

/-! ## The names of the formats (C40) -/

theorem format_from_str_spec (s : String) :
    reiserfs_fs_format_from_str (some s) =
      if s = "3.5" then 0 else if s = "unknown" then 1 else if s = "3.6" then 2 else -1 := by
  simp only [reiserfs_fs_format_from_str, reiserfs_fs_format_from_str_loop, strcmp,
    reiserfs_short_formats]
  by_cases h1 : s = "3.5"
  · subst h1; decide
  · by_cases h2 : s = "unknown"
    · subst h2; decide
    · by_cases h3 : s = "3.6"
      · subst h3; decide
      · have e1 : ¬ ("3.5" = s) := fun h => h1 h.symm
        have e2 : ¬ ("unknown" = s) := fun h => h2 h.symm
        have e3 : ¬ ("3.6" = s) := fun h => h3 h.symm
        simp [h1, h2, h3, e1, e2, e3]

/-- C40 (the code departs from the claim): `reiserfs_fs_format_from_str` compares the string
with every entry of the table "3.5", "unknown", "3.6", the placeholder of index 1 included:
it returns 0 for "3.5", 2 for "3.6", -1 for every string that is none of the three entries,
and 1 for "unknown", which is neither FS_FORMAT_3_5 nor FS_FORMAT_3_6; `mkfs_format` hands
that 1 on as the format to create. -/
theorem C40_format_from_str_accepts_unknown :
    (∀ s : String, reiserfs_fs_format_from_str (some s) =
      if s = "3.5" then 0 else if s = "unknown" then 1 else if s = "3.6" then 2 else -1) ∧
    reiserfs_fs_format_from_str (some "unknown") = 1 ∧
    (1 : Int) ≠ FS_FORMAT_3_5 ∧ (1 : Int) ≠ FS_FORMAT_3_6 ∧
    mkfs_format 2 (some "2.4.18") (some "unknown") = 1 := by
  refine ⟨format_from_str_spec, by decide, by decide, by decide, by decide⟩

/-! ## The item behind the stat data of a symbolic link (C39) -/

/-- C39 (the code departs from the claim): the guard of `reiserfs_object_link` is
`leaf->pos >= nritems`, so when the frame stands on the last item of the leaf
(`pos + 1 = nritems`) the guard passes and the item head of index `pos + 1 = nritems`, one
beyond the item heads of the node, is read. -/
theorem C39_object_link_reads_past_last_item (leaf : reiserfs_path_node)
    (hn : leaf.node.data.keys.length < 2 ^ 16)
    (hlast : leaf.pos + 1 = leaf.node.data.keys.length) :
    leaf.pos < get_node_nritems leaf.node.data ∧ reiserfs_object_link leaf = none := by
  have e : get_node_nritems leaf.node.data = leaf.node.data.keys.length := by
    unfold get_node_nritems
    exact Nat.mod_eq_of_lt hn
  refine ⟨by omega, ?_⟩
  unfold reiserfs_object_link
  rw [if_neg (by omega), Nat.mod_eq_of_lt (by omega)]
  have : leaf_ih_key leaf.node.data (leaf.pos + 1) = none := by
    unfold leaf_ih_key
    rw [hlast]
    exact List.getElem?_eq_none (le_refl _)
  rw [this]

theorem C39_object_link_reads_past_last_item_witness :
    link_example_leaf.pos < get_node_nritems link_example_leaf.node.data ∧
    reiserfs_object_link link_example_leaf = none :=
  C39_object_link_reads_past_last_item link_example_leaf (by decide) (by decide)

/-! ## A failing child hook (C33) -/

/-- C33 (the code departs from the claim): `chld_func` is tested with
`if (chld_func && !chld_func(node, i, call_result, data)) goto error_free_node;`, which
leaves the non-zero result of the child in `call_result`. So when the hooks before and on an
internal node return non-zero, the traversal of its first child returns `r ≠ 0` and
`chld_func` returns 0 for that child, `reiserfs_tree_node_traverse` stops there and returns
`r`, not 0. -/
theorem C33_failed_child_hook_returns_nonzero {σ : Type} (w : World Node) (tree : reiserfs_tree)
    (before_node_func : Option (reiserfs_block Node → σ → Int × σ))
    (nf : reiserfs_block Node → σ → Int × σ)
    (cf : reiserfs_block Node → Nat → Int → σ → Int × σ)
    (after_node_func : Option (reiserfs_block Node → σ → Int × σ))
    (fuel blk : Nat) (data : σ) (node : reiserfs_block Node) (rb : Int × σ) (r : Int) (d1 : σ)
    (hread : reiserfs_block_read w tree.dal blk = some node)
    (hint : is_internal_node node.data = true)
    (hrb : rb = (match before_node_func with
      | none => (1, data)
      | some bf => bf node data))
    (hb : rb.1 ≠ 0) (hn : (nf node rb.2).1 ≠ 0)
    (hchild : reiserfs_tree_node_traverse w tree before_node_func (some nf) (some cf)
      after_node_func fuel (child_block tree node.data 0) (nf node rb.2).2 = some (r, d1))
    (hr : r ≠ 0) (hcf : (cf node 0 r d1).1 = 0) :
    reiserfs_tree_node_traverse w tree before_node_func (some nf) (some cf) after_node_func
      (fuel + 1) blk data = some (r, (cf node 0 r d1).2) := by
  subst hrb
  rw [reiserfs_tree_node_traverse]
  simp only [hread]
  rw [if_neg (by rw [hint]; simp)]
  cases before_node_func with
  | none =>
    dsimp only at hb hn hchild ⊢
    simp only [hn, if_false, hint, if_true, one_ne_zero]
    rw [List.range_succ_eq_map]
    simp only [reiserfs_tree_node_traverse_children, hchild, hr, if_false, hcf, if_true]
  | some bf =>
    dsimp only at hb hn hchild ⊢
    simp only [hb, hn, if_false, hint, if_true]
    rw [List.range_succ_eq_map]
    simp only [reiserfs_tree_node_traverse_children, hchild, hr, if_false, hcf, if_true]

theorem C33_failed_child_hook_returns_nonzero_witness :
    reiserfs_tree_node_traverse tree_example_world tree_example none (some hook_count)
      (some hook_chld_fail) none (1 + 1) 20 0 =
        some (1, (hook_chld_fail ⟨0, tree_example_world.data 0 20, 81920, 0⟩ 0 1 2).2) :=
  C33_failed_child_hook_returns_nonzero tree_example_world tree_example none hook_count
    hook_chld_fail none 1 20 0 ⟨0, tree_example_world.data 0 20, 81920, 0⟩ (1, 0) 1 2
    (by decide) (by decide) rfl (by decide) (by decide) (by decide) (by decide) (by decide)

theorem traverse_example_failed_child_hook :
    reiserfs_tree_traverse 5 tree_example_world tree_example 0 none (some hook_count)
      (some hook_chld_fail) none = some (1, 2) := by
  decide

/-! ## Moving a node within one filesystem (C32, C35) -/

/-- C35 (the code departs from the claim): in the in-place relocation of the example
(`smart = 0`, destination segment 5 .. 19) every block of the destination segment is in
use. `generic_node_write` for the node of block 30 clears bit 30, searches from block 5 up
to the end of the bitmap, not of the segment, takes block 20, writes the node there and
returns 20, a block outside the destination segment, where the claim expects the
result 0. -/
theorem C35_destination_block_outside_segment :
    reloc_example.smart = 0 ∧
    reiserfs_block_get_nr reloc_full_state.world reloc_full_node = 30 ∧
    (∀ c, c < 20 → 5 ≤ c → reiserfs_bitmap_test_block reloc_full_bitmap c ≠ 0) ∧
    (generic_node_write reloc_example reloc_full_node reloc_full_state).map
      (fun r => (r.1, reiserfs_block_get_nr r.2.2.world r.2.1, (r.2.2.fs 0).bitmap)) =
      some (20, 20,
        some { start := 0, total_blocks := 32, used_blocks := 21, map := [255, 255, 31, 0],
               size := 4 }) ∧
    reiserfs_segment_test_inside reloc_example.dst_segment 20 = false := by
  refine ⟨by decide, by decide, by decide, by decide, by decide⟩

/-! ## The count of used blocks across a resize (C36) -/

/-- C36 (the code departs from the claim): the 20-block bitmap of the example has 19 bits
set and `used_blocks` = 19. `reiserfs_bitmap_resize(bitmap, 0, 8)` returns 1 and cuts the
map to one byte and `total_blocks` to 8, but `used_blocks` is still 19 while 8 bits are set
in `[0, 8)`: the 11 used blocks of the removed tail are still counted. -/
theorem C36_bitmap_resize_shrink_keeps_used_blocks :
    count_set_bits bitmap_example.map 0 bitmap_example.total_blocks =
      bitmap_example.used_blocks ∧
    reiserfs_bitmap_resize bitmap_example 4096 8192 16 0 8 =
      some (1, { start := 0, total_blocks := 8, used_blocks := 19, map := [255], size := 1 }) ∧
    count_set_bits [255] 0 8 = 8 := by
  refine ⟨by decide, by decide, by decide⟩

/-! ## Termination of the lookup (C34) -/

theorem fast_search_loop_total {α : Type} (comp : α → α → Int)
    (hrange : ∀ a b, comp a b = -1 ∨ comp a b = 0 ∨ comp a b = 1)
    (needle : α) (array : List α) (width : Nat) (hw : 0 < width)
    (bound : Nat) (hbw : bound * width < 2 ^ 32) :
    ∀ (fuel : Nat) (left right : Int), 0 ≤ left → right < array.length → right < 2 ^ 30 →
      right ≤ bound → left ≤ right + 1 → right - left + 2 ≤ fuel →
      ∃ found pos, fast_search_loop comp needle array width fuel left right =
        some (found, pos) := by
  intro fuel
  induction fuel with
  | zero => intro left right h0 h1 _ _ h2 h3; omega
  | succ fuel ih =>
    intro left right h0 h1 h30 hbd h2 h3
    unfold fast_search_loop
    by_cases hlr : left ≤ right
    · rw [if_pos hlr]
      have hsum : int32 (right + left) = right + left := int32_of_range _ (by omega) (by omega)
      have hi : Int.tdiv (int32 (right + left)) 2 = (right + left) / 2 := by
        rw [hsum, Int.tdiv_eq_ediv (by omega) (by norm_num)]
      simp only [hi]
      have hi0 : 0 ≤ (right + left) / 2 := by omega
      have hilt : ((right + left) / 2).toNat < array.length := by omega
      have hat : array_at array width ((right + left) / 2) =
          some array[((right + left) / 2).toNat] :=
        array_at_eq array width hw _ hi0
          (lt_of_le_of_lt (Nat.mul_le_mul_right _ (by omega)) hbw) hilt
      rw [hat]
      simp only
      rcases hrange array[((right + left) / 2).toNat] needle with hres | hres | hres
      · rw [if_pos hres]
        have h32 : int32 ((right + left) / 2 + 1) = (right + left) / 2 + 1 :=
          int32_of_range _ (by omega) (by omega)
        rw [h32]
        exact ih _ _ (by omega) h1 h30 hbd (by omega) (by omega)
      · rw [if_neg (by omega), if_neg (by omega), if_pos hres]
        exact ⟨_, _, rfl⟩
      · rw [if_neg (by omega), if_pos hres]
        by_cases hz : (right + left) / 2 = 0
        · rw [if_pos hz]
          exact ⟨_, _, rfl⟩
        · rw [if_neg hz]
          have h32 : int32 ((right + left) / 2 - 1) = (right + left) / 2 - 1 :=
            int32_of_range _ (by omega) (by omega)
          rw [h32]
          exact ih _ _ h0 (by omega) (by omega) (by omega) (by omega) (by omega)
    · rw [if_neg hlr]
      exact ⟨_, _, rfl⟩

theorem fast_search_total {α : Type} (comp : α → α → Int)
    (hrange : ∀ a b, comp a b = -1 ∨ comp a b = 0 ∨ comp a b = 1)
    (needle : α) (array : List α) (count : Nat) (hc : count ≤ array.length)
    (h30 : count ≤ 2 ^ 30) (width : Nat) (hw : 0 < width)
    (hcw : (count - 1) * width < 2 ^ 32) :
    ∃ found pos, reiserfs_tools_fast_search needle array (count : Int) width comp =
      some (found, pos) := by
  unfold reiserfs_tools_fast_search
  by_cases h0 : (count : Int) = 0
  · rw [if_pos h0]
    exact ⟨_, _, rfl⟩
  · rw [if_neg h0]
    have h32 : int32 ((count : Int) - 1) = (count : Int) - 1 :=
      int32_of_range _ (by omega) (by omega)
    rw [h32]
    exact fast_search_loop_total comp hrange needle array width hw (count - 1) hcw _ _ _
      (le_refl _) (by omega) (by omega) (by omega) (by omega) (by omega)

theorem lookup_loop_total (comp : key → key → Int)
    (hrange : ∀ a b, comp a b = -1 ∨ comp a b = 0 ∨ comp a b = 1)
    (w : World Node) (tree : reiserfs_tree) (k : key) (for_leaf : Bool) :
    ∀ (fuel blk : Nat) (path : reiserfs_path), path.length ≤ path.max_length →
      path.max_length < 2 ^ 32 → path.max_length - path.length + 1 ≤ fuel →
      ∃ r path', reiserfs_tree_node_lookup_loop w tree comp k for_leaf fuel blk path =
          some (r, path') ∧
        path'.max_length = path.max_length ∧ path'.length ≤ path.max_length := by
  intro fuel
  induction fuel with
  | zero => intro blk path _ _ h; omega
  | succ fuel ih =>
    intro blk path hle h32 hfuel
    rw [reiserfs_tree_node_lookup_loop]
    cases hread : reiserfs_block_read w tree.dal blk with
    | none => exact ⟨_, _, rfl, rfl, hle⟩
    | some node =>
      dsimp only
      by_cases h1 : get_node_level node.data >
          (reiserfs_tree_get_height tree + 2 ^ 32 - 1) % 2 ^ 32
      · rw [if_pos h1]
        exact ⟨_, _, rfl, rfl, hle⟩
      · rw [if_neg h1]
        by_cases h2 : for_leaf = false ∧ is_leaf_node node.data = true
        · rw [if_pos h2]
          exact ⟨_, _, rfl, rfl, hle⟩
        · rw [if_neg h2]
          obtain ⟨found, pos, hfs⟩ := fast_search_total comp hrange k node.data.keys
            (get_node_nritems node.data)
            (by unfold get_node_nritems; exact Nat.mod_le _ _)
            (by unfold get_node_nritems; omega)
            (if is_leaf_node node.data = true then IH_SIZE else FULL_KEY_SIZE)
            (lookup_width node.data (get_node_nritems node.data)
              (by unfold get_node_nritems; omega)).1
            (lookup_width node.data (get_node_nritems node.data)
              (by unfold get_node_nritems; omega)).2
          rw [hfs]
          dsimp only
          unfold reiserfs_path_inc
          by_cases hcap : path.length < path.max_length
          · rw [if_neg (not_not.mpr hcap)]
            dsimp only
            rw [if_neg one_ne_zero]
            have hl1 : (path.length + 1) % 2 ^ 32 = path.length + 1 :=
              Nat.mod_eq_of_lt (by omega)
            by_cases h3 : is_leaf_node node.data = true
            · rw [if_pos h3]
              exact ⟨_, _, rfl, rfl, by dsimp only; omega⟩
            · rw [if_neg h3]
              by_cases h4 : get_node_level node.data = 2 ∧ for_leaf = false
              · rw [if_pos h4]
                exact ⟨_, _, rfl, rfl, by dsimp only; omega⟩
              · rw [if_neg h4]
                exact ih _ _ (by dsimp only; omega) h32 (by dsimp only; omega)
          · rw [if_pos hcap]
            dsimp only
            rw [if_pos rfl]
            exact ⟨_, _, rfl, rfl, hle⟩

/-- C34 (the code departs from the claim): the lookup checks the level of each node against
the height of the tree only, and nothing but the capacity of the path ends a descent that
does not reach a leaf. In a tree of height 3 whose root, block 20, is an internal node of
level 2 with child pointers back to block 20, the lookup of a leaf has not returned after
reading 3 nor after reading 5 nodes; it returns 0 at the sixth node, when
`reiserfs_path_inc` refuses a sixth frame for the path of capacity 5. -/
theorem C34_lookup_cycle_reads_six_nodes :
    reiserfs_tree_get_height tree_example = 3 ∧
    (reiserfs_tree_node_lookup 3 cycle_example_world tree_example 20
      (some reiserfs_key_comp_four_components) (key_at 3) true path_empty).isNone = true ∧
    (reiserfs_tree_node_lookup 5 cycle_example_world tree_example 20
      (some reiserfs_key_comp_four_components) (key_at 3) true path_empty).isNone = true ∧
    (reiserfs_tree_node_lookup 6 cycle_example_world tree_example 20
      (some reiserfs_key_comp_four_components) (key_at 3) true path_empty).map
        (fun r => (r.1, r.2.length)) = some (0, 5) := by
  refine ⟨by decide, by decide, by decide, by decide⟩

/-- With a comparator that returns -1, 0 or 1 and a path of capacity `max_length`, the
lookup returns after reading at most `max_length + 1` nodes, whatever the device holds, and
the path it leaves has at most `max_length` frames. -/
theorem lookup_total (comp : key → key → Int)
    (hrange : ∀ a b, comp a b = -1 ∨ comp a b = 0 ∨ comp a b = 1)
    (w : World Node) (tree : reiserfs_tree) (blk : Nat) (k : key) (for_leaf : Bool)
    (path : reiserfs_path) (h32 : path.max_length < 2 ^ 32) :
    ∃ r path', reiserfs_tree_node_lookup (path.max_length + 1) w tree blk (some comp) k
        for_leaf path = some (r, path') ∧
      path'.max_length = path.max_length ∧ path'.length ≤ path.max_length := by
  unfold reiserfs_tree_node_lookup
  exact lookup_loop_total comp hrange w tree k for_leaf _ blk (reiserfs_path_clear path)
    (Nat.zero_le _) h32 (le_refl _)

/-! ## The walk of the journal (C31) -/

theorem desc_comm_in_journal (w : World journal_block) (journal : reiserfs_journal)
    (desc : reiserfs_block journal_block) (hpos : 0 < journal.jp_len)
    (hstart : journal.jp_start + journal.jp_len ≤ 2 ^ 64) :
    ∃ c, c < journal.jp_len ∧
      reiserfs_journal_desc_comm w journal desc = journal.jp_start + c := by
  unfold reiserfs_journal_desc_comm reiserfs_journal_desc_prop
  dsimp only
  generalize (ulong ((reiserfs_block_get_nr w desc : Int) - journal.jp_start) +
    get_jd_desc_trans_len desc + JOURNAL_DESC_COMM) % 2 ^ 64 = y
  have hy : y % journal.jp_len < journal.jp_len := Nat.mod_lt _ hpos
  exact ⟨y % journal.jp_len, hy, Nat.mod_eq_of_lt (by omega)⟩

theorem trans_len_lt (desc : reiserfs_block journal_block) :
    get_jd_desc_trans_len desc < 2 ^ 32 := by
  unfold get_jd_desc_trans_len block_word
  exact Nat.mod_lt _ (by norm_num)

theorem pipe_loop_walk {σ : Type} (w : World journal_block) (journal : reiserfs_journal)
    (f : reiserfs_block journal_block → reiserfs_block journal_block → Nat → σ → Int × σ)
    (hlen : journal.jp_len < 2 ^ 32) (hstart : journal.jp_start + journal.jp_len ≤ 2 ^ 64)
    (hread : ∀ c, c < journal.jp_len →
      ∃ b, reiserfs_block_read w journal.dal (journal.jp_start + c) = some b)
    (hf : ∀ desc comm c d, (f desc comm c d).1 ≠ 0) :
    ∀ (n curr : Nat) (data : σ), journal.jp_len - curr + 1 ≤ n →
      reiserfs_journal_pipe_loop w journal (some f) n curr data =
        some (1, (journal_walk_spec 2 w journal n curr).foldl (journal_call w journal f)
          data) := by
  intro n
  induction n with
  | zero => intro curr data h; omega
  | succ n ih =>
    intro curr data hn
    rw [reiserfs_journal_pipe_loop, journal_walk_spec]
    by_cases hc : curr < journal.jp_len
    · rw [if_pos hc, if_pos hc]
      have e1 : (journal.jp_start + curr) % 2 ^ 64 = journal.jp_start + curr :=
        Nat.mod_eq_of_lt (by omega)
      obtain ⟨desc, hd⟩ := hread curr hc
      obtain ⟨c2, hc2, ec2⟩ := desc_comm_in_journal w journal desc (by omega) hstart
      obtain ⟨comm, hm⟩ := hread c2 hc2
      have htl := trans_len_lt desc
      rw [e1, hd]
      dsimp only
      rw [ec2, hm]
      dsimp only
      by_cases hv : reiserfs_journal_desc_valid w journal desc = false
      · rw [if_pos hv, if_neg (by rw [hv]; simp),
          Nat.mod_eq_of_lt (show curr + 1 < 2 ^ 64 by omega)]
        exact ih _ _ (by omega)
      · have hv1 : reiserfs_journal_desc_valid w journal desc = true := by simpa using hv
        rw [if_neg hv, if_pos hv1, if_neg (hf _ _ _ _)]
        have e2 : ((curr + (get_jd_desc_trans_len desc + 1)) % 2 ^ 64 + 1) % 2 ^ 64 =
            curr + get_jd_desc_trans_len desc + 2 := by omega
        rw [e2, ih _ _ (by omega), List.foldl_cons]
        have e3 : journal_call w journal f data curr = (f desc comm curr data).2 := by
          unfold journal_call
          rw [e1, hd]
          dsimp only
          rw [ec2, hm]
        rw [e3]
    · rw [if_neg hc, if_neg hc]
      rfl

theorem walk_bounds (skip : Nat) (hskip : 0 < skip) (w : World journal_block)
    (journal : reiserfs_journal) :
    ∀ (n curr : Nat),
      (∀ c ∈ journal_walk_spec skip w journal n curr, curr ≤ c ∧ c < journal.jp_len) ∧
      (journal_walk_spec skip w journal n curr).Pairwise (fun a b => a < b) := by
  intro n
  induction n with
  | zero =>
    intro curr
    rw [journal_walk_spec]
    exact ⟨fun c hc => absurd hc (List.not_mem_nil c), List.Pairwise.nil⟩
  | succ n ih =>
    intro curr
    rw [journal_walk_spec]
    by_cases hc : curr < journal.jp_len
    · rw [if_pos hc]
      cases hd : reiserfs_block_read w journal.dal ((journal.jp_start + curr) % 2 ^ 64) with
      | none => exact ⟨fun c hc => absurd hc (List.not_mem_nil c), List.Pairwise.nil⟩
      | some desc =>
        dsimp only
        by_cases hv : reiserfs_journal_desc_valid w journal desc = true
        · rw [if_pos hv]
          obtain ⟨h1, h2⟩ := ih (curr + get_jd_desc_trans_len desc + skip)
          refine ⟨?_, List.Pairwise.cons ?_ h2⟩
          · intro c hc'
            rcases List.mem_cons.mp hc' with h | h
            · rw [h]; exact ⟨le_refl _, hc⟩
            · have := h1 c h
              exact ⟨by omega, this.2⟩
          · intro c hc'
            have := h1 c hc'
            omega
        · rw [if_neg hv]
          obtain ⟨h1, h2⟩ := ih (curr + 1)
          refine ⟨?_, h2⟩
          intro c hc'
          have := h1 c hc'
          exact ⟨by omega, this.2⟩
    · rw [if_neg hc]
      exact ⟨fun c hc => absurd hc (List.not_mem_nil c), List.Pairwise.nil⟩

/-- C31 (as amended): on a journal of fewer than 2^32 blocks that lies on the device and
whose blocks can be read, with a callback that never returns 0,
`reiserfs_journal_pipe(journal, from, pipe_func, data)` started at `from < len` returns 1
and its user data is the result of calling the callback once, in order, for every offset of
the walk that takes `c + 1` after an invalid candidate `c` and `c + trans_len + 2` after a
valid transaction at `c`; these offsets are strictly increasing and lie in `[from, len)`. -/
theorem C31_journal_pipe_walk {σ : Type} (w : World journal_block) (journal : reiserfs_journal)
    (f : reiserfs_block journal_block → reiserfs_block journal_block → Nat → σ → Int × σ)
    (from_ : Nat) (data : σ)
    (hlen : journal.jp_len < 2 ^ 32) (hstart : journal.jp_start + journal.jp_len ≤ 2 ^ 64)
    (hread : ∀ c, c < journal.jp_len →
      ∃ b, reiserfs_block_read w journal.dal (journal.jp_start + c) = some b)
    (hf : ∀ desc comm c d, (f desc comm c d).1 ≠ 0)
    (hfrom : from_ < journal.jp_len) :
    reiserfs_journal_pipe w journal from_ (some f) data =
      some (1, (journal_walk_spec 2 w journal (journal.jp_len - from_ + 1) from_).foldl
        (journal_call w journal f) data) ∧
    (∀ c ∈ journal_walk_spec 2 w journal (journal.jp_len - from_ + 1) from_,
      from_ ≤ c ∧ c < journal.jp_len) ∧
    (journal_walk_spec 2 w journal (journal.jp_len - from_ + 1) from_).Pairwise
      (fun a b => a < b) := by
  refine ⟨?_, (walk_bounds 2 (by norm_num) w journal _ _).1,
    (walk_bounds 2 (by norm_num) w journal _ _).2⟩
  unfold reiserfs_journal_pipe
  rw [if_neg (by omega)]
  exact pipe_loop_walk w journal f hlen hstart hread hf _ _ _ (le_refl _)

theorem C31_journal_pipe_walk_witness :
    reiserfs_journal_pipe journal_overlap_world journal_overlap 0 (some pipe_record) [] =
      some (1, (journal_walk_spec 2 journal_overlap_world journal_overlap
        (journal_overlap.jp_len - 0 + 1) 0).foldl
        (journal_call journal_overlap_world journal_overlap pipe_record) []) ∧
    journal_walk_spec 2 journal_overlap_world journal_overlap
      (journal_overlap.jp_len - 0 + 1) 0 = [0] :=
  ⟨(C31_journal_pipe_walk journal_overlap_world journal_overlap pipe_record 0 []
      (by decide) (by decide)
      (by
        intro c hc
        have h8 : c < 8 := hc
        refine ⟨⟨0, journal_overlap_world.data 0 (10 + c), ((10 + c) * 4096) % 2 ^ 64, 0⟩, ?_⟩
        unfold reiserfs_block_read
        rw [if_neg (by show ¬ (10 + c ≥ 32); omega)]
        rfl)
      (by intro _ _ _ _; exact one_ne_zero) (by decide)).1,
   by decide⟩

/-- C31, the claim as first stated fails: in the 8-block journal of the example the ring
offsets 0 and 2 both hold a descriptor of a valid transaction of length 1. The walk of the
claim, with `c + trans_len + 1` after a valid transaction, meets the offsets 0 and 2;
`reiserfs_journal_pipe` calls the callback for offset 0 only, because it goes on at
`0 + 1 + 2 = 3`. -/
theorem C31_counterexample_commit_block_not_a_candidate :
    (reiserfs_block_read journal_overlap_world 0 12).map
      (fun d => (reiserfs_journal_desc_valid journal_overlap_world journal_overlap d,
        get_jd_desc_trans_len d)) = some (true, 1) ∧
    journal_walk_spec 1 journal_overlap_world journal_overlap 9 0 = [0, 2] ∧
    reiserfs_journal_pipe journal_overlap_world journal_overlap 0 (some pipe_record) [] =
      some (1, [0]) := by
  refine ⟨by decide, by decide, by decide⟩

/-! ## The words of the object-id map a call writes (C37) -/

theorem use_tail_frame (super : reiserfs_super) (x m : Nat) (r : Int × reiserfs_super)
    (hc : super.sb_oid_cursize < 2 ^ 16) (hM : super.sb_oid_maxsize < 2 ^ 16)
    (hcM : super.sb_oid_cursize ≤ super.sb_oid_maxsize)
    (hMe : super.sb_oid_maxsize % 2 = 0) (hm : 2 * m = super.sb_oid_cursize)
    (h : reiserfs_object_use_tail super x super.sb_oid_cursize (2 * m) = some r) :
    use_frame super r := by
  unfold reiserfs_object_use_tail at h
  rw [Nat.mod_eq_of_lt hM] at h
  dsimp only at h
  by_cases h1 : 2 * m < super.sb_oid_maxsize
  · rw [if_pos h1] at h
    cases hp1 : oid_put super.objectid_map (2 * m) x with
    | none => rw [hp1] at h; exact absurd h (by simp)
    | some o1 =>
      rw [hp1] at h
      dsimp only at h
      cases hp2 : oid_put o1 (2 * m + 1) (x + 1) with
      | none => rw [hp2] at h; exact absurd h (by simp)
      | some o2 =>
        rw [hp2] at h
        dsimp only at h
        injection h with h
        subst h
        refine ⟨rfl, ?_, ?_⟩
        · show (super.sb_oid_cursize + 2) % 2 ^ 16 ≤ _
          rw [Nat.mod_eq_of_lt (by omega)]
          omega
        · intro k hk
          show oid_at o2 k = _
          rw [oid_at_put _ _ _ _ hp2 k, oid_at_put _ _ _ _ hp1 k, if_neg (by omega),
            if_neg (by omega)]
  · rw [if_neg h1] at h
    by_cases h2 : 2 * m = super.sb_oid_maxsize
    · rw [if_pos h2] at h
      by_cases h3 : 2 * m = 0
      · rw [if_pos h3] at h; exact absurd h (by simp)
      · rw [if_neg h3] at h
        cases hp1 : oid_put super.objectid_map (2 * m - 1) (x + 1) with
        | none => rw [hp1] at h; exact absurd h (by simp)
        | some o1 =>
          rw [hp1] at h
          dsimp only at h
          injection h with h
          subst h
          refine ⟨rfl, hcM, ?_⟩
          intro k hk
          show oid_at o1 k = _
          rw [oid_at_put _ _ _ _ hp1 k, if_neg (by omega)]
    · exfalso; omega

theorem use_loop_frame (super : reiserfs_super) (x : Nat)
    (hc : super.sb_oid_cursize < 2 ^ 16) (hM : super.sb_oid_maxsize < 2 ^ 16)
    (hcM : super.sb_oid_cursize ≤ super.sb_oid_maxsize)
    (hMe : super.sb_oid_maxsize % 2 = 0) (n : Nat) :
    ∀ (m : Nat) (r : Int × reiserfs_super), 2 * m + 2 * n = super.sb_oid_cursize →
      reiserfs_object_use_loop super x super.sb_oid_cursize n (2 * m) = some r →
      use_frame super r := by
  induction n with
  | zero =>
    intro m r hm h
    unfold reiserfs_object_use_loop at h
    exact use_tail_frame super x m r hc hM hcM hMe (by omega) h
  | succ n ih =>
    intro m r hm h
    unfold reiserfs_object_use_loop at h
    dsimp only at h
    by_cases b1 : x ≥ oid_at super.objectid_map (2 * m) ∧
        x < oid_at super.objectid_map (2 * m + 1)
    · rw [if_pos b1] at h
      injection h with h
      subst h
      exact ⟨rfl, hcM, fun _ _ => rfl⟩
    · rw [if_neg b1] at h
      by_cases b2 : (x + 1) % 2 ^ 32 = oid_at super.objectid_map (2 * m)
      · rw [if_pos b2] at h
        cases hp1 : oid_put super.objectid_map (2 * m) x with
        | none => rw [hp1] at h; exact absurd h (by simp)
        | some o1 =>
          rw [hp1] at h
          dsimp only at h
          injection h with h
          subst h
          refine ⟨rfl, hcM, ?_⟩
          intro k hk
          show oid_at o1 k = _
          rw [oid_at_put _ _ _ _ hp1 k, if_neg (by omega)]
      · rw [if_neg b2] at h
        by_cases b3 : x = oid_at super.objectid_map (2 * m + 1)
        · rw [if_pos b3] at h
          cases hp1 : oid_put super.objectid_map (2 * m + 1)
              (oid_at super.objectid_map (2 * m + 1) + 1) with
          | none => rw [hp1] at h; exact absurd h (by simp)
          | some o1 =>
            rw [hp1] at h
            dsimp only at h
            by_cases b4 : 2 * m + 2 < super.sb_oid_cursize ∧
                oid_at o1 (2 * m + 1) = oid_at o1 (2 * m + 2)
            · rw [if_pos b4] at h
              cases hp2 : oid_memmove o1 (2 * m + 1) (2 * m + 1 + 2)
                  (super.sb_oid_cursize - (2 * m + 2 + 2 - 1)) with
              | none => rw [hp2] at h; exact absurd h (by simp)
              | some o2 =>
                rw [hp2] at h
                dsimp only at h
                injection h with h
                subst h
                refine ⟨rfl, ?_, ?_⟩
                · show (super.sb_oid_cursize - 2) % 2 ^ 16 ≤ _
                  rw [Nat.mod_eq_of_lt (by omega)]
                  omega
                · intro k hk
                  show oid_at o2 k = _
                  rw [oid_at_memmove _ _ _ _ _ hp2 k, if_neg (by omega),
                    oid_at_put _ _ _ _ hp1 k, if_neg (by omega)]
            · rw [if_neg b4] at h
              injection h with h
              subst h
              refine ⟨rfl, hcM, ?_⟩
              intro k hk
              show oid_at o1 k = _
              rw [oid_at_put _ _ _ _ hp1 k, if_neg (by omega)]
        · rw [if_neg b3] at h
          by_cases b5 : x < oid_at super.objectid_map (2 * m)
          · rw [if_pos b5] at h
            rw [Nat.mod_eq_of_lt hM] at h
            by_cases b6 : super.sb_oid_cursize = super.sb_oid_maxsize
            · rw [if_pos b6] at h
              cases hp1 : oid_put super.objectid_map (2 * m) x with
              | none => rw [hp1] at h; exact absurd h (by simp)
              | some o1 =>
                rw [hp1] at h
                dsimp only at h
                injection h with h
                subst h
                refine ⟨rfl, hcM, ?_⟩
                intro k hk
                show oid_at o1 k = _
                rw [oid_at_put _ _ _ _ hp1 k, if_neg (by omega)]
            · rw [if_neg b6] at h
              cases hp1 : oid_memmove super.objectid_map (2 * m + 2) (2 * m)
                  (super.sb_oid_cursize - 2 * m) with
              | none => rw [hp1] at h; exact absurd h (by simp)
              | some o1 =>
                rw [hp1] at h
                dsimp only at h
                cases hp2 : oid_put o1 (2 * m) x with
                | none => rw [hp2] at h; exact absurd h (by simp)
                | some o2 =>
                  rw [hp2] at h
                  dsimp only at h
                  cases hp3 : oid_put o2 (2 * m + 1) (x + 1) with
                  | none => rw [hp3] at h; exact absurd h (by simp)
                  | some o3 =>
                    rw [hp3] at h
                    dsimp only at h
                    injection h with h
                    subst h
                    refine ⟨rfl, ?_, ?_⟩
                    · show (super.sb_oid_cursize + 2) % 2 ^ 16 ≤ _
                      rw [Nat.mod_eq_of_lt (by omega)]
                      omega
                    · intro k hk
                      show oid_at o3 k = _
                      rw [oid_at_put _ _ _ _ hp3 k, oid_at_put _ _ _ _ hp2 k,
                        oid_at_memmove _ _ _ _ _ hp1 k, if_neg (by omega), if_neg (by omega),
                        if_neg (by omega)]
          · rw [if_neg b5] at h
            have := ih (m + 1) r (by omega)
            rw [show 2 * (m + 1) = 2 * m + 2 by ring] at this
            exact this h

theorem object_use_frame (super : reiserfs_super) (x : Nat) (hwf : oid_map_wf super)
    (hMe : super.sb_oid_maxsize % 2 = 0) (r : Int × reiserfs_super)
    (h : reiserfs_object_use super x = some r) : use_frame super r := by
  obtain ⟨⟨hce, hc, _⟩, hcM, hM, _⟩ := hwf
  unfold reiserfs_object_use at h
  by_cases ht : reiserfs_object_test super x ≠ 0
  · rw [if_pos ht] at h
    injection h with h
    subst h
    exact ⟨rfl, hcM, fun _ _ => rfl⟩
  · rw [if_neg ht, Nat.mod_eq_of_lt hc] at h
    exact use_loop_frame super x hc hM hcM hMe ((super.sb_oid_cursize + 1) / 2) 0 r
      (by omega) h

/-- C37 (as amended): for a superblock whose object-id map is a strictly increasing
sequence of `[start, end)` pairs with even `oid_cursize` at most `oid_maxsize` and an even
`oid_maxsize`, and every id below 0xffffffff: after `reiserfs_object_use(id)` the first
`oid_cursize` words are again such a sequence, `oid_cursize` is even and at most
`oid_maxsize`, and every word at an index `oid_maxsize` or beyond has the value it had. The
call returns when `oid_maxsize` is positive and within the words of the block. -/
theorem C37_object_use_keeps_map_wf (super : reiserfs_super) (id : Nat)
    (hwf : oid_map_wf super) (hMe : super.sb_oid_maxsize % 2 = 0) (hid : id < 0xffffffff) :
    (0 < super.sb_oid_maxsize → super.sb_oid_maxsize ≤ super.objectid_map.length →
      ∃ r, reiserfs_object_use super id = some r) ∧
    ∀ r, reiserfs_object_use super id = some r →
      oid_map_wf r.2 ∧ r.2.sb_oid_maxsize = super.sb_oid_maxsize ∧
      ∀ k, super.sb_oid_maxsize ≤ k →
        oid_at r.2.objectid_map k = oid_at super.objectid_map k := by
  constructor
  · intro h0 hl
    unfold reiserfs_object_use
    by_cases ht : reiserfs_object_test super id ≠ 0
    · rw [if_pos ht]
      exact ⟨_, rfl⟩
    · rw [if_neg ht, Nat.mod_eq_of_lt hwf.1.2.1]
      exact use_loop_total super id hwf.1.2.1 hwf.2.2.1 hwf.2.1 hMe h0 hl
        ((super.sb_oid_cursize + 1) / 2) 0 (by have := hwf.1.1; omega)
  · intro r h
    have hp := object_use_post super id hwf hid r h
    obtain ⟨f1, f2, f3⟩ := object_use_frame super id hwf hMe r h
    refine ⟨⟨use_post_sorted super id r hp, ?_, ?_, ?_⟩, f1, f3⟩
    · rw [f1]; exact f2
    · rw [f1]; exact hwf.2.2.1
    · rw [hp.2.2.2.2.1]; exact hwf.2.2.2

theorem C37_object_use_keeps_map_wf_witness :
    (∃ r, reiserfs_object_use oid_example 30 = some r) ∧
    ∀ r, reiserfs_object_use oid_example 30 = some r →
      oid_map_wf r.2 ∧ r.2.sb_oid_maxsize = oid_example.sb_oid_maxsize ∧
      ∀ k, oid_example.sb_oid_maxsize ≤ k →
        oid_at r.2.objectid_map k = oid_at oid_example.objectid_map k :=
  ⟨(C37_object_use_keeps_map_wf oid_example 30 (by decide) (by decide) (by decide)).1
      (by decide) (by decide),
   (C37_object_use_keeps_map_wf oid_example 30 (by decide) (by decide) (by decide)).2⟩

/-- C37, the claim as first stated fails: with the odd `oid_maxsize` 5 the map of the
extents [1, 3) and [10, 20) meets the claim's conditions; `reiserfs_object_use(30)` appends
the extent [30, 31) at the words 4 and 5, so word 5, at index `oid_maxsize`, is written and
`oid_cursize` becomes 6, above `oid_maxsize`. -/
theorem C37_counterexample_odd_maxsize :
    oid_map_wf oid_example_odd ∧
    (reiserfs_object_use oid_example_odd 30).map
      (fun r => (r.1, r.2.sb_oid_cursize, r.2.sb_oid_maxsize, r.2.objectid_map)) =
      some (1, 6, 5, [1, 3, 10, 20, 30, 31, 0, 0]) ∧
    oid_at oid_example_odd.objectid_map 5 = 0 := by
  refine ⟨by decide, by decide, by decide⟩

end Reiserfs
